import Mathlib

/-! Wintun data plane: a shallow embedding of `wintun.c`

The development embeds the packet exchange engine of the Wintun driver
(`src/wintun.c`): the outbound packet queue, the read-request queue, the
drain algorithm, the inbound decoder and the pause bookkeeping.

Representation choices (they are the same for every definition below).

* A `NET_BUFFER *` is a `List NET_BUFFER`: the packet it points to followed by
  the packets reachable through `NET_BUFFER_NEXT_NB`; `[]` is `NULL`.  The
  driver never rewrites these links.  The cursor `PacketQueue.NextNb` is such
  a list as well, so it carries its packets even after the batch they belong
  to has been completed: the list stands for a pointer the program may
  dereference only while it is a final segment of the packets of the head
  batch (`CursorInHead`).
* The chain of batches reachable from `PacketQueue.FirstNbl` through
  `NET_BUFFER_LIST_NEXT_NBL` is a `List NET_BUFFER_LIST`; `[]` is `NULL`, and
  `PacketQueue.LastNbl` is the last element of that list.
* A local `NET_BUFFER_LIST *` of the queue code is an `NblPtr`: `NULL`, the
  batch `FirstNbl` points to, or a batch that has been unlinked from the queue.
* Calls into NDIS and the I/O manager that hand an object back to the system
  (`NdisMSendNetBufferListsComplete`, `IoCompleteRequest`, `NdisMPauseComplete`,
  `NdisMIndicateReceiveNetBufferLists`) append the object to a log in `TUN_CTX`.
* Locks are not modelled: every operation runs to completion on its own.
* `goto retry` and `for (;;)` loops take a fuel argument and return `none` when
  it runs out; `none` is also the result of dereferencing `NULL`.
-/

namespace Wintun

/-! ## Constants (wintun.c 27-34) -/

def TUN_EXCH_MAX_PACKETS : Nat := 256
def sizeof_TUN_PACKET : Nat := 16
def TUN_EXCH_MAX_PACKET_SIZE : Nat := 0xF000
def TUN_EXCH_ALIGNMENT : Nat := 16
def TUN_EXCH_MAX_IP_PACKET_SIZE : Nat := TUN_EXCH_MAX_PACKET_SIZE - sizeof_TUN_PACKET
def TUN_EXCH_MAX_BUFFER_SIZE : Nat := TUN_EXCH_MAX_PACKETS * TUN_EXCH_MAX_PACKET_SIZE
def TUN_EXCH_MIN_BUFFER_SIZE_READ : Nat := TUN_EXCH_MAX_PACKET_SIZE
def TUN_EXCH_MIN_BUFFER_SIZE_WRITE : Nat := sizeof_TUN_PACKET
def TUN_QUEUE_MAX_NBLS : Nat := 1000

/-- The flag `NDIS_SEND_COMPLETE_FLAGS_DISPATCH_LEVEL` of `NdisMSendNetBufferListsComplete`. -/
def NDIS_SEND_COMPLETE_FLAGS_DISPATCH_LEVEL : Nat := 1

/-- The value `NdisDeviceStateD1` of `NDIS_DEVICE_POWER_STATE`
(`Unspecified = 0`, `D0 = 1`, `D1 = 2`, `D2 = 3`, `D3 = 4`). -/
def NdisDeviceStateD1 : Nat := 2

/-- Conversion of a signed `LONG` to `UINT`, as in `(UINT)InterlockedGet(&NumNbl)`. -/
def toUINT (x : Int) : Nat := (x % 2 ^ 32).toNat

/-- The macro `TunPacketAlign(size)`:
`(((UINT)(size) + (UINT)(TUN_EXCH_ALIGNMENT - 1)) & ~(UINT)(TUN_EXCH_ALIGNMENT - 1))`
in 32-bit unsigned arithmetic. -/
def TunPacketAlign (size : Nat) : Nat :=
  ((size % 2 ^ 32 + (TUN_EXCH_ALIGNMENT - 1)) % 2 ^ 32) &&& (2 ^ 32 - 1 - (TUN_EXCH_ALIGNMENT - 1))

/-! ## Status codes and adapter states -/

/-- The `NTSTATUS` / `NDIS_STATUS` values the driver uses.  `NDIS_STATUS_SUCCESS`
is `STATUS_SUCCESS` and `NDIS_STATUS_PENDING` is `STATUS_PENDING`. -/
inductive NTSTATUS
  | STATUS_SUCCESS
  | STATUS_PENDING
  | NDIS_STATUS_SEND_ABORTED
  | STATUS_NDIS_PAUSED
  | STATUS_NDIS_LOW_POWER_STATE
  | NDIS_STATUS_INVALID_LENGTH
  | NDIS_STATUS_RESOURCES
  | STATUS_INVALID_PARAMETER
  | STATUS_INSUFFICIENT_RESOURCES
  | STATUS_INVALID_USER_BUFFER
  | STATUS_FILE_FORCED_CLOSED
  | STATUS_CANCELLED
  | STATUS_INVALID_HANDLE
  | STATUS_DELETE_PENDING
  | NDIS_STATUS_FAILURE
deriving DecidableEq, Repr

/-- The macro `NT_SUCCESS`: success and informational codes (here `STATUS_SUCCESS`
and `STATUS_PENDING`) are non-negative, every error code is negative. -/
def NT_SUCCESS : NTSTATUS → Bool
  | .STATUS_SUCCESS => true
  | .STATUS_PENDING => true
  | _ => false

/-- The enumeration `TUN_STATE` (wintun.c 43-52). -/
inductive TUN_STATE
  | TUN_STATE_HALTED
  | TUN_STATE_SHUTDOWN
  | TUN_STATE_INITIALIZING
  | TUN_STATE_HALTING
  | TUN_STATE_PAUSED
  | TUN_STATE_RESTARTING
  | TUN_STATE_RUNNING
  | TUN_STATE_PAUSING
deriving DecidableEq, Repr

/-- The integer value of a `TUN_STATE`, used by comparisons such as
`State < TUN_STATE_PAUSED`. -/
def TUN_STATE.toNat : TUN_STATE → Nat
  | .TUN_STATE_HALTED => 0
  | .TUN_STATE_SHUTDOWN => 1
  | .TUN_STATE_INITIALIZING => 2
  | .TUN_STATE_HALTING => 3
  | .TUN_STATE_PAUSED => 4
  | .TUN_STATE_RESTARTING => 5
  | .TUN_STATE_RUNNING => 6
  | .TUN_STATE_PAUSING => 7

/-! ## Packets, batches, read requests, adapter context -/

/-- A `NET_BUFFER`: one packet of a batch.  `DataLength` is
`NET_BUFFER_DATA_LENGTH`; `Data` is what `NdisGetDataBuffer` yields for the
packet: `none` when it returns `NULL`, otherwise the packet bytes. -/
structure NET_BUFFER where
  DataLength : Nat
  Data : Option (List Nat)
deriving DecidableEq, Repr

/-- A `NET_BUFFER_LIST`: one batch.  `FirstNb` is `NET_BUFFER_LIST_FIRST_NB`,
`RefCount` the counter kept in `NET_BUFFER_LIST_MINIPORT_RESERVED`, `CancelId`
the value of `NDIS_GET_NET_BUFFER_LIST_CANCEL_ID`.  The link
`NET_BUFFER_LIST_NEXT_NBL` is the position in the list that holds the batch. -/
structure NET_BUFFER_LIST where
  FirstNb : List NET_BUFFER
  Status : NTSTATUS
  RefCount : Int
  CancelId : Nat
deriving DecidableEq, Repr

/-- Major function codes of an `IRP` stack location. -/
inductive IRP_MJ
  | IRP_MJ_READ
  | IRP_MJ_WRITE
  | IRP_MJ_CREATE
  | IRP_MJ_CLOSE
  | IRP_MJ_CLEANUP
  | IRP_MJ_OTHER
deriving DecidableEq, Repr

/-- An `IRP`.  `Length` is `Parameters.Read.Length` / `Parameters.Write.Length`;
`MdlAddress` is `none` for `NULL` and otherwise the byte count of the MDL;
`Buffer` is the memory the MDL maps, addressed by byte offset (offsets at or
past the buffer size are the memory that follows the buffer);
`Information` and `Status` are the fields of `IoStatus`.
`Copied` is a history variable: the packets `TunWriteIntoIrp` has copied into
`Buffer`, oldest first.  No code path reads it. -/
structure IRP where
  MajorFunction : IRP_MJ
  FileObject : Nat
  Length : Nat
  MdlAddress : Option Nat
  Buffer : Nat → Nat
  Information : Nat
  Status : NTSTATUS
  Copied : List NET_BUFFER

/-- The counters of `NDIS_STATISTICS_INFO` the data plane updates. -/
structure NDIS_STATISTICS_INFO where
  ifHCInOctets : Nat
  ifHCInUcastOctets : Nat
  ifHCInUcastPkts : Nat
  ifInErrors : Nat
  ifHCOutOctets : Nat
  ifHCOutUcastOctets : Nat
  ifHCOutUcastPkts : Nat
  ifOutErrors : Nat
  ifOutDiscards : Nat
deriving DecidableEq, Repr

/-- A `NET_BUFFER_LIST` built by `TunWriteFromIrp` for one decoded record:
`Offset` is the buffer offset of `p->Data` the MDL describes, `MdlByteCount`
its length (`p->Size`), `Data` the bytes found there, `Flags` the NBL flag
(`NDIS_NBL_FLAGS_IS_IPV4 = 0x100`, `NDIS_NBL_FLAGS_IS_IPV6 = 0x200`),
`FrameType` the value stored in `NetBufferListFrameType`. -/
structure RECV_NBL where
  Offset : Nat
  MdlByteCount : Nat
  Data : List Nat
  Flags : Nat
  FrameType : Nat
  Status : NTSTATUS
deriving DecidableEq, Repr

/-- The adapter context `TUN_CTX` (wintun.c 54-92), with the logs of objects
handed back to the system.
`FirstNbl` is the chain of `PacketQueue` starting at `FirstNbl`; `NextNb`,
`NumNbl` are the fields of `PacketQueue`; `DeviceRefCount` is `Device.RefCount`
and `ReadQueue` is `Device.ReadQueue.List`.
`SendComplete` logs `NdisMSendNetBufferListsComplete` (batch and flags),
`IrpComplete` logs `IoCompleteRequest`, `PauseComplete` counts
`NdisMPauseComplete`, `Indicated` logs `NdisMIndicateReceiveNetBufferLists`
(chain and `nbl_count`). -/
structure TUN_CTX where
  State : TUN_STATE
  PowerState : Nat
  Statistics : NDIS_STATISTICS_INFO
  ActiveTransactionCount : Int
  DeviceRefCount : Int
  ReadQueue : List IRP
  FirstNbl : List NET_BUFFER_LIST
  NextNb : List NET_BUFFER
  NumNbl : Int
  SendComplete : List (NET_BUFFER_LIST × Nat)
  IrpComplete : List IRP
  PauseComplete : Nat
  Indicated : List (List RECV_NBL × Nat)

/-- The field `PacketQueue.LastNbl`: the last batch of the chain, `none` for `NULL`. -/
def TUN_CTX.LastNbl (ctx : TUN_CTX) : Option NET_BUFFER_LIST := ctx.FirstNbl.getLast?

/-- A local `NET_BUFFER_LIST *` of the queue code. -/
inductive NblPtr
  | null
  | first
  | unlinked (nbl : NET_BUFFER_LIST)
deriving DecidableEq, Repr

/-! ## Pause bookkeeping and reference counts (wintun.c 165-191, 373-403) -/

/-- The function `TunCheckForPause` (wintun.c 168-177). -/
def TunCheckForPause (ctx : TUN_CTX) : NTSTATUS × TUN_CTX :=
  let ctx := { ctx with ActiveTransactionCount := ctx.ActiveTransactionCount + 1 }
  (if ctx.DeviceRefCount ≤ 0 then NTSTATUS.NDIS_STATUS_SEND_ABORTED
   else if ctx.State ≠ TUN_STATE.TUN_STATE_RUNNING then NTSTATUS.STATUS_NDIS_PAUSED
   else if ctx.PowerState ≥ NdisDeviceStateD1 then NTSTATUS.STATUS_NDIS_LOW_POWER_STATE
   else NTSTATUS.STATUS_SUCCESS, ctx)

/-- The function `TunCompletePause` (wintun.c 180-191). -/
def TunCompletePause (ctx : TUN_CTX) (async_completion : Bool) : NTSTATUS × TUN_CTX :=
  let ctx := { ctx with ActiveTransactionCount := ctx.ActiveTransactionCount - 1 }
  if ctx.ActiveTransactionCount = 0 ∧ ctx.State = TUN_STATE.TUN_STATE_PAUSING then
    let ctx := { ctx with State := TUN_STATE.TUN_STATE_PAUSED }
    let ctx := if async_completion then { ctx with PauseComplete := ctx.PauseComplete + 1 } else ctx
    (NTSTATUS.STATUS_SUCCESS, ctx)
  else
    (NTSTATUS.STATUS_PENDING, ctx)

/-- The function `TunNBLRefInit` (wintun.c 376-381). -/
def TunNBLRefInit (ctx : TUN_CTX) (nbl : NET_BUFFER_LIST) : TUN_CTX × NET_BUFFER_LIST :=
  ({ ctx with ActiveTransactionCount := ctx.ActiveTransactionCount + 1, NumNbl := ctx.NumNbl + 1 },
   { nbl with RefCount := 1 })

/-- The function `TunNBLRefInc` (wintun.c 384-388). -/
def TunNBLRefInc (nbl : NET_BUFFER_LIST) : NET_BUFFER_LIST :=
  { nbl with RefCount := nbl.RefCount + 1 }

/-- The function `TunNBLRefDec` (wintun.c 392-403) on a batch given by value.
Returns the `BOOLEAN`, the context and the batch after the decrement. -/
def TunNBLRefDec (ctx : TUN_CTX) (nbl : NET_BUFFER_LIST) (SendCompleteFlags : Nat) :
    Bool × TUN_CTX × NET_BUFFER_LIST :=
  let nbl := { nbl with RefCount := nbl.RefCount - 1 }
  if nbl.RefCount = 0 then
    let ctx := { ctx with SendComplete := ctx.SendComplete ++ [(nbl, SendCompleteFlags)] }
    let ctx := { ctx with NumNbl := ctx.NumNbl - 1 }
    (true, (TunCompletePause ctx true).2, nbl)
  else
    (false, ctx, nbl)

/-- The assignment `NET_BUFFER_LIST_STATUS(nbl) = status` through a local pointer. -/
def NblPtr.setStatus (ctx : TUN_CTX) (nbl : NblPtr) (status : NTSTATUS) : TUN_CTX × NblPtr :=
  match nbl with
  | .null => (ctx, .null)
  | .first =>
    match ctx.FirstNbl with
    | [] => (ctx, .first)
    | b :: rest => ({ ctx with FirstNbl := { b with Status := status } :: rest }, .first)
  | .unlinked b => (ctx, .unlinked { b with Status := status })

/-- The call `TunNBLRefDec(ctx, nbl, flags)` through a local pointer.  When the
pointer is `FirstNbl` and the count reaches zero, the batch is completed while
still linked and its `NET_BUFFER_LIST_NEXT_NBL` is cleared, so the chain that
starts at `FirstNbl` ends there. -/
def NblPtr.refDec (ctx : TUN_CTX) (nbl : NblPtr) (SendCompleteFlags : Nat) : TUN_CTX × NblPtr :=
  match nbl with
  | .null => (ctx, .null)
  | .first =>
    match ctx.FirstNbl with
    | [] => (ctx, .first)
    | b :: rest =>
      match TunNBLRefDec ctx b SendCompleteFlags with
      | (true, ctx, b) => ({ ctx with FirstNbl := [b] }, .first)
      | (false, ctx, b) => ({ ctx with FirstNbl := b :: rest }, .first)
  | .unlinked b =>
    match TunNBLRefDec ctx b SendCompleteFlags with
    | (_, ctx, b) => (ctx, .unlinked b)

/-! ## Outbound packet queue (wintun.c 405-516) -/

/-- The eviction loop of `TunQueueAppend` (wintun.c 430-440), run on the chain
`FirstNbl` of the context. -/
def TunQueueAppendEvict (max_nbls : Nat) : List NET_BUFFER_LIST → TUN_CTX → TUN_CTX
  | [], ctx => { ctx with FirstNbl := [] }
  | first :: nbl_second, ctx =>
    if toUINT ctx.NumNbl > max_nbls then
      let first := { first with Status := NTSTATUS.NDIS_STATUS_SEND_ABORTED }
      let ctx := (TunNBLRefDec ctx first NDIS_SEND_COMPLETE_FLAGS_DISPATCH_LEVEL).2.1
      let ctx := { ctx with NextNb := [] }
      TunQueueAppendEvict max_nbls nbl_second { ctx with FirstNbl := nbl_second }
    else
      { ctx with FirstNbl := first :: nbl_second }

/-- The function `TunQueueAppend` (wintun.c 415-444); `nbl` is the chain of
input batches.  `TunAppendNBL` links the batch after `LastNbl`. -/
def TunQueueAppend (ctx : TUN_CTX) (nbl : List NET_BUFFER_LIST) (max_nbls : Nat) : TUN_CTX :=
  match nbl with
  | [] => ctx
  | nbl :: nbl_next =>
    if nbl.FirstNb = [] then
      TunQueueAppend
        { ctx with SendComplete := ctx.SendComplete ++ [(nbl, 0)] } nbl_next max_nbls
    else
      let (ctx, nbl) := TunNBLRefInit ctx nbl
      let ctx := { ctx with FirstNbl := ctx.FirstNbl ++ [nbl] }
      let ctx := TunQueueAppendEvict max_nbls ctx.FirstNbl ctx
      TunQueueAppend ctx nbl_next max_nbls

/-- The function `TunQueueClear` (wintun.c 502-516): the loop over the chain. -/
def TunQueueClearLoop (status : NTSTATUS) : List NET_BUFFER_LIST → TUN_CTX → TUN_CTX
  | [], ctx => ctx
  | nbl :: nbl_next, ctx =>
    let nbl := { nbl with Status := status }
    let ctx := (TunNBLRefDec ctx nbl NDIS_SEND_COMPLETE_FLAGS_DISPATCH_LEVEL).2.1
    TunQueueClearLoop status nbl_next ctx

/-- The function `TunQueueClear` (wintun.c 502-516). -/
def TunQueueClear (ctx : TUN_CTX) (status : NTSTATUS) : TUN_CTX :=
  let ctx := TunQueueClearLoop status ctx.FirstNbl ctx
  { ctx with FirstNbl := [], NextNb := [], NumNbl := 0 }

/-- The function `TunQueueRemove` (wintun.c 449-479).  Returns the packet
pointer `ret`, the batch pointer stored in `*nbl` and the context. -/
def TunQueueRemove : Nat → TUN_CTX → Option (List NET_BUFFER × NblPtr × TUN_CTX)
  | 0, _ => none
  | fuel + 1, ctx =>
    match ctx.FirstNbl with
    | [] => some ([], NblPtr.null, ctx)
    | nbl_top :: nbl_next =>
      let ctx := if ctx.NextNb = [] then { ctx with NextNb := nbl_top.FirstNb } else ctx
      match ctx.NextNb with
      | [] => none
      | pkt :: pkt_next =>
        let ret := pkt :: pkt_next
        let ctx := { ctx with NextNb := pkt_next }
        let (ctx, nbl) :=
          if pkt_next = [] then
            ({ ctx with FirstNbl := nbl_next }, NblPtr.unlinked nbl_top)
          else
            ({ ctx with FirstNbl := TunNBLRefInc nbl_top :: nbl_next }, NblPtr.first)
        if pkt.DataLength > TUN_EXCH_MAX_IP_PACKET_SIZE then
          let (ctx, nbl) := NblPtr.setStatus ctx nbl NTSTATUS.NDIS_STATUS_INVALID_LENGTH
          let (ctx, _) := NblPtr.refDec ctx nbl NDIS_SEND_COMPLETE_FLAGS_DISPATCH_LEVEL
          let ctx := { ctx with Statistics :=
            { ctx.Statistics with ifOutDiscards := ctx.Statistics.ifOutDiscards + 1 } }
          TunQueueRemove fuel ctx
        else
          some (ret, nbl, ctx)

/-- The function `TunQueuePrepend` (wintun.c 484-498).  Returns the context and
the pointer `nbl`, which afterwards is `FirstNbl` unless it is `NULL`. -/
def TunQueuePrepend (ctx : TUN_CTX) (nb : List NET_BUFFER) (nbl : NblPtr) : TUN_CTX × NblPtr :=
  let ctx := { ctx with NextNb := nb }
  match nbl with
  | .null => (ctx, .null)
  | .first => (ctx, .first)
  | .unlinked b => ({ ctx with FirstNbl := TunNBLRefInc b :: ctx.FirstNbl }, .first)

/-! ## Read requests and exchange framing (wintun.c 268-371) -/

/-- The function `TunGetIrpBuffer` (wintun.c 270-316): status and `*size`.  The
test `if (!buffer)` inspects the out-parameter itself, which is never `NULL`. -/
def TunGetIrpBuffer (Irp : IRP) : NTSTATUS × Nat :=
  match Irp.MajorFunction with
  | .IRP_MJ_READ | .IRP_MJ_WRITE =>
    let size := Irp.Length
    match Irp.MdlAddress with
    | none => (NTSTATUS.STATUS_INVALID_PARAMETER, size)
    | some size_mdl =>
      let size := if size_mdl < size then size_mdl else size
      if size > TUN_EXCH_MAX_BUFFER_SIZE then (NTSTATUS.STATUS_INVALID_USER_BUFFER, size)
      else if Irp.MajorFunction = IRP_MJ.IRP_MJ_READ ∧ size < TUN_EXCH_MIN_BUFFER_SIZE_READ then
        (NTSTATUS.STATUS_INVALID_USER_BUFFER, size)
      else if Irp.MajorFunction = IRP_MJ.IRP_MJ_WRITE ∧ size < TUN_EXCH_MIN_BUFFER_SIZE_WRITE then
        (NTSTATUS.STATUS_INVALID_USER_BUFFER, size)
      else (NTSTATUS.STATUS_SUCCESS, size)
  | _ => (NTSTATUS.STATUS_INVALID_PARAMETER, 0)

/-- The function `TunRemoveNextIrp` (wintun.c 320-340): the `retry` loop over
the read-request list.  `IoCsqRemoveNextIrp(csq, NULL)` takes the head of the
list (`TunCsqPeekNextIrp` with a `NULL` context returns the first entry). -/
def TunRemoveNextIrpLoop : List IRP → TUN_CTX → Option (IRP × Nat) × TUN_CTX
  | [], ctx => (none, { ctx with ReadQueue := [] })
  | irp :: rest, ctx =>
    let ctx := { ctx with ReadQueue := rest }
    match TunGetIrpBuffer irp with
    | (status, size) =>
      if NT_SUCCESS status then (some (irp, size), ctx)
      else
        let irp := { irp with Status := status }
        TunRemoveNextIrpLoop rest { ctx with IrpComplete := ctx.IrpComplete ++ [irp] }

/-- The function `TunRemoveNextIrp` (wintun.c 320-340): the request and `*size`. -/
def TunRemoveNextIrp (ctx : TUN_CTX) : Option (IRP × Nat) × TUN_CTX :=
  TunRemoveNextIrpLoop ctx.ReadQueue ctx

/-- The function `TunWontFitIntoIrp` (wintun.c 343-346); `nb` points to a packet. -/
def TunWontFitIntoIrp (Irp : IRP) (size : Nat) (nb : NET_BUFFER) : Bool :=
  decide (size < Irp.Information + TunPacketAlign (sizeof_TUN_PACKET + nb.DataLength))

/-- Store of a little-endian `ULONG` at byte offset `off`. -/
def writeULONG (buf : Nat → Nat) (off v : Nat) : Nat → Nat :=
  fun a => if off ≤ a ∧ a < off + 4 then (v / 256 ^ (a - off)) % 256 else buf a

/-- Load of a little-endian `ULONG` from byte offset `off`. -/
def readULONG (buf : Nat → Nat) (off : Nat) : Nat :=
  buf off % 256 + 256 * (buf (off + 1) % 256) + 65536 * (buf (off + 2) % 256)
    + 16777216 * (buf (off + 3) % 256)

/-- Store of `n` bytes of `data` at byte offset `off` (`NdisMoveMemory`, or the
copy `NdisGetDataBuffer` makes into its storage argument). -/
def writeBytes (buf : Nat → Nat) (off n : Nat) (data : List Nat) : Nat → Nat :=
  fun a => if off ≤ a ∧ a < off + n then data.getD (a - off) 0 % 256 else buf a

/-- The function `TunWriteIntoIrp` (wintun.c 350-371); `buffer` is `Irp.Buffer`
and `nb` points to a packet.  `p->Size` sits at `Information`, `p->Data` 16
bytes further. -/
def TunWriteIntoIrp (Irp : IRP) (nb : NET_BUFFER) (statistics : NDIS_STATISTICS_INFO) :
    NTSTATUS × IRP × NDIS_STATISTICS_INFO :=
  let p_size := nb.DataLength
  let p := Irp.Information
  let Irp := { Irp with Buffer := writeULONG Irp.Buffer p p_size }
  match nb.Data with
  | none =>
    (NTSTATUS.NDIS_STATUS_RESOURCES, Irp,
      { statistics with ifOutErrors := statistics.ifOutErrors + 1 })
  | some ptr =>
    let Irp := { Irp with Buffer := writeBytes Irp.Buffer (p + sizeof_TUN_PACKET) p_size ptr }
    let Irp := { Irp with
      Information := Irp.Information + TunPacketAlign (sizeof_TUN_PACKET + p_size)
      Copied := Irp.Copied ++ [nb] }
    (NTSTATUS.STATUS_SUCCESS, Irp,
      { statistics with
        ifHCOutOctets := statistics.ifHCOutOctets + p_size
        ifHCOutUcastOctets := statistics.ifHCOutUcastOctets + p_size
        ifHCOutUcastPkts := statistics.ifHCOutUcastPkts + 1 })

/-! ## The drain algorithm (wintun.c 520-584) -/

/-- Lines 554-582 of `TunQueueProcess`: what one pass of the loop does once the
packet `nb`, its batch `nbl` and the request `irp` with capacity `size` are at
hand.  Returns the context and the request still in progress, if any. -/
def TunQueueProcessStep (ctx : TUN_CTX) (irp : IRP) (size : Nat) (nb : List NET_BUFFER)
    (nbl : NblPtr) : TUN_CTX × Option (IRP × Nat) :=
  let (ctx, nb, nbl) :=
    match nb with
    | [] => (ctx, nb, nbl)
    | pkt :: _ =>
      if TunWontFitIntoIrp irp size pkt then
        let (ctx, nbl) := TunQueuePrepend ctx nb nbl
        let ctx := if nbl ≠ NblPtr.null then
          (NblPtr.refDec ctx nbl NDIS_SEND_COMPLETE_FLAGS_DISPATCH_LEVEL).1 else ctx
        (ctx, [], NblPtr.null)
      else (ctx, nb, nbl)
  let (ctx, nbl, irp) :=
    match nb with
    | pkt :: _ =>
      match TunWriteIntoIrp irp pkt ctx.Statistics with
      | (status, irp, statistics) =>
        let ctx := { ctx with Statistics := statistics }
        if NT_SUCCESS status then (ctx, nbl, some (irp, size))
        else
          let (ctx, nbl) := NblPtr.setStatus ctx nbl status
          ({ ctx with ReadQueue := irp :: ctx.ReadQueue }, nbl, none)
    | [] =>
      let irp := { irp with Status := NTSTATUS.STATUS_SUCCESS }
      ({ ctx with IrpComplete := ctx.IrpComplete ++ [irp] }, nbl, none)
  let ctx := if nbl ≠ NblPtr.null then (NblPtr.refDec ctx nbl 0).1 else ctx
  (ctx, irp)

/-- The function `TunQueueProcess` (wintun.c 520-584): the `for (;;)` loop, with
the local variables `irp` and `size` as an argument (`none` is `irp == NULL`). -/
def TunQueueProcessLoop : Nat → TUN_CTX → Option (IRP × Nat) → Option TUN_CTX
  | 0, _, _ => none
  | fuel + 1, ctx, none =>
    match TunQueueRemove (fuel + 1) ctx with
    | none => none
    | some ([], _, ctx) => some ctx
    | some (nb, nbl, ctx) =>
      match TunRemoveNextIrp ctx with
      | (none, ctx) =>
        let (ctx, nbl) := TunQueuePrepend ctx nb nbl
        let ctx := if nbl ≠ NblPtr.null then (NblPtr.refDec ctx nbl 0).1 else ctx
        some ctx
      | (some (irp, size), ctx) =>
        match TunQueueProcessStep ctx irp size nb nbl with
        | (ctx, irp) => TunQueueProcessLoop fuel ctx irp
  | fuel + 1, ctx, some (irp, size) =>
    match TunQueueRemove (fuel + 1) ctx with
    | none => none
    | some (nb, nbl, ctx) =>
      match TunQueueProcessStep ctx irp size nb nbl with
      | (ctx, irp) => TunQueueProcessLoop fuel ctx irp

/-- The function `TunQueueProcess` (wintun.c 520-584). -/
def TunQueueProcess (fuel : Nat) (ctx : TUN_CTX) : Option TUN_CTX :=
  TunQueueProcessLoop fuel ctx none

/-- The packets a consumer obtains by calling `TunQueueRemove` until it returns
`NULL`, dropping after each call the reference it was given (as line 582 does),
and the context it leaves. -/
def TunQueueDrain : Nat → TUN_CTX → Option (List NET_BUFFER × TUN_CTX)
  | 0, _ => none
  | fuel + 1, ctx =>
    match TunQueueRemove (fuel + 1) ctx with
    | none => none
    | some ([], _, ctx) => some ([], ctx)
    | some (pkt :: _, nbl, ctx) =>
      let ctx := if nbl ≠ NblPtr.null then (NblPtr.refDec ctx nbl 0).1 else ctx
      (TunQueueDrain fuel ctx).map (fun r => (pkt :: r.1, r.2))

/-! ## Entry points (wintun.c 713-796, 1506-1528) -/

/-- The `IRP_MJ_READ` case of `TunDispatch` (wintun.c 718, 728-737).
`RemoveLock` is the status `IoAcquireRemoveLock` returns.  Clearing
`Information` also clears the history variable `Copied`. -/
def TunDispatchRead (fuel : Nat) (ctx : TUN_CTX) (Irp : IRP) (RemoveLock : NTSTATUS) :
    Option (NTSTATUS × TUN_CTX) :=
  let Irp := { Irp with Information := 0, Copied := [] }
  if ctx.State.toNat < TUN_STATE.TUN_STATE_PAUSED.toNat then
    let status := NTSTATUS.STATUS_FILE_FORCED_CLOSED
    some (status, { ctx with IrpComplete := ctx.IrpComplete ++ [{ Irp with Status := status }] })
  else if !NT_SUCCESS RemoveLock then
    some (RemoveLock,
      { ctx with IrpComplete := ctx.IrpComplete ++ [{ Irp with Status := RemoveLock }] })
  else
    let ctx := { ctx with ReadQueue := ctx.ReadQueue ++ [Irp] }
    (TunQueueProcess fuel ctx).map (fun ctx => (NTSTATUS.STATUS_PENDING, ctx))

/-- The function `TunSetNBLStatus` (wintun.c 262-266). -/
def TunSetNBLStatus (nbl : List NET_BUFFER_LIST) (status : NTSTATUS) : List NET_BUFFER_LIST :=
  nbl.map (fun b => { b with Status := status })

/-- The function `TunSendNetBufferLists` (wintun.c 1508-1528).  `SendFlags` is
reduced to the completion flags it selects. -/
def TunSendNetBufferLists (fuel : Nat) (ctx : TUN_CTX) (NetBufferLists : List NET_BUFFER_LIST)
    (SendCompleteFlags : Nat) : Option TUN_CTX :=
  match TunCheckForPause ctx with
  | (status, ctx) =>
    if !NT_SUCCESS status then
      let NetBufferLists := TunSetNBLStatus NetBufferLists status
      let ctx := { ctx with SendComplete :=
        ctx.SendComplete ++ NetBufferLists.map (fun b => (b, SendCompleteFlags)) }
      some (TunCompletePause ctx true).2
    else
      let ctx := TunQueueAppend ctx NetBufferLists TUN_QUEUE_MAX_NBLS
      (TunQueueProcess fuel ctx).map (fun ctx => (TunCompletePause ctx true).2)

/-! ## Inbound decoder (wintun.c 588-709) -/

/-- Results of the NDIS calls `TunWriteFromIrp` makes: whether `NdisAllocateMdl`
and `NdisAllocateNetBufferAndNetBufferList` succeed for the record at a buffer
offset, and the status NDIS leaves in an indicated `NET_BUFFER_LIST`. -/
structure NDIS_ENV where
  NdisAllocateMdl : Nat → Bool
  NdisAllocateNetBufferAndNetBufferList : Nat → Bool
  IndicateStatus : RECV_NBL → NTSTATUS

def NDIS_NBL_FLAGS_IS_IPV4 : Nat := 0x100
def NDIS_NBL_FLAGS_IS_IPV6 : Nat := 0x200
def NDIS_ETH_TYPE_IPV4 : Nat := 0x0800
def NDIS_ETH_TYPE_IPV6 : Nat := 0x86dd

/-- The macro `TunHtons` on a little-endian machine (`RtlUshortByteSwap`). -/
def TunHtons (x : Nat) : Nat := (x % 256) * 256 + (x / 256) % 256

/-- Local variables of the record loop of `TunWriteFromIrp`: the offset `b`, the
chain `nbl_head .. nbl_tail`, `nbl_count`, `stat_p_err`.  `Accessed` is a
history variable: the offsets of the bytes the loop has read. -/
structure WriteLoop where
  b : Nat
  nbls : List RECV_NBL
  nbl_count : Nat
  stat_p_err : Nat
  Accessed : List Nat
deriving DecidableEq, Repr

/-- The record loop of `TunWriteFromIrp` (wintun.c 607-649) over the buffer
`buffer` of `b_end` bytes. -/
def TunWriteFromIrpLoop (env : NDIS_ENV) (buffer : Nat → Nat) (b_end : Nat) :
    Nat → WriteLoop → Option WriteLoop
  | 0, _ => none
  | fuel + 1, s =>
    if ¬ s.b < b_end then some s
    else
      let Size := readULONG buffer s.b
      let s := { s with Accessed := s.Accessed ++ [s.b, s.b + 1, s.b + 2, s.b + 3] }
      if Size > TUN_EXCH_MAX_IP_PACKET_SIZE then some s
      else
        let p_size := TunPacketAlign (sizeof_TUN_PACKET + Size)
        if s.b + p_size > b_end then some s
        else
          let Data0 := buffer (s.b + sizeof_TUN_PACKET) % 256
          let s := { s with Accessed :=
            s.Accessed ++ (if Size ≥ 20 then [s.b + sizeof_TUN_PACKET] else []) }
          let proto : Option (Nat × Nat) :=
            if Size ≥ 20 ∧ Data0 / 16 = 4 then
              some (NDIS_NBL_FLAGS_IS_IPV4, NDIS_ETH_TYPE_IPV4)
            else if Size ≥ 40 ∧ Data0 / 16 = 6 then
              some (NDIS_NBL_FLAGS_IS_IPV6, NDIS_ETH_TYPE_IPV6)
            else none
          let skip_packet : WriteLoop :=
            { s with stat_p_err := s.stat_p_err + 1, b := s.b + p_size }
          match proto with
          | none => TunWriteFromIrpLoop env buffer b_end fuel skip_packet
          | some (nbl_flags, nbl_proto) =>
            if !env.NdisAllocateMdl s.b then
              TunWriteFromIrpLoop env buffer b_end fuel skip_packet
            else if !env.NdisAllocateNetBufferAndNetBufferList s.b then
              TunWriteFromIrpLoop env buffer b_end fuel skip_packet
            else
              let nbl : RECV_NBL :=
                { Offset := s.b + sizeof_TUN_PACKET
                  MdlByteCount := Size
                  Data := (List.range Size).map (fun i => buffer (s.b + sizeof_TUN_PACKET + i) % 256)
                  Flags := nbl_flags
                  FrameType := TunHtons nbl_proto
                  Status := NTSTATUS.STATUS_SUCCESS }
              TunWriteFromIrpLoop env buffer b_end fuel
                { s with nbls := s.nbls ++ [nbl], nbl_count := s.nbl_count + 1, b := s.b + p_size }

/-- The loop of `TunWriteFromIrp` that frees the indicated chain (wintun.c
683-696): `(stat_size, stat_p_ok, stat_p_err)`. -/
def TunWriteFromIrpFree : List RECV_NBL → Nat × Nat × Nat → Nat × Nat × Nat
  | [], acc => acc
  | nbl :: nbl_next, (stat_size, stat_p_ok, stat_p_err) =>
    if NT_SUCCESS nbl.Status then
      TunWriteFromIrpFree nbl_next (stat_size + nbl.MdlByteCount, stat_p_ok + 1, stat_p_err)
    else
      TunWriteFromIrpFree nbl_next (stat_size, stat_p_ok, stat_p_err + 1)

/-- The function `TunWriteFromIrp` (wintun.c 588-709): status, context, request
and the final state of the record loop. -/
def TunWriteFromIrp (fuel : Nat) (env : NDIS_ENV) (ctx : TUN_CTX) (Irp : IRP) :
    Option (NTSTATUS × TUN_CTX × IRP × WriteLoop) :=
  let start : WriteLoop := { b := 0, nbls := [], nbl_count := 0, stat_p_err := 0, Accessed := [] }
  match TunCheckForPause ctx with
  | (status, ctx) =>
    if !NT_SUCCESS status then some (status, (TunCompletePause ctx true).2, Irp, start)
    else
      match TunGetIrpBuffer Irp with
      | (status, size) =>
        if !NT_SUCCESS status then some (status, (TunCompletePause ctx true).2, Irp, start)
        else
          match TunWriteFromIrpLoop env Irp.Buffer size fuel start with
          | none => none
          | some s =>
            let ctx := if s.nbls ≠ [] then
              { ctx with Indicated := ctx.Indicated ++ [(s.nbls, s.nbl_count)] } else ctx
            let nbls := s.nbls.map (fun nbl => { nbl with Status := env.IndicateStatus nbl })
            match TunWriteFromIrpFree nbls (0, 0, s.stat_p_err) with
            | (stat_size, stat_p_ok, stat_p_err) =>
              let ctx := { ctx with Statistics := { ctx.Statistics with
                ifHCInOctets := ctx.Statistics.ifHCInOctets + stat_size
                ifHCInUcastOctets := ctx.Statistics.ifHCInUcastOctets + stat_size
                ifHCInUcastPkts := ctx.Statistics.ifHCInUcastPkts + stat_p_ok
                ifInErrors := ctx.Statistics.ifInErrors + stat_p_err } }
              let Irp := { Irp with Information := s.b }
              some (status, (TunCompletePause ctx true).2, Irp, s)

/-! ## Notions used to state the properties -/

/-- The batch as `NdisMSendNetBufferListsComplete` receives it from `TunNBLRefDec`
when the queue held the only reference: status `s`, count zero. -/
def released (s : NTSTATUS) (b : NET_BUFFER_LIST) : NET_BUFFER_LIST × Nat :=
  ({ b with Status := s, RefCount := 0 }, NDIS_SEND_COMPLETE_FLAGS_DISPATCH_LEVEL)

/-- The last `n` elements of a list. -/
def lastN {α : Type} (n : Nat) (l : List α) : List α := l.drop (l.length - n)

/-- The first elements of a list, those that are not among its last `n`. -/
def butLastN {α : Type} (n : Nat) (l : List α) : List α := l.take (l.length - n)

/-- The non-empty batches of an input chain, as `TunNBLRefInit` leaves them. -/
def queuedInputs (nbl : List NET_BUFFER_LIST) : List NET_BUFFER_LIST :=
  (nbl.filter (fun b => decide (b.FirstNb ≠ []))).map (fun b => { b with RefCount := 1 })

/-- The entries of a completion log that were completed with
`NDIS_SEND_COMPLETE_FLAGS_DISPATCH_LEVEL` (every release through `TunNBLRefDec`
under the queue lock; empty input batches are completed with flags 0). -/
def lockedCompletions (log : List (NET_BUFFER_LIST × Nat)) : List (NET_BUFFER_LIST × Nat) :=
  log.filter (fun e => decide (e.2 = NDIS_SEND_COMPLETE_FLAGS_DISPATCH_LEVEL))

/-- The queue invariant between operations: every queued batch holds exactly the
queue's reference and `NumNbl` counts the queued batches. -/
def QueueCounted (ctx : TUN_CTX) : Prop :=
  (∀ b ∈ ctx.FirstNbl, b.RefCount = 1) ∧ ctx.NumNbl = (ctx.FirstNbl.length : Int)

instance (ctx : TUN_CTX) : Decidable (QueueCounted ctx) := by
  unfold QueueCounted; infer_instance

/-! ## Example states -/

/-- A packet of `n` bytes, each `0x45`, that `NdisGetDataBuffer` can map. -/
def demoPacket (n : Nat) : NET_BUFFER :=
  { DataLength := n, Data := some (List.replicate n 0x45) }

/-- A batch as NDIS submits it: the given packets, status success, cancel id `id`. -/
def demoNbl (pkts : List NET_BUFFER) (id : Nat) : NET_BUFFER_LIST :=
  { FirstNb := pkts, Status := NTSTATUS.STATUS_SUCCESS, RefCount := 1, CancelId := id }

def zeroStatistics : NDIS_STATISTICS_INFO :=
  { ifHCInOctets := 0, ifHCInUcastOctets := 0, ifHCInUcastPkts := 0, ifInErrors := 0,
    ifHCOutOctets := 0, ifHCOutUcastOctets := 0, ifHCOutUcastPkts := 0, ifOutErrors := 0,
    ifOutDiscards := 0 }

/-- A running adapter in power state D0 with one open handle, the batches `q`
queued (cursor unset) and the reads `reads` pending. -/
def runningCtx (q : List NET_BUFFER_LIST) (reads : List IRP) : TUN_CTX :=
  { State := TUN_STATE.TUN_STATE_RUNNING
    PowerState := 1
    Statistics := zeroStatistics
    ActiveTransactionCount := 1 + q.length
    DeviceRefCount := 1
    ReadQueue := reads
    FirstNbl := q
    NextNb := []
    NumNbl := q.length
    SendComplete := []
    IrpComplete := []
    PauseComplete := 0
    Indicated := [] }

/-- The packets at and after the cursor in the head batch of the chain `q` when
`NextNb` is `n`: those `n` points to or, when it is `NULL`, those of the head batch. -/
def cursorOf (q : List NET_BUFFER_LIST) (n : List NET_BUFFER) : List NET_BUFFER :=
  match q with
  | [] => []
  | b :: _ => if n = [] then b.FirstNb else n

/-- The undelivered packet sequence of the chain `q` with `NextNb = n`: the
packets at and after the cursor in the head batch, then the packets of the
batches behind it. -/
def undeliveredOf (q : List NET_BUFFER_LIST) (n : List NET_BUFFER) : List NET_BUFFER :=
  match q with
  | [] => []
  | _ :: rest => cursorOf q n ++ (rest.map (fun b => b.FirstNb)).flatten

/-- The packets at and after the cursor in the head batch of the queue. -/
def cursorPackets (ctx : TUN_CTX) : List NET_BUFFER := cursorOf ctx.FirstNbl ctx.NextNb

/-- The undelivered packet sequence of the queue. -/
def undelivered (ctx : TUN_CTX) : List NET_BUFFER := undeliveredOf ctx.FirstNbl ctx.NextNb

/-- Every queued batch carries a packet and holds exactly the queue's reference. -/
def QueueOk (ctx : TUN_CTX) : Prop :=
  ∀ b ∈ ctx.FirstNbl, b.FirstNb ≠ [] ∧ b.RefCount = 1

instance (ctx : TUN_CTX) : Decidable (QueueOk ctx) := by
  unfold QueueOk; infer_instance

/-- The packet length is within `TUN_EXCH_MAX_IP_PACKET_SIZE`. -/
def validLength (p : NET_BUFFER) : Bool := decide (p.DataLength ≤ TUN_EXCH_MAX_IP_PACKET_SIZE)

/-- The batch `b` as it is released once the packets `c` that remain in it have
gone through `TunQueueRemove`: count zero, and status invalid-length when one
of `c` is oversized. -/
def finalNbl (c : List NET_BUFFER) (b : NET_BUFFER_LIST) : NET_BUFFER_LIST :=
  { b with
    RefCount := 0
    Status := if c.all validLength then b.Status else NTSTATUS.NDIS_STATUS_INVALID_LENGTH }

/-- The batches of the chain `q` with `NextNb = n` as a complete drain of the
queue releases them. -/
def promisedOf (q : List NET_BUFFER_LIST) (n : List NET_BUFFER) : List NET_BUFFER_LIST :=
  match q with
  | [] => []
  | b :: rest => finalNbl (cursorOf q n) b :: rest.map (fun x => finalNbl x.FirstNb x)

/-- No request of the list has had an oversized packet copied into its buffer. -/
def CopiedValid (l : List IRP) : Prop :=
  ∀ irp ∈ l, ∀ p ∈ irp.Copied, p.DataLength ≤ TUN_EXCH_MAX_IP_PACKET_SIZE

/-- The requests at the head of the read-request list that `TunGetIrpBuffer`
rejects, as `TunRemoveNextIrp` completes them. -/
def rejectedReads (l : List IRP) : List IRP :=
  (l.takeWhile (fun i => !NT_SUCCESS (TunGetIrpBuffer i).1)).map
    (fun i => { i with Status := (TunGetIrpBuffer i).1 })

/-- The read-request list from its first request that `TunGetIrpBuffer` accepts. -/
def acceptedReads (l : List IRP) : List IRP :=
  l.dropWhile (fun i => !NT_SUCCESS (TunGetIrpBuffer i).1)

/-- A packet whose declared length, `0xF000`, exceeds `TUN_EXCH_MAX_IP_PACKET_SIZE`. -/
def demoOversized : NET_BUFFER := { DataLength := 0xF000, Data := none }

/-- The packet can be delivered: its length is valid and `NdisGetDataBuffer`
yields its bytes. -/
def deliverable (p : NET_BUFFER) : Bool := validLength p && p.Data.isSome

/-- The request `irp` of capacity `size` after `TunQueueProcess` has copied into
it the packets of `pkts` that fit, in order, and completed it with success; and
the packets left over. -/
def fillIrp (irp : IRP) (size : Nat) : List NET_BUFFER → IRP × List NET_BUFFER
  | [] => ({ irp with Status := NTSTATUS.STATUS_SUCCESS }, [])
  | p :: ps =>
    if TunWontFitIntoIrp irp size p then ({ irp with Status := NTSTATUS.STATUS_SUCCESS }, p :: ps)
    else fillIrp (TunWriteIntoIrp irp p zeroStatistics).2.1 size ps

/-- The drain of the undelivered packets `pkts` into the pending reads `reads`,
written as a recursion over the reads: the requests completed (in order), the
packets left undelivered and the reads left pending.  Nothing happens without a
packet; a read `TunGetIrpBuffer` rejects is completed with the error status; an
accepted read takes the packets that fit. -/
def drainSpec : List NET_BUFFER → List IRP → List IRP × List NET_BUFFER × List IRP
  | pkts, [] => ([], pkts, [])
  | pkts, r :: reads =>
    if pkts = [] then ([], [], r :: reads)
    else if NT_SUCCESS (TunGetIrpBuffer r).1 then
      ((fillIrp r (TunGetIrpBuffer r).2 pkts).1 ::
          (drainSpec (fillIrp r (TunGetIrpBuffer r).2 pkts).2 reads).1,
        (drainSpec (fillIrp r (TunGetIrpBuffer r).2 pkts).2 reads).2)
    else
      ({ r with Status := (TunGetIrpBuffer r).1 } :: (drainSpec pkts reads).1,
        (drainSpec pkts reads).2)

/-- The drain when `TunQueueProcess` already holds the request `irp`. -/
def drainSpecFrom (irp : Option (IRP × Nat)) (pkts : List NET_BUFFER) (reads : List IRP) :
    List IRP × List NET_BUFFER × List IRP :=
  match irp with
  | none => drainSpec pkts reads
  | some (i, size) =>
    ((fillIrp i size pkts).1 :: (drainSpec (fillIrp i size pkts).2 reads).1,
      (drainSpec (fillIrp i size pkts).2 reads).2)

/-- The fields of a request that identify it and that the drain never writes:
major function, owning file object, requested length and MDL. -/
def IRP.key (i : IRP) : IRP_MJ × Nat × Nat × Option Nat :=
  (i.MajorFunction, i.FileObject, i.Length, i.MdlAddress)

/-- A read request of `len` bytes as `TunDispatch` queues it: nothing written. -/
def demoRead (file len : Nat) : IRP :=
  { MajorFunction := IRP_MJ.IRP_MJ_READ
    FileObject := file
    Length := len
    MdlAddress := some len
    Buffer := fun _ => 0
    Information := 0
    Status := NTSTATUS.STATUS_PENDING
    Copied := [] }

/-- The buffer holds the record of packet `p` at offset `off`: the `Size` field
is the packet length and the `Data` field, 16 bytes further, holds its bytes. -/
def recordAt (buf : Nat → Nat) (off : Nat) (p : NET_BUFFER) : Prop :=
  readULONG buf off = p.DataLength ∧
  ∃ d, p.Data = some d ∧ ∀ k < p.DataLength, buf (off + sizeof_TUN_PACKET + k) = d.getD k 0 % 256

/-- The buffer holds the records of the packets `ps`, one after the other from
offset `off`, each occupying `TunPacketAlign(sizeof(TUN_PACKET) + length)` bytes. -/
def framed (buf : Nat → Nat) : Nat → List NET_BUFFER → Prop
  | _, [] => True
  | off, p :: ps =>
    recordAt buf off p ∧ framed buf (off + TunPacketAlign (sizeof_TUN_PACKET + p.DataLength)) ps

/-- The number of bytes the records of the packets `ps` occupy. -/
def framedSize : List NET_BUFFER → Nat
  | [] => 0
  | p :: ps => TunPacketAlign (sizeof_TUN_PACKET + p.DataLength) + framedSize ps

/-- The record at offset `b` of a write buffer of `b_end` bytes is well framed:
it starts inside the buffer, its `Size` is at most
`TUN_EXCH_MAX_IP_PACKET_SIZE`, and its aligned extent ends inside the buffer. -/
def recordFramed (buf : Nat → Nat) (b_end b : Nat) : Bool :=
  decide (b < b_end) && decide (readULONG buf b ≤ TUN_EXCH_MAX_IP_PACKET_SIZE) &&
    decide (b + TunPacketAlign (sizeof_TUN_PACKET + readULONG buf b) ≤ b_end)

/-- The offsets of the records the decoder parses: the well-framed records met
from offset `b` on, each starting where the previous one ends, up to the first
record that is not well framed. -/
def recordsFrom (buf : Nat → Nat) (b_end : Nat) : Nat → Nat → List Nat
  | 0, _ => []
  | fuel + 1, b =>
    if recordFramed buf b_end b then
      b :: recordsFrom buf b_end fuel (b + TunPacketAlign (sizeof_TUN_PACKET + readULONG buf b))
    else []

/-- The record at `off` is an IPv4 packet: `Size >= 20` and version nibble 4. -/
def recordIsIPv4 (buf : Nat → Nat) (off : Nat) : Bool :=
  decide (readULONG buf off ≥ 20) && decide (buf (off + sizeof_TUN_PACKET) % 256 / 16 = 4)

/-- The record at `off` is an IPv6 packet: `Size >= 40` and version nibble 6. -/
def recordIsIPv6 (buf : Nat → Nat) (off : Nat) : Bool :=
  decide (readULONG buf off ≥ 40) && decide (buf (off + sizeof_TUN_PACKET) % 256 / 16 = 6)

/-- The `NET_BUFFER_LIST` indicated for the record at `off`, tagged IPv4 or IPv6. -/
def recvNbl (buf : Nat → Nat) (off : Nat) : RECV_NBL :=
  { Offset := off + sizeof_TUN_PACKET
    MdlByteCount := readULONG buf off
    Data := (List.range (readULONG buf off)).map (fun i => buf (off + sizeof_TUN_PACKET + i) % 256)
    Flags := if recordIsIPv4 buf off then NDIS_NBL_FLAGS_IS_IPV4 else NDIS_NBL_FLAGS_IS_IPV6
    FrameType := TunHtons (if recordIsIPv4 buf off then NDIS_ETH_TYPE_IPV4 else NDIS_ETH_TYPE_IPV6)
    Status := NTSTATUS.STATUS_SUCCESS }

/-- Every NDIS call of a write succeeds: both allocations for every record, and
the indication leaves success in every `NET_BUFFER_LIST`. -/
def NDIS_ENV.succeeds (env : NDIS_ENV) : Prop :=
  (∀ b, env.NdisAllocateMdl b = true) ∧
  (∀ b, env.NdisAllocateNetBufferAndNetBufferList b = true) ∧
  (∀ nbl, env.IndicateStatus nbl = NTSTATUS.STATUS_SUCCESS)

/-- An environment in which every NDIS call succeeds. -/
def demoEnv : NDIS_ENV :=
  { NdisAllocateMdl := fun _ => true
    NdisAllocateNetBufferAndNetBufferList := fun _ => true
    IndicateStatus := fun _ => NTSTATUS.STATUS_SUCCESS }

/-- A write request of `len` bytes over the memory `buf`. -/
def demoWrite (len : Nat) (buf : Nat → Nat) : IRP :=
  { MajorFunction := IRP_MJ.IRP_MJ_WRITE
    FileObject := 1
    Length := len
    MdlAddress := some len
    Buffer := buf
    Information := 0
    Status := NTSTATUS.STATUS_PENDING
    Copied := [] }

/-- A write buffer with a 20-byte IPv4 record at offset 0 (occupying 48 bytes)
and, at offset 48, a record that declares 100 bytes. -/
def demoBuffer : Nat → Nat :=
  fun a => if a = 0 then 20 else if a = 16 then 0x45 else if a = 48 then 100 else 0

/-! ## Pause and cancellation entry points (wintun.c 800-810, 836-858) -/

/-- The function `TunPause` (wintun.c 800-810): status and context. -/
def TunPause (ctx : TUN_CTX) : NTSTATUS × TUN_CTX :=
  let ctx := { ctx with State := TUN_STATE.TUN_STATE_PAUSING }
  let ctx := TunQueueClear ctx NTSTATUS.STATUS_NDIS_PAUSED
  TunCompletePause ctx false

/-- The loop of `TunCancelSend` (wintun.c 843-853) over the chain that starts at
`FirstNbl`: the context and the chain of the batches left linked.  A batch
tagged `CancelId` gets the aborted status, is unlinked through `nbl_last_link`
and loses one reference. -/
def TunCancelSendLoop (CancelId : Nat) :
    List NET_BUFFER_LIST → TUN_CTX → TUN_CTX × List NET_BUFFER_LIST
  | [], ctx => (ctx, [])
  | nbl :: nbl_next, ctx =>
    if nbl.CancelId = CancelId then
      let nbl := { nbl with Status := NTSTATUS.NDIS_STATUS_SEND_ABORTED }
      let ctx := (TunNBLRefDec ctx nbl NDIS_SEND_COMPLETE_FLAGS_DISPATCH_LEVEL).2.1
      TunCancelSendLoop CancelId nbl_next ctx
    else
      match TunCancelSendLoop CancelId nbl_next ctx with
      | (ctx, kept) => (ctx, nbl :: kept)

/-- The function `TunCancelSend` (wintun.c 836-858).  `LastNbl` becomes the last
batch left linked; `NextNb` is not written. -/
def TunCancelSend (ctx : TUN_CTX) (CancelId : Nat) : TUN_CTX :=
  match TunCancelSendLoop CancelId ctx.FirstNbl ctx with
  | (ctx, kept) => { ctx with FirstNbl := kept }

/-- The batches of the queue that hold only the queue's reference: those a
`TunNBLRefDec` releases. -/
def soleReference (ctx : TUN_CTX) : List NET_BUFFER_LIST :=
  ctx.FirstNbl.filter (fun b => decide (b.RefCount = 1))

/-- The retirement of `n` data-plane operations, one after the other: each
calls `TunCompletePause(ctx, TRUE)`. -/
def retire : Nat → TUN_CTX → TUN_CTX
  | 0, ctx => ctx
  | n + 1, ctx => retire n (TunCompletePause ctx true).2

/-- A pausing adapter: one batch queued, two data-plane operations in flight. -/
def demoBusyCtx : TUN_CTX :=
  { runningCtx [demoNbl [demoPacket 20] 1] [] with ActiveTransactionCount := 4 }

/-- A paused adapter with one open handle, nothing queued, no read pending. -/
def demoPausedCtx : TUN_CTX :=
  { runningCtx [] [] with State := TUN_STATE.TUN_STATE_PAUSED, ActiveTransactionCount := 0 }

/-- What `TunQueueRemove` hands to its caller together with a packet: `p` and
the packets `more` behind it in the batch `b`, whose successors in the queue
are `rest`.  When `p` is the last packet of `b` the batch has been unlinked
and the cursor is unset; otherwise `b` is still the head, with one more
reference, and the cursor is on `more`. -/
def Removed (ctx1 : TUN_CTX) (nbl : NblPtr) (more : List NET_BUFFER) (b : NET_BUFFER_LIST)
    (rest : List NET_BUFFER_LIST) : Prop :=
  (more = [] ∧ nbl = NblPtr.unlinked b ∧ ctx1.FirstNbl = rest ∧ ctx1.NextNb = []) ∨
  (more ≠ [] ∧ nbl = NblPtr.first ∧ ctx1.FirstNbl = TunNBLRefInc b :: rest ∧ ctx1.NextNb = more)

/-- The accumulated byte count of the request accounts for whole records only,
within its capacity: every packet copied into it has a valid length, the count
is the size of their records, and it does not exceed the size
`TunGetIrpBuffer` gives for the request. -/
def RecordsInside (i : IRP) : Prop :=
  (∀ p ∈ i.Copied, p.DataLength ≤ TUN_EXCH_MAX_IP_PACKET_SIZE) ∧
  i.Information = framedSize i.Copied ∧ i.Information ≤ (TunGetIrpBuffer i).2

instance (i : IRP) : Decidable (RecordsInside i) := by
  unfold RecordsInside; infer_instance

/-- A packet of `n` bytes that `NdisGetDataBuffer` cannot map. -/
def demoUnmapped (n : Nat) : NET_BUFFER := { DataLength := n, Data := none }

/-- A write buffer filled with 48-byte records, each a 20-byte IPv4 packet:
`Size = 20` at the start of every record and `0x45` as first data byte. -/
def demoManyBuffer : Nat → Nat :=
  fun a => if a % 48 = 0 then 20 else if a % 48 = 16 then 0x45 else 0

/-- A packet of the maximum length `TUN_EXCH_MAX_IP_PACKET_SIZE`, whose record
fills a read of `0xF000` bytes. -/
def demoFullPacket : NET_BUFFER := { DataLength := 0xF000 - 16, Data := some [] }

/-- A queue whose head batch, tagged 7, has been partly drained (the cursor is
on its second packet), followed by a batch tagged 8. -/
def demoPartlyDrained : TUN_CTX :=
  { runningCtx [demoNbl [demoPacket 20, demoPacket 40] 7, demoNbl [demoPacket 60] 8] [] with
    NextNb := [demoPacket 40] }

/-! ## Request completion, halt, cleanup, close, restart, power (wintun.c 156-163, 209-234, 759-779, 814-825, 1275-1309, 1336-1348) -/

/-- The function `TunCompleteRequest` (wintun.c 156-163).  The history variable
`Copied` is left as it is. -/
def TunCompleteRequest (ctx : TUN_CTX) (Irp : IRP) (Information : Nat) (Status : NTSTATUS) :
    TUN_CTX :=
  let Irp := { Irp with Information := Information, Status := Status }
  { ctx with IrpComplete := ctx.IrpComplete ++ [Irp] }

/-- The call `IoCsqRemoveNextIrp(csq, PeekContext)` on the read-request list: the
first request `TunCsqPeekNextIrp` (wintun.c 209-234) accepts, looking from the
list head, and the list without it.  A `NULL` context (0) accepts any request;
otherwise the request is accepted when its `FileObject` is the context. -/
def IoCsqRemoveNextIrp : List IRP → Nat → Option (IRP × List IRP)
  | [], _ => none
  | irp_next :: rest, PeekContext =>
    if PeekContext = 0 then some (irp_next, rest)
    else if irp_next.FileObject = PeekContext then some (irp_next, rest)
    else (IoCsqRemoveNextIrp rest PeekContext).map (fun r => (r.1, irp_next :: r.2))

/-- The loop `for (...; (pending_irp = IoCsqRemoveNextIrp(csq, PeekContext)) != NULL;)
TunCompleteRequest(ctx, pending_irp, 0, Status)` of `TunHaltEx` (wintun.c 1283-1284)
and of the `IRP_MJ_CLEANUP` case of `TunDispatch` (wintun.c 775-776). -/
def TunCompletePendingLoop (PeekContext : Nat) (Status : NTSTATUS) : Nat → TUN_CTX → Option TUN_CTX
  | 0, _ => none
  | fuel + 1, ctx =>
    match IoCsqRemoveNextIrp ctx.ReadQueue PeekContext with
    | none => some ctx
    | some (pending_irp, rest) =>
      TunCompletePendingLoop PeekContext Status fuel
        (TunCompleteRequest { ctx with ReadQueue := rest } pending_irp 0 Status)

/-- The function `TunHaltEx` (wintun.c 1275-1309), as far as the adapter context
goes: the state, the pending reads, the power state.
`NdisDeviceStateUnspecified` is 0. -/
def TunHaltEx (fuel : Nat) (ctx : TUN_CTX) : Option TUN_CTX :=
  let ctx := { ctx with State := TUN_STATE.TUN_STATE_HALTING }
  (TunCompletePendingLoop 0 NTSTATUS.STATUS_FILE_FORCED_CLOSED fuel ctx).map
    (fun ctx => { ctx with PowerState := 0, State := TUN_STATE.TUN_STATE_HALTED })

/-- The `IRP_MJ_CLEANUP` case of `TunDispatch` (wintun.c 718, 774-779, 791-794):
status and context.  The cleanup request itself is completed with success. -/
def TunDispatchCleanup (fuel : Nat) (ctx : TUN_CTX) (Irp : IRP) : Option (NTSTATUS × TUN_CTX) :=
  let Irp := { Irp with Information := 0 }
  (TunCompletePendingLoop Irp.FileObject NTSTATUS.STATUS_CANCELLED fuel ctx).map
    (fun ctx =>
      let status := NTSTATUS.STATUS_SUCCESS
      (status, { ctx with IrpComplete := ctx.IrpComplete ++ [{ Irp with Status := status }] }))

/-- The `IRP_MJ_CLOSE` case of `TunDispatch` (wintun.c 718, 761-772, 791-794). -/
def TunDispatchClose (ctx : TUN_CTX) (Irp : IRP) : NTSTATUS × TUN_CTX :=
  let Irp := { Irp with Information := 0 }
  let ctx := { ctx with DeviceRefCount := ctx.DeviceRefCount - 1 }
  let ctx := if ctx.DeviceRefCount ≤ 0 then TunQueueClear ctx NTSTATUS.NDIS_STATUS_SEND_ABORTED
    else ctx
  let status := NTSTATUS.STATUS_SUCCESS
  (status, { ctx with IrpComplete := ctx.IrpComplete ++ [{ Irp with Status := status }] })

/-- The `IRP_MJ_WRITE` case of `TunDispatch` (wintun.c 718, 739-745, 785-789)
once the state test and the remove lock have passed. -/
def TunDispatchWrite (fuel : Nat) (env : NDIS_ENV) (ctx : TUN_CTX) (Irp : IRP) :
    Option (NTSTATUS × TUN_CTX) :=
  let Irp := { Irp with Information := 0 }
  (TunWriteFromIrp fuel env ctx Irp).map
    (fun r => (r.1, { r.2.1 with IrpComplete := r.2.1.IrpComplete ++ [{ r.2.2.1 with Status := r.1 }] }))

/-- The function `TunRestart` (wintun.c 814-825). -/
def TunRestart (ctx : TUN_CTX) : NTSTATUS × TUN_CTX :=
  let ctx := { ctx with State := TUN_STATE.TUN_STATE_RESTARTING }
  let ctx := { ctx with ActiveTransactionCount := 1 }
  let ctx := { ctx with State := TUN_STATE.TUN_STATE_RUNNING }
  (NTSTATUS.STATUS_SUCCESS, ctx)

/-- The `OID_PNP_SET_POWER` case of `TunOidSet` (wintun.c 1336-1348) for a request
of the right length; `NdisDeviceStateD0` is 1. -/
def TunOidSetPower (ctx : TUN_CTX) (state : Nat) : NTSTATUS × TUN_CTX :=
  let old := ctx.PowerState
  let ctx := { ctx with PowerState := state }
  let ctx := if old = 1 ∧ state ≥ NdisDeviceStateD1 then
    TunQueueClear ctx NTSTATUS.STATUS_NDIS_LOW_POWER_STATE else ctx
  (NTSTATUS.STATUS_SUCCESS, ctx)

/-- The request is one `TunCsqPeekNextIrp` accepts for the context `PeekContext`. -/
def peekAccepts (PeekContext : Nat) (i : IRP) : Bool :=
  decide (PeekContext = 0) || decide (i.FileObject = PeekContext)

/-- One pass of the `for (;;)` loop of `TunQueueProcess` (wintun.c 528-583), the
body of `TunQueueProcessLoop`: either the function returns with the context
(`Sum.inl`), or the loop goes on with the context and the request in progress
(`Sum.inr`).  `fuel` is what the `retry` loop of `TunQueueRemove` may use. -/
def TunQueueProcessPass (fuel : Nat) (ctx : TUN_CTX) (irp : Option (IRP × Nat)) :
    Option (Sum TUN_CTX (TUN_CTX × Option (IRP × Nat))) :=
  match irp with
  | none =>
    match TunQueueRemove fuel ctx with
    | none => none
    | some ([], _, ctx) => some (Sum.inl ctx)
    | some (nb, nbl, ctx) =>
      match TunRemoveNextIrp ctx with
      | (none, ctx) =>
        let (ctx, nbl) := TunQueuePrepend ctx nb nbl
        let ctx := if nbl ≠ NblPtr.null then (NblPtr.refDec ctx nbl 0).1 else ctx
        some (Sum.inl ctx)
      | (some (irp, size), ctx) => some (Sum.inr (TunQueueProcessStep ctx irp size nb nbl))
  | some (irp, size) =>
    match TunQueueRemove fuel ctx with
    | none => none
    | some (nb, nbl, ctx) => some (Sum.inr (TunQueueProcessStep ctx irp size nb nbl))

/-- The loop from the result of a pass on: return, or go on. -/
def TunQueueProcessNext (fuel : Nat) :
    Sum TUN_CTX (TUN_CTX × Option (IRP × Nat)) → Option TUN_CTX
  | Sum.inl ctx => some ctx
  | Sum.inr (ctx, irp) => TunQueueProcessLoop fuel ctx irp

/-- The number of packets still queued, of reads still pending and of requests in
progress: what bounds the passes of `TunQueueProcess`. -/
def drainMeasure (ctx : TUN_CTX) (irp : Option (IRP × Nat)) : Nat :=
  (undelivered ctx).length + ctx.ReadQueue.length + (if irp.isSome then 1 else 0)

/-! ## Framing followed by parsing (wintun.c 350-371, 607-649) -/

/-- Successive `TunWriteIntoIrp` calls on the request `Irp`, one for each packet
of the list in order. -/
def TunWriteIntoIrpAll : List NET_BUFFER → IRP → IRP
  | [], Irp => Irp
  | nb :: rest, Irp => TunWriteIntoIrpAll rest (TunWriteIntoIrp Irp nb zeroStatistics).2.1

/-- The `DataLength` bytes of a packet as `NdisGetDataBuffer` copies them. -/
def payload (p : NET_BUFFER) : List Nat :=
  (List.range p.DataLength).map (fun k => (p.Data.getD []).getD k 0 % 256)

/-- The packet data can be mapped and starts with a valid IPv4 header (length at
least 20, version nibble 4) or IPv6 header (length at least 40, version nibble 6). -/
def validHeader (p : NET_BUFFER) : Bool :=
  match p.Data with
  | none => false
  | some d =>
    (decide (20 ≤ p.DataLength) && decide (d.getD 0 0 % 256 / 16 = 4)) ||
      (decide (40 ≤ p.DataLength) && decide (d.getD 0 0 % 256 / 16 = 6))

/-- The local variables of `TunWriteFromIrp` on entry to its record loop. -/
def writeStart : WriteLoop :=
  { b := 0, nbls := [], nbl_count := 0, stat_p_err := 0, Accessed := [] }

/-- An environment in which `NdisAllocateMdl` fails for every record. -/
def noMdlEnv : NDIS_ENV :=
  { NdisAllocateMdl := fun _ => false
    NdisAllocateNetBufferAndNetBufferList := fun _ => true
    IndicateStatus := fun _ => NTSTATUS.STATUS_SUCCESS }

/-! ## Sequential whole operations after `TunRestart` -/

/-- The data-plane and control operations that run between `TunRestart` and the
next `TunPause`: a send (`TunSendNetBufferLists`), a read and a write
(`TunDispatch`), `TunCancelSend`, the last close of the device and a power
change (both may call `TunQueueClear`). -/
inductive Operation
  | send (NetBufferLists : List NET_BUFFER_LIST) (SendCompleteFlags : Nat)
  | read (Irp : IRP) (RemoveLock : NTSTATUS)
  | write (env : NDIS_ENV) (Irp : IRP)
  | cancelSend (CancelId : Nat)
  | close (Irp : IRP)
  | setPower (state : Nat)

/-- One whole operation on the adapter context; `fuel` bounds the loops of the
operation. -/
def Operation.run (fuel : Nat) (ctx : TUN_CTX) : Operation → Option TUN_CTX
  | .send NetBufferLists SendCompleteFlags =>
    TunSendNetBufferLists fuel ctx NetBufferLists SendCompleteFlags
  | .read Irp RemoveLock => (TunDispatchRead fuel ctx Irp RemoveLock).map (fun r => r.2)
  | .write env Irp => (TunDispatchWrite fuel env ctx Irp).map (fun r => r.2)
  | .cancelSend CancelId => some (TunCancelSend ctx CancelId)
  | .close Irp => some (TunDispatchClose ctx Irp).2
  | .setPower state => some (TunOidSetPower ctx state).2

/-- The packets of the head batch `FirstNbl` of the chain `q`; none for an empty
chain. -/
def headNb (q : List NET_BUFFER_LIST) : List NET_BUFFER :=
  match q with
  | [] => []
  | b :: _ => b.FirstNb

/-- The cursor `NextNb` is `NULL` or points to a packet of the head batch
`FirstNbl`: the packets from the cursor on are a final segment of the packets of
the head batch.  Only then does the list `NextNb` of the context stand for a
pointer the program may dereference. -/
def CursorInHead (ctx : TUN_CTX) : Prop :=
  List.IsSuffix ctx.NextNb (headNb ctx.FirstNbl)

instance (ctx : TUN_CTX) : Decidable (CursorInHead ctx) := by
  unfold CursorInHead; infer_instance

/-- The operation calls `TunQueueProcess`, which reads the cursor `NextNb`
through `TunQueueRemove` (wintun.c 459-462). -/
def Operation.readsCursor : Operation → Bool
  | .send _ _ => true
  | .read _ _ => true
  | _ => false

/-- The operation is a `TunCancelSend`. -/
def Operation.isCancelSend : Operation → Bool
  | .cancelSend _ => true
  | _ => false

/-- The operation is a `TunCancelSend` that releases the head batch while the
cursor is set: afterwards `NextNb` points into a batch that has been handed back
to NDIS. -/
def Operation.releasesCursor (ctx : TUN_CTX) : Operation → Bool
  | .cancelSend CancelId =>
    match ctx.NextNb, ctx.FirstNbl with
    | _ :: _, b :: _ => decide (b.CancelId = CancelId)
    | _, _ => false
  | _ => false

/-- Whole operations run one after the other, each with its own fuel, on the
adapter context together with a history variable `dangling`: the cursor
`NextNb` points into a batch that has been released.  The variable is set by a
`TunCancelSend` that releases the head batch while the cursor is set, and
cleared when an operation leaves the cursor `NULL`.  A send or a read with a
dangling cursor has no result (`none`): `TunQueueRemove` would dereference a
`NET_BUFFER` of a batch already handed back to NDIS, and the program text does
not determine what it reads. -/
def runOperations : List (Nat × Operation) → Bool × TUN_CTX → Option (Bool × TUN_CTX)
  | [], s => some s
  | (fuel, op) :: ops, (dangling, ctx) =>
    if dangling && op.readsCursor then none
    else
      match op.run fuel ctx with
      | none => none
      | some ctx' =>
        runOperations ops
          ((dangling || op.releasesCursor ctx) && decide (ctx'.NextNb ≠ []), ctx')

/-- The state the whole operations before the last read of the counterexample to
the delivery order reach from an empty queue on a running adapter: a read of
`0xF000` bytes; a send of the batch tagged 7, whose first packet fills that read
and whose second packet stays queued under the cursor; a send of the batch
tagged 8 with one packet of 60 bytes; `TunCancelSend(7)`. -/
def demoCancelledHead : Option TUN_CTX :=
  (((TunDispatchRead 1 (runningCtx [] []) (demoRead 1 0xF000) NTSTATUS.STATUS_SUCCESS).bind
      (fun r => TunSendNetBufferLists 5 r.2 [demoNbl [demoFullPacket, demoPacket 40] 7] 0)).bind
      (fun c => TunSendNetBufferLists 5 c [demoNbl [demoPacket 60] 8] 0)).map
    (fun c => TunCancelSend c 7)

/-- The accounting an operation keeps while the adapter is running: the state,
the transactions counted beyond the queued batches, and the batches queued or
completed so far. -/
def Accounted (k n m : Int) (ctx : TUN_CTX) : Prop :=
  ctx.State = TUN_STATE.TUN_STATE_RUNNING ∧
  ctx.ActiveTransactionCount - ctx.NumNbl = k ∧
  ctx.NumNbl + (ctx.SendComplete.length : Int) = n ∧
  ctx.NumNbl ≤ m

/-- The running adapter with `k` transactions counted beyond the queued batches:
`ActiveTransactionCount` is `k + NumNbl`, `NumNbl` is the number of queued
batches, at most `TUN_QUEUE_MAX_NBLS`, and every queued batch is non-empty with
reference count 1. -/
def Counting (k : Int) (ctx : TUN_CTX) : Prop :=
  ctx.State = TUN_STATE.TUN_STATE_RUNNING ∧
  ctx.ActiveTransactionCount = k + ctx.NumNbl ∧
  ctx.NumNbl = (ctx.FirstNbl.length : Int) ∧
  ctx.FirstNbl.length ≤ TUN_QUEUE_MAX_NBLS ∧
  QueueOk ctx

/-- The running adapter between operations: only the baseline transaction that
`TunRestart` sets and `TunPause` retires is counted beyond the queued batches. -/
def Baseline (ctx : TUN_CTX) : Prop := Counting 1 ctx

/-! # Theorems -/

/-! ## Frame lemmas for the pause bookkeeping and the reference counts -/

section Frame

@[simp] theorem TunCompletePause_FirstNbl (ctx : TUN_CTX) (a : Bool) :
    (TunCompletePause ctx a).2.FirstNbl = ctx.FirstNbl := by
  unfold TunCompletePause; dsimp only; split_ifs <;> rfl

@[simp] theorem TunCompletePause_NextNb (ctx : TUN_CTX) (a : Bool) :
    (TunCompletePause ctx a).2.NextNb = ctx.NextNb := by
  unfold TunCompletePause; dsimp only; split_ifs <;> rfl

@[simp] theorem TunCompletePause_NumNbl (ctx : TUN_CTX) (a : Bool) :
    (TunCompletePause ctx a).2.NumNbl = ctx.NumNbl := by
  unfold TunCompletePause; dsimp only; split_ifs <;> rfl

@[simp] theorem TunCompletePause_SendComplete (ctx : TUN_CTX) (a : Bool) :
    (TunCompletePause ctx a).2.SendComplete = ctx.SendComplete := by
  unfold TunCompletePause; dsimp only; split_ifs <;> rfl

@[simp] theorem TunCompletePause_ReadQueue (ctx : TUN_CTX) (a : Bool) :
    (TunCompletePause ctx a).2.ReadQueue = ctx.ReadQueue := by
  unfold TunCompletePause; dsimp only; split_ifs <;> rfl

@[simp] theorem TunCompletePause_IrpComplete (ctx : TUN_CTX) (a : Bool) :
    (TunCompletePause ctx a).2.IrpComplete = ctx.IrpComplete := by
  unfold TunCompletePause; dsimp only; split_ifs <;> rfl

@[simp] theorem TunCompletePause_Statistics (ctx : TUN_CTX) (a : Bool) :
    (TunCompletePause ctx a).2.Statistics = ctx.Statistics := by
  unfold TunCompletePause; dsimp only; split_ifs <;> rfl

@[simp] theorem TunCompletePause_Indicated (ctx : TUN_CTX) (a : Bool) :
    (TunCompletePause ctx a).2.Indicated = ctx.Indicated := by
  unfold TunCompletePause; dsimp only; split_ifs <;> rfl

@[simp] theorem TunCompletePause_DeviceRefCount (ctx : TUN_CTX) (a : Bool) :
    (TunCompletePause ctx a).2.DeviceRefCount = ctx.DeviceRefCount := by
  unfold TunCompletePause; dsimp only; split_ifs <;> rfl

@[simp] theorem TunCompletePause_PowerState (ctx : TUN_CTX) (a : Bool) :
    (TunCompletePause ctx a).2.PowerState = ctx.PowerState := by
  unfold TunCompletePause; dsimp only; split_ifs <;> rfl

@[simp] theorem TunCompletePause_ActiveTransactionCount (ctx : TUN_CTX) (a : Bool) :
    (TunCompletePause ctx a).2.ActiveTransactionCount = ctx.ActiveTransactionCount - 1 := by
  unfold TunCompletePause; dsimp only; split_ifs <;> rfl

/-- A batch whose count is 1 is released by `TunNBLRefDec`. -/
theorem TunNBLRefDec_one (ctx : TUN_CTX) (b : NET_BUFFER_LIST) (f : Nat) (h : b.RefCount = 1) :
    TunNBLRefDec ctx b f =
      (true,
       (TunCompletePause { ctx with
          SendComplete := ctx.SendComplete ++ [({ b with RefCount := 0 }, f)]
          NumNbl := ctx.NumNbl - 1 } true).2,
       { b with RefCount := 0 }) := by
  simp [TunNBLRefDec, h]

/-- A batch whose count is not 1 survives `TunNBLRefDec`. -/
theorem TunNBLRefDec_ne_one (ctx : TUN_CTX) (b : NET_BUFFER_LIST) (f : Nat)
    (h : b.RefCount ≠ 1) :
    TunNBLRefDec ctx b f = (false, ctx, { b with RefCount := b.RefCount - 1 }) := by
  have h' : ¬ b.RefCount - 1 = 0 := by omega
  simp [TunNBLRefDec, h']

end Frame

/-! ## `TunQueueClear` -/

theorem TunQueueClearLoop_SendComplete (s : NTSTATUS) (l : List NET_BUFFER_LIST) :
    ∀ ctx : TUN_CTX, (∀ b ∈ l, b.RefCount = 1) →
      (TunQueueClearLoop s l ctx).SendComplete = ctx.SendComplete ++ l.map (released s) := by
  induction l with
  | nil => intro ctx _; simp [TunQueueClearLoop]
  | cons b rest ih =>
    intro ctx h
    have hb : b.RefCount = 1 := h b (List.mem_cons_self _ _)
    have hrest : ∀ x ∈ rest, x.RefCount = 1 := fun x hx => h x (List.mem_cons_of_mem _ hx)
    simp only [TunQueueClearLoop]
    rw [TunNBLRefDec_one _ _ _ (by simpa using hb), ih _ hrest]
    simp [released]

/-- C3: after `TunQueueClear(s)` on a queue whose batches all have reference
count 1, `FirstNbl`, `LastNbl` and `NextNb` are null, `NumNbl` is 0, and the
completion log has grown by exactly the queued batches, in order, each once,
each with status `s`. -/
theorem TunQueueClear_releases_all (ctx : TUN_CTX) (s : NTSTATUS)
    (hrc : ∀ b ∈ ctx.FirstNbl, b.RefCount = 1) :
    (TunQueueClear ctx s).FirstNbl = [] ∧ (TunQueueClear ctx s).LastNbl = none ∧
    (TunQueueClear ctx s).NextNb = [] ∧ (TunQueueClear ctx s).NumNbl = 0 ∧
    (TunQueueClear ctx s).SendComplete = ctx.SendComplete ++ ctx.FirstNbl.map (released s) := by
  refine ⟨rfl, rfl, rfl, rfl, ?_⟩
  simp only [TunQueueClear]
  exact TunQueueClearLoop_SendComplete s ctx.FirstNbl ctx hrc

/-! ## `TunQueueAppend` -/

theorem toUINT_natCast (k : Nat) (h : k < 2 ^ 32) : toUINT (k : Int) = k := by
  unfold toUINT
  have h1 : ((k : Int)) % 2 ^ 32 = (k : Int) := Int.emod_eq_of_lt (by omega) (by exact_mod_cast h)
  rw [h1]; simp

theorem lastN_length_le {α : Type} (n : Nat) (l : List α) : (lastN n l).length ≤ n := by
  simp [lastN]; omega

theorem lastN_length {α : Type} (n : Nat) (l : List α) : (lastN n l).length = min n l.length := by
  simp [lastN]; omega

theorem lastN_of_length_le {α : Type} (n : Nat) (l : List α) (h : l.length ≤ n) :
    lastN n l = l := by
  simp [lastN, Nat.sub_eq_zero_of_le h]

theorem butLastN_of_length_le {α : Type} (n : Nat) (l : List α) (h : l.length ≤ n) :
    butLastN n l = [] := by
  simp [butLastN, Nat.sub_eq_zero_of_le h]

theorem lastN_lastN_append {α : Type} (n : Nat) (A B : List α) :
    lastN n (lastN n A ++ B) = lastN n (A ++ B) := by
  unfold lastN
  have hk : A.length - n ≤ A.length := Nat.sub_le _ _
  have h1 : List.drop (A.length - n) A ++ B = List.drop (A.length - n) (A ++ B) := by
    rw [List.drop_append_of_le_length hk]
  rw [h1, List.drop_drop]
  congr 1
  simp only [List.length_drop, List.length_append]
  omega

theorem butLastN_append_butLastN {α : Type} (n : Nat) (A B : List α) :
    butLastN n A ++ butLastN n (lastN n A ++ B) = butLastN n (A ++ B) := by
  unfold butLastN lastN
  have hk : A.length - n ≤ A.length := Nat.sub_le _ _
  have hsplit : A ++ B = List.take (A.length - n) A ++ (List.drop (A.length - n) A ++ B) := by
    rw [← List.append_assoc, List.take_append_drop]
  have hlen : (List.take (A.length - n) A).length = A.length - n := by
    simp
  have hidx : (A ++ B).length - n
      = (List.take (A.length - n) A).length
        + ((List.drop (A.length - n) A ++ B).length - n) := by
    simp only [List.length_append, List.length_drop, List.length_take]
    omega
  conv_rhs => rw [hidx, hsplit, List.take_append]

theorem TunQueueAppendEvict_spec (max_nbls : Nat) :
    ∀ (l : List NET_BUFFER_LIST) (ctx : TUN_CTX), (∀ b ∈ l, b.RefCount = 1) →
      ctx.NumNbl = (l.length : Int) → l.length < 2 ^ 32 →
      (TunQueueAppendEvict max_nbls l ctx).FirstNbl = lastN max_nbls l ∧
      (TunQueueAppendEvict max_nbls l ctx).NumNbl = ((lastN max_nbls l).length : Int) ∧
      (TunQueueAppendEvict max_nbls l ctx).SendComplete =
        ctx.SendComplete ++ (butLastN max_nbls l).map (released NTSTATUS.NDIS_STATUS_SEND_ABORTED) := by
  intro l
  induction l with
  | nil =>
    intro ctx _ hn _
    simp [TunQueueAppendEvict, lastN, butLastN]
    simpa using hn
  | cons b rest ih =>
    intro ctx hrc hn hlen
    have hb : b.RefCount = 1 := hrc b (List.mem_cons_self _ _)
    have hrest : ∀ x ∈ rest, x.RefCount = 1 := fun x hx => hrc x (List.mem_cons_of_mem _ hx)
    have hu : toUINT ctx.NumNbl = rest.length + 1 := by
      rw [hn]; exact toUINT_natCast _ hlen
    simp only [TunQueueAppendEvict, hu]
    by_cases hgt : rest.length + 1 > max_nbls
    · rw [if_pos hgt]
      rw [TunNBLRefDec_one _ _ _ (by simpa using hb)]
      have hlen' : rest.length < 2 ^ 32 := by simp at hlen; omega
      have := ih
        { (TunCompletePause
            { ctx with
              SendComplete := ctx.SendComplete ++
                [({ ({ b with Status := NTSTATUS.NDIS_STATUS_SEND_ABORTED } : NET_BUFFER_LIST)
                    with RefCount := 0 }, NDIS_SEND_COMPLETE_FLAGS_DISPATCH_LEVEL)]
              NumNbl := ctx.NumNbl - 1 } true).2 with
          NextNb := [], FirstNbl := rest } hrest (by simp [hn]) hlen'
      obtain ⟨h1, h2, h3⟩ := this
      have hd : (b :: rest).length - max_nbls = (rest.length - max_nbls) + 1 := by
        simp; omega
      refine ⟨?_, ?_, ?_⟩
      · rw [h1]; simp only [lastN, hd, List.drop_succ_cons]
      · rw [h2]; simp only [lastN, hd, List.drop_succ_cons]
      · rw [h3]; simp only [butLastN, hd, List.take_succ_cons, List.map_cons,
          TunCompletePause_SendComplete, released]
        simp
    · rw [if_neg hgt]
      have hle : (b :: rest).length ≤ max_nbls := by simp; omega
      simp [lastN_of_length_le _ _ hle, butLastN_of_length_le _ _ hle, hn]

theorem queuedInputs_cons_empty (b : NET_BUFFER_LIST) (rest : List NET_BUFFER_LIST)
    (h : b.FirstNb = []) : queuedInputs (b :: rest) = queuedInputs rest := by
  simp [queuedInputs, h]

theorem queuedInputs_cons_nonempty (b : NET_BUFFER_LIST) (rest : List NET_BUFFER_LIST)
    (h : b.FirstNb ≠ []) :
    queuedInputs (b :: rest) = { b with RefCount := 1 } :: queuedInputs rest := by
  simp [queuedInputs, h]

theorem queuedInputs_length_le (nbl : List NET_BUFFER_LIST) :
    (queuedInputs nbl).length ≤ nbl.length := by
  simp [queuedInputs]; exact List.length_filter_le _ _

theorem TunQueueAppend_spec (max_nbls : Nat) :
    ∀ (nbl : List NET_BUFFER_LIST) (ctx : TUN_CTX), QueueCounted ctx →
      ctx.FirstNbl.length + nbl.length < 2 ^ 31 →
      QueueCounted (TunQueueAppend ctx nbl max_nbls) ∧
      (TunQueueAppend ctx nbl max_nbls).FirstNbl =
        (if queuedInputs nbl = [] then ctx.FirstNbl
         else lastN max_nbls (ctx.FirstNbl ++ queuedInputs nbl)) ∧
      ∃ L, (TunQueueAppend ctx nbl max_nbls).SendComplete = ctx.SendComplete ++ L ∧
        lockedCompletions L =
          (if queuedInputs nbl = [] then []
           else (butLastN max_nbls (ctx.FirstNbl ++ queuedInputs nbl)).map
              (released NTSTATUS.NDIS_STATUS_SEND_ABORTED)) := by
  intro nbl
  induction nbl with
  | nil =>
    intro ctx hq _
    refine ⟨by simpa [TunQueueAppend] using hq, by simp [TunQueueAppend, queuedInputs], [], ?_⟩
    simp [TunQueueAppend, queuedInputs, lockedCompletions]
  | cons b rest ih =>
    intro ctx hq hlen
    by_cases hb : b.FirstNb = []
    · have hq' : QueueCounted { ctx with SendComplete := ctx.SendComplete ++ [(b, 0)] } := hq
      obtain ⟨i1, i2, L, i3, i4⟩ := ih { ctx with SendComplete := ctx.SendComplete ++ [(b, 0)] }
        hq' (by simp at hlen ⊢; omega)
      simp only [TunQueueAppend, hb, if_true, queuedInputs_cons_empty b rest hb]
      refine ⟨i1, i2, (b, 0) :: L, ?_, ?_⟩
      · rw [i3]; simp
      · rw [← i4]; simp [lockedCompletions, NDIS_SEND_COMPLETE_FLAGS_DISPATCH_LEVEL]
    · obtain ⟨hrc, hn⟩ := hq
      have hrc1 : ∀ x ∈ ctx.FirstNbl ++ [{ b with RefCount := 1 }], x.RefCount = 1 := by
        intro x hx
        rcases List.mem_append.mp hx with h | h
        · exact hrc x h
        · simp at h; rw [h]
      have hl1 : (ctx.FirstNbl ++ [{ b with RefCount := 1 }]).length < 2 ^ 32 := by
        simp at hlen ⊢; omega
      obtain ⟨e1, e2, e3⟩ := TunQueueAppendEvict_spec max_nbls
        (ctx.FirstNbl ++ [{ b with RefCount := 1 }])
        { ctx with
          ActiveTransactionCount := ctx.ActiveTransactionCount + 1
          NumNbl := ctx.NumNbl + 1
          FirstNbl := ctx.FirstNbl ++ [{ b with RefCount := 1 }] }
        hrc1 (by simp [hn]) hl1
      have hq1 : QueueCounted (TunQueueAppendEvict max_nbls
          (ctx.FirstNbl ++ [{ b with RefCount := 1 }])
          { ctx with
            ActiveTransactionCount := ctx.ActiveTransactionCount + 1
            NumNbl := ctx.NumNbl + 1
            FirstNbl := ctx.FirstNbl ++ [{ b with RefCount := 1 }] }) := by
        refine ⟨?_, ?_⟩
        · rw [e1]; intro x hx
          exact hrc1 x (List.mem_of_mem_drop hx)
        · rw [e2, e1]
      have hlen1 : (TunQueueAppendEvict max_nbls
          (ctx.FirstNbl ++ [{ b with RefCount := 1 }])
          { ctx with
            ActiveTransactionCount := ctx.ActiveTransactionCount + 1
            NumNbl := ctx.NumNbl + 1
            FirstNbl := ctx.FirstNbl ++ [{ b with RefCount := 1 }] }).FirstNbl.length
            + rest.length < 2 ^ 31 := by
        rw [e1]
        have := List.length_drop
          ((ctx.FirstNbl ++ [{ b with RefCount := 1 }]).length - max_nbls)
          (ctx.FirstNbl ++ [{ b with RefCount := 1 }])
        simp only [lastN, this]
        simp at hlen ⊢; omega
      obtain ⟨i1, i2, L, i3, i4⟩ := ih _ hq1 hlen1
      simp only [TunQueueAppend, hb, if_false, TunNBLRefInit,
        queuedInputs_cons_nonempty b rest hb]
      refine ⟨i1, ?_, (butLastN max_nbls (ctx.FirstNbl ++ [{ b with RefCount := 1 }])).map
          (released NTSTATUS.NDIS_STATUS_SEND_ABORTED) ++ L, ?_, ?_⟩
      · rw [i2, e1]
        simp only [List.cons_ne_nil, if_false]
        by_cases hr : queuedInputs rest = []
        · simp [hr]
        · simp only [hr, if_false]
          rw [lastN_lastN_append]; simp
      · rw [i3, e3]; simp
      · simp only [List.cons_ne_nil, if_false]
        have hfl : lockedCompletions
            ((butLastN max_nbls (ctx.FirstNbl ++ [{ b with RefCount := 1 }])).map
              (released NTSTATUS.NDIS_STATUS_SEND_ABORTED) ++ L)
            = (butLastN max_nbls (ctx.FirstNbl ++ [{ b with RefCount := 1 }])).map
              (released NTSTATUS.NDIS_STATUS_SEND_ABORTED) ++ lockedCompletions L := by
          simp only [lockedCompletions, List.filter_append]
          congr 1
          apply List.filter_eq_self.mpr
          intro e he
          simp only [List.mem_map] at he
          obtain ⟨x, _, rfl⟩ := he
          simp [released]
        rw [hfl, i4, e1]
        by_cases hr : queuedInputs rest = []
        · simp [hr]
        · simp only [hr, if_false]
          rw [← List.map_append, butLastN_append_butLastN]; simp

/-- Witness for C3 on a queue of two batches. -/
theorem TunQueueClear_releases_all_witness :
    (∀ b ∈ (runningCtx [demoNbl [demoPacket 20] 1, demoNbl [demoPacket 40] 2] []).FirstNbl,
        b.RefCount = 1) ∧
      (TunQueueClear (runningCtx [demoNbl [demoPacket 20] 1, demoNbl [demoPacket 40] 2] [])
        NTSTATUS.STATUS_NDIS_PAUSED).SendComplete =
      [released NTSTATUS.STATUS_NDIS_PAUSED (demoNbl [demoPacket 20] 1),
       released NTSTATUS.STATUS_NDIS_PAUSED (demoNbl [demoPacket 40] 2)] :=
  ⟨by decide,
   (TunQueueClear_releases_all _ NTSTATUS.STATUS_NDIS_PAUSED (by decide)).2.2.2.2⟩

/-- C2 as stated fails: a queue of two batches, `max_nbls = 1` and an input chain
of one empty batch leave two batches queued, because eviction only runs after a
non-empty batch has been appended. -/
theorem TunQueueAppend_bound_counterexample :
    QueueCounted (runningCtx [demoNbl [demoPacket 20] 1, demoNbl [demoPacket 40] 2] []) ∧
      ¬ (TunQueueAppend (runningCtx [demoNbl [demoPacket 20] 1, demoNbl [demoPacket 40] 2] [])
          [demoNbl [] 3] 1).FirstNbl.length ≤ 1 := by
  decide

/-- C2 (amended): when every queued batch has reference count 1, `NumNbl` counts
the queued batches, and either the queue holds at most `max_nbls` batches before
the call or the chain has a non-empty batch, then after `TunQueueAppend` the
queue holds at most `max_nbls` batches, namely the last `min(max_nbls, n)`
elements of the old queue followed by the non-empty input batches, and the
batches of that sequence that did not survive are exactly those the call released
under the lock, in order, each with `NDIS_STATUS_SEND_ABORTED`. -/
theorem TunQueueAppend_drop_oldest (ctx : TUN_CTX) (nbl : List NET_BUFFER_LIST) (max_nbls : Nat)
    (hq : QueueCounted ctx) (hlen : ctx.FirstNbl.length + nbl.length < 2 ^ 31)
    (h : ctx.FirstNbl.length ≤ max_nbls ∨ ∃ b ∈ nbl, b.FirstNb ≠ []) :
    (TunQueueAppend ctx nbl max_nbls).FirstNbl.length ≤ max_nbls ∧
    (TunQueueAppend ctx nbl max_nbls).FirstNbl =
      lastN (min max_nbls (ctx.FirstNbl ++ queuedInputs nbl).length)
        (ctx.FirstNbl ++ queuedInputs nbl) ∧
    ∃ L, (TunQueueAppend ctx nbl max_nbls).SendComplete = ctx.SendComplete ++ L ∧
      lockedCompletions L =
        (butLastN (min max_nbls (ctx.FirstNbl ++ queuedInputs nbl).length)
          (ctx.FirstNbl ++ queuedInputs nbl)).map (released NTSTATUS.NDIS_STATUS_SEND_ABORTED) := by
  obtain ⟨_, h2, L, h3, h4⟩ := TunQueueAppend_spec max_nbls nbl ctx hq hlen
  have hmin : ∀ l : List NET_BUFFER_LIST, l.length - min max_nbls l.length = l.length - max_nbls := by
    intro l; omega
  have hl : ∀ l : List NET_BUFFER_LIST, lastN (min max_nbls l.length) l = lastN max_nbls l := by
    intro l; simp only [lastN, hmin]
  have hb : ∀ l : List NET_BUFFER_LIST, butLastN (min max_nbls l.length) l = butLastN max_nbls l := by
    intro l; simp only [butLastN, hmin]
  rw [hl, hb]
  by_cases hne : queuedInputs nbl = []
  · have hle : ctx.FirstNbl.length ≤ max_nbls := by
      rcases h with h | ⟨b, hb1, hb2⟩
      · exact h
      · exfalso
        have : ({ b with RefCount := 1 } : NET_BUFFER_LIST) ∈ queuedInputs nbl := by
          simp only [queuedInputs, List.mem_map, List.mem_filter]
          exact ⟨b, ⟨hb1, by simpa using hb2⟩, rfl⟩
        rw [hne] at this; simp at this
    simp only [hne, if_true, List.append_nil] at h2 h4 ⊢
    refine ⟨by rw [h2]; exact hle, ?_, L, h3, ?_⟩
    · rw [h2, lastN_of_length_le _ _ hle]
    · rw [h4, butLastN_of_length_le _ _ hle]; rfl
  · simp only [hne, if_false] at h2 h4
    exact ⟨by rw [h2]; exact lastN_length_le _ _, h2, L, h3, h4⟩

/-- Witness for C2: three single-packet batches appended to an empty queue with
`max_nbls = 2`. -/
theorem TunQueueAppend_drop_oldest_witness :
    QueueCounted (runningCtx [] []) ∧
      (TunQueueAppend (runningCtx [] [])
        [demoNbl [demoPacket 20] 1, demoNbl [demoPacket 20] 2, demoNbl [demoPacket 20] 3]
        2).FirstNbl.length ≤ 2 :=
  ⟨by decide,
   (TunQueueAppend_drop_oldest (runningCtx [] [])
      [demoNbl [demoPacket 20] 1, demoNbl [demoPacket 20] 2, demoNbl [demoPacket 20] 3] 2
      (by decide) (by decide) (Or.inl (by decide))).1⟩

theorem TunQueueAppend_append (max_nbls : Nat) (xs ys : List NET_BUFFER_LIST) :
    ∀ ctx : TUN_CTX, TunQueueAppend ctx (xs ++ ys) max_nbls
      = TunQueueAppend (TunQueueAppend ctx xs max_nbls) ys max_nbls := by
  induction xs with
  | nil => intro ctx; simp [TunQueueAppend]
  | cons b rest ih =>
    intro ctx
    by_cases hb : b.FirstNb = []
    · simp only [List.cons_append, TunQueueAppend, hb, if_true]
      exact ih _
    · simp only [List.cons_append, TunQueueAppend, hb, if_false]
      exact ih _

/-- C6 as stated fails: an empty batch that arrives with a failure status is
completed with that status (the code does not store a status before completing
an empty batch). -/
theorem TunQueueAppend_empty_status_counterexample :
    ({ FirstNb := [], Status := NTSTATUS.NDIS_STATUS_FAILURE, RefCount := 0, CancelId := 7 }
        : NET_BUFFER_LIST).FirstNb = [] ∧
      (TunQueueAppend (runningCtx [] [])
        [{ FirstNb := [], Status := NTSTATUS.NDIS_STATUS_FAILURE, RefCount := 0, CancelId := 7 }]
        TUN_QUEUE_MAX_NBLS).SendComplete.map (fun e => e.1.Status)
        = [NTSTATUS.NDIS_STATUS_FAILURE] ∧
      NTSTATUS.NDIS_STATUS_FAILURE ≠ NTSTATUS.STATUS_SUCCESS := by
  decide

/-- C6 (amended): an input batch `b` that carries no packets is completed by
`TunQueueAppend` at once, exactly once, with completion flags 0 and with the
status field it arrived with (success when it arrived with success); the batch
list, the cursor, `NumNbl`, the in-flight counter and every other field of the
context are as the batches before it in the chain left them. -/
theorem TunQueueAppend_empty_batch (ctx : TUN_CTX) (b : NET_BUFFER_LIST)
    (pre post : List NET_BUFFER_LIST) (max_nbls : Nat) (hb : b.FirstNb = []) :
    TunQueueAppend ctx [b] max_nbls = { ctx with SendComplete := ctx.SendComplete ++ [(b, 0)] } ∧
    TunQueueAppend ctx (pre ++ b :: post) max_nbls =
      TunQueueAppend
        { TunQueueAppend ctx pre max_nbls with
          SendComplete := (TunQueueAppend ctx pre max_nbls).SendComplete ++ [(b, 0)] }
        post max_nbls := by
  constructor
  · simp [TunQueueAppend, hb]
  · rw [TunQueueAppend_append]
    simp [TunQueueAppend, hb]

/-- Witness for C6: an empty batch between two single-packet batches. -/
theorem TunQueueAppend_empty_batch_witness :
    (demoNbl [] 2).FirstNb = [] ∧
      TunQueueAppend (runningCtx [] []) [demoNbl [] 2] TUN_QUEUE_MAX_NBLS =
        { runningCtx [] [] with SendComplete := (runningCtx [] []).SendComplete ++ [(demoNbl [] 2, 0)] } :=
  ⟨by decide,
   (TunQueueAppend_empty_batch (runningCtx [] []) (demoNbl [] 2) [] [] TUN_QUEUE_MAX_NBLS
      (by decide)).1⟩

/-! ## `TunQueueRemove`: one pass of the `retry` loop -/

@[simp] theorem TunNBLRefDec_ReadQueue (ctx : TUN_CTX) (b : NET_BUFFER_LIST) (f : Nat) :
    (TunNBLRefDec ctx b f).2.1.ReadQueue = ctx.ReadQueue := by
  unfold TunNBLRefDec; dsimp only; split_ifs <;> simp

@[simp] theorem TunNBLRefDec_IrpComplete (ctx : TUN_CTX) (b : NET_BUFFER_LIST) (f : Nat) :
    (TunNBLRefDec ctx b f).2.1.IrpComplete = ctx.IrpComplete := by
  unfold TunNBLRefDec; dsimp only; split_ifs <;> simp

@[simp] theorem TunNBLRefDec_FirstNbl (ctx : TUN_CTX) (b : NET_BUFFER_LIST) (f : Nat) :
    (TunNBLRefDec ctx b f).2.1.FirstNbl = ctx.FirstNbl := by
  unfold TunNBLRefDec; dsimp only; split_ifs <;> simp

@[simp] theorem TunNBLRefDec_NextNb (ctx : TUN_CTX) (b : NET_BUFFER_LIST) (f : Nat) :
    (TunNBLRefDec ctx b f).2.1.NextNb = ctx.NextNb := by
  unfold TunNBLRefDec; dsimp only; split_ifs <;> simp

@[simp] theorem TunNBLRefDec_Statistics (ctx : TUN_CTX) (b : NET_BUFFER_LIST) (f : Nat) :
    (TunNBLRefDec ctx b f).2.1.Statistics = ctx.Statistics := by
  unfold TunNBLRefDec; dsimp only; split_ifs <;> simp

theorem NET_BUFFER_LIST_refcount_eta (b : NET_BUFFER_LIST) :
    ({ b with RefCount := b.RefCount } : NET_BUFFER_LIST) = b := rfl

theorem TunQueueRemove_nil (fuel : Nat) (ctx : TUN_CTX) (h : ctx.FirstNbl = []) :
    TunQueueRemove (fuel + 1) ctx = some ([], NblPtr.null, ctx) := by
  simp [TunQueueRemove, h]

theorem TunQueueRemove_valid_last (fuel : Nat) (ctx : TUN_CTX) (b : NET_BUFFER_LIST)
    (rest : List NET_BUFFER_LIST) (p : NET_BUFFER)
    (hq : ctx.FirstNbl = b :: rest) (hc : cursorPackets ctx = [p])
    (hp : p.DataLength ≤ TUN_EXCH_MAX_IP_PACKET_SIZE) :
    TunQueueRemove (fuel + 1) ctx =
      some ([p], NblPtr.unlinked b, { ctx with NextNb := [], FirstNbl := rest }) := by
  have hp' : ¬ p.DataLength > TUN_EXCH_MAX_IP_PACKET_SIZE := by omega
  simp only [cursorPackets, cursorOf, hq] at hc
  by_cases hn : ctx.NextNb = []
  · simp only [hn, if_true] at hc
    simp [TunQueueRemove, hq, hn, hc, hp']
  · simp only [hn, if_false] at hc
    simp [TunQueueRemove, hq, hc, hp']

theorem TunQueueRemove_valid_mid (fuel : Nat) (ctx : TUN_CTX) (b : NET_BUFFER_LIST)
    (rest : List NET_BUFFER_LIST) (p : NET_BUFFER) (more : List NET_BUFFER)
    (hq : ctx.FirstNbl = b :: rest) (hc : cursorPackets ctx = p :: more) (hm : more ≠ [])
    (hp : p.DataLength ≤ TUN_EXCH_MAX_IP_PACKET_SIZE) :
    TunQueueRemove (fuel + 1) ctx =
      some (p :: more, NblPtr.first,
        { ctx with NextNb := more, FirstNbl := TunNBLRefInc b :: rest }) := by
  have hp' : ¬ p.DataLength > TUN_EXCH_MAX_IP_PACKET_SIZE := by omega
  simp only [cursorPackets, cursorOf, hq] at hc
  by_cases hn : ctx.NextNb = []
  · simp only [hn, if_true] at hc
    simp [TunQueueRemove, hq, hn, hc, hp', hm]
  · simp only [hn, if_false] at hc
    simp [TunQueueRemove, hq, hc, hp', hm]

theorem TunQueueRemove_oversized_last (fuel : Nat) (ctx : TUN_CTX) (b : NET_BUFFER_LIST)
    (rest : List NET_BUFFER_LIST) (p : NET_BUFFER)
    (hq : ctx.FirstNbl = b :: rest) (hc : cursorPackets ctx = [p])
    (hp : p.DataLength > TUN_EXCH_MAX_IP_PACKET_SIZE) :
    TunQueueRemove (fuel + 1) ctx =
      TunQueueRemove fuel
        { (TunNBLRefDec { ctx with NextNb := [], FirstNbl := rest }
            { b with Status := NTSTATUS.NDIS_STATUS_INVALID_LENGTH }
            NDIS_SEND_COMPLETE_FLAGS_DISPATCH_LEVEL).2.1 with
          Statistics := { ctx.Statistics with
            ifOutDiscards := ctx.Statistics.ifOutDiscards + 1 } } := by
  simp only [cursorPackets, cursorOf, hq] at hc
  by_cases hn : ctx.NextNb = []
  · simp only [hn, if_true] at hc
    simp [TunQueueRemove, hq, hn, hc, hp, NblPtr.setStatus, NblPtr.refDec]
  · simp only [hn, if_false] at hc
    simp [TunQueueRemove, hq, hc, hp, NblPtr.setStatus, NblPtr.refDec]

theorem TunQueueRemove_oversized_mid (fuel : Nat) (ctx : TUN_CTX) (b : NET_BUFFER_LIST)
    (rest : List NET_BUFFER_LIST) (p : NET_BUFFER) (more : List NET_BUFFER)
    (hq : ctx.FirstNbl = b :: rest) (hc : cursorPackets ctx = p :: more) (hm : more ≠ [])
    (hrc : b.RefCount ≠ 0)
    (hp : p.DataLength > TUN_EXCH_MAX_IP_PACKET_SIZE) :
    TunQueueRemove (fuel + 1) ctx =
      TunQueueRemove fuel
        { ctx with
          NextNb := more
          FirstNbl := { b with Status := NTSTATUS.NDIS_STATUS_INVALID_LENGTH } :: rest
          Statistics := { ctx.Statistics with
            ifOutDiscards := ctx.Statistics.ifOutDiscards + 1 } } := by
  simp only [cursorPackets, cursorOf, hq] at hc
  have h1 : ¬ (b.RefCount + 1 - 1 = 0) := by omega
  have h2 : b.RefCount + 1 - 1 = b.RefCount := by omega
  by_cases hn : ctx.NextNb = []
  · simp only [hn, if_true] at hc
    simp [TunQueueRemove, hq, hn, hc, hp, hm, NblPtr.setStatus, NblPtr.refDec, TunNBLRefInc,
      TunNBLRefDec, h1, h2, hrc]
  · simp only [hn, if_false] at hc
    simp [TunQueueRemove, hq, hc, hp, hm, NblPtr.setStatus, NblPtr.refDec, TunNBLRefInc,
      TunNBLRefDec, h1, h2, hrc]

/-! ## `TunQueueRemove` and `TunQueueDrain`: what a drain returns and releases -/

theorem refDec_null (ctx : TUN_CTX) (f : Nat) : (NblPtr.refDec ctx NblPtr.null f).1 = ctx := rfl

theorem refDec_if (ctx : TUN_CTX) (nbl : NblPtr) (f : Nat) :
    (if nbl ≠ NblPtr.null then (NblPtr.refDec ctx nbl f).1 else ctx) = (NblPtr.refDec ctx nbl f).1 := by
  cases nbl <;> simp [NblPtr.refDec]

theorem refDec_unlinked_one (ctx : TUN_CTX) (b : NET_BUFFER_LIST) (f : Nat) (h : b.RefCount = 1) :
    (NblPtr.refDec ctx (NblPtr.unlinked b) f).1 =
      (TunCompletePause { ctx with
        SendComplete := ctx.SendComplete ++ [({ b with RefCount := 0 }, f)]
        NumNbl := ctx.NumNbl - 1 } true).2 := by
  simp [NblPtr.refDec, TunNBLRefDec_one ctx b f h]

theorem refDec_first_keep (ctx : TUN_CTX) (b : NET_BUFFER_LIST) (rest : List NET_BUFFER_LIST)
    (f : Nat) (hq : ctx.FirstNbl = b :: rest) (h : b.RefCount ≠ 1) :
    (NblPtr.refDec ctx NblPtr.first f).1 =
      { ctx with FirstNbl := { b with RefCount := b.RefCount - 1 } :: rest } := by
  simp [NblPtr.refDec, hq, TunNBLRefDec_ne_one ctx b f h]

theorem undeliveredOf_unset (q : List NET_BUFFER_LIST) :
    undeliveredOf q [] = (q.map (fun b => b.FirstNb)).flatten := by
  cases q <;> simp [undeliveredOf, cursorOf]

theorem undeliveredOf_set (b : NET_BUFFER_LIST) (rest : List NET_BUFFER_LIST)
    (n : List NET_BUFFER) (hn : n ≠ []) :
    undeliveredOf (b :: rest) n = n ++ (rest.map (fun b => b.FirstNb)).flatten := by
  simp [undeliveredOf, cursorOf, hn]

theorem undeliveredOf_cons (b : NET_BUFFER_LIST) (rest : List NET_BUFFER_LIST)
    (n : List NET_BUFFER) :
    undeliveredOf (b :: rest) n = cursorOf (b :: rest) n ++ (rest.map (fun b => b.FirstNb)).flatten := rfl

theorem promisedOf_unset (q : List NET_BUFFER_LIST) :
    promisedOf q [] = q.map (fun x => finalNbl x.FirstNb x) := by
  cases q <;> simp [promisedOf, cursorOf]

theorem cursorOf_ne_nil (b : NET_BUFFER_LIST) (rest : List NET_BUFFER_LIST) (n : List NET_BUFFER)
    (hb : b.FirstNb ≠ []) : cursorOf (b :: rest) n ≠ [] := by
  unfold cursorOf
  by_cases hn : n = [] <;> simp [hn, hb]

theorem TunQueueRemove_spec :
    ∀ (fuel : Nat) (ctx : TUN_CTX), QueueOk ctx → (undelivered ctx).length < fuel →
      ∃ ret nbl ctx1, TunQueueRemove fuel ctx = some (ret, nbl, ctx1) ∧
        QueueOk (NblPtr.refDec ctx1 nbl 0).1 ∧
        (undelivered ctx).filter validLength
          = ret.take 1 ++ (undelivered (NblPtr.refDec ctx1 nbl 0).1).filter validLength ∧
        (∀ p ∈ ret.take 1, validLength p = true) ∧
        (ret = [] → nbl = NblPtr.null ∧ ctx1.FirstNbl = []) ∧
        (undelivered (NblPtr.refDec ctx1 nbl 0).1).length + (ret.take 1).length
          ≤ (undelivered ctx).length ∧
        (NblPtr.refDec ctx1 nbl 0).1.SendComplete.map (fun e => e.1)
            ++ promisedOf (NblPtr.refDec ctx1 nbl 0).1.FirstNbl (NblPtr.refDec ctx1 nbl 0).1.NextNb
          = ctx.SendComplete.map (fun e => e.1) ++ promisedOf ctx.FirstNbl ctx.NextNb := by
  intro fuel
  induction fuel with
  | zero => intro ctx _ h; simp at h
  | succ fuel ih =>
    intro ctx hok hlen
    have hcases : ctx.FirstNbl = [] ∨ ∃ b rest, ctx.FirstNbl = b :: rest := by
      cases ctx.FirstNbl <;> simp
    rcases hcases with hq | ⟨b, rest, hq⟩
    · refine ⟨[], NblPtr.null, ctx, TunQueueRemove_nil fuel ctx hq, ?_, ?_, ?_, ?_, ?_, ?_⟩
      · simpa [refDec_null] using hok
      · simp [refDec_null, undelivered, hq, undeliveredOf]
      · simp
      · intro _; exact ⟨rfl, hq⟩
      · simp [refDec_null]
      · simp [refDec_null]
    · have hb : b.FirstNb ≠ [] ∧ b.RefCount = 1 := hok b (by rw [hq]; exact List.mem_cons_self _ _)
      have hrest : ∀ x ∈ rest, x.FirstNb ≠ [] ∧ x.RefCount = 1 :=
        fun x hx => hok x (by rw [hq]; exact List.mem_cons_of_mem _ hx)
      have hcne : cursorPackets ctx ≠ [] := by
        unfold cursorPackets; rw [hq]; exact cursorOf_ne_nil b rest _ hb.1
      have hcases2 : ∃ p more, cursorPackets ctx = p :: more := by
        cases h : cursorPackets ctx with
        | nil => exact absurd h hcne
        | cons p more => exact ⟨p, more, rfl⟩
      obtain ⟨p, more, hc⟩ := hcases2
      · have hc' : cursorOf (b :: rest) ctx.NextNb = p :: more := by
          rw [← hq]; exact hc
        have hund : undelivered ctx = (p :: more) ++ (rest.map (fun b => b.FirstNb)).flatten := by
          unfold undelivered; rw [hq, undeliveredOf_cons, hc']
        have hprom : promisedOf ctx.FirstNbl ctx.NextNb
            = finalNbl (p :: more) b :: rest.map (fun x => finalNbl x.FirstNb x) := by
          rw [hq]; simp only [promisedOf, hc']
        by_cases hp : p.DataLength ≤ TUN_EXCH_MAX_IP_PACKET_SIZE
        · have hpv : validLength p = true := by simp [validLength, hp]
          by_cases hm : more = []
          · subst hm
            refine ⟨[p], NblPtr.unlinked b, _,
              TunQueueRemove_valid_last fuel ctx b rest p hq hc hp, ?_, ?_, ?_, ?_, ?_, ?_⟩
            · rw [refDec_unlinked_one _ _ _ hb.2]
              simpa [QueueOk] using hrest
            · rw [refDec_unlinked_one _ _ _ hb.2, hund]
              simp [undelivered, undeliveredOf_unset, hpv]
            · simp [hpv]
            · simp
            · rw [refDec_unlinked_one _ _ _ hb.2, hund]
              simp [undelivered, undeliveredOf_unset]
            · rw [refDec_unlinked_one _ _ _ hb.2, hprom]
              simp [promisedOf_unset, finalNbl, hpv]
          · refine ⟨p :: more, NblPtr.first, _,
              TunQueueRemove_valid_mid fuel ctx b rest p more hq hc hm hp, ?_, ?_, ?_, ?_, ?_, ?_⟩
            · rw [refDec_first_keep _ (TunNBLRefInc b) rest 0 rfl (by simp [TunNBLRefInc, hb.2])]
              intro x hx
              simp only [List.mem_cons] at hx
              rcases hx with hx | hx
              · subst hx; simp [TunNBLRefInc, hb.1, hb.2]
              · exact hrest x hx
            · rw [refDec_first_keep _ (TunNBLRefInc b) rest 0 rfl (by simp [TunNBLRefInc, hb.2]), hund]
              simp [undelivered, undeliveredOf_set _ _ _ hm, hpv]
            · simp [hpv]
            · simp
            · rw [refDec_first_keep _ (TunNBLRefInc b) rest 0 rfl (by simp [TunNBLRefInc, hb.2]), hund]
              simp [undelivered, undeliveredOf_set _ _ _ hm]
            · rw [refDec_first_keep _ (TunNBLRefInc b) rest 0 rfl (by simp [TunNBLRefInc, hb.2]), hprom]
              simp [promisedOf, cursorOf, hm, finalNbl, TunNBLRefInc, hpv]
        · have hp' : p.DataLength > TUN_EXCH_MAX_IP_PACKET_SIZE := by omega
          have hpv : validLength p = false := by simp [validLength, hp]
          by_cases hm : more = []
          · subst hm
            rw [TunQueueRemove_oversized_last fuel ctx b rest p hq hc hp']
            rw [TunNBLRefDec_one _ _ _ (by simpa using hb.2)]
            obtain ⟨ret, nbl, ctx1, h1, h2, h3, h4, h5, h7, h6⟩ := ih
              { (TunCompletePause
                  { ({ ctx with NextNb := [], FirstNbl := rest } : TUN_CTX) with
                    SendComplete := ctx.SendComplete ++
                      [({ ({ b with Status := NTSTATUS.NDIS_STATUS_INVALID_LENGTH }
                            : NET_BUFFER_LIST) with RefCount := 0 },
                        NDIS_SEND_COMPLETE_FLAGS_DISPATCH_LEVEL)]
                    NumNbl := ctx.NumNbl - 1 } true).2 with
                Statistics := { ctx.Statistics with
                  ifOutDiscards := ctx.Statistics.ifOutDiscards + 1 } }
              (by simpa [QueueOk] using hrest)
              (by
                rw [hund] at hlen
                simp [undelivered, undeliveredOf_unset] at hlen ⊢
                omega)
            refine ⟨ret, nbl, ctx1, h1, h2, ?_, h4, h5, ?_, ?_⟩
            · rw [← h3, hund]
              simp [undelivered, undeliveredOf_unset, hpv]
            · rw [hund]
              simp [undelivered, undeliveredOf_unset] at h7 ⊢
              omega
            · rw [h6, hprom]
              simp [promisedOf_unset, finalNbl, hpv]
          · rw [TunQueueRemove_oversized_mid fuel ctx b rest p more hq hc hm (by rw [hb.2]; simp) hp']
            obtain ⟨ret, nbl, ctx1, h1, h2, h3, h4, h5, h7, h6⟩ := ih
              { ctx with
                NextNb := more
                FirstNbl := { b with Status := NTSTATUS.NDIS_STATUS_INVALID_LENGTH } :: rest
                Statistics := { ctx.Statistics with
                  ifOutDiscards := ctx.Statistics.ifOutDiscards + 1 } }
              (by
                intro x hx
                simp only [List.mem_cons] at hx
                rcases hx with hx | hx
                · subst hx; exact hb
                · exact hrest x hx)
              (by
                rw [hund] at hlen
                simp [undelivered, undeliveredOf_set _ _ _ hm] at hlen ⊢
                omega)
            refine ⟨ret, nbl, ctx1, h1, h2, ?_, h4, h5, ?_, ?_⟩
            · rw [← h3, hund]
              simp [undelivered, undeliveredOf_set _ _ _ hm, hpv]
            · rw [hund]
              simp [undelivered, undeliveredOf_set _ _ _ hm] at h7 ⊢
              omega
            · rw [h6, hprom]
              simp [promisedOf, cursorOf, hm, finalNbl, hpv]

theorem TunQueueDrain_spec :
    ∀ (fuel : Nat) (ctx : TUN_CTX), QueueOk ctx → (undelivered ctx).length < fuel →
      ∃ ctx', TunQueueDrain fuel ctx = some ((undelivered ctx).filter validLength, ctx') ∧
        ctx'.FirstNbl = [] ∧
        ctx'.SendComplete.map (fun e => e.1)
          = ctx.SendComplete.map (fun e => e.1) ++ promisedOf ctx.FirstNbl ctx.NextNb := by
  intro fuel
  induction fuel with
  | zero => intro ctx _ h; simp at h
  | succ fuel ih =>
    intro ctx hok hlen
    obtain ⟨ret, nbl, ctx1, h1, h2, h3, h4, h5, h7, h6⟩ := TunQueueRemove_spec (fuel + 1) ctx hok hlen
    cases ret with
    | nil =>
      obtain ⟨hn, hf⟩ := h5 rfl
      subst hn
      simp only [refDec_null] at h2 h3 h6 h7
      refine ⟨ctx1, ?_, hf, ?_⟩
      · simp only [TunQueueDrain, h1]
        rw [h3]
        simp [undelivered, hf, undeliveredOf]
      · rw [← h6, hf]; simp [promisedOf]
    | cons p more =>
      simp only [List.take_succ_cons, List.take_zero, List.length_singleton] at h7 h3
      obtain ⟨ctx', i1, i2, i3⟩ := ih (NblPtr.refDec ctx1 nbl 0).1 h2 (by omega)
      refine ⟨ctx', ?_, i2, ?_⟩
      · simp only [TunQueueDrain, h1, refDec_if, i1, h3]
        simp
      · rw [i3, h6]

/-! ## Oversized packets never leave `TunQueueRemove` -/

@[simp] theorem setStatus_ReadQueue (ctx : TUN_CTX) (nbl : NblPtr) (s : NTSTATUS) :
    (NblPtr.setStatus ctx nbl s).1.ReadQueue = ctx.ReadQueue := by
  cases nbl <;> simp [NblPtr.setStatus]
  split <;> rfl

@[simp] theorem setStatus_IrpComplete (ctx : TUN_CTX) (nbl : NblPtr) (s : NTSTATUS) :
    (NblPtr.setStatus ctx nbl s).1.IrpComplete = ctx.IrpComplete := by
  cases nbl <;> simp [NblPtr.setStatus]
  split <;> rfl

@[simp] theorem refDec_ReadQueue (ctx : TUN_CTX) (nbl : NblPtr) (f : Nat) :
    (NblPtr.refDec ctx nbl f).1.ReadQueue = ctx.ReadQueue := by
  cases nbl with
  | null => rfl
  | first =>
    unfold NblPtr.refDec
    cases hq : ctx.FirstNbl with
    | nil => rfl
    | cons b rest =>
      have := TunNBLRefDec_ReadQueue ctx b f
      dsimp only
      split <;> simp_all
  | unlinked b =>
    unfold NblPtr.refDec
    simp

@[simp] theorem refDec_IrpComplete (ctx : TUN_CTX) (nbl : NblPtr) (f : Nat) :
    (NblPtr.refDec ctx nbl f).1.IrpComplete = ctx.IrpComplete := by
  cases nbl with
  | null => rfl
  | first =>
    unfold NblPtr.refDec
    cases hq : ctx.FirstNbl with
    | nil => rfl
    | cons b rest =>
      have := TunNBLRefDec_IrpComplete ctx b f
      dsimp only
      split <;> simp_all
  | unlinked b =>
    unfold NblPtr.refDec
    simp

@[simp] theorem TunQueuePrepend_ReadQueue (ctx : TUN_CTX) (nb : List NET_BUFFER) (nbl : NblPtr) :
    (TunQueuePrepend ctx nb nbl).1.ReadQueue = ctx.ReadQueue := by
  cases nbl <;> rfl

@[simp] theorem TunQueuePrepend_IrpComplete (ctx : TUN_CTX) (nb : List NET_BUFFER) (nbl : NblPtr) :
    (TunQueuePrepend ctx nb nbl).1.IrpComplete = ctx.IrpComplete := by
  cases nbl <;> rfl

theorem TunQueueRemove_frame :
    ∀ (fuel : Nat) (ctx : TUN_CTX) (ret : List NET_BUFFER) (nbl : NblPtr) (ctx1 : TUN_CTX),
      TunQueueRemove fuel ctx = some (ret, nbl, ctx1) →
      ctx1.ReadQueue = ctx.ReadQueue ∧ ctx1.IrpComplete = ctx.IrpComplete ∧
      ∀ p ∈ ret.head?, p.DataLength ≤ TUN_EXCH_MAX_IP_PACKET_SIZE := by
  intro fuel
  induction fuel with
  | zero => intro ctx ret nbl ctx1 h; simp [TunQueueRemove] at h
  | succ fuel ih =>
    intro ctx ret nbl ctx1 h
    rw [TunQueueRemove] at h
    split at h
    · simp only [Option.some.injEq, Prod.mk.injEq] at h
      obtain ⟨rfl, _, rfl⟩ := h
      simp
    · dsimp only at h
      split at h
      · exact absurd h (by simp)
      · rename_i pkt pkt_next hnext
        by_cases hp : pkt.DataLength > TUN_EXCH_MAX_IP_PACKET_SIZE
        · rw [if_pos hp] at h
          obtain ⟨h1, h2, h3⟩ := ih _ _ _ _ h
          refine ⟨?_, ?_, h3⟩
          · rw [h1]; split <;> simp <;> split <;> simp
          · rw [h2]; split <;> simp <;> split <;> simp
        · rw [if_neg hp] at h
          simp only [Option.some.injEq, Prod.mk.injEq] at h
          obtain ⟨rfl, _, rfl⟩ := h
          refine ⟨?_, ?_, ?_⟩
          · split <;> simp <;> split <;> simp
          · split <;> simp <;> split <;> simp
          · simp; omega

/-! ## `TunRemoveNextIrp` and one pass of `TunQueueProcess` -/

theorem TunRemoveNextIrpLoop_eq :
    ∀ (l : List IRP) (ctx : TUN_CTX),
      TunRemoveNextIrpLoop l ctx =
        ((match acceptedReads l with
          | [] => none
          | i :: _ => some (i, (TunGetIrpBuffer i).2)),
         { ctx with
           ReadQueue := (acceptedReads l).tail
           IrpComplete := ctx.IrpComplete ++ rejectedReads l }) := by
  intro l
  induction l with
  | nil => intro ctx; simp [TunRemoveNextIrpLoop, acceptedReads, rejectedReads]
  | cons irp rest ih =>
    intro ctx
    by_cases hs : NT_SUCCESS (TunGetIrpBuffer irp).1 = true
    · simp [TunRemoveNextIrpLoop, acceptedReads, rejectedReads, hs]
    · simp only [Bool.not_eq_true] at hs
      simp only [TunRemoveNextIrpLoop, hs, Bool.false_eq_true, if_false, ih]
      simp [acceptedReads, rejectedReads, hs]

theorem TunQueueProcessStep_nil (ctx : TUN_CTX) (irp : IRP) (size : Nat) (nbl : NblPtr) :
    TunQueueProcessStep ctx irp size [] nbl =
      ((NblPtr.refDec
          { ctx with IrpComplete := ctx.IrpComplete ++ [{ irp with Status := NTSTATUS.STATUS_SUCCESS }] }
          nbl 0).1, none) := by
  simp only [TunQueueProcessStep, refDec_if]

theorem TunQueueProcessStep_wontfit (ctx : TUN_CTX) (irp : IRP) (size : Nat) (pkt : NET_BUFFER)
    (more : List NET_BUFFER) (nbl : NblPtr) (hw : TunWontFitIntoIrp irp size pkt = true) :
    TunQueueProcessStep ctx irp size (pkt :: more) nbl =
      ({ (NblPtr.refDec (TunQueuePrepend ctx (pkt :: more) nbl).1
            (TunQueuePrepend ctx (pkt :: more) nbl).2
            NDIS_SEND_COMPLETE_FLAGS_DISPATCH_LEVEL).1 with
         IrpComplete :=
           (NblPtr.refDec (TunQueuePrepend ctx (pkt :: more) nbl).1
              (TunQueuePrepend ctx (pkt :: more) nbl).2
              NDIS_SEND_COMPLETE_FLAGS_DISPATCH_LEVEL).1.IrpComplete
             ++ [{ irp with Status := NTSTATUS.STATUS_SUCCESS }] }, none) := by
  simp only [TunQueueProcessStep, hw, if_true, refDec_if, refDec_null, ne_eq, not_true_eq_false,
    if_false]

theorem TunQueueProcessStep_copied (ctx : TUN_CTX) (irp : IRP) (size : Nat) (pkt : NET_BUFFER)
    (more : List NET_BUFFER) (nbl : NblPtr) (hw : TunWontFitIntoIrp irp size pkt = false)
    (hs : NT_SUCCESS (TunWriteIntoIrp irp pkt ctx.Statistics).1 = true) :
    TunQueueProcessStep ctx irp size (pkt :: more) nbl =
      ((NblPtr.refDec { ctx with Statistics := (TunWriteIntoIrp irp pkt ctx.Statistics).2.2 } nbl 0).1,
       some ((TunWriteIntoIrp irp pkt ctx.Statistics).2.1, size)) := by
  simp only [TunQueueProcessStep, hw, Bool.false_eq_true, if_false, refDec_if, hs, if_true]

theorem TunQueueProcessStep_copy_failed (ctx : TUN_CTX) (irp : IRP) (size : Nat) (pkt : NET_BUFFER)
    (more : List NET_BUFFER) (nbl : NblPtr) (hw : TunWontFitIntoIrp irp size pkt = false)
    (hs : NT_SUCCESS (TunWriteIntoIrp irp pkt ctx.Statistics).1 = false) :
    TunQueueProcessStep ctx irp size (pkt :: more) nbl =
      ((NblPtr.refDec
          { (NblPtr.setStatus
              { ctx with Statistics := (TunWriteIntoIrp irp pkt ctx.Statistics).2.2 } nbl
              (TunWriteIntoIrp irp pkt ctx.Statistics).1).1 with
            ReadQueue := (TunWriteIntoIrp irp pkt ctx.Statistics).2.1 ::
              (NblPtr.setStatus
                { ctx with Statistics := (TunWriteIntoIrp irp pkt ctx.Statistics).2.2 } nbl
                (TunWriteIntoIrp irp pkt ctx.Statistics).1).1.ReadQueue }
          (NblPtr.setStatus
              { ctx with Statistics := (TunWriteIntoIrp irp pkt ctx.Statistics).2.2 } nbl
              (TunWriteIntoIrp irp pkt ctx.Statistics).1).2 0).1,
       none) := by
  simp only [TunQueueProcessStep, hw, Bool.false_eq_true, if_false, refDec_if, hs]

theorem CopiedValid_append (l1 l2 : List IRP) :
    CopiedValid (l1 ++ l2) ↔ CopiedValid l1 ∧ CopiedValid l2 := by
  unfold CopiedValid
  constructor
  · intro h
    exact ⟨fun i hi => h i (List.mem_append_left _ hi), fun i hi => h i (List.mem_append_right _ hi)⟩
  · rintro ⟨h1, h2⟩ i hi
    rcases List.mem_append.mp hi with h | h
    · exact h1 i h
    · exact h2 i h

theorem CopiedValid_cons (i : IRP) (l : List IRP) :
    CopiedValid (i :: l) ↔ CopiedValid [i] ∧ CopiedValid l := CopiedValid_append [i] l

theorem CopiedValid_single (i : IRP) :
    CopiedValid [i] ↔ ∀ p ∈ i.Copied, p.DataLength ≤ TUN_EXCH_MAX_IP_PACKET_SIZE := by
  simp [CopiedValid]

theorem CopiedValid_status (i : IRP) (s : NTSTATUS) (h : CopiedValid [i]) :
    CopiedValid [{ i with Status := s }] := by
  rw [CopiedValid_single] at h ⊢; exact h

theorem CopiedValid_sublist (l1 l2 : List IRP) (hs : ∀ i ∈ l1, i ∈ l2) (h : CopiedValid l2) :
    CopiedValid l1 := fun i hi => h i (hs i hi)

theorem CopiedValid_rejectedReads (l : List IRP) (h : CopiedValid l) :
    CopiedValid (rejectedReads l) := by
  intro i hi
  simp only [rejectedReads, List.mem_map] at hi
  obtain ⟨j, hj, rfl⟩ := hi
  exact h j ((List.takeWhile_sublist _).subset hj)

theorem CopiedValid_acceptedReads (l : List IRP) (h : CopiedValid l) :
    CopiedValid (acceptedReads l) := by
  intro i hi
  exact h i ((List.dropWhile_sublist _).subset hi)

theorem TunWriteIntoIrp_Copied (irp : IRP) (p : NET_BUFFER) (st : NDIS_STATISTICS_INFO) :
    (TunWriteIntoIrp irp p st).2.1.Copied =
      if NT_SUCCESS (TunWriteIntoIrp irp p st).1 then irp.Copied ++ [p] else irp.Copied := by
  unfold TunWriteIntoIrp
  cases p.Data <;> simp [NT_SUCCESS]

theorem TunQueueProcessStep_CopiedValid (ctx : TUN_CTX) (irp : IRP) (size : Nat)
    (nb : List NET_BUFFER) (nbl : NblPtr)
    (h1 : CopiedValid ctx.ReadQueue) (h1' : CopiedValid ctx.IrpComplete)
    (h2 : CopiedValid [irp])
    (h3 : ∀ p ∈ nb.head?, p.DataLength ≤ TUN_EXCH_MAX_IP_PACKET_SIZE) :
    CopiedValid (TunQueueProcessStep ctx irp size nb nbl).1.ReadQueue ∧
    CopiedValid (TunQueueProcessStep ctx irp size nb nbl).1.IrpComplete ∧
    ∀ i s, (TunQueueProcessStep ctx irp size nb nbl).2 = some (i, s) → CopiedValid [i] := by
  have hdone : CopiedValid (ctx.IrpComplete ++ [{ irp with Status := NTSTATUS.STATUS_SUCCESS }]) := by
    rw [CopiedValid_append]
    exact ⟨h1', CopiedValid_status _ _ h2⟩
  cases nb with
  | nil =>
    rw [TunQueueProcessStep_nil]
    refine ⟨by simpa using h1, by simpa using hdone, by simp⟩
  | cons pkt more =>
    have hpkt : pkt.DataLength ≤ TUN_EXCH_MAX_IP_PACKET_SIZE := h3 pkt (by simp)
    by_cases hw : TunWontFitIntoIrp irp size pkt = true
    · rw [TunQueueProcessStep_wontfit _ _ _ _ _ _ hw]
      refine ⟨by simpa using h1, by simpa using hdone, by simp⟩
    · simp only [Bool.not_eq_true] at hw
      have hc := TunWriteIntoIrp_Copied irp pkt ctx.Statistics
      by_cases hs : NT_SUCCESS (TunWriteIntoIrp irp pkt ctx.Statistics).1 = true
      · rw [TunQueueProcessStep_copied _ _ _ _ _ _ hw hs]
        rw [if_pos hs] at hc
        refine ⟨by simpa using h1, by simpa using h1', ?_⟩
        intro i s h
        simp only [Option.some.injEq, Prod.mk.injEq] at h
        rw [← h.1, CopiedValid_single, hc]
        intro p hp
        rcases List.mem_append.mp hp with hp | hp
        · exact (CopiedValid_single irp).mp h2 p hp
        · simp at hp; rw [hp]; exact hpkt
      · simp only [Bool.not_eq_true] at hs
        rw [TunQueueProcessStep_copy_failed _ _ _ _ _ _ hw hs]
        rw [hs] at hc
        simp only [Bool.false_eq_true, if_false] at hc
        refine ⟨?_, by simpa using h1', by simp⟩
        simp only [refDec_ReadQueue, setStatus_ReadQueue]
        rw [CopiedValid_cons]
        refine ⟨?_, h1⟩
        rw [CopiedValid_single, hc]
        exact (CopiedValid_single irp).mp h2

theorem TunQueueProcessLoop_CopiedValid :
    ∀ (fuel : Nat) (ctx : TUN_CTX) (irp : Option (IRP × Nat)) (ctx' : TUN_CTX),
      CopiedValid ctx.ReadQueue → CopiedValid ctx.IrpComplete →
      (∀ i s, irp = some (i, s) → CopiedValid [i]) →
      TunQueueProcessLoop fuel ctx irp = some ctx' →
      CopiedValid ctx'.ReadQueue ∧ CopiedValid ctx'.IrpComplete := by
  intro fuel
  induction fuel with
  | zero => intro ctx irp ctx' _ _ _ h; simp [TunQueueProcessLoop] at h
  | succ fuel ih =>
    intro ctx irp ctx' h1 h2 h3 h
    cases irp with
    | none =>
      rw [TunQueueProcessLoop] at h
      cases hr : TunQueueRemove (fuel + 1) ctx with
      | none => rw [hr] at h; simp at h
      | some r =>
        obtain ⟨nb, nbl, ctx1⟩ := r
        obtain ⟨f1, f2, f3⟩ := TunQueueRemove_frame _ _ _ _ _ hr
        rw [hr] at h
        have g1 : CopiedValid ctx1.ReadQueue := by rw [f1]; exact h1
        have g2 : CopiedValid ctx1.IrpComplete := by rw [f2]; exact h2
        cases nb with
        | nil =>
          simp only [Option.some.injEq] at h
          subst h
          exact ⟨g1, g2⟩
        | cons pkt more =>
          dsimp only at h
          simp only [TunRemoveNextIrp, TunRemoveNextIrpLoop_eq] at h
          have a1 := CopiedValid_acceptedReads _ g1
          have a2 : CopiedValid (ctx1.IrpComplete ++ rejectedReads ctx1.ReadQueue) :=
            (CopiedValid_append _ _).mpr ⟨g2, CopiedValid_rejectedReads _ g1⟩
          cases ha : acceptedReads ctx1.ReadQueue with
          | nil =>
            rw [ha] at h
            simp only [refDec_if, Option.some.injEq] at h
            subst h
            refine ⟨?_, by simpa using a2⟩
            simp [CopiedValid]
          | cons i rest =>
            rw [ha] at h a1
            dsimp only at h
            rw [CopiedValid_cons] at a1
            obtain ⟨s1, s2, s3⟩ := TunQueueProcessStep_CopiedValid
              { ctx1 with
                ReadQueue := (i :: rest).tail
                IrpComplete := ctx1.IrpComplete ++ rejectedReads ctx1.ReadQueue }
              i (TunGetIrpBuffer i).2 (pkt :: more) nbl a1.2 a2 a1.1 f3
            exact ih _ _ _ s1 s2 s3 h
    | some is =>
      obtain ⟨i, s⟩ := is
      rw [TunQueueProcessLoop] at h
      cases hr : TunQueueRemove (fuel + 1) ctx with
      | none => rw [hr] at h; simp at h
      | some r =>
        obtain ⟨nb, nbl, ctx1⟩ := r
        obtain ⟨f1, f2, f3⟩ := TunQueueRemove_frame _ _ _ _ _ hr
        rw [hr] at h
        dsimp only at h
        obtain ⟨s1, s2, s3⟩ := TunQueueProcessStep_CopiedValid ctx1 i s nb nbl
          (by rw [f1]; exact h1) (by rw [f2]; exact h2) (h3 i s rfl) f3
        exact ih _ _ _ s1 s2 s3 h

/-! ## Oversized packets (C4, C5) -/

/-- C4: `TunQueueRemove` never returns a packet longer than
`TUN_EXCH_MAX_IP_PACKET_SIZE`, for any queue state and any fuel; hence
`TunQueueProcess` never copies such a packet into a read (requests that hold
none before hold none after); and when a queue of non-empty batches with
reference count 1 is drained through `TunQueueRemove`, every batch is released
with the status `finalNbl` gives it: `NDIS_STATUS_INVALID_LENGTH` as soon as one
of its undelivered packets was oversized. -/
theorem TunQueueRemove_never_oversized :
    (∀ (fuel : Nat) (ctx : TUN_CTX) (ret : List NET_BUFFER) (nbl : NblPtr) (ctx1 : TUN_CTX),
      TunQueueRemove fuel ctx = some (ret, nbl, ctx1) →
      ∀ p ∈ ret.head?, p.DataLength ≤ TUN_EXCH_MAX_IP_PACKET_SIZE) ∧
    (∀ (fuel : Nat) (ctx ctx' : TUN_CTX),
      CopiedValid ctx.ReadQueue → CopiedValid ctx.IrpComplete →
      TunQueueProcess fuel ctx = some ctx' →
      CopiedValid ctx'.ReadQueue ∧ CopiedValid ctx'.IrpComplete) ∧
    (∀ (fuel : Nat) (ctx : TUN_CTX), QueueOk ctx → (undelivered ctx).length < fuel →
      ∃ pkts ctx', TunQueueDrain fuel ctx = some (pkts, ctx') ∧
        (∀ p ∈ pkts, p.DataLength ≤ TUN_EXCH_MAX_IP_PACKET_SIZE) ∧
        ctx'.FirstNbl = [] ∧
        ctx'.SendComplete.map (fun e => e.1)
          = ctx.SendComplete.map (fun e => e.1) ++ promisedOf ctx.FirstNbl ctx.NextNb) := by
  refine ⟨?_, ?_, ?_⟩
  · intro fuel ctx ret nbl ctx1 h
    exact (TunQueueRemove_frame fuel ctx ret nbl ctx1 h).2.2
  · intro fuel ctx ctx' h1 h2 h
    exact TunQueueProcessLoop_CopiedValid fuel ctx none ctx' h1 h2 (by simp) h
  · intro fuel ctx hok hlen
    obtain ⟨ctx', h1, h2, h3⟩ := TunQueueDrain_spec fuel ctx hok hlen
    refine ⟨_, ctx', h1, ?_, h2, h3⟩
    intro p hp
    have := (List.mem_filter.mp hp).2
    simpa [validLength] using this

/-- Witness for C4: a batch whose second packet is oversized, drained. -/
theorem TunQueueRemove_never_oversized_witness :
    QueueOk (runningCtx [demoNbl [demoPacket 20, demoOversized, demoPacket 40] 1] []) ∧
      ∃ pkts ctx',
        TunQueueDrain 4 (runningCtx [demoNbl [demoPacket 20, demoOversized, demoPacket 40] 1] [])
          = some (pkts, ctx') ∧
        (∀ p ∈ pkts, p.DataLength ≤ TUN_EXCH_MAX_IP_PACKET_SIZE) ∧
        ctx'.FirstNbl = [] ∧
        ctx'.SendComplete.map (fun e => e.1) =
          [{ FirstNb := [demoPacket 20, demoOversized, demoPacket 40]
             Status := NTSTATUS.NDIS_STATUS_INVALID_LENGTH, RefCount := 0, CancelId := 1 }] :=
  ⟨by decide,
   TunQueueRemove_never_oversized.2.2 4
     (runningCtx [demoNbl [demoPacket 20, demoOversized, demoPacket 40] 1] [])
     (by decide) (by decide)⟩

/-- C5 as stated fails: in a batch of three packets whose second is oversized,
the third packet, located after the oversized one, is still returned. -/
theorem TunQueueRemove_batch_not_dropped_counterexample :
    (TunQueueDrain 4 (runningCtx [demoNbl [demoPacket 20, demoOversized, demoPacket 40] 1] [])).map
        (fun r => r.1)
      = some [demoPacket 20, demoPacket 40] := by
  decide

/-- C5 (amended): on a queue of non-empty batches with reference count 1,
`TunQueueRemove` skips exactly the oversized packets: a drain returns the
undelivered packets of valid length, in order, those behind an oversized packet
of the same batch included.  When the oversized packet is the last of its batch,
the batch leaves the queue and is released at once with
`NDIS_STATUS_INVALID_LENGTH`, and removal retries on the rest; when packets
follow it, the batch stays at the head with that status, the cursor moves to the
next packet, nothing is released, and removal retries there. -/
theorem TunQueueRemove_skips_oversized_packet :
    (∀ (fuel : Nat) (ctx : TUN_CTX), QueueOk ctx → (undelivered ctx).length < fuel →
      (TunQueueDrain fuel ctx).map (fun r => r.1)
        = some ((undelivered ctx).filter validLength)) ∧
    (∀ (fuel : Nat) (ctx : TUN_CTX) (b : NET_BUFFER_LIST) (rest : List NET_BUFFER_LIST)
      (p : NET_BUFFER),
      ctx.FirstNbl = b :: rest → b.RefCount = 1 → cursorPackets ctx = [p] →
      p.DataLength > TUN_EXCH_MAX_IP_PACKET_SIZE →
      TunQueueRemove (fuel + 1) ctx =
        TunQueueRemove fuel
          { (TunCompletePause
              { ctx with
                NextNb := []
                FirstNbl := rest
                SendComplete := ctx.SendComplete ++ [released NTSTATUS.NDIS_STATUS_INVALID_LENGTH b]
                NumNbl := ctx.NumNbl - 1 } true).2 with
            Statistics := { ctx.Statistics with
              ifOutDiscards := ctx.Statistics.ifOutDiscards + 1 } }) ∧
    (∀ (fuel : Nat) (ctx : TUN_CTX) (b : NET_BUFFER_LIST) (rest : List NET_BUFFER_LIST)
      (p : NET_BUFFER) (more : List NET_BUFFER),
      ctx.FirstNbl = b :: rest → b.RefCount ≠ 0 → cursorPackets ctx = p :: more → more ≠ [] →
      p.DataLength > TUN_EXCH_MAX_IP_PACKET_SIZE →
      TunQueueRemove (fuel + 1) ctx =
        TunQueueRemove fuel
          { ctx with
            NextNb := more
            FirstNbl := { b with Status := NTSTATUS.NDIS_STATUS_INVALID_LENGTH } :: rest
            Statistics := { ctx.Statistics with
              ifOutDiscards := ctx.Statistics.ifOutDiscards + 1 } }) := by
  refine ⟨?_, ?_, ?_⟩
  · intro fuel ctx hok hlen
    obtain ⟨ctx', h1, _, _⟩ := TunQueueDrain_spec fuel ctx hok hlen
    rw [h1]; rfl
  · intro fuel ctx b rest p hq hrc hc hp
    rw [TunQueueRemove_oversized_last fuel ctx b rest p hq hc hp,
      TunNBLRefDec_one _ _ _ (by simpa using hrc)]
    rfl
  · intro fuel ctx b rest p more hq hrc hc hm hp
    exact TunQueueRemove_oversized_mid fuel ctx b rest p more hq hc hm hrc hp

/-- Witness for C5: the batch whose second packet is oversized. -/
theorem TunQueueRemove_skips_oversized_packet_witness :
    QueueOk (runningCtx [demoNbl [demoPacket 20, demoOversized, demoPacket 40] 1] []) ∧
      (TunQueueDrain 4
          (runningCtx [demoNbl [demoPacket 20, demoOversized, demoPacket 40] 1] [])).map
        (fun r => r.1)
        = some ((undelivered
            (runningCtx [demoNbl [demoPacket 20, demoOversized, demoPacket 40] 1] [])).filter
            validLength) :=
  ⟨by decide,
   TunQueueRemove_skips_oversized_packet.1 4
     (runningCtx [demoNbl [demoPacket 20, demoOversized, demoPacket 40] 1] [])
     (by decide) (by decide)⟩

/-! ## `TunQueueProcess` on deliverable packets: the drain as a function of the
undelivered packets and the pending reads -/

theorem TunWriteIntoIrp_statistics_irrelevant (irp : IRP) (p : NET_BUFFER)
    (st st' : NDIS_STATISTICS_INFO) :
    (TunWriteIntoIrp irp p st).2.1 = (TunWriteIntoIrp irp p st').2.1 := by
  unfold TunWriteIntoIrp
  cases p.Data <;> rfl

theorem TunWriteIntoIrp_success (irp : IRP) (p : NET_BUFFER) (st : NDIS_STATISTICS_INFO)
    (h : p.Data.isSome = true) : NT_SUCCESS (TunWriteIntoIrp irp p st).1 = true := by
  unfold TunWriteIntoIrp
  cases hd : p.Data with
  | none => rw [hd] at h; simp at h
  | some d => rfl

theorem drainSpec_nil (reads : List IRP) : drainSpec [] reads = ([], [], reads) := by
  cases reads <;> simp [drainSpec]

theorem drainSpec_cons_eq (pkts : List NET_BUFFER) (hp : pkts ≠ []) :
    ∀ reads : List IRP,
      drainSpec pkts reads =
        match acceptedReads reads with
        | [] => (rejectedReads reads, pkts, [])
        | r :: rest =>
          (rejectedReads reads ++ (fillIrp r (TunGetIrpBuffer r).2 pkts).1 ::
              (drainSpec (fillIrp r (TunGetIrpBuffer r).2 pkts).2 rest).1,
            (drainSpec (fillIrp r (TunGetIrpBuffer r).2 pkts).2 rest).2) := by
  intro reads
  induction reads with
  | nil => simp [drainSpec, acceptedReads, rejectedReads]
  | cons r reads ih =>
    by_cases hs : NT_SUCCESS (TunGetIrpBuffer r).1 = true
    · simp [drainSpec, hp, hs, acceptedReads, rejectedReads]
    · simp only [Bool.not_eq_true] at hs
      have ha : acceptedReads (r :: reads) = acceptedReads reads := by
        simp [acceptedReads, hs]
      have hr : rejectedReads (r :: reads)
          = { r with Status := (TunGetIrpBuffer r).1 } :: rejectedReads reads := by
        simp [rejectedReads, hs]
      simp only [drainSpec, hp, if_false, hs, Bool.false_eq_true, ha, hr, ih]
      cases acceptedReads reads <;> simp

theorem TunNBLRefInc_refDec_restore (b : NET_BUFFER_LIST) :
    ({ TunNBLRefInc b with RefCount := (TunNBLRefInc b).RefCount - 1 } : NET_BUFFER_LIST) = b := by
  cases b; simp [TunNBLRefInc]

theorem TunNBLRefInc_ne_one (b : NET_BUFFER_LIST) (h : b.RefCount = 1) :
    (TunNBLRefInc b).RefCount ≠ 1 := by
  simp [TunNBLRefInc, h]

/-- Putting back the last packet of a batch that `TunQueueRemove` has unlinked. -/
theorem putback_unlinked (ctx : TUN_CTX) (b : NET_BUFFER_LIST) (nb : List NET_BUFFER) (f : Nat)
    (hrc : b.RefCount = 1) :
    (NblPtr.refDec (TunQueuePrepend ctx nb (NblPtr.unlinked b)).1
        (TunQueuePrepend ctx nb (NblPtr.unlinked b)).2 f).1
      = { ctx with NextNb := nb, FirstNbl := b :: ctx.FirstNbl } := by
  simp only [TunQueuePrepend]
  rw [refDec_first_keep _ (TunNBLRefInc b) ctx.FirstNbl f rfl (TunNBLRefInc_ne_one b hrc)]
  simp [TunNBLRefInc_refDec_restore]

/-- Putting back a packet of the batch that is still the head of the queue. -/
theorem putback_first (ctx : TUN_CTX) (b : NET_BUFFER_LIST) (rest : List NET_BUFFER_LIST)
    (nb : List NET_BUFFER) (f : Nat)
    (hq : ctx.FirstNbl = TunNBLRefInc b :: rest) (hrc : b.RefCount = 1) :
    (NblPtr.refDec (TunQueuePrepend ctx nb NblPtr.first).1
        (TunQueuePrepend ctx nb NblPtr.first).2 f).1
      = { ctx with NextNb := nb, FirstNbl := b :: rest } := by
  simp only [TunQueuePrepend]
  rw [refDec_first_keep { ctx with NextNb := nb } (TunNBLRefInc b) rest f hq
    (TunNBLRefInc_ne_one b hrc)]
  simp [TunNBLRefInc_refDec_restore]

/-- Dropping the reference `TunQueueRemove` took on the head batch. -/
theorem consume_first (ctx : TUN_CTX) (b : NET_BUFFER_LIST) (rest : List NET_BUFFER_LIST)
    (f : Nat) (hq : ctx.FirstNbl = TunNBLRefInc b :: rest) (hrc : b.RefCount = 1) :
    (NblPtr.refDec ctx NblPtr.first f).1 = { ctx with FirstNbl := b :: rest } := by
  rw [refDec_first_keep _ (TunNBLRefInc b) rest f hq (TunNBLRefInc_ne_one b hrc)]
  simp [TunNBLRefInc_refDec_restore]

theorem fillIrp_wontfit (i : IRP) (size : Nat) (p : NET_BUFFER) (ps : List NET_BUFFER)
    (hw : TunWontFitIntoIrp i size p = true) :
    fillIrp i size (p :: ps) = ({ i with Status := NTSTATUS.STATUS_SUCCESS }, p :: ps) := by
  simp [fillIrp, hw]

theorem fillIrp_fits (i : IRP) (size : Nat) (p : NET_BUFFER) (ps : List NET_BUFFER)
    (st : NDIS_STATISTICS_INFO) (hw : TunWontFitIntoIrp i size p = false) :
    fillIrp i size (p :: ps) = fillIrp (TunWriteIntoIrp i p st).2.1 size ps := by
  simp only [fillIrp, hw, Bool.false_eq_true, if_false]
  rw [TunWriteIntoIrp_statistics_irrelevant i p zeroStatistics st]

/-- One pass of the loop of `TunQueueProcess` from the call of `TunQueueRemove`
on, when the packet at the cursor is deliverable: what `TunQueueRemove` returns,
what putting the packet back restores, and, when a request is at hand, the
request still in progress and the four fields of the context the drain depends
on.  `R` and `C` are the read-request list and the completion log at the time
lines 541-582 run. -/
theorem TunQueueProcess_pass (fuel : Nat) (ctx : TUN_CTX) (b : NET_BUFFER_LIST)
    (rest : List NET_BUFFER_LIST) (p : NET_BUFFER) (more : List NET_BUFFER)
    (hq : ctx.FirstNbl = b :: rest) (hrc : b.RefCount = 1)
    (hc : cursorPackets ctx = p :: more) (hp : deliverable p = true) :
    ∃ nbl ctx1, TunQueueRemove (fuel + 1) ctx = some (p :: more, nbl, ctx1) ∧
      ctx1.ReadQueue = ctx.ReadQueue ∧ ctx1.IrpComplete = ctx.IrpComplete ∧
      ∀ (R C : List IRP),
      (∀ f, (NblPtr.refDec (TunQueuePrepend { ctx1 with ReadQueue := R, IrpComplete := C }
              (p :: more) nbl).1
            (TunQueuePrepend { ctx1 with ReadQueue := R, IrpComplete := C } (p :: more) nbl).2 f).1
          = { ctx with NextNb := p :: more, ReadQueue := R, IrpComplete := C }) ∧
      ∀ (i : IRP) (size : Nat), ∃ ctx3 irp3,
        TunQueueProcessStep { ctx1 with ReadQueue := R, IrpComplete := C } i size (p :: more) nbl
          = (ctx3, irp3) ∧
        ctx3.ReadQueue = R ∧
        (TunWontFitIntoIrp i size p = true →
          irp3 = none ∧ ctx3.FirstNbl = b :: rest ∧ ctx3.NextNb = p :: more ∧
          ctx3.IrpComplete = C ++ [{ i with Status := NTSTATUS.STATUS_SUCCESS }]) ∧
        (TunWontFitIntoIrp i size p = false →
          irp3 = some ((TunWriteIntoIrp i p zeroStatistics).2.1, size) ∧
          ctx3.FirstNbl = (if more = [] then rest else b :: rest) ∧ ctx3.NextNb = more ∧
          ctx3.IrpComplete = C) := by
  have hv : p.DataLength ≤ TUN_EXCH_MAX_IP_PACKET_SIZE := by
    simp [deliverable, validLength] at hp; exact hp.1
  have hd : p.Data.isSome = true := by
    simp [deliverable] at hp; exact hp.2
  by_cases hm : more = []
  · subst hm
    refine ⟨NblPtr.unlinked b, _, TunQueueRemove_valid_last fuel ctx b rest p hq hc hv,
      rfl, rfl, ?_⟩
    intro R C
    refine ⟨?_, ?_⟩
    · intro f
      rw [putback_unlinked _ _ _ _ hrc]
      simp [hq]
    · intro i size
      by_cases hw : TunWontFitIntoIrp i size p = true
      · rw [TunQueueProcessStep_wontfit _ _ _ _ _ _ hw, putback_unlinked _ _ _ _ hrc]
        refine ⟨_, _, rfl, rfl, ?_, ?_⟩
        · intro _; simp
        · intro h; rw [hw] at h; simp at h
      · simp only [Bool.not_eq_true] at hw
        rw [TunQueueProcessStep_copied _ _ _ _ _ _ hw (TunWriteIntoIrp_success _ _ _ hd),
          refDec_unlinked_one _ _ _ hrc]
        refine ⟨_, _, rfl, by simp, ?_, ?_⟩
        · intro h; rw [hw] at h; simp at h
        · intro _
          refine ⟨?_, by simp, by simp, by simp⟩
          rw [TunWriteIntoIrp_statistics_irrelevant i p _ zeroStatistics]
  · refine ⟨NblPtr.first, _, TunQueueRemove_valid_mid fuel ctx b rest p more hq hc hm hv,
      rfl, rfl, ?_⟩
    intro R C
    refine ⟨?_, ?_⟩
    · intro f
      rw [putback_first _ b rest _ _ rfl hrc]
      simp [hq]
    · intro i size
      by_cases hw : TunWontFitIntoIrp i size p = true
      · rw [TunQueueProcessStep_wontfit _ _ _ _ _ _ hw, putback_first _ b rest _ _ rfl hrc]
        refine ⟨_, _, rfl, rfl, ?_, ?_⟩
        · intro _; simp
        · intro h; rw [hw] at h; simp at h
      · simp only [Bool.not_eq_true] at hw
        rw [TunQueueProcessStep_copied _ _ _ _ _ _ hw (TunWriteIntoIrp_success _ _ _ hd),
          consume_first _ b rest _ rfl hrc]
        refine ⟨_, _, rfl, by simp, ?_, ?_⟩
        · intro h; rw [hw] at h; simp at h
        · intro _
          refine ⟨?_, by simp [hm], by simp, by simp⟩
          rw [TunWriteIntoIrp_statistics_irrelevant i p _ zeroStatistics]

/-- The claim `TunQueueProcessLoop` is proved to satisfy, for a given fuel. -/
theorem TunQueueProcessLoop_continue (fuel : Nat)
    (ih : ∀ (ctx : TUN_CTX) (irp : Option (IRP × Nat)), QueueOk ctx →
      (∀ p ∈ undelivered ctx, deliverable p = true) →
      (undelivered ctx).length + ctx.ReadQueue.length + (if irp.isSome then 1 else 0) < fuel →
      ∃ ctx', TunQueueProcessLoop fuel ctx irp = some ctx' ∧ QueueOk ctx' ∧
        ctx'.IrpComplete = ctx.IrpComplete ++ (drainSpecFrom irp (undelivered ctx) ctx.ReadQueue).1 ∧
        undelivered ctx' = (drainSpecFrom irp (undelivered ctx) ctx.ReadQueue).2.1 ∧
        ctx'.ReadQueue = (drainSpecFrom irp (undelivered ctx) ctx.ReadQueue).2.2)
    (b : NET_BUFFER_LIST) (rest : List NET_BUFFER_LIST) (p : NET_BUFFER) (more : List NET_BUFFER)
    (hb : b.FirstNb ≠ [] ∧ b.RefCount = 1) (hrest : ∀ x ∈ rest, x.FirstNb ≠ [] ∧ x.RefCount = 1)
    (hdel : ∀ q ∈ (p :: more) ++ (rest.map (fun b => b.FirstNb)).flatten, deliverable q = true)
    (ctx3 : TUN_CTX) (irp3 : Option (IRP × Nat)) (R C : List IRP) (i : IRP) (size : Nat)
    (h1 : ctx3.ReadQueue = R)
    (h2 : TunWontFitIntoIrp i size p = true →
          irp3 = none ∧ ctx3.FirstNbl = b :: rest ∧ ctx3.NextNb = p :: more ∧
          ctx3.IrpComplete = C ++ [{ i with Status := NTSTATUS.STATUS_SUCCESS }])
    (h3 : TunWontFitIntoIrp i size p = false →
          irp3 = some ((TunWriteIntoIrp i p zeroStatistics).2.1, size) ∧
          ctx3.FirstNbl = (if more = [] then rest else b :: rest) ∧ ctx3.NextNb = more ∧
          ctx3.IrpComplete = C)
    (hm : ((p :: more) ++ (rest.map (fun b => b.FirstNb)).flatten).length + R.length < fuel) :
    ∃ ctx', TunQueueProcessLoop fuel ctx3 irp3 = some ctx' ∧ QueueOk ctx' ∧
      ctx'.IrpComplete = C ++ (drainSpecFrom (some (i, size))
        ((p :: more) ++ (rest.map (fun b => b.FirstNb)).flatten) R).1 ∧
      undelivered ctx' = (drainSpecFrom (some (i, size))
        ((p :: more) ++ (rest.map (fun b => b.FirstNb)).flatten) R).2.1 ∧
      ctx'.ReadQueue = (drainSpecFrom (some (i, size))
        ((p :: more) ++ (rest.map (fun b => b.FirstNb)).flatten) R).2.2 := by
  by_cases hw : TunWontFitIntoIrp i size p = true
  · obtain ⟨e1, e2, e3, e4⟩ := h2 hw
    subst e1
    have hU : undelivered ctx3 = (p :: more) ++ (rest.map (fun b => b.FirstNb)).flatten := by
      simp [undelivered, e2, e3, undeliveredOf_set]
    have hok3 : QueueOk ctx3 := by
      intro x hx; rw [e2] at hx
      simp only [List.mem_cons] at hx
      rcases hx with hx | hx
      · subst hx; exact hb
      · exact hrest x hx
    obtain ⟨ctx', i1, i2, i3, i4, i5⟩ := ih ctx3 none hok3 (by rw [hU]; exact hdel)
      (by rw [hU, h1]; simpa using hm)
    refine ⟨ctx', i1, i2, ?_, ?_, ?_⟩
    · rw [i3, hU, h1, e4]
      simp [drainSpecFrom, fillIrp_wontfit _ _ _ _ hw]
    · rw [i4, hU, h1]
      simp [drainSpecFrom, fillIrp_wontfit _ _ _ _ hw]
    · rw [i5, hU, h1]
      simp [drainSpecFrom, fillIrp_wontfit _ _ _ _ hw]
  · simp only [Bool.not_eq_true] at hw
    obtain ⟨e1, e2, e3, e4⟩ := h3 hw
    subst e1
    have hU : undelivered ctx3 = more ++ (rest.map (fun b => b.FirstNb)).flatten := by
      by_cases hmore : more = []
      · simp [undelivered, e2, e3, hmore, undeliveredOf_unset]
      · simp [undelivered, e2, e3, hmore, undeliveredOf_set]
    have hok3 : QueueOk ctx3 := by
      intro x hx; rw [e2] at hx
      by_cases hmore : more = []
      · simp only [hmore, if_true] at hx; exact hrest x hx
      · simp only [hmore, if_false, List.mem_cons] at hx
        rcases hx with hx | hx
        · subst hx; exact hb
        · exact hrest x hx
    obtain ⟨ctx', i1, i2, i3, i4, i5⟩ := ih ctx3
      (some ((TunWriteIntoIrp i p zeroStatistics).2.1, size)) hok3
      (by rw [hU]; intro q hq; exact hdel q (by simp at hq ⊢; tauto))
      (by rw [hU, h1]; simp at hm ⊢; omega)
    refine ⟨ctx', i1, i2, ?_, ?_, ?_⟩
    · rw [i3, hU, h1, e4]
      simp [drainSpecFrom, fillIrp_fits _ _ _ _ zeroStatistics hw]
    · rw [i4, hU, h1]
      simp [drainSpecFrom, fillIrp_fits _ _ _ _ zeroStatistics hw]
    · rw [i5, hU, h1]
      simp [drainSpecFrom, fillIrp_fits _ _ _ _ zeroStatistics hw]

theorem acceptedReads_length_le (l : List IRP) : (acceptedReads l).length ≤ l.length :=
  (List.dropWhile_sublist _).length_le

theorem TUN_CTX_eta_reads (ctx : TUN_CTX) :
    ({ ctx with ReadQueue := ctx.ReadQueue, IrpComplete := ctx.IrpComplete } : TUN_CTX) = ctx := rfl

theorem TunQueueProcessLoop_spec :
    ∀ (fuel : Nat) (ctx : TUN_CTX) (irp : Option (IRP × Nat)), QueueOk ctx →
      (∀ p ∈ undelivered ctx, deliverable p = true) →
      (undelivered ctx).length + ctx.ReadQueue.length + (if irp.isSome then 1 else 0) < fuel →
      ∃ ctx', TunQueueProcessLoop fuel ctx irp = some ctx' ∧ QueueOk ctx' ∧
        ctx'.IrpComplete = ctx.IrpComplete ++ (drainSpecFrom irp (undelivered ctx) ctx.ReadQueue).1 ∧
        undelivered ctx' = (drainSpecFrom irp (undelivered ctx) ctx.ReadQueue).2.1 ∧
        ctx'.ReadQueue = (drainSpecFrom irp (undelivered ctx) ctx.ReadQueue).2.2 := by
  intro fuel
  induction fuel with
  | zero => intro ctx irp _ _ h; simp at h
  | succ fuel ih =>
    intro ctx irp hok hdel hm
    have hcases : ctx.FirstNbl = [] ∨ ∃ b rest, ctx.FirstNbl = b :: rest := by
      cases ctx.FirstNbl <;> simp
    rcases hcases with hq | ⟨b, rest, hq⟩
    · have hU : undelivered ctx = [] := by simp [undelivered, hq, undeliveredOf]
      have hR := TunQueueRemove_nil fuel ctx hq
      cases irp with
      | none =>
        refine ⟨ctx, ?_, hok, ?_, ?_, ?_⟩
        · simp only [TunQueueProcessLoop, hR]
        · simp [drainSpecFrom, hU, drainSpec_nil]
        · simp [drainSpecFrom, hU, drainSpec_nil]
        · simp [drainSpecFrom, hU, drainSpec_nil]
      | some is =>
        obtain ⟨i, size⟩ := is
        have hstep : TunQueueProcessLoop (fuel + 1) ctx (some (i, size))
            = TunQueueProcessLoop fuel
                { ctx with IrpComplete :=
                    ctx.IrpComplete ++ [{ i with Status := NTSTATUS.STATUS_SUCCESS }] } none := by
          simp only [TunQueueProcessLoop, hR, TunQueueProcessStep_nil, refDec_null]
        obtain ⟨ctx', i1, i2, i3, i4, i5⟩ := ih
          { ctx with IrpComplete :=
              ctx.IrpComplete ++ [{ i with Status := NTSTATUS.STATUS_SUCCESS }] } none
          hok hdel (by
            have : undelivered { ctx with IrpComplete :=
              ctx.IrpComplete ++ [{ i with Status := NTSTATUS.STATUS_SUCCESS }] }
                = undelivered ctx := rfl
            rw [this]
            simp at hm ⊢; omega)
        have hU' : undelivered { ctx with IrpComplete :=
              ctx.IrpComplete ++ [{ i with Status := NTSTATUS.STATUS_SUCCESS }] } = [] := hU
        rw [hU'] at i3 i4 i5
        refine ⟨ctx', by rw [hstep]; exact i1, i2, ?_, ?_, ?_⟩
        · rw [i3]; simp [drainSpecFrom, hU, drainSpec_nil, fillIrp]
        · rw [i4]; simp [drainSpecFrom, hU, drainSpec_nil, fillIrp]
        · rw [i5]; simp [drainSpecFrom, hU, drainSpec_nil, fillIrp]
    · have hb : b.FirstNb ≠ [] ∧ b.RefCount = 1 := hok b (by rw [hq]; exact List.mem_cons_self _ _)
      have hrest : ∀ x ∈ rest, x.FirstNb ≠ [] ∧ x.RefCount = 1 :=
        fun x hx => hok x (by rw [hq]; exact List.mem_cons_of_mem _ hx)
      have hcne : cursorPackets ctx ≠ [] := by
        unfold cursorPackets; rw [hq]; exact cursorOf_ne_nil b rest _ hb.1
      have hcases2 : ∃ p more, cursorPackets ctx = p :: more := by
        cases h : cursorPackets ctx with
        | nil => exact absurd h hcne
        | cons p more => exact ⟨p, more, rfl⟩
      obtain ⟨p, more, hc⟩ := hcases2
      have hc' : cursorOf (b :: rest) ctx.NextNb = p :: more := by
        rw [← hq]; exact hc
      have hund : undelivered ctx = (p :: more) ++ (rest.map (fun b => b.FirstNb)).flatten := by
        unfold undelivered; rw [hq, undeliveredOf_cons, hc']
      have hp : deliverable p = true := hdel p (by rw [hund]; simp)
      have hdel' : ∀ q ∈ (p :: more) ++ (rest.map (fun b => b.FirstNb)).flatten,
          deliverable q = true := by rw [← hund]; exact hdel
      obtain ⟨nbl, ctx1, hR, hr1, hr2, hpass⟩ :=
        TunQueueProcess_pass fuel ctx b rest p more hq hb.2 hc hp
      cases irp with
      | none =>
        have hnext : TunRemoveNextIrp ctx1 =
            ((match acceptedReads ctx.ReadQueue with
              | [] => none
              | i :: _ => some (i, (TunGetIrpBuffer i).2)),
             { ctx1 with
               ReadQueue := (acceptedReads ctx.ReadQueue).tail
               IrpComplete := ctx.IrpComplete ++ rejectedReads ctx.ReadQueue }) := by
          rw [TunRemoveNextIrp, TunRemoveNextIrpLoop_eq, hr1, hr2]
        have hspec := drainSpec_cons_eq ((p :: more) ++ (rest.map (fun b => b.FirstNb)).flatten)
          (by simp) ctx.ReadQueue
        cases ha : acceptedReads ctx.ReadQueue with
        | nil =>
          rw [ha] at hnext hspec
          obtain ⟨hput, _⟩ := hpass [] (ctx.IrpComplete ++ rejectedReads ctx.ReadQueue)
          refine ⟨({ ctx with
                    NextNb := p :: more
                    ReadQueue := ([] : List IRP)
                    IrpComplete := ctx.IrpComplete ++ rejectedReads ctx.ReadQueue } : TUN_CTX),
                  ?_, ?_, ?_, ?_, ?_⟩
          · simp only [TunQueueProcessLoop, hR, hnext, refDec_if, List.tail_nil]
            rw [hput 0]
          · exact hok
          · simp only [drainSpecFrom, hund, hspec]
          · simp only [drainSpecFrom, hund, hspec]
            simp [undelivered, hq, undeliveredOf_set]
          · simp only [drainSpecFrom, hund, hspec]
        | cons r rr =>
          rw [ha] at hnext hspec
          obtain ⟨_, hstep⟩ := hpass rr (ctx.IrpComplete ++ rejectedReads ctx.ReadQueue)
          obtain ⟨ctx3, irp3, s0, s1, s2, s3⟩ := hstep r (TunGetIrpBuffer r).2
          have hlen : rr.length < ctx.ReadQueue.length := by
            have := acceptedReads_length_le ctx.ReadQueue
            rw [ha] at this; simp at this; omega
          obtain ⟨ctx', i1, i2, i3, i4, i5⟩ := TunQueueProcessLoop_continue fuel ih b rest p more
            hb hrest hdel' ctx3 irp3 rr (ctx.IrpComplete ++ rejectedReads ctx.ReadQueue)
            r (TunGetIrpBuffer r).2 s1 s2 s3
            (by rw [hund] at hm; simp at hm ⊢; omega)
          refine ⟨ctx', ?_, i2, ?_, ?_, ?_⟩
          · simp only [TunQueueProcessLoop, hR, hnext, List.tail_cons, s0]
            exact i1
          · rw [i3]; simp only [drainSpecFrom, hund, hspec]; simp
          · rw [i4]; simp only [drainSpecFrom, hund, hspec]
          · rw [i5]; simp only [drainSpecFrom, hund, hspec]
      | some is =>
        obtain ⟨i, size⟩ := is
        obtain ⟨_, hstep⟩ := hpass ctx.ReadQueue ctx.IrpComplete
        obtain ⟨ctx3, irp3, s0, s1, s2, s3⟩ := hstep i size
        have heta : ({ ctx1 with ReadQueue := ctx.ReadQueue, IrpComplete := ctx.IrpComplete }
            : TUN_CTX) = ctx1 := by
          rw [← hr1, ← hr2]
        rw [heta] at s0
        obtain ⟨ctx', i1, i2, i3, i4, i5⟩ := TunQueueProcessLoop_continue fuel ih b rest p more
          hb hrest hdel' ctx3 irp3 ctx.ReadQueue ctx.IrpComplete i size s1 s2 s3
          (by rw [hund] at hm; simp at hm ⊢; omega)
        refine ⟨ctx', ?_, i2, ?_, ?_, ?_⟩
        · simp only [TunQueueProcessLoop, hR, s0]
          exact i1
        · rw [i3, hund]
        · rw [i4, hund]
        · rw [i5, hund]

/-! ## Properties of the drain (C1) -/

theorem TunWriteIntoIrp_key (i : IRP) (p : NET_BUFFER) (st : NDIS_STATISTICS_INFO) :
    (TunWriteIntoIrp i p st).2.1.key = i.key := by
  unfold TunWriteIntoIrp
  cases p.Data <;> rfl

theorem fillIrp_spec (size : Nat) :
    ∀ (pkts : List NET_BUFFER) (i : IRP), (∀ p ∈ pkts, p.Data.isSome = true) →
      ∃ taken, pkts = taken ++ (fillIrp i size pkts).2 ∧
        (fillIrp i size pkts).1.Copied = i.Copied ++ taken ∧
        (fillIrp i size pkts).1.Status = NTSTATUS.STATUS_SUCCESS ∧
        (fillIrp i size pkts).1.key = i.key := by
  intro pkts
  induction pkts with
  | nil => intro i _; exact ⟨[], by simp [fillIrp], by simp [fillIrp], rfl, rfl⟩
  | cons p ps ih =>
    intro i h
    by_cases hw : TunWontFitIntoIrp i size p = true
    · rw [fillIrp_wontfit _ _ _ _ hw]
      exact ⟨[], by simp, by simp, rfl, rfl⟩
    · simp only [Bool.not_eq_true] at hw
      rw [fillIrp_fits _ _ _ _ zeroStatistics hw]
      obtain ⟨taken, h1, h2, h3, h4⟩ := ih (TunWriteIntoIrp i p zeroStatistics).2.1
        (fun q hq => h q (List.mem_cons_of_mem _ hq))
      have hc := TunWriteIntoIrp_Copied i p zeroStatistics
      rw [TunWriteIntoIrp_success i p zeroStatistics (h p (List.mem_cons_self _ _))] at hc
      simp only [if_true] at hc
      refine ⟨p :: taken, ?_, ?_, h3, ?_⟩
      · rw [List.cons_append, ← h1]
      · rw [h2, hc]; simp
      · rw [h4, TunWriteIntoIrp_key]

theorem drainSpec_spec :
    ∀ (reads : List IRP) (pkts : List NET_BUFFER), (∀ p ∈ pkts, p.Data.isSome = true) →
      (∀ r ∈ reads, r.Copied = []) →
      ((drainSpec pkts reads).1.map (fun i => i.Copied)).flatten ++ (drainSpec pkts reads).2.1
        = pkts ∧
      (drainSpec pkts reads).2.2 = reads.drop (drainSpec pkts reads).1.length ∧
      (drainSpec pkts reads).1.map IRP.key
        = (reads.take (drainSpec pkts reads).1.length).map IRP.key := by
  intro reads
  induction reads with
  | nil => intro pkts _ _; simp [drainSpec]
  | cons r reads ih =>
    intro pkts hp hr
    have hr' : ∀ x ∈ reads, x.Copied = [] := fun x hx => hr x (List.mem_cons_of_mem _ hx)
    have hr0 : r.Copied = [] := hr r (List.mem_cons_self _ _)
    by_cases hn : pkts = []
    · subst hn; simp [drainSpec]
    · by_cases hs : NT_SUCCESS (TunGetIrpBuffer r).1 = true
      · obtain ⟨taken, f1, f2, _, f4⟩ := fillIrp_spec (TunGetIrpBuffer r).2 pkts r hp
        have hp2 : ∀ p ∈ (fillIrp r (TunGetIrpBuffer r).2 pkts).2, p.Data.isSome = true := by
          intro q hq
          exact hp q (by rw [f1]; exact List.mem_append_right _ hq)
        obtain ⟨i1, i2, i3⟩ := ih (fillIrp r (TunGetIrpBuffer r).2 pkts).2 hp2 hr'
        simp only [drainSpec, hn, if_false, hs, if_true, List.map_cons, List.flatten_cons,
          List.length_cons, List.drop_succ_cons, List.take_succ_cons]
        refine ⟨?_, i2, ?_⟩
        · rw [List.append_assoc, i1, f2, hr0, List.nil_append]
          exact f1.symm
        · rw [i3, f4]
      · simp only [Bool.not_eq_true] at hs
        obtain ⟨i1, i2, i3⟩ := ih pkts hp hr'
        simp only [drainSpec, hn, if_false, hs, Bool.false_eq_true, List.map_cons,
          List.flatten_cons, List.length_cons, List.drop_succ_cons, List.take_succ_cons]
        refine ⟨?_, i2, ?_⟩
        · rw [hr0, List.nil_append]; exact i1
        · rw [i3]; rfl

theorem filter_validLength_of_deliverable (l : List NET_BUFFER)
    (h : ∀ p ∈ l, deliverable p = true) : l.filter validLength = l := by
  apply List.filter_eq_self.mpr
  intro p hp
  have := h p hp
  simp [deliverable] at this
  exact this.1

theorem isSome_of_deliverable (l : List NET_BUFFER)
    (h : ∀ p ∈ l, deliverable p = true) : ∀ p ∈ l, p.Data.isSome = true := by
  intro p hp
  have := h p hp
  simp [deliverable] at this
  exact this.2

theorem undelivered_of_cursor (ctx : TUN_CTX) (hc : CursorInHead ctx) :
    ∃ pre, pre ++ undelivered ctx = (ctx.FirstNbl.map (fun b => b.FirstNb)).flatten ∧
      (ctx.NextNb = [] → pre = []) := by
  unfold CursorInHead at hc
  cases hq : ctx.FirstNbl with
  | nil => exact ⟨[], by simp [undelivered, undeliveredOf, hq], fun _ => rfl⟩
  | cons b rest =>
    rw [hq] at hc
    by_cases hn : ctx.NextNb = []
    · exact ⟨[], by simp [undelivered, undeliveredOf, cursorOf, hq, hn], fun _ => rfl⟩
    · obtain ⟨t, ht⟩ := hc
      refine ⟨t, ?_, fun h => absurd h hn⟩
      have ht' : t ++ ctx.NextNb = b.FirstNb := ht
      simp only [undelivered, undeliveredOf, cursorOf, hq, hn, if_false, List.map_cons,
        List.flatten_cons]
      rw [← List.append_assoc, ht']

/-- The delivery order on a queue whose cursor lies in the head batch: on a queue
of non-empty batches with reference count 1 whose cursor is unset or points into
the head batch, whose undelivered packets (those of the head batch from the
cursor on, then those of the batches behind it) all have a valid length and can
all be copied, and with pending reads into which nothing has been copied yet,
`TunQueueProcess` returns, and the packets copied into the reads it completed,
concatenated in completion order, followed by the packets `TunQueueRemove`
still yields afterwards, are the undelivered packets of the queue.  The
completed reads are the first reads of the read-request queue, in queue order;
the others stay queued. -/
theorem TunQueueProcess_preserves_order (fuel : Nat) (ctx : TUN_CTX)
    (hok : QueueOk ctx) (hcur : CursorInHead ctx)
    (hdel : ∀ p ∈ undelivered ctx, deliverable p = true)
    (hfresh : ∀ r ∈ ctx.ReadQueue, r.Copied = [])
    (hfuel : (undelivered ctx).length + ctx.ReadQueue.length < fuel) :
    ∃ ctx' done orig rest c1 c2 pre,
      TunQueueProcess fuel ctx = some ctx' ∧
      ctx'.IrpComplete = ctx.IrpComplete ++ done ∧
      pre ++ orig = (ctx.FirstNbl.map (fun b => b.FirstNb)).flatten ∧
      (ctx.NextNb = [] → pre = []) ∧
      TunQueueDrain fuel ctx = some (orig, c1) ∧
      TunQueueDrain fuel ctx' = some (rest, c2) ∧
      (done.map (fun i => i.Copied)).flatten ++ rest = orig ∧
      ctx'.ReadQueue = ctx.ReadQueue.drop done.length ∧
      done.map IRP.key = (ctx.ReadQueue.take done.length).map IRP.key := by
  obtain ⟨ctx', h1, h2, h3, h4, h5⟩ := TunQueueProcessLoop_spec fuel ctx none hok hdel
    (by simpa using hfuel)
  simp only [drainSpecFrom] at h3 h4 h5
  obtain ⟨d1, d2, d3⟩ := drainSpec_spec ctx.ReadQueue (undelivered ctx)
    (isSome_of_deliverable _ hdel) hfresh
  have hsub : ∀ p ∈ undelivered ctx', p ∈ undelivered ctx := by
    intro p hp
    rw [← d1]
    exact List.mem_append_right _ (by rw [← h4]; exact hp)
  have hlen : (undelivered ctx').length ≤ (undelivered ctx).length := by
    have := congrArg List.length d1
    rw [List.length_append, ← h4] at this
    omega
  obtain ⟨c1, o1, _, _⟩ := TunQueueDrain_spec fuel ctx hok (by omega)
  obtain ⟨c2, o2, _, _⟩ := TunQueueDrain_spec fuel ctx' h2 (by omega)
  rw [filter_validLength_of_deliverable _ hdel] at o1
  rw [filter_validLength_of_deliverable _ (fun p hp => hdel p (hsub p hp))] at o2
  obtain ⟨pre, e1, e2⟩ := undelivered_of_cursor ctx hcur
  refine ⟨ctx', (drainSpec (undelivered ctx) ctx.ReadQueue).1, undelivered ctx, undelivered ctx',
    c1, c2, pre, h1, h3, e1, e2, o1, o2, ?_, ?_, d3⟩
  · rw [h4]; exact d1
  · rw [h5]; exact d2

/-- The delivery order at a batch of two packets and one pending read. -/
theorem TunQueueProcess_preserves_order_witness :
    QueueOk (runningCtx [demoNbl [demoPacket 20, demoPacket 40] 1] [demoRead 1 0xF000]) ∧
      ∃ ctx' done orig rest c1 c2 pre,
        TunQueueProcess 4 (runningCtx [demoNbl [demoPacket 20, demoPacket 40] 1] [demoRead 1 0xF000])
          = some ctx' ∧
        ctx'.IrpComplete = [] ++ done ∧
        pre ++ orig = [demoPacket 20, demoPacket 40] ∧
        ([] = ([] : List NET_BUFFER) → pre = []) ∧
        TunQueueDrain 4 (runningCtx [demoNbl [demoPacket 20, demoPacket 40] 1] [demoRead 1 0xF000])
          = some (orig, c1) ∧
        TunQueueDrain 4 ctx' = some (rest, c2) ∧
        (done.map (fun i => i.Copied)).flatten ++ rest = orig ∧
        ctx'.ReadQueue = [demoRead 1 0xF000].drop done.length ∧
        done.map IRP.key = ([demoRead 1 0xF000].take done.length).map IRP.key :=
  ⟨by decide,
   TunQueueProcess_preserves_order 4
     (runningCtx [demoNbl [demoPacket 20, demoPacket 40] 1] [demoRead 1 0xF000])
     (by decide) (by decide) (by decide) (by decide) (by decide)⟩

/-! ## Exchange framing: `TunPacketAlign` and the records `TunWriteIntoIrp` writes -/

theorem land_align_mask (x : Nat) (hx : x < 2 ^ 32) : x &&& (2 ^ 32 - 1 - 15) = x / 16 * 16 := by
  apply Nat.eq_of_testBit_eq
  intro i
  have hm : (2 ^ 32 - 1 - 15 : Nat) = (2 ^ 28 - 1) <<< 4 := by decide
  have hr : x / 16 * 16 = (x >>> 4) <<< 4 := by
    rw [Nat.shiftRight_eq_div_pow, Nat.shiftLeft_eq]
  rw [hm, hr, Nat.testBit_and, Nat.testBit_shiftLeft, Nat.testBit_shiftLeft,
    Nat.testBit_shiftRight, Nat.testBit_two_pow_sub_one]
  by_cases h4 : 4 ≤ i
  · have e : 4 + (i - 4) = i := by omega
    rw [e]
    by_cases h32 : i < 32
    · have : i - 4 < 28 := by omega
      simp [h4, this]
    · have hlt : x < 2 ^ i := lt_of_lt_of_le hx (Nat.pow_le_pow_right (by norm_num) (by omega))
      simp [Nat.testBit_lt_two_pow hlt]
  · simp [h4]

theorem TunPacketAlign_eq (n : Nat) (h : n + 15 < 2 ^ 32) :
    TunPacketAlign n = (n + 15) / 16 * 16 := by
  unfold TunPacketAlign TUN_EXCH_ALIGNMENT
  have h1 : n % 2 ^ 32 = n := Nat.mod_eq_of_lt (by omega)
  have h2 : (n + (16 - 1)) % 2 ^ 32 = n + 15 := Nat.mod_eq_of_lt (by omega)
  rw [h1, h2]
  exact land_align_mask (n + 15) h

theorem TunPacketAlign_bounds (n : Nat) (h : n + 15 < 2 ^ 32) :
    n ≤ TunPacketAlign n ∧ TunPacketAlign n < n + 16 ∧ TunPacketAlign n % 16 = 0 := by
  rw [TunPacketAlign_eq n h]
  omega

theorem TunPacketAlign_record (s : Nat) (h : s ≤ TUN_EXCH_MAX_IP_PACKET_SIZE) :
    sizeof_TUN_PACKET + s ≤ TunPacketAlign (sizeof_TUN_PACKET + s) ∧
    sizeof_TUN_PACKET ≤ TunPacketAlign (sizeof_TUN_PACKET + s) ∧
    TunPacketAlign (sizeof_TUN_PACKET + s) ≤ TUN_EXCH_MAX_PACKET_SIZE := by
  simp only [TUN_EXCH_MAX_IP_PACKET_SIZE, TUN_EXCH_MAX_PACKET_SIZE, sizeof_TUN_PACKET] at h ⊢
  rw [TunPacketAlign_eq (16 + s) (by omega)]
  omega

theorem readULONG_writeULONG (buf : Nat → Nat) (off v : Nat) (hv : v < 2 ^ 32) :
    readULONG (writeULONG buf off v) off = v := by
  simp only [readULONG, writeULONG]
  have e0 : (off ≤ off ∧ off < off + 4) := by omega
  have e1 : (off ≤ off + 1 ∧ off + 1 < off + 4) := by omega
  have e2 : (off ≤ off + 2 ∧ off + 2 < off + 4) := by omega
  have e3 : (off ≤ off + 3 ∧ off + 3 < off + 4) := by omega
  simp only [e0, e1, e2, e3, and_self, if_true, Nat.sub_self, Nat.add_sub_cancel_left,
    Nat.mod_mod, pow_zero, pow_one, Nat.div_one]
  norm_num
  omega

theorem readULONG_congr (buf buf' : Nat → Nat) (off : Nat)
    (h : ∀ a, off ≤ a → a < off + 4 → buf a = buf' a) :
    readULONG buf off = readULONG buf' off := by
  simp only [readULONG]
  rw [h off (by omega) (by omega), h (off + 1) (by omega) (by omega),
    h (off + 2) (by omega) (by omega), h (off + 3) (by omega) (by omega)]

theorem framed_congr (buf buf' : Nat → Nat) :
    ∀ (ps : List NET_BUFFER) (off : Nat),
      (∀ p ∈ ps, p.DataLength ≤ TUN_EXCH_MAX_IP_PACKET_SIZE) →
      (∀ a, off ≤ a → a < off + framedSize ps → buf a = buf' a) →
      framed buf off ps → framed buf' off ps := by
  intro ps
  induction ps with
  | nil => intro off _ _ _; trivial
  | cons p ps ih =>
    intro off hv h hf
    obtain ⟨hr, hrest⟩ := hf
    have hp := TunPacketAlign_record p.DataLength (hv p (List.mem_cons_self _ _))
    simp only [framedSize] at h
    refine ⟨?_, ih _ (fun q hq => hv q (List.mem_cons_of_mem _ hq)) ?_ hrest⟩
    · obtain ⟨h1, d, h2, h3⟩ := hr
      refine ⟨?_, d, h2, ?_⟩
      · rw [← h1]
        have h16 : sizeof_TUN_PACKET = 16 := rfl
        exact (readULONG_congr buf buf' off (fun a ha hb => h a ha (by omega))).symm
      · intro k hk
        rw [← h3 k hk]
        exact (h _ (by omega) (by omega)).symm
    · intro a ha hb
      exact h a (by omega) (by omega)

theorem framed_append (buf : Nat → Nat) :
    ∀ (ps qs : List NET_BUFFER) (off : Nat),
      framed buf off (ps ++ qs) ↔ framed buf off ps ∧ framed buf (off + framedSize ps) qs := by
  intro ps
  induction ps with
  | nil => intro qs off; simp [framed, framedSize]
  | cons p ps ih =>
    intro qs off
    show (recordAt buf off p ∧
        framed buf (off + TunPacketAlign (sizeof_TUN_PACKET + p.DataLength)) (ps ++ qs)) ↔ _
    rw [ih]
    simp only [framed, framedSize, and_assoc, Nat.add_assoc]

theorem framedSize_append (ps qs : List NET_BUFFER) :
    framedSize (ps ++ qs) = framedSize ps + framedSize qs := by
  induction ps with
  | nil => simp [framedSize]
  | cons p ps ih => simp [framedSize, ih, Nat.add_assoc]

/-- A successful `TunWriteIntoIrp` appends the record of the packet to the records
the buffer already holds and advances `Information` by the record size. -/
theorem TunWriteIntoIrp_framed (i : IRP) (p : NET_BUFFER) (st : NDIS_STATISTICS_INFO)
    (hc : ∀ q ∈ i.Copied, q.DataLength ≤ TUN_EXCH_MAX_IP_PACKET_SIZE)
    (hp : deliverable p = true)
    (hf : framed i.Buffer 0 i.Copied) (hi : i.Information = framedSize i.Copied) :
    framed (TunWriteIntoIrp i p st).2.1.Buffer 0 (TunWriteIntoIrp i p st).2.1.Copied ∧
    (TunWriteIntoIrp i p st).2.1.Information = framedSize (TunWriteIntoIrp i p st).2.1.Copied ∧
    (TunWriteIntoIrp i p st).2.1.Information
      = i.Information + TunPacketAlign (sizeof_TUN_PACKET + p.DataLength) := by
  have hv : p.DataLength ≤ TUN_EXCH_MAX_IP_PACKET_SIZE := by
    simp [deliverable, validLength] at hp; exact hp.1
  have hd : p.Data.isSome = true := by
    simp [deliverable] at hp; exact hp.2
  obtain ⟨d, hd⟩ := Option.isSome_iff_exists.mp hd
  have hlt : p.DataLength < 2 ^ 32 := by
    simp only [TUN_EXCH_MAX_IP_PACKET_SIZE, TUN_EXCH_MAX_PACKET_SIZE, sizeof_TUN_PACKET] at hv
    omega
  have heq : TunWriteIntoIrp i p st =
      (NTSTATUS.STATUS_SUCCESS,
       { i with
         Buffer := writeBytes (writeULONG i.Buffer i.Information p.DataLength)
           (i.Information + sizeof_TUN_PACKET) p.DataLength d
         Information := i.Information + TunPacketAlign (sizeof_TUN_PACKET + p.DataLength)
         Copied := i.Copied ++ [p] },
       { st with
         ifHCOutOctets := st.ifHCOutOctets + p.DataLength
         ifHCOutUcastOctets := st.ifHCOutUcastOctets + p.DataLength
         ifHCOutUcastPkts := st.ifHCOutUcastPkts + 1 }) := by
    simp only [TunWriteIntoIrp, hd]
  rw [heq]
  dsimp only
  refine ⟨?_, ?_, rfl⟩
  · rw [framed_append]
    constructor
    · apply framed_congr i.Buffer _ _ _ hc _ hf
      intro a _ ha
      simp only [writeBytes, writeULONG, hi]
      simp only [Nat.zero_add] at ha
      have h1 : ¬ (framedSize i.Copied + sizeof_TUN_PACKET ≤ a ∧
          a < framedSize i.Copied + sizeof_TUN_PACKET + p.DataLength) := by omega
      have h2 : ¬ (framedSize i.Copied ≤ a ∧ a < framedSize i.Copied + 4) := by omega
      simp only [h1, h2, if_false]
    · simp only [framed, and_true, Nat.zero_add]
      refine ⟨?_, d, hd, ?_⟩
      · rw [← hi]
        rw [readULONG_congr _ (writeULONG i.Buffer i.Information p.DataLength) i.Information]
        · exact readULONG_writeULONG _ _ _ hlt
        · intro a ha hb
          simp only [writeBytes, sizeof_TUN_PACKET]
          have h1 : ¬ (i.Information + 16 ≤ a ∧ a < i.Information + 16 + p.DataLength) := by omega
          simp only [h1, if_false]
      · intro k hk
        simp only [writeBytes, ← hi]
        have h1 : (i.Information + sizeof_TUN_PACKET ≤ i.Information + sizeof_TUN_PACKET + k ∧
            i.Information + sizeof_TUN_PACKET + k
              < i.Information + sizeof_TUN_PACKET + p.DataLength) := by omega
        simp only [h1, and_self, if_true, Nat.add_sub_cancel_left]
  · rw [framedSize_append, hi]
    simp [framedSize]

theorem fillIrp_framed (size : Nat) :
    ∀ (pkts : List NET_BUFFER) (i : IRP), (∀ p ∈ pkts, deliverable p = true) →
      (∀ q ∈ i.Copied, q.DataLength ≤ TUN_EXCH_MAX_IP_PACKET_SIZE) →
      framed i.Buffer 0 i.Copied → i.Information = framedSize i.Copied → i.Information ≤ size →
      framed (fillIrp i size pkts).1.Buffer 0 (fillIrp i size pkts).1.Copied ∧
      (fillIrp i size pkts).1.Information = framedSize (fillIrp i size pkts).1.Copied ∧
      (fillIrp i size pkts).1.Information ≤ size := by
  intro pkts
  induction pkts with
  | nil => intro i _ _ hf hi hs; exact ⟨hf, hi, hs⟩
  | cons p ps ih =>
    intro i h hc hf hi hs
    by_cases hw : TunWontFitIntoIrp i size p = true
    · rw [fillIrp_wontfit _ _ _ _ hw]
      exact ⟨hf, hi, hs⟩
    · simp only [Bool.not_eq_true] at hw
      rw [fillIrp_fits _ _ _ _ zeroStatistics hw]
      have hp := h p (List.mem_cons_self _ _)
      obtain ⟨w1, w2, w3⟩ := TunWriteIntoIrp_framed i p zeroStatistics hc hp hf hi
      have hcop := TunWriteIntoIrp_Copied i p zeroStatistics
      rw [TunWriteIntoIrp_success i p zeroStatistics (isSome_of_deliverable _ h p
        (List.mem_cons_self _ _))] at hcop
      simp only [if_true] at hcop
      apply ih _ (fun q hq => h q (List.mem_cons_of_mem _ hq)) _ w1 w2
      · rw [w3]
        simp only [TunWontFitIntoIrp, decide_eq_false_iff_not, not_lt] at hw
        exact hw
      · intro q hq
        rw [hcop] at hq
        rcases List.mem_append.mp hq with hq | hq
        · exact hc q hq
        · simp at hq; rw [hq]
          simp [deliverable, validLength] at hp; exact hp.1

/-! ## A read issued before data arrives (C7) -/

theorem TunGetIrpBuffer_read_size (Irp : IRP) (hmj : Irp.MajorFunction = IRP_MJ.IRP_MJ_READ)
    (hs : NT_SUCCESS (TunGetIrpBuffer Irp).1 = true) :
    TUN_EXCH_MIN_BUFFER_SIZE_READ ≤ (TunGetIrpBuffer Irp).2 ∧
    (TunGetIrpBuffer Irp).2 ≤ TUN_EXCH_MAX_BUFFER_SIZE := by
  unfold TunGetIrpBuffer at hs ⊢
  rw [hmj] at hs ⊢
  dsimp only at hs ⊢
  cases hm : Irp.MdlAddress with
  | none => rw [hm] at hs; simp [NT_SUCCESS] at hs
  | some size_mdl =>
    rw [hm] at hs
    dsimp only at hs ⊢
    split_ifs at hs ⊢ <;> simp_all [NT_SUCCESS]

theorem TunQueueProcess_empty_queue (fuel : Nat) (ctx : TUN_CTX) (hq : ctx.FirstNbl = []) :
    TunQueueProcess (fuel + 1) ctx = some ctx := by
  simp only [TunQueueProcess, TunQueueProcessLoop, TunQueueRemove_nil fuel ctx hq]

theorem TunWontFitIntoIrp_empty (i : IRP) (size : Nat) (p : NET_BUFFER)
    (hi : i.Information = 0) (hsize : TUN_EXCH_MIN_BUFFER_SIZE_READ ≤ size)
    (hp : p.DataLength ≤ TUN_EXCH_MAX_IP_PACKET_SIZE) :
    TunWontFitIntoIrp i size p = false := by
  have := (TunPacketAlign_record p.DataLength hp).2.2
  simp only [TunWontFitIntoIrp, hi, decide_eq_false_iff_not, not_lt, Nat.zero_add]
  simp only [TUN_EXCH_MIN_BUFFER_SIZE_READ] at hsize
  omega

/-- C7 as stated fails: when the copy of the only packet of the batch fails
(`NdisGetDataBuffer` returns `NULL`), the read that was pending is put back at
the head of the read-request queue and is not completed by the send: after the
read and the send one read is pending and none is completed. -/
theorem read_then_send_copy_failure_counterexample :
    ({ DataLength := 20, Data := none } : NET_BUFFER).DataLength ≤ TUN_EXCH_MAX_IP_PACKET_SIZE ∧
    ((TunDispatchRead 1 (runningCtx [] []) (demoRead 1 0xF000) NTSTATUS.STATUS_SUCCESS).bind
        (fun r => TunSendNetBufferLists 4 r.2 [demoNbl [{ DataLength := 20, Data := none }] 1] 0)).map
        (fun c => (c.ReadQueue.length, c.IrpComplete.length, c.FirstNbl.length))
      = some (1, 0, 0) := by
  decide

theorem fillIrp_maximal (size : Nat) :
    ∀ (pkts : List NET_BUFFER) (i : IRP),
      ∀ q ∈ (fillIrp i size pkts).2.head?,
        TunWontFitIntoIrp (fillIrp i size pkts).1 size q = true := by
  intro pkts
  induction pkts with
  | nil => intro i q hq; simp [fillIrp] at hq
  | cons p ps ih =>
    intro i q hq
    by_cases hw : TunWontFitIntoIrp i size p = true
    · rw [fillIrp_wontfit _ _ _ _ hw] at hq ⊢
      simp only [List.head?_cons, Option.mem_def, Option.some.injEq] at hq
      subst hq
      exact hw
    · simp only [Bool.not_eq_true] at hw
      rw [fillIrp_fits _ _ _ _ zeroStatistics hw] at hq ⊢
      exact ih _ q hq

/-- C7 (amended): from a running adapter in a working power state with an open
handle, an empty outbound queue (cursor unset, `NumNbl` 0) and no pending read,
a read with a valid capacity is queued by `TunDispatch` and not completed; when
a non-empty batch of packets of valid length is then sent and every packet copy
succeeds, that read is completed with success, exactly once, and its buffer
holds the records of the first `k > 0` packets of the batch, in order, from
offset 0 up to `Information`, where `k` is as many as fit: the packets after
the first `k` stay queued, and the first of them, if there is one, does not fit
the capacity left in the read. -/
theorem read_then_send (ctx : TUN_CTX) (Irp : IRP) (b : NET_BUFFER_LIST) (flags fuel1 fuel2 : Nat)
    (hstate : ctx.State = TUN_STATE.TUN_STATE_RUNNING) (hdev : 0 < ctx.DeviceRefCount)
    (hpow : ctx.PowerState < NdisDeviceStateD1)
    (hq : ctx.FirstNbl = []) (hnb : ctx.NextNb = []) (hnum : ctx.NumNbl = 0)
    (hrq : ctx.ReadQueue = [])
    (hmj : Irp.MajorFunction = IRP_MJ.IRP_MJ_READ)
    (hcap : NT_SUCCESS (TunGetIrpBuffer Irp).1 = true)
    (hb : b.FirstNb ≠ []) (hdel : ∀ p ∈ b.FirstNb, deliverable p = true)
    (hf1 : 0 < fuel1) (hf2 : b.FirstNb.length + 1 < fuel2) :
    ∃ ctx1, TunDispatchRead fuel1 ctx Irp NTSTATUS.STATUS_SUCCESS
        = some (NTSTATUS.STATUS_PENDING, ctx1) ∧
      ctx1.ReadQueue = [{ Irp with Information := 0, Copied := [] }] ∧
      ctx1.IrpComplete = ctx.IrpComplete ∧
      ∃ ctx2 r k, TunSendNetBufferLists fuel2 ctx1 [b] flags = some ctx2 ∧
        ctx2.IrpComplete = ctx.IrpComplete ++ [r] ∧ ctx2.ReadQueue = [] ∧
        r.key = Irp.key ∧ r.Status = NTSTATUS.STATUS_SUCCESS ∧
        0 < k ∧ r.Copied = b.FirstNb.take k ∧
        framed r.Buffer 0 r.Copied ∧ r.Information = framedSize r.Copied ∧
        r.Information ≤ (TunGetIrpBuffer Irp).2 ∧
        undelivered ctx2 = b.FirstNb.drop k ∧
        (∀ q ∈ (b.FirstNb.drop k).head?,
          TunWontFitIntoIrp r (TunGetIrpBuffer Irp).2 q = true ∧
          (TunGetIrpBuffer Irp).2
            < r.Information + TunPacketAlign (sizeof_TUN_PACKET + q.DataLength)) := by
  obtain ⟨f1, rfl⟩ : ∃ f1, fuel1 = f1 + 1 := ⟨fuel1 - 1, by omega⟩
  have hst : ¬ ctx.State.toNat < TUN_STATE.TUN_STATE_PAUSED.toNat := by
    rw [hstate]; decide
  have hdisp : TunDispatchRead (f1 + 1) ctx Irp NTSTATUS.STATUS_SUCCESS
      = some (NTSTATUS.STATUS_PENDING,
          { ctx with ReadQueue := [{ Irp with Information := 0, Copied := [] }] }) := by
    simp only [TunDispatchRead, hst, if_false, NT_SUCCESS, Bool.not_true, Bool.false_eq_true, hrq,
      List.nil_append]
    rw [TunQueueProcess_empty_queue f1
      ({ ctx with ReadQueue := [{ Irp with Information := 0, Copied := [] }] } : TUN_CTX) hq]
    rfl
  refine ⟨_, hdisp, rfl, rfl, ?_⟩
  -- the send
  have hsize := TunGetIrpBuffer_read_size Irp hmj hcap
  have hcheck : TunCheckForPause
      { ctx with ReadQueue := [{ Irp with Information := 0, Copied := [] }] }
      = (NTSTATUS.STATUS_SUCCESS,
          { ctx with
            ReadQueue := [{ Irp with Information := 0, Copied := [] }]
            ActiveTransactionCount := ctx.ActiveTransactionCount + 1 }) := by
    have h1 : ¬ ctx.DeviceRefCount ≤ 0 := by omega
    have h2 : ¬ ctx.PowerState ≥ NdisDeviceStateD1 := by omega
    simp [TunCheckForPause, h1, h2, hstate]
  have happ : TunQueueAppend
      { ctx with
        ReadQueue := [{ Irp with Information := 0, Copied := [] }]
        ActiveTransactionCount := ctx.ActiveTransactionCount + 1 } [b] TUN_QUEUE_MAX_NBLS
      = { ctx with
          ReadQueue := [{ Irp with Information := 0, Copied := [] }]
          ActiveTransactionCount := ctx.ActiveTransactionCount + 1 + 1
          NumNbl := 1
          FirstNbl := [{ b with RefCount := 1 }] } := by
    simp [TunQueueAppend, TunNBLRefInit, TunQueueAppendEvict, hb, hq, hnum, toUINT,
      TUN_QUEUE_MAX_NBLS]
  have hund : undelivered
      ({ ctx with
          ReadQueue := [{ Irp with Information := 0, Copied := [] }]
          ActiveTransactionCount := ctx.ActiveTransactionCount + 1 + 1
          NumNbl := 1
          FirstNbl := [{ b with RefCount := 1 }] } : TUN_CTX) = b.FirstNb := by
    simp [undelivered, undeliveredOf, cursorOf, hnb]
  obtain ⟨ctx', p1, p2, p3, p4, p5⟩ := TunQueueProcessLoop_spec fuel2
    { ctx with
      ReadQueue := [{ Irp with Information := 0, Copied := [] }]
      ActiveTransactionCount := ctx.ActiveTransactionCount + 1 + 1
      NumNbl := 1
      FirstNbl := [{ b with RefCount := 1 }] } none
    (by intro x hx; simp at hx; subst hx; exact ⟨hb, rfl⟩)
    (by rw [hund]; exact hdel)
    (by rw [hund]; simpa using hf2)
  rw [hund] at p3 p4 p5
  have hcap0 : TunGetIrpBuffer { Irp with Information := 0, Copied := [] } = TunGetIrpBuffer Irp := rfl
  obtain ⟨p, ps, hpk⟩ : ∃ p ps, b.FirstNb = p :: ps := by
    cases h : b.FirstNb with
    | nil => exact absurd h hb
    | cons p ps => exact ⟨p, ps, rfl⟩
  have hp : deliverable p = true := hdel p (by rw [hpk]; exact List.mem_cons_self _ _)
  have hpv : p.DataLength ≤ TUN_EXCH_MAX_IP_PACKET_SIZE := by
    simp [deliverable, validLength] at hp; exact hp.1
  have hfit : TunWontFitIntoIrp { Irp with Information := 0, Copied := [] }
      (TunGetIrpBuffer Irp).2 p = false :=
    TunWontFitIntoIrp_empty _ _ _ rfl hsize.1 hpv
  have hspec : drainSpecFrom none b.FirstNb [{ Irp with Information := 0, Copied := [] }]
      = ([(fillIrp { Irp with Information := 0, Copied := [] } (TunGetIrpBuffer Irp).2 b.FirstNb).1],
         (fillIrp { Irp with Information := 0, Copied := [] } (TunGetIrpBuffer Irp).2 b.FirstNb).2,
         []) := by
    simp [drainSpecFrom, drainSpec, hb, hcap0, hcap]
  rw [hspec] at p3 p4 p5
  dsimp only at p3 p4 p5
  have hdel2 : ∀ q ∈ ps, deliverable q = true :=
    fun q hq => hdel q (by rw [hpk]; exact List.mem_cons_of_mem _ hq)
  obtain ⟨taken, t1, t2, t3, t4⟩ := fillIrp_spec (TunGetIrpBuffer Irp).2 ps
    (TunWriteIntoIrp { Irp with Information := 0, Copied := [] } p zeroStatistics).2.1
    (isSome_of_deliverable _ hdel2)
  obtain ⟨g1, g2, g3⟩ := fillIrp_framed (TunGetIrpBuffer Irp).2 b.FirstNb
    { Irp with Information := 0, Copied := [] } hdel (by simp) trivial rfl (Nat.zero_le _)
  have hcop := TunWriteIntoIrp_Copied { Irp with Information := 0, Copied := [] } p zeroStatistics
  rw [TunWriteIntoIrp_success _ p zeroStatistics (isSome_of_deliverable _ hdel p
    (by rw [hpk]; exact List.mem_cons_self _ _))] at hcop
  simp only [if_true, List.nil_append] at hcop
  have hfill : fillIrp { Irp with Information := 0, Copied := [] } (TunGetIrpBuffer Irp).2 b.FirstNb
      = fillIrp (TunWriteIntoIrp { Irp with Information := 0, Copied := [] } p zeroStatistics).2.1
          (TunGetIrpBuffer Irp).2 ps := by
    rw [hpk]; exact fillIrp_fits _ _ _ _ zeroStatistics hfit
  have hdrop : b.FirstNb.drop (taken.length + 1)
      = (fillIrp { Irp with Information := 0, Copied := [] } (TunGetIrpBuffer Irp).2 b.FirstNb).2 := by
    rw [hfill, hpk]
    conv_lhs => rw [t1]
    simp
  refine ⟨(TunCompletePause ctx' true).2, _, taken.length + 1, ?_, ?_, ?_, ?_, ?_, ?_, ?_, g1, g2,
    g3, ?_, ?_⟩
  · simp only [TunSendNetBufferLists, hcheck, NT_SUCCESS, Bool.not_true, Bool.false_eq_true,
      if_false, happ, TunQueueProcess, p1, Option.map_some']
  · rw [TunCompletePause_IrpComplete, p3]
  · rw [TunCompletePause_ReadQueue, p5]
  · rw [hfill, t4, TunWriteIntoIrp_key]; rfl
  · rw [hfill, t3]
  · omega
  · rw [hfill, t2, hcop, hpk]
    conv_rhs => rw [t1]
    simp
  · rw [hdrop, ← p4]
    simp only [undelivered, TunCompletePause_FirstNbl, TunCompletePause_NextNb]
  · rw [hdrop]
    intro q hq
    have hmax := fillIrp_maximal (TunGetIrpBuffer Irp).2 b.FirstNb
      { Irp with Information := 0, Copied := [] } q hq
    refine ⟨hmax, ?_⟩
    simpa [TunWontFitIntoIrp] using hmax

/-- Witness for C7: a read of `0xF000` bytes, then a batch whose first packet
fills the read and whose second packet stays queued. -/
theorem read_then_send_witness :
    NT_SUCCESS (TunGetIrpBuffer (demoRead 1 0xF000)).1 = true ∧
      ∃ ctx1, TunDispatchRead 1 (runningCtx [] []) (demoRead 1 0xF000) NTSTATUS.STATUS_SUCCESS
          = some (NTSTATUS.STATUS_PENDING, ctx1) ∧
        ctx1.ReadQueue = [{ demoRead 1 0xF000 with Information := 0, Copied := [] }] ∧
        ctx1.IrpComplete = (runningCtx [] []).IrpComplete ∧
        ∃ ctx2 r k,
          TunSendNetBufferLists 4 ctx1 [demoNbl [demoFullPacket, demoPacket 20] 1] 0 = some ctx2 ∧
          ctx2.IrpComplete = (runningCtx [] []).IrpComplete ++ [r] ∧ ctx2.ReadQueue = [] ∧
          r.key = (demoRead 1 0xF000).key ∧ r.Status = NTSTATUS.STATUS_SUCCESS ∧
          0 < k ∧ r.Copied = (demoNbl [demoFullPacket, demoPacket 20] 1).FirstNb.take k ∧
          framed r.Buffer 0 r.Copied ∧ r.Information = framedSize r.Copied ∧
          r.Information ≤ (TunGetIrpBuffer (demoRead 1 0xF000)).2 ∧
          undelivered ctx2 = (demoNbl [demoFullPacket, demoPacket 20] 1).FirstNb.drop k ∧
          (∀ q ∈ ((demoNbl [demoFullPacket, demoPacket 20] 1).FirstNb.drop k).head?,
            TunWontFitIntoIrp r (TunGetIrpBuffer (demoRead 1 0xF000)).2 q = true ∧
            (TunGetIrpBuffer (demoRead 1 0xF000)).2
              < r.Information + TunPacketAlign (sizeof_TUN_PACKET + q.DataLength)) :=
  ⟨by decide,
   read_then_send (runningCtx [] []) (demoRead 1 0xF000)
     (demoNbl [demoFullPacket, demoPacket 20] 1) 0 1 4
     (by decide) (by decide) (by decide) (by decide) (by decide) (by decide) rfl
     (by decide) (by decide) (by decide) (by decide) (by decide) (by decide)⟩

/-! ## Inbound decoder: the record loop of `TunWriteFromIrp` (C8, C9, C10) -/

theorem TunWriteFromIrpLoop_stop (env : NDIS_ENV) (buf : Nat → Nat) (b_end fuel : Nat)
    (s : WriteLoop) (h : recordFramed buf b_end s.b = false) :
    ∃ s', TunWriteFromIrpLoop env buf b_end (fuel + 1) s = some s' ∧
      s'.b = s.b ∧ s'.nbls = s.nbls ∧ s'.nbl_count = s.nbl_count ∧
      s'.stat_p_err = s.stat_p_err := by
  rw [TunWriteFromIrpLoop]
  by_cases h1 : s.b < b_end
  · simp only [h1, not_true_eq_false, if_false]
    by_cases h2 : readULONG buf s.b > TUN_EXCH_MAX_IP_PACKET_SIZE
    · simp only [h2, if_true]
      exact ⟨_, rfl, rfl, rfl, rfl, rfl⟩
    · simp only [h2, if_false]
      have h3 : s.b + TunPacketAlign (sizeof_TUN_PACKET + readULONG buf s.b) > b_end := by
        simp only [recordFramed, h1, decide_True, Bool.true_and, Bool.and_eq_false_iff,
          decide_eq_false_iff_not] at h
        rcases h with h | h
        · omega
        · omega
      simp only [h3, if_true]
      exact ⟨_, rfl, rfl, rfl, rfl, rfl⟩
  · simp only [h1, not_false_eq_true, if_true]
    exact ⟨_, rfl, rfl, rfl, rfl, rfl⟩

theorem TunWriteFromIrpLoop_next (env : NDIS_ENV) (buf : Nat → Nat) (b_end fuel : Nat)
    (s : WriteLoop) (henv : env.succeeds) (h : recordFramed buf b_end s.b = true) :
    ∃ s1, TunWriteFromIrpLoop env buf b_end (fuel + 1) s = TunWriteFromIrpLoop env buf b_end fuel s1 ∧
      s1.b = s.b + TunPacketAlign (sizeof_TUN_PACKET + readULONG buf s.b) ∧
      s1.nbls = s.nbls ++
        (if recordIsIPv4 buf s.b || recordIsIPv6 buf s.b then [recvNbl buf s.b] else []) ∧
      s1.nbl_count = s.nbl_count +
        (if recordIsIPv4 buf s.b || recordIsIPv6 buf s.b then 1 else 0) ∧
      s1.stat_p_err = s.stat_p_err +
        (if recordIsIPv4 buf s.b || recordIsIPv6 buf s.b then 0 else 1) := by
  simp only [recordFramed, Bool.and_eq_true, decide_eq_true_eq] at h
  obtain ⟨⟨h1, h2⟩, h3⟩ := h
  have h2' : ¬ readULONG buf s.b > TUN_EXCH_MAX_IP_PACKET_SIZE := by omega
  have h3' : ¬ s.b + TunPacketAlign (sizeof_TUN_PACKET + readULONG buf s.b) > b_end := by omega
  rw [TunWriteFromIrpLoop]
  simp only [h1, not_true_eq_false, if_false, h2', h3', henv.1, henv.2.1, Bool.not_true,
    Bool.false_eq_true]
  by_cases h4 : recordIsIPv4 buf s.b = true
  · have h4' : readULONG buf s.b ≥ 20 ∧ buf (s.b + sizeof_TUN_PACKET) % 256 / 16 = 4 := by
      simpa [recordIsIPv4] using h4
    simp only [h4', and_self, if_true]
    refine ⟨_, rfl, rfl, ?_, ?_, ?_⟩
    · simp [h4, recvNbl]
    · simp [h4]
    · simp [h4]
  · have h4' : ¬ (readULONG buf s.b ≥ 20 ∧ buf (s.b + sizeof_TUN_PACKET) % 256 / 16 = 4) := by
      simpa [recordIsIPv4] using h4
    simp only [Bool.not_eq_true] at h4
    simp only [h4', if_false]
    by_cases h6 : recordIsIPv6 buf s.b = true
    · have h6' : readULONG buf s.b ≥ 40 ∧ buf (s.b + sizeof_TUN_PACKET) % 256 / 16 = 6 := by
        simpa [recordIsIPv6] using h6
      simp only [h6', and_self, if_true]
      refine ⟨_, rfl, rfl, ?_, ?_, ?_⟩
      · simp [h4, h6, recvNbl]
      · simp [h4, h6]
      · simp [h4, h6]
    · have h6' : ¬ (readULONG buf s.b ≥ 40 ∧ buf (s.b + sizeof_TUN_PACKET) % 256 / 16 = 6) := by
        simpa [recordIsIPv6] using h6
      simp only [Bool.not_eq_true] at h6
      simp only [h6', if_false]
      refine ⟨_, rfl, rfl, ?_, ?_, ?_⟩
      · simp [h4, h6]
      · simp [h4, h6]
      · simp [h4, h6]

theorem TunWriteFromIrpLoop_spec (env : NDIS_ENV) (buf : Nat → Nat) (b_end : Nat)
    (henv : env.succeeds) :
    ∀ (fuel : Nat) (s : WriteLoop), b_end - s.b < fuel →
      ∃ s', TunWriteFromIrpLoop env buf b_end fuel s = some s' ∧
        s'.nbls = s.nbls ++
          ((recordsFrom buf b_end fuel s.b).filter
            (fun off => recordIsIPv4 buf off || recordIsIPv6 buf off)).map (recvNbl buf) ∧
        s'.nbl_count = s.nbl_count +
          ((recordsFrom buf b_end fuel s.b).filter
            (fun off => recordIsIPv4 buf off || recordIsIPv6 buf off)).length ∧
        s'.stat_p_err = s.stat_p_err +
          ((recordsFrom buf b_end fuel s.b).filter
            (fun off => !(recordIsIPv4 buf off || recordIsIPv6 buf off))).length ∧
        s'.b = s.b + ((recordsFrom buf b_end fuel s.b).map
          (fun off => TunPacketAlign (sizeof_TUN_PACKET + readULONG buf off))).sum := by
  intro fuel
  induction fuel with
  | zero => intro s h; omega
  | succ fuel ih =>
    intro s hf
    by_cases hr : recordFramed buf b_end s.b = true
    · obtain ⟨s1, e0, e1, e2, e3, e4⟩ := TunWriteFromIrpLoop_next env buf b_end fuel s henv hr
      have hfr : (s.b < b_end ∧ readULONG buf s.b ≤ TUN_EXCH_MAX_IP_PACKET_SIZE) ∧
          s.b + TunPacketAlign (sizeof_TUN_PACKET + readULONG buf s.b) ≤ b_end := by
        simpa only [recordFramed, Bool.and_eq_true, decide_eq_true_eq] using hr
      have hsz : sizeof_TUN_PACKET ≤ TunPacketAlign (sizeof_TUN_PACKET + readULONG buf s.b) :=
        (TunPacketAlign_record _ hfr.1.2).2.1
      have h16 : sizeof_TUN_PACKET = 16 := rfl
      obtain ⟨s', i0, i1, i2, i3, i4⟩ := ih s1 (by rw [e1]; omega)
      refine ⟨s', by rw [e0]; exact i0, ?_, ?_, ?_, ?_⟩
      · rw [i1, e2, e1]
        simp only [recordsFrom, hr, if_true, List.filter_cons]
        by_cases ha : (recordIsIPv4 buf s.b || recordIsIPv6 buf s.b) = true
        · simp [ha]
        · simp [ha]
      · rw [i2, e3, e1]
        simp only [recordsFrom, hr, if_true, List.filter_cons]
        by_cases ha : (recordIsIPv4 buf s.b || recordIsIPv6 buf s.b) = true
        · simp [ha]; omega
        · simp [ha]
      · rw [i3, e4, e1]
        simp only [recordsFrom, hr, if_true, List.filter_cons]
        by_cases ha : (recordIsIPv4 buf s.b || recordIsIPv6 buf s.b) = true
        · simp [ha]
        · simp [ha]; omega
      · rw [i4, e1]
        simp only [recordsFrom, hr, if_true, List.map_cons, List.sum_cons]
        omega
    · simp only [Bool.not_eq_true] at hr
      obtain ⟨s', e0, e1, e2, e3, e4⟩ := TunWriteFromIrpLoop_stop env buf b_end fuel s hr
      refine ⟨s', e0, ?_, ?_, ?_, ?_⟩
      · simp [recordsFrom, hr, e2]
      · simp [recordsFrom, hr, e3]
      · simp [recordsFrom, hr, e4]
      · simp [recordsFrom, hr, e1]

theorem TunWriteFromIrpFree_success :
    ∀ (nbls : List RECV_NBL) (a b c : Nat), (∀ n ∈ nbls, n.Status = NTSTATUS.STATUS_SUCCESS) →
      TunWriteFromIrpFree nbls (a, b, c)
        = (a + (nbls.map (fun n => n.MdlByteCount)).sum, b + nbls.length, c) := by
  intro nbls
  induction nbls with
  | nil => intro a b c _; simp [TunWriteFromIrpFree]
  | cons n rest ih =>
    intro a b c h
    have hn : n.Status = NTSTATUS.STATUS_SUCCESS := h n (List.mem_cons_self _ _)
    simp only [TunWriteFromIrpFree, hn, NT_SUCCESS, if_true]
    rw [ih _ _ _ (fun x hx => h x (List.mem_cons_of_mem _ hx))]
    simp only [List.map_cons, List.sum_cons, List.length_cons]
    congr 1
    · omega
    · congr 1; omega

theorem TunGetIrpBuffer_status (Irp : IRP) :
    (TunGetIrpBuffer Irp).1 = NTSTATUS.STATUS_SUCCESS ∨ NT_SUCCESS (TunGetIrpBuffer Irp).1 = false := by
  unfold TunGetIrpBuffer
  cases Irp.MajorFunction <;> dsimp only <;> try (right; rfl)
  all_goals
    cases Irp.MdlAddress <;> dsimp only
    · right; rfl
    · split_ifs <;> first | (left; rfl) | (right; rfl)

theorem TunGetIrpBuffer_success (Irp : IRP) (h : NT_SUCCESS (TunGetIrpBuffer Irp).1 = true) :
    (TunGetIrpBuffer Irp).1 = NTSTATUS.STATUS_SUCCESS := by
  rcases TunGetIrpBuffer_status Irp with h1 | h1
  · exact h1
  · rw [h1] at h; exact absurd h (by simp)

theorem TunCheckForPause_success (ctx : TUN_CTX) (h : NT_SUCCESS (TunCheckForPause ctx).1 = true) :
    TunCheckForPause ctx
      = (NTSTATUS.STATUS_SUCCESS,
          { ctx with ActiveTransactionCount := ctx.ActiveTransactionCount + 1 }) := by
  unfold TunCheckForPause at h ⊢
  dsimp only at h ⊢
  split_ifs at h ⊢ <;> first | rfl | (exact absurd h (by simp [NT_SUCCESS]))

theorem filter_length_add_filter_not {α : Type} (l : List α) (f : α → Bool) :
    (l.filter f).length + (l.filter (fun x => !f x)).length = l.length := by
  induction l with
  | nil => rfl
  | cons x xs ih =>
    by_cases h : f x = true
    · simp [List.filter_cons, h]; omega
    · simp [List.filter_cons, h]; omega

/-- The state of `TunWriteFromIrp` after an accepted write on a running adapter
when every NDIS call succeeds, in terms of the records the loop parses. -/
theorem TunWriteFromIrp_spec (fuel : Nat) (env : NDIS_ENV) (ctx : TUN_CTX) (Irp : IRP)
    (henv : env.succeeds) (hrun : NT_SUCCESS (TunCheckForPause ctx).1 = true)
    (hbuf : NT_SUCCESS (TunGetIrpBuffer Irp).1 = true)
    (hfuel : (TunGetIrpBuffer Irp).2 < fuel) :
    ∃ ctx' Irp' s, TunWriteFromIrp fuel env ctx Irp = some (NTSTATUS.STATUS_SUCCESS, ctx', Irp', s) ∧
      s.nbls = ((recordsFrom Irp.Buffer (TunGetIrpBuffer Irp).2 fuel 0).filter
          (fun off => recordIsIPv4 Irp.Buffer off || recordIsIPv6 Irp.Buffer off)).map
          (recvNbl Irp.Buffer) ∧
      ctx'.Indicated = ctx.Indicated ++ (if s.nbls = [] then [] else [(s.nbls, s.nbls.length)]) ∧
      ctx'.Statistics.ifInErrors = ctx.Statistics.ifInErrors +
        ((recordsFrom Irp.Buffer (TunGetIrpBuffer Irp).2 fuel 0).filter
          (fun off => !(recordIsIPv4 Irp.Buffer off || recordIsIPv6 Irp.Buffer off))).length ∧
      ctx'.Statistics.ifHCInUcastPkts = ctx.Statistics.ifHCInUcastPkts + s.nbls.length ∧
      ctx'.Statistics.ifHCInOctets = ctx.Statistics.ifHCInOctets +
        (s.nbls.map (fun n => n.MdlByteCount)).sum ∧
      ctx'.Statistics.ifHCInUcastOctets = ctx.Statistics.ifHCInUcastOctets +
        (s.nbls.map (fun n => n.MdlByteCount)).sum ∧
      Irp'.Information = ((recordsFrom Irp.Buffer (TunGetIrpBuffer Irp).2 fuel 0).map
          (fun off => TunPacketAlign (sizeof_TUN_PACKET + readULONG Irp.Buffer off))).sum := by
  obtain ⟨s, l0, l1, l2, l3, l4⟩ := TunWriteFromIrpLoop_spec env Irp.Buffer (TunGetIrpBuffer Irp).2
    henv fuel { b := 0, nbls := [], nbl_count := 0, stat_p_err := 0, Accessed := [] }
    (by simpa using hfuel)
  simp only [List.nil_append, Nat.zero_add] at l1 l2 l3 l4
  have hfree : TunWriteFromIrpFree
      (s.nbls.map (fun nbl => { nbl with Status := env.IndicateStatus nbl })) (0, 0, s.stat_p_err)
      = (0 + (s.nbls.map (fun n => n.MdlByteCount)).sum, 0 + s.nbls.length, s.stat_p_err) := by
    rw [TunWriteFromIrpFree_success]
    · simp only [List.map_map, List.length_map]
      rfl
    · intro n hn
      simp only [List.mem_map] at hn
      obtain ⟨m, _, rfl⟩ := hn
      exact henv.2.2 m
  have hst := TunGetIrpBuffer_success Irp hbuf
  have hcount : s.nbl_count = s.nbls.length := by rw [l2, l1]; simp
  have heq : TunWriteFromIrp fuel env ctx Irp = TunWriteFromIrp fuel env ctx Irp := rfl
  conv_rhs at heq =>
    simp only [TunWriteFromIrp, TunCheckForPause_success ctx hrun, NT_SUCCESS, Bool.not_true,
      Bool.false_eq_true, if_false, hbuf, l0, hfree, hst]
  refine ⟨_, _, s, heq, l1, ?_, ?_, ?_, ?_, ?_, ?_⟩
  · by_cases hn : s.nbls = []
    · simp [hn]
    · simp [hn, hcount]
  · split_ifs <;> simp [l3]
  · split_ifs <;> simp
  · split_ifs <;> simp
  · split_ifs <;> simp
  · simp [l4]

/-- C9: for an accepted write buffer on a running adapter, all NDIS calls
succeeding, the packets indicated are, in buffer order, the parsed records that
are IPv4 (`Size >= 20`, nibble 4) or IPv6 (`Size >= 40`, nibble 6), each tagged
accordingly; every other parsed record adds one to `ifInErrors`; the packet
counter grows by the number indicated, both octet counters by the sum of their
`Size` fields; indicated plus errors is the number of records parsed. -/
theorem TunWriteFromIrp_classifies (fuel : Nat) (env : NDIS_ENV) (ctx : TUN_CTX) (Irp : IRP)
    (henv : env.succeeds) (hrun : NT_SUCCESS (TunCheckForPause ctx).1 = true)
    (hbuf : NT_SUCCESS (TunGetIrpBuffer Irp).1 = true)
    (hfuel : (TunGetIrpBuffer Irp).2 < fuel) :
    ∃ ctx' Irp' s indicated errors,
      TunWriteFromIrp fuel env ctx Irp = some (NTSTATUS.STATUS_SUCCESS, ctx', Irp', s) ∧
      indicated = (recordsFrom Irp.Buffer (TunGetIrpBuffer Irp).2 fuel 0).filter
          (fun off => recordIsIPv4 Irp.Buffer off || recordIsIPv6 Irp.Buffer off) ∧
      errors = (recordsFrom Irp.Buffer (TunGetIrpBuffer Irp).2 fuel 0).filter
          (fun off => !(recordIsIPv4 Irp.Buffer off || recordIsIPv6 Irp.Buffer off)) ∧
      ctx'.Indicated = ctx.Indicated ++
        (if indicated = [] then []
         else [(indicated.map (recvNbl Irp.Buffer), indicated.length)]) ∧
      ctx'.Statistics.ifInErrors = ctx.Statistics.ifInErrors + errors.length ∧
      ctx'.Statistics.ifHCInUcastPkts = ctx.Statistics.ifHCInUcastPkts + indicated.length ∧
      ctx'.Statistics.ifHCInOctets = ctx.Statistics.ifHCInOctets +
        (indicated.map (fun off => readULONG Irp.Buffer off)).sum ∧
      ctx'.Statistics.ifHCInUcastOctets = ctx.Statistics.ifHCInUcastOctets +
        (indicated.map (fun off => readULONG Irp.Buffer off)).sum ∧
      indicated.length + errors.length
        = (recordsFrom Irp.Buffer (TunGetIrpBuffer Irp).2 fuel 0).length := by
  obtain ⟨ctx', Irp', s, h0, h1, h2, h3, h4, h5, h6, _⟩ :=
    TunWriteFromIrp_spec fuel env ctx Irp henv hrun hbuf hfuel
  have hsum : (s.nbls.map (fun n => n.MdlByteCount)).sum
      = (((recordsFrom Irp.Buffer (TunGetIrpBuffer Irp).2 fuel 0).filter
          (fun off => recordIsIPv4 Irp.Buffer off || recordIsIPv6 Irp.Buffer off)).map
          (fun off => readULONG Irp.Buffer off)).sum := by
    rw [h1, List.map_map]; rfl
  refine ⟨ctx', Irp', s, _, _, h0, rfl, rfl, ?_, h3, ?_, ?_, ?_, ?_⟩
  · rw [h2, h1]
    simp only [List.map_eq_nil_iff, List.length_map]
  · rw [h4, h1]; simp
  · rw [h5, hsum]
  · rw [h6, hsum]
  · exact filter_length_add_filter_not _ _

theorem demoEnv_succeeds : demoEnv.succeeds := ⟨fun _ => rfl, fun _ => rfl, fun _ => rfl⟩

/-- Witness for C9: the 64-byte buffer whose first record is an IPv4 packet. -/
theorem TunWriteFromIrp_classifies_witness :
    NT_SUCCESS (TunGetIrpBuffer (demoWrite 64 demoBuffer)).1 = true ∧
      ∃ ctx' Irp' s indicated errors,
        TunWriteFromIrp 65 demoEnv (runningCtx [] []) (demoWrite 64 demoBuffer)
          = some (NTSTATUS.STATUS_SUCCESS, ctx', Irp', s) ∧
        indicated = (recordsFrom (demoWrite 64 demoBuffer).Buffer
            (TunGetIrpBuffer (demoWrite 64 demoBuffer)).2 65 0).filter
            (fun off => recordIsIPv4 (demoWrite 64 demoBuffer).Buffer off ||
              recordIsIPv6 (demoWrite 64 demoBuffer).Buffer off) ∧
        errors = (recordsFrom (demoWrite 64 demoBuffer).Buffer
            (TunGetIrpBuffer (demoWrite 64 demoBuffer)).2 65 0).filter
            (fun off => !(recordIsIPv4 (demoWrite 64 demoBuffer).Buffer off ||
              recordIsIPv6 (demoWrite 64 demoBuffer).Buffer off)) ∧
        ctx'.Indicated = (runningCtx [] []).Indicated ++
          (if indicated = [] then []
           else [(indicated.map (recvNbl (demoWrite 64 demoBuffer).Buffer), indicated.length)]) ∧
        ctx'.Statistics.ifInErrors = (runningCtx [] []).Statistics.ifInErrors + errors.length ∧
        ctx'.Statistics.ifHCInUcastPkts
          = (runningCtx [] []).Statistics.ifHCInUcastPkts + indicated.length ∧
        ctx'.Statistics.ifHCInOctets = (runningCtx [] []).Statistics.ifHCInOctets +
          (indicated.map (fun off => readULONG (demoWrite 64 demoBuffer).Buffer off)).sum ∧
        ctx'.Statistics.ifHCInUcastOctets = (runningCtx [] []).Statistics.ifHCInUcastOctets +
          (indicated.map (fun off => readULONG (demoWrite 64 demoBuffer).Buffer off)).sum ∧
        indicated.length + errors.length
          = (recordsFrom (demoWrite 64 demoBuffer).Buffer
              (TunGetIrpBuffer (demoWrite 64 demoBuffer)).2 65 0).length :=
  ⟨by decide,
   TunWriteFromIrp_classifies 65 demoEnv (runningCtx [] []) (demoWrite 64 demoBuffer)
     demoEnv_succeeds (by decide) (by decide) (by decide)⟩

/-- C8 as stated fails: for the 64-byte buffer holding a well-formed IPv4 record
followed by a record whose framed length (128 bytes from offset 48) runs past
the end of the buffer, `TunWriteFromIrp` indicates one packet and adds nothing
to `ifInErrors`: the loop leaves at the truncated record without counting it. -/
theorem TunWriteFromIrp_truncated_counterexample :
    recordFramed demoBuffer 64 0 = true ∧ recordIsIPv4 demoBuffer 0 = true ∧
    48 + TunPacketAlign (sizeof_TUN_PACKET + readULONG demoBuffer 48) > 64 ∧
    (TunWriteFromIrp 65 demoEnv (runningCtx [] []) (demoWrite 64 demoBuffer)).map
        (fun r => (r.1, r.2.1.Indicated.map (fun e => e.2), r.2.1.Statistics.ifInErrors,
          r.2.2.1.Information))
      = some (NTSTATUS.STATUS_SUCCESS, [1], 0, 48) := by
  decide

/-- C8 (amended): for an accepted write buffer on a running adapter, allocations
and indication succeeding, that holds one well-formed IPv4 record followed by a
record that is not well framed (its framed length runs past the end of the
buffer), `TunWriteFromIrp` indicates exactly one packet, counts one packet and
leaves `ifInErrors` unchanged; the bytes consumed end at the first record. -/
theorem TunWriteFromIrp_truncated_record (fuel : Nat) (env : NDIS_ENV) (ctx : TUN_CTX) (Irp : IRP)
    (henv : env.succeeds) (hrun : NT_SUCCESS (TunCheckForPause ctx).1 = true)
    (hbuf : NT_SUCCESS (TunGetIrpBuffer Irp).1 = true)
    (hfuel : (TunGetIrpBuffer Irp).2 < fuel)
    (h1 : recordFramed Irp.Buffer (TunGetIrpBuffer Irp).2 0 = true)
    (h4 : recordIsIPv4 Irp.Buffer 0 = true)
    (h2 : recordFramed Irp.Buffer (TunGetIrpBuffer Irp).2
      (TunPacketAlign (sizeof_TUN_PACKET + readULONG Irp.Buffer 0)) = false) :
    ∃ ctx' Irp' s, TunWriteFromIrp fuel env ctx Irp = some (NTSTATUS.STATUS_SUCCESS, ctx', Irp', s) ∧
      ctx'.Indicated = ctx.Indicated ++ [([recvNbl Irp.Buffer 0], 1)] ∧
      ctx'.Statistics.ifInErrors = ctx.Statistics.ifInErrors ∧
      ctx'.Statistics.ifHCInUcastPkts = ctx.Statistics.ifHCInUcastPkts + 1 ∧
      Irp'.Information = TunPacketAlign (sizeof_TUN_PACKET + readULONG Irp.Buffer 0) := by
  obtain ⟨ctx', Irp', s, g0, g1, g2, g3, g4, _, _, g7⟩ :=
    TunWriteFromIrp_spec fuel env ctx Irp henv hrun hbuf hfuel
  have hsize : 0 < (TunGetIrpBuffer Irp).2 := by
    simp only [recordFramed, Bool.and_eq_true, decide_eq_true_eq] at h1
    exact h1.1.1
  have hsz := (TunPacketAlign_record (readULONG Irp.Buffer 0) (by
    simp only [recordFramed, Bool.and_eq_true, decide_eq_true_eq] at h1
    exact h1.1.2)).2.1
  have h16 : sizeof_TUN_PACKET = 16 := rfl
  have hend : TunPacketAlign (sizeof_TUN_PACKET + readULONG Irp.Buffer 0)
      ≤ (TunGetIrpBuffer Irp).2 := by
    simp only [recordFramed, Bool.and_eq_true, decide_eq_true_eq] at h1
    have := h1.2
    omega
  obtain ⟨f, rfl⟩ : ∃ f, fuel = f + 2 := ⟨fuel - 2, by omega⟩
  have hrec : recordsFrom Irp.Buffer (TunGetIrpBuffer Irp).2 (f + 2) 0 = [0] := by
    simp only [recordsFrom, h1, if_true, Nat.zero_add, h2, Bool.false_eq_true, if_false]
  rw [hrec] at g1 g3 g7
  have hs : s.nbls = [recvNbl Irp.Buffer 0] := by
    rw [g1]; simp [h4]
  refine ⟨ctx', Irp', s, g0, ?_, ?_, ?_, ?_⟩
  · rw [g2, hs]; simp
  · rw [g3]; simp [h4]
  · rw [g4, hs]; simp
  · rw [g7]; simp

/-- Witness for C8: the 64-byte buffer. -/
theorem TunWriteFromIrp_truncated_record_witness :
    recordFramed (demoWrite 64 demoBuffer).Buffer (TunGetIrpBuffer (demoWrite 64 demoBuffer)).2 0
        = true ∧
      ∃ ctx' Irp' s,
        TunWriteFromIrp 65 demoEnv (runningCtx [] []) (demoWrite 64 demoBuffer)
          = some (NTSTATUS.STATUS_SUCCESS, ctx', Irp', s) ∧
        ctx'.Indicated = (runningCtx [] []).Indicated
          ++ [([recvNbl (demoWrite 64 demoBuffer).Buffer 0], 1)] ∧
        ctx'.Statistics.ifInErrors = (runningCtx [] []).Statistics.ifInErrors ∧
        ctx'.Statistics.ifHCInUcastPkts = (runningCtx [] []).Statistics.ifHCInUcastPkts + 1 ∧
        Irp'.Information
          = TunPacketAlign (sizeof_TUN_PACKET + readULONG (demoWrite 64 demoBuffer).Buffer 0) :=
  ⟨by decide,
   TunWriteFromIrp_truncated_record 65 demoEnv (runningCtx [] []) (demoWrite 64 demoBuffer)
     demoEnv_succeeds (by decide) (by decide) (by decide) (by decide) (by decide) (by decide)⟩

/-- C10 fails on the code: for a write of 17 bytes whose first record has
`Size = 0`, the loop comes back at offset 16 with one byte left (`b < b_end`)
and reads the four bytes of `p->Size` at offsets 16 to 19, three of them past
the end of the buffer. -/
theorem TunWriteFromIrp_header_read_past_end :
    TunGetIrpBuffer (demoWrite 17 (fun _ => 0)) = (NTSTATUS.STATUS_SUCCESS, 17) ∧
    (TunWriteFromIrp 18 demoEnv (runningCtx [] []) (demoWrite 17 (fun _ => 0))).map
        (fun r => r.2.2.2.Accessed)
      = some [0, 1, 2, 3, 16, 17, 18, 19] := by
  decide

/-! ## Alignment of record sizes -/

/-- C13: for every `n ≤ 2^32 - 16`, `TunPacketAlign n` is the least multiple of
16 that is at least `n` (so `n ≤ TunPacketAlign n < n + 16`), `TunPacketAlign`
is idempotent and monotone up to `n`, and for every packet length
`s ≤ TUN_EXCH_MAX_IP_PACKET_SIZE` the record size `TunPacketAlign (16 + s)` is at
most `TUN_EXCH_MAX_PACKET_SIZE`. -/
theorem TunPacketAlign_least_multiple (n : Nat) (h : n ≤ 2 ^ 32 - 16) :
    TunPacketAlign n % 16 = 0 ∧ n ≤ TunPacketAlign n ∧
    (∀ m, m % 16 = 0 → n ≤ m → TunPacketAlign n ≤ m) ∧
    TunPacketAlign n < n + 16 ∧
    TunPacketAlign (TunPacketAlign n) = TunPacketAlign n ∧
    (∀ m, m ≤ n → TunPacketAlign m ≤ TunPacketAlign n) ∧
    (sizeof_TUN_PACKET = 16 ∧ TUN_EXCH_MAX_IP_PACKET_SIZE = 0xF000 - 16 ∧
      TUN_EXCH_MAX_PACKET_SIZE = 0xF000 ∧
      ∀ s, s ≤ TUN_EXCH_MAX_IP_PACKET_SIZE →
        TunPacketAlign (sizeof_TUN_PACKET + s) ≤ TUN_EXCH_MAX_PACKET_SIZE) := by
  have hn : n + 15 < 2 ^ 32 := by omega
  have e := TunPacketAlign_eq n hn
  have e2 := TunPacketAlign_eq (TunPacketAlign n) (by rw [e]; omega)
  refine ⟨by omega, by omega, fun m hm hnm => by omega, by omega, ?_, fun m hm => ?_,
    rfl, rfl, rfl, fun s hs => (TunPacketAlign_record s hs).2.2⟩
  · rw [e2, e]; omega
  · rw [TunPacketAlign_eq m (by omega), e]; omega

/-- Witness for C13: `n = 36`, the record of a 20-byte packet. -/
theorem TunPacketAlign_least_multiple_witness :
    TunPacketAlign 36 % 16 = 0 ∧ 36 ≤ TunPacketAlign 36 ∧
    (∀ m, m % 16 = 0 → 36 ≤ m → TunPacketAlign 36 ≤ m) ∧
    TunPacketAlign 36 < 36 + 16 ∧
    TunPacketAlign (TunPacketAlign 36) = TunPacketAlign 36 ∧
    (∀ m, m ≤ 36 → TunPacketAlign m ≤ TunPacketAlign 36) ∧
    (sizeof_TUN_PACKET = 16 ∧ TUN_EXCH_MAX_IP_PACKET_SIZE = 0xF000 - 16 ∧
      TUN_EXCH_MAX_PACKET_SIZE = 0xF000 ∧
      ∀ s, s ≤ TUN_EXCH_MAX_IP_PACKET_SIZE →
        TunPacketAlign (sizeof_TUN_PACKET + s) ≤ TUN_EXCH_MAX_PACKET_SIZE) :=
  TunPacketAlign_least_multiple 36 (by decide)

/-! ## Pause -/

theorem TunCompletePause_nonzero (ctx : TUN_CTX) (a : Bool)
    (h : ctx.ActiveTransactionCount ≠ 1) :
    TunCompletePause ctx a
      = (NTSTATUS.STATUS_PENDING,
          { ctx with ActiveTransactionCount := ctx.ActiveTransactionCount - 1 }) := by
  unfold TunCompletePause
  dsimp only
  rw [if_neg]
  intro hh
  omega

theorem TunCompletePause_last (ctx : TUN_CTX) (a : Bool)
    (h : ctx.ActiveTransactionCount = 1) (hs : ctx.State = TUN_STATE.TUN_STATE_PAUSING) :
    TunCompletePause ctx a
      = (NTSTATUS.STATUS_SUCCESS,
          { ctx with
            ActiveTransactionCount := 0
            State := TUN_STATE.TUN_STATE_PAUSED
            PauseComplete := if a then ctx.PauseComplete + 1 else ctx.PauseComplete }) := by
  unfold TunCompletePause
  dsimp only
  rw [if_pos ⟨by omega, hs⟩]
  cases a <;> simp [h]

theorem TunQueueClearLoop_pausing (s : NTSTATUS) :
    ∀ (l : List NET_BUFFER_LIST) (ctx : TUN_CTX),
      ctx.ActiveTransactionCount
        > ((l.filter (fun b => decide (b.RefCount = 1))).length : Int) →
      (TunQueueClearLoop s l ctx).State = ctx.State ∧
      (TunQueueClearLoop s l ctx).PauseComplete = ctx.PauseComplete ∧
      (TunQueueClearLoop s l ctx).ActiveTransactionCount
        = ctx.ActiveTransactionCount - ((l.filter (fun b => decide (b.RefCount = 1))).length : Int) := by
  intro l
  induction l with
  | nil => intro ctx _; simp [TunQueueClearLoop]
  | cons b rest ih =>
    intro ctx h
    by_cases hb : b.RefCount = 1
    · have hf : (b :: rest).filter (fun b => decide (b.RefCount = 1))
          = b :: rest.filter (fun b => decide (b.RefCount = 1)) := by
        simp [List.filter_cons, hb]
      rw [hf] at h ⊢
      simp only [List.length_cons, Nat.cast_add, Nat.cast_one] at h ⊢
      have h1 : TunQueueClearLoop s (b :: rest) ctx
          = TunQueueClearLoop s rest
              { ctx with
                SendComplete := ctx.SendComplete ++
                  [({ b with Status := s, RefCount := 0 }, NDIS_SEND_COMPLETE_FLAGS_DISPATCH_LEVEL)]
                NumNbl := ctx.NumNbl - 1
                ActiveTransactionCount := ctx.ActiveTransactionCount - 1 } := by
        show TunQueueClearLoop s rest
          (TunNBLRefDec ctx { b with Status := s } NDIS_SEND_COMPLETE_FLAGS_DISPATCH_LEVEL).2.1 = _
        rw [TunNBLRefDec_one _ _ _ (by exact hb), TunCompletePause_nonzero _ _ (by
          show ctx.ActiveTransactionCount ≠ 1
          have : (0 : Int) ≤ ((rest.filter (fun b => decide (b.RefCount = 1))).length : Int) :=
            Int.natCast_nonneg _
          omega)]
      rw [h1]
      obtain ⟨i1, i2, i3⟩ := ih
        { ctx with
          SendComplete := ctx.SendComplete ++
            [({ b with Status := s, RefCount := 0 }, NDIS_SEND_COMPLETE_FLAGS_DISPATCH_LEVEL)]
          NumNbl := ctx.NumNbl - 1
          ActiveTransactionCount := ctx.ActiveTransactionCount - 1 } (by
        show ctx.ActiveTransactionCount - 1 > _
        omega)
      refine ⟨i1, i2, ?_⟩
      rw [i3]
      show ctx.ActiveTransactionCount - 1 - _ = _
      omega
    · have hf : (b :: rest).filter (fun b => decide (b.RefCount = 1))
          = rest.filter (fun b => decide (b.RefCount = 1)) := by
        simp [List.filter_cons, hb]
      rw [hf] at h ⊢
      have h1 : TunQueueClearLoop s (b :: rest) ctx = TunQueueClearLoop s rest ctx := by
        show TunQueueClearLoop s rest
          (TunNBLRefDec ctx { b with Status := s } NDIS_SEND_COMPLETE_FLAGS_DISPATCH_LEVEL).2.1 = _
        rw [TunNBLRefDec_ne_one _ _ _ (by exact hb)]
      rw [h1]
      exact ih ctx h

theorem retire_before : ∀ (j : Nat) (ctx : TUN_CTX), (j : Int) < ctx.ActiveTransactionCount →
    retire j ctx = { ctx with ActiveTransactionCount := ctx.ActiveTransactionCount - j } := by
  intro j
  induction j with
  | zero => intro ctx _; simp [retire]
  | succ j ih =>
    intro ctx h
    have h1 : ctx.ActiveTransactionCount ≠ 1 := by push_cast at h; omega
    rw [retire, TunCompletePause_nonzero _ _ h1]
    rw [ih { ctx with ActiveTransactionCount := ctx.ActiveTransactionCount - 1 } (by
      show (j : Int) < ctx.ActiveTransactionCount - 1
      push_cast at h; omega)]
    show ({ ctx with ActiveTransactionCount := ctx.ActiveTransactionCount - 1 - (j : Int) } : TUN_CTX) = _
    congr 1
    push_cast; omega

theorem retire_all : ∀ (k : Nat) (ctx : TUN_CTX), 0 < k → ctx.ActiveTransactionCount = k →
    ctx.State = TUN_STATE.TUN_STATE_PAUSING →
    retire k ctx = { ctx with
      ActiveTransactionCount := 0
      State := TUN_STATE.TUN_STATE_PAUSED
      PauseComplete := ctx.PauseComplete + 1 } := by
  intro k
  induction k with
  | zero => intro ctx h; omega
  | succ k ih =>
    intro ctx _ hc hs
    rcases Nat.eq_zero_or_pos k with hk | hk
    · subst hk
      rw [retire, TunCompletePause_last _ _ (by simpa using hc) hs]
      simp [retire]
    · have h1 : ctx.ActiveTransactionCount ≠ 1 := by push_cast at hc; omega
      rw [retire, TunCompletePause_nonzero _ _ h1]
      rw [ih { ctx with ActiveTransactionCount := ctx.ActiveTransactionCount - 1 } hk (by
        show ctx.ActiveTransactionCount - 1 = k
        push_cast at hc; omega) hs]

theorem TunPause_eq (ctx : TUN_CTX) (k : Nat)
    (hcount : ctx.ActiveTransactionCount = 1 + ((soleReference ctx).length : Int) + k) :
    (TunQueueClear { ctx with State := TUN_STATE.TUN_STATE_PAUSING }
        NTSTATUS.STATUS_NDIS_PAUSED).State = TUN_STATE.TUN_STATE_PAUSING ∧
    (TunQueueClear { ctx with State := TUN_STATE.TUN_STATE_PAUSING }
        NTSTATUS.STATUS_NDIS_PAUSED).PauseComplete = ctx.PauseComplete ∧
    (TunQueueClear { ctx with State := TUN_STATE.TUN_STATE_PAUSING }
        NTSTATUS.STATUS_NDIS_PAUSED).ActiveTransactionCount = 1 + k := by
  obtain ⟨h1, h2, h3⟩ := TunQueueClearLoop_pausing NTSTATUS.STATUS_NDIS_PAUSED ctx.FirstNbl
    { ctx with State := TUN_STATE.TUN_STATE_PAUSING } (by
      show ctx.ActiveTransactionCount > _
      unfold soleReference at hcount
      omega)
  refine ⟨h1, h2, ?_⟩
  show (TunQueueClearLoop NTSTATUS.STATUS_NDIS_PAUSED ctx.FirstNbl
    { ctx with State := TUN_STATE.TUN_STATE_PAUSING }).ActiveTransactionCount = _
  rw [h3]
  show ctx.ActiveTransactionCount - _ = _
  unfold soleReference at hcount
  omega

/-- C15: with the counter holding its base value 1, one increment for each
queued batch the queue alone references, and `k` increments of data-plane
operations still to be retired, `TunPause` leaves the counter at what its own
decrement makes of the count after the clear, namely `k`; it returns success
with state Paused exactly when that is zero, and otherwise returns pending with
state Pausing, without signalling.  While fewer than `k` operations have
retired the state stays Pausing and nothing is signalled; the `k`-th
retirement sets the state to Paused and signals pause completion once.  No
`TunCompletePause` makes the state Paused with a non-zero counter. -/
theorem TunPause_completes_at_zero (ctx : TUN_CTX) (k : Nat)
    (hcount : ctx.ActiveTransactionCount = 1 + ((soleReference ctx).length : Int) + k) :
    (TunPause ctx).2.ActiveTransactionCount
      = (TunQueueClear { ctx with State := TUN_STATE.TUN_STATE_PAUSING }
          NTSTATUS.STATUS_NDIS_PAUSED).ActiveTransactionCount - 1 ∧
    (TunPause ctx).2.ActiveTransactionCount = k ∧
    (((TunPause ctx).1 = NTSTATUS.STATUS_SUCCESS ∧
        (TunPause ctx).2.State = TUN_STATE.TUN_STATE_PAUSED)
      ↔ (TunPause ctx).2.ActiveTransactionCount = 0) ∧
    ((TunPause ctx).2.ActiveTransactionCount ≠ 0 →
      (TunPause ctx).1 = NTSTATUS.STATUS_PENDING ∧
      (TunPause ctx).2.State = TUN_STATE.TUN_STATE_PAUSING) ∧
    (TunPause ctx).2.PauseComplete = ctx.PauseComplete ∧
    (∀ j, j < k →
      (retire j (TunPause ctx).2).State = TUN_STATE.TUN_STATE_PAUSING ∧
      (retire j (TunPause ctx).2).PauseComplete = ctx.PauseComplete ∧
      (retire j (TunPause ctx).2).ActiveTransactionCount = (k : Int) - j) ∧
    (0 < k →
      (retire k (TunPause ctx).2).State = TUN_STATE.TUN_STATE_PAUSED ∧
      (retire k (TunPause ctx).2).PauseComplete = ctx.PauseComplete + 1 ∧
      (retire k (TunPause ctx).2).ActiveTransactionCount = 0) ∧
    (∀ (c : TUN_CTX) (a : Bool), c.State ≠ TUN_STATE.TUN_STATE_PAUSED →
      (TunCompletePause c a).2.State = TUN_STATE.TUN_STATE_PAUSED →
      (TunCompletePause c a).2.ActiveTransactionCount = 0) := by
  obtain ⟨h1, h2, h3⟩ := TunPause_eq ctx k hcount
  have hp : TunPause ctx = TunCompletePause
      (TunQueueClear { ctx with State := TUN_STATE.TUN_STATE_PAUSING }
        NTSTATUS.STATUS_NDIS_PAUSED) false := rfl
  have hlast : ∀ (c : TUN_CTX) (a : Bool), c.State ≠ TUN_STATE.TUN_STATE_PAUSED →
      (TunCompletePause c a).2.State = TUN_STATE.TUN_STATE_PAUSED →
      (TunCompletePause c a).2.ActiveTransactionCount = 0 := by
    intro c a hc hs
    by_cases h : c.ActiveTransactionCount = 1
    · by_cases hs' : c.State = TUN_STATE.TUN_STATE_PAUSING
      · rw [TunCompletePause_last c a h hs']
      · exfalso
        unfold TunCompletePause at hs
        dsimp only at hs
        rw [if_neg (by intro hh; exact hs' hh.2)] at hs
        exact hc hs
    · rw [TunCompletePause_nonzero c a h] at hs
      exact absurd hs hc
  rcases Nat.eq_zero_or_pos k with hk | hk
  · subst hk
    have hr := TunCompletePause_last _ false (by simpa using h3) h1
    rw [hp, hr]
    refine ⟨by rw [h3]; simp, by simp, by simp, by simp, by simpa using h2, ?_, ?_, hlast⟩
    · intro j hj; omega
    · intro h; omega
  · have hr := TunCompletePause_nonzero
      (TunQueueClear { ctx with State := TUN_STATE.TUN_STATE_PAUSING }
        NTSTATUS.STATUS_NDIS_PAUSED) false (by rw [h3]; omega)
    rw [hp, hr]
    have hk0 : ((TunQueueClear { ctx with State := TUN_STATE.TUN_STATE_PAUSING }
        NTSTATUS.STATUS_NDIS_PAUSED).ActiveTransactionCount - 1) = (k : Int) := by
      rw [h3]; omega
    refine ⟨rfl, hk0, ?_, ?_, h2, ?_, ?_, hlast⟩
    · constructor
      · rintro ⟨h, _⟩; exact NTSTATUS.noConfusion h
      · intro h
        exfalso
        have : ((TunQueueClear { ctx with State := TUN_STATE.TUN_STATE_PAUSING }
          NTSTATUS.STATUS_NDIS_PAUSED).ActiveTransactionCount - 1) = 0 := h
        omega
    · intro _; exact ⟨rfl, h1⟩
    · intro j hj
      rw [retire_before j _ (by
        show (j : Int) < (TunQueueClear { ctx with State := TUN_STATE.TUN_STATE_PAUSING }
          NTSTATUS.STATUS_NDIS_PAUSED).ActiveTransactionCount - 1
        omega)]
      refine ⟨h1, h2, ?_⟩
      show (TunQueueClear { ctx with State := TUN_STATE.TUN_STATE_PAUSING }
          NTSTATUS.STATUS_NDIS_PAUSED).ActiveTransactionCount - 1 - (j : Int) = _
      omega
    · intro _
      have hra := retire_all k
        { (TunQueueClear { ctx with State := TUN_STATE.TUN_STATE_PAUSING }
            NTSTATUS.STATUS_NDIS_PAUSED) with
          ActiveTransactionCount :=
            (TunQueueClear { ctx with State := TUN_STATE.TUN_STATE_PAUSING }
              NTSTATUS.STATUS_NDIS_PAUSED).ActiveTransactionCount - 1 } hk hk0 h1
      refine ⟨by rw [hra], ?_, by rw [hra]⟩
      rw [hra]
      show _ + 1 = _ + 1
      rw [h2]

/-- Witness for C15: one batch queued and two operations in flight. -/
theorem TunPause_completes_at_zero_witness :
    (TunPause demoBusyCtx).2.ActiveTransactionCount
      = (TunQueueClear { demoBusyCtx with State := TUN_STATE.TUN_STATE_PAUSING }
          NTSTATUS.STATUS_NDIS_PAUSED).ActiveTransactionCount - 1 ∧
    (TunPause demoBusyCtx).2.ActiveTransactionCount = (2 : Nat) ∧
    (((TunPause demoBusyCtx).1 = NTSTATUS.STATUS_SUCCESS ∧
        (TunPause demoBusyCtx).2.State = TUN_STATE.TUN_STATE_PAUSED)
      ↔ (TunPause demoBusyCtx).2.ActiveTransactionCount = 0) ∧
    ((TunPause demoBusyCtx).2.ActiveTransactionCount ≠ 0 →
      (TunPause demoBusyCtx).1 = NTSTATUS.STATUS_PENDING ∧
      (TunPause demoBusyCtx).2.State = TUN_STATE.TUN_STATE_PAUSING) ∧
    (TunPause demoBusyCtx).2.PauseComplete = demoBusyCtx.PauseComplete ∧
    (∀ j, j < 2 →
      (retire j (TunPause demoBusyCtx).2).State = TUN_STATE.TUN_STATE_PAUSING ∧
      (retire j (TunPause demoBusyCtx).2).PauseComplete = demoBusyCtx.PauseComplete ∧
      (retire j (TunPause demoBusyCtx).2).ActiveTransactionCount = ((2 : Nat) : Int) - j) ∧
    (0 < 2 →
      (retire 2 (TunPause demoBusyCtx).2).State = TUN_STATE.TUN_STATE_PAUSED ∧
      (retire 2 (TunPause demoBusyCtx).2).PauseComplete = demoBusyCtx.PauseComplete + 1 ∧
      (retire 2 (TunPause demoBusyCtx).2).ActiveTransactionCount = 0) ∧
    (∀ (c : TUN_CTX) (a : Bool), c.State ≠ TUN_STATE.TUN_STATE_PAUSED →
      (TunCompletePause c a).2.State = TUN_STATE.TUN_STATE_PAUSED →
      (TunCompletePause c a).2.ActiveTransactionCount = 0) :=
  TunPause_completes_at_zero demoBusyCtx 2 (by decide)

/-! ## Bytes consumed by a write -/

theorem TunWriteFromIrpLoop_advance (env : NDIS_ENV) (buf : Nat → Nat) (b_end fuel : Nat)
    (s : WriteLoop) (h : recordFramed buf b_end s.b = true) :
    ∃ s1, TunWriteFromIrpLoop env buf b_end (fuel + 1) s = TunWriteFromIrpLoop env buf b_end fuel s1 ∧
      s1.b = s.b + TunPacketAlign (sizeof_TUN_PACKET + readULONG buf s.b) ∧
      s1.nbl_count + s1.stat_p_err = s.nbl_count + s.stat_p_err + 1 := by
  simp only [recordFramed, Bool.and_eq_true, decide_eq_true_eq] at h
  obtain ⟨⟨h1, h2⟩, h3⟩ := h
  have h2' : ¬ readULONG buf s.b > TUN_EXCH_MAX_IP_PACKET_SIZE := by omega
  have h3' : ¬ s.b + TunPacketAlign (sizeof_TUN_PACKET + readULONG buf s.b) > b_end := by omega
  rw [TunWriteFromIrpLoop]
  simp only [h1, not_true_eq_false, if_false, h2', h3']
  split
  · exact ⟨_, rfl, rfl, by dsimp only; omega⟩
  · split_ifs <;> exact ⟨_, rfl, rfl, by dsimp only; omega⟩

theorem TunWriteFromIrpLoop_consumed (env : NDIS_ENV) (buf : Nat → Nat) (b_end : Nat) :
    ∀ (fuel : Nat) (s : WriteLoop), b_end - s.b < fuel →
      ∃ s', TunWriteFromIrpLoop env buf b_end fuel s = some s' ∧
        s'.b = s.b + ((recordsFrom buf b_end fuel s.b).map
          (fun off => TunPacketAlign (sizeof_TUN_PACKET + readULONG buf off))).sum ∧
        s'.nbl_count + s'.stat_p_err
          = s.nbl_count + s.stat_p_err + (recordsFrom buf b_end fuel s.b).length := by
  intro fuel
  induction fuel with
  | zero => intro s h; omega
  | succ fuel ih =>
    intro s hf
    by_cases hr : recordFramed buf b_end s.b = true
    · obtain ⟨s1, e0, e1, e2⟩ := TunWriteFromIrpLoop_advance env buf b_end fuel s hr
      have hfr : (s.b < b_end ∧ readULONG buf s.b ≤ TUN_EXCH_MAX_IP_PACKET_SIZE) ∧
          s.b + TunPacketAlign (sizeof_TUN_PACKET + readULONG buf s.b) ≤ b_end := by
        simpa only [recordFramed, Bool.and_eq_true, decide_eq_true_eq] using hr
      have hsz : sizeof_TUN_PACKET ≤ TunPacketAlign (sizeof_TUN_PACKET + readULONG buf s.b) :=
        (TunPacketAlign_record _ hfr.1.2).2.1
      have h16 : sizeof_TUN_PACKET = 16 := rfl
      obtain ⟨s', i0, i1, i2⟩ := ih s1 (by rw [e1]; omega)
      refine ⟨s', by rw [e0]; exact i0, ?_, ?_⟩
      · rw [i1, e1]
        simp only [recordsFrom, hr, if_true, List.map_cons, List.sum_cons]
        omega
      · rw [i2, e2, e1]
        simp only [recordsFrom, hr, if_true, List.length_cons]
        omega
    · simp only [Bool.not_eq_true] at hr
      obtain ⟨s', e0, e1, _, e3, e4⟩ := TunWriteFromIrpLoop_stop env buf b_end fuel s hr
      refine ⟨s', e0, ?_, ?_⟩
      · simp [recordsFrom, hr, e1]
      · simp [recordsFrom, hr, e3, e4]

theorem recordsFrom_extent (buf : Nat → Nat) (b_end : Nat) :
    ∀ (fuel b : Nat), b ≤ b_end → b_end - b < fuel → b % 16 = 0 →
      b + ((recordsFrom buf b_end fuel b).map
          (fun off => TunPacketAlign (sizeof_TUN_PACKET + readULONG buf off))).sum ≤ b_end ∧
      (b + ((recordsFrom buf b_end fuel b).map
          (fun off => TunPacketAlign (sizeof_TUN_PACKET + readULONG buf off))).sum) % 16 = 0 ∧
      recordFramed buf b_end (b + ((recordsFrom buf b_end fuel b).map
          (fun off => TunPacketAlign (sizeof_TUN_PACKET + readULONG buf off))).sum) = false ∧
      (recordsFrom buf b_end fuel b).length * 16 ≤ b_end - b := by
  intro fuel
  induction fuel with
  | zero => intro b _ h; omega
  | succ fuel ih =>
    intro b hb hf h16b
    by_cases hr : recordFramed buf b_end b = true
    · have hfr : (b < b_end ∧ readULONG buf b ≤ TUN_EXCH_MAX_IP_PACKET_SIZE) ∧
          b + TunPacketAlign (sizeof_TUN_PACKET + readULONG buf b) ≤ b_end := by
        simpa only [recordFramed, Bool.and_eq_true, decide_eq_true_eq] using hr
      have hsz : sizeof_TUN_PACKET ≤ TunPacketAlign (sizeof_TUN_PACKET + readULONG buf b) :=
        (TunPacketAlign_record _ hfr.1.2).2.1
      have h16 : sizeof_TUN_PACKET = 16 := rfl
      have hmax : TUN_EXCH_MAX_IP_PACKET_SIZE = 0xF000 - 16 := rfl
      have hal := (TunPacketAlign_bounds (sizeof_TUN_PACKET + readULONG buf b) (by omega)).2.2
      obtain ⟨i1, i2, i3, i4⟩ := ih (b + TunPacketAlign (sizeof_TUN_PACKET + readULONG buf b))
        hfr.2 (by omega) (by omega)
      simp only [recordsFrom, hr, if_true, List.map_cons, List.sum_cons, List.length_cons]
      rw [← Nat.add_assoc]
      exact ⟨i1, i2, i3, by omega⟩
    · simp only [Bool.not_eq_true] at hr
      simp only [recordsFrom, hr, Bool.false_eq_true, if_false, List.map_nil, List.sum_nil,
        Nat.add_zero, List.length_nil]
      exact ⟨hb, h16b, by simp, by omega⟩

theorem TunWriteFromIrp_returns (fuel : Nat) (env : NDIS_ENV) (ctx : TUN_CTX) (Irp : IRP)
    (s : WriteLoop) (hrun : NT_SUCCESS (TunCheckForPause ctx).1 = true)
    (hbuf : NT_SUCCESS (TunGetIrpBuffer Irp).1 = true)
    (hloop : TunWriteFromIrpLoop env Irp.Buffer (TunGetIrpBuffer Irp).2 fuel
      { b := 0, nbls := [], nbl_count := 0, stat_p_err := 0, Accessed := [] } = some s) :
    ∃ ctx', TunWriteFromIrp fuel env ctx Irp
      = some (NTSTATUS.STATUS_SUCCESS, ctx', { Irp with Information := s.b }, s) := by
  have hst := TunGetIrpBuffer_success Irp hbuf
  unfold TunWriteFromIrp
  simp only [TunCheckForPause_success ctx hrun, NT_SUCCESS, Bool.not_true,
    Bool.false_eq_true, if_false, hbuf, hloop, hst]
  exact ⟨_, rfl⟩

/-- C11: for every write on a running adapter whose buffer `TunGetIrpBuffer`
accepts, whatever the NDIS calls return, `TunWriteFromIrp` returns success and
the byte count it reports is the sum of `TunPacketAlign(sizeof(TUN_PACKET) + Size)`
over the records parsed from offset 0, which are the maximal run of records
with `Size ≤ TUN_EXCH_MAX_IP_PACKET_SIZE` lying inside the buffer (the record at
the reported offset is not one); the count is a multiple of 16, does not exceed
the buffer size, and is 0 with success when the first record is not well
framed. -/
theorem TunWriteFromIrp_bytes_consumed (fuel : Nat) (env : NDIS_ENV) (ctx : TUN_CTX) (Irp : IRP)
    (hrun : NT_SUCCESS (TunCheckForPause ctx).1 = true)
    (hbuf : NT_SUCCESS (TunGetIrpBuffer Irp).1 = true)
    (hfuel : (TunGetIrpBuffer Irp).2 < fuel) :
    ∃ ctx' Irp' s,
      TunWriteFromIrp fuel env ctx Irp = some (NTSTATUS.STATUS_SUCCESS, ctx', Irp', s) ∧
      Irp'.Information = ((recordsFrom Irp.Buffer (TunGetIrpBuffer Irp).2 fuel 0).map
          (fun off => TunPacketAlign (sizeof_TUN_PACKET + readULONG Irp.Buffer off))).sum ∧
      recordFramed Irp.Buffer (TunGetIrpBuffer Irp).2 Irp'.Information = false ∧
      Irp'.Information % 16 = 0 ∧ Irp'.Information ≤ (TunGetIrpBuffer Irp).2 ∧
      (recordFramed Irp.Buffer (TunGetIrpBuffer Irp).2 0 = false → Irp'.Information = 0) := by
  obtain ⟨s, l0, l1, _⟩ := TunWriteFromIrpLoop_consumed env Irp.Buffer (TunGetIrpBuffer Irp).2
    fuel { b := 0, nbls := [], nbl_count := 0, stat_p_err := 0, Accessed := [] }
    (by simpa using hfuel)
  obtain ⟨ctx', hret⟩ := TunWriteFromIrp_returns fuel env ctx Irp s hrun hbuf l0
  obtain ⟨x1, x2, x3, _⟩ := recordsFrom_extent Irp.Buffer (TunGetIrpBuffer Irp).2 fuel 0
    (Nat.zero_le _) (by simpa using hfuel) rfl
  simp only [Nat.zero_add] at l1 x1 x2 x3
  refine ⟨ctx', _, s, hret, l1, ?_, ?_, ?_, ?_⟩
  · show recordFramed Irp.Buffer _ s.b = false
    rw [l1]; exact x3
  · show s.b % 16 = 0
    rw [l1]; exact x2
  · show s.b ≤ _
    rw [l1]; exact x1
  · intro h0
    show s.b = 0
    rw [l1]
    obtain ⟨f, rfl⟩ : ∃ f, fuel = f + 1 := ⟨fuel - 1, by omega⟩
    simp [recordsFrom, h0]

/-- Witness for C11: the 64-byte buffer whose second record is truncated, with
every NDIS call succeeding. -/
theorem TunWriteFromIrp_bytes_consumed_witness :
    NT_SUCCESS (TunGetIrpBuffer (demoWrite 64 demoBuffer)).1 = true ∧
    ∃ ctx' Irp' s,
      TunWriteFromIrp 65 demoEnv (runningCtx [] []) (demoWrite 64 demoBuffer)
        = some (NTSTATUS.STATUS_SUCCESS, ctx', Irp', s) ∧
      Irp'.Information = ((recordsFrom (demoWrite 64 demoBuffer).Buffer
          (TunGetIrpBuffer (demoWrite 64 demoBuffer)).2 65 0).map
          (fun off => TunPacketAlign
            (sizeof_TUN_PACKET + readULONG (demoWrite 64 demoBuffer).Buffer off))).sum ∧
      recordFramed (demoWrite 64 demoBuffer).Buffer (TunGetIrpBuffer (demoWrite 64 demoBuffer)).2
        Irp'.Information = false ∧
      Irp'.Information % 16 = 0 ∧
      Irp'.Information ≤ (TunGetIrpBuffer (demoWrite 64 demoBuffer)).2 ∧
      (recordFramed (demoWrite 64 demoBuffer).Buffer
          (TunGetIrpBuffer (demoWrite 64 demoBuffer)).2 0 = false → Irp'.Information = 0) :=
  ⟨by decide,
   TunWriteFromIrp_bytes_consumed 65 demoEnv (runningCtx [] []) (demoWrite 64 demoBuffer)
     (by decide) (by decide) (by decide)⟩

/-! ## Rejection by adapter state -/

/-- C17: when `TunCheckForPause` fails, `TunSendNetBufferLists` completes every
batch of the chain, in order, with exactly the status `TunCheckForPause`
returned (aborted without an open handle, paused when the state is not Running,
low-power otherwise); nothing is appended: the batch list, `LastNbl`, the
cursor, `NumNbl` and the pending reads are unchanged, and
`ActiveTransactionCount` has the value it had before the call. -/
theorem TunSendNetBufferLists_rejected (fuel : Nat) (ctx : TUN_CTX)
    (NetBufferLists : List NET_BUFFER_LIST) (SendCompleteFlags : Nat)
    (hfail : NT_SUCCESS (TunCheckForPause ctx).1 = false) :
    ∃ ctx', TunSendNetBufferLists fuel ctx NetBufferLists SendCompleteFlags = some ctx' ∧
      ctx'.SendComplete = ctx.SendComplete ++
        NetBufferLists.map
          (fun b => ({ b with Status := (TunCheckForPause ctx).1 }, SendCompleteFlags)) ∧
      (TunCheckForPause ctx).1 =
        (if ctx.DeviceRefCount ≤ 0 then NTSTATUS.NDIS_STATUS_SEND_ABORTED
         else if ctx.State ≠ TUN_STATE.TUN_STATE_RUNNING then NTSTATUS.STATUS_NDIS_PAUSED
         else NTSTATUS.STATUS_NDIS_LOW_POWER_STATE) ∧
      ctx'.FirstNbl = ctx.FirstNbl ∧ ctx'.LastNbl = ctx.LastNbl ∧ ctx'.NextNb = ctx.NextNb ∧
      ctx'.NumNbl = ctx.NumNbl ∧ ctx'.ReadQueue = ctx.ReadQueue ∧
      ctx'.IrpComplete = ctx.IrpComplete ∧
      ctx'.ActiveTransactionCount = ctx.ActiveTransactionCount := by
  have hst : (TunCheckForPause ctx).1 =
      (if ctx.DeviceRefCount ≤ 0 then NTSTATUS.NDIS_STATUS_SEND_ABORTED
       else if ctx.State ≠ TUN_STATE.TUN_STATE_RUNNING then NTSTATUS.STATUS_NDIS_PAUSED
       else NTSTATUS.STATUS_NDIS_LOW_POWER_STATE) := by
    unfold TunCheckForPause at hfail ⊢
    dsimp only at hfail ⊢
    split_ifs at hfail ⊢ <;> first | rfl | exact absurd hfail (by decide)
  have hcp : TunCheckForPause ctx = ((TunCheckForPause ctx).1,
      { ctx with ActiveTransactionCount := ctx.ActiveTransactionCount + 1 }) := rfl
  have heq : TunSendNetBufferLists fuel ctx NetBufferLists SendCompleteFlags
      = some (TunCompletePause
          { ctx with
            ActiveTransactionCount := ctx.ActiveTransactionCount + 1
            SendComplete := ctx.SendComplete ++
              (TunSetNBLStatus NetBufferLists (TunCheckForPause ctx).1).map
                (fun b => (b, SendCompleteFlags)) } true).2 := by
    unfold TunSendNetBufferLists
    rw [hcp]
    simp only [hfail, Bool.not_false, if_true]
  refine ⟨_, heq, ?_, hst, ?_, ?_, ?_, ?_, ?_, ?_, ?_⟩
  · simp [TunSetNBLStatus, List.map_map, Function.comp]
  · simp
  · simp [TUN_CTX.LastNbl]
  · simp
  · simp
  · simp
  · simp
  · simp

/-- Witness for C17: two batches sent to a paused adapter. -/
theorem TunSendNetBufferLists_rejected_witness :
    NT_SUCCESS (TunCheckForPause demoPausedCtx).1 = false ∧
    ∃ ctx', TunSendNetBufferLists 0 demoPausedCtx
        [demoNbl [demoPacket 20] 1, demoNbl [demoPacket 40] 2] 0 = some ctx' ∧
      ctx'.SendComplete = demoPausedCtx.SendComplete ++
        [demoNbl [demoPacket 20] 1, demoNbl [demoPacket 40] 2].map
          (fun b => ({ b with Status := (TunCheckForPause demoPausedCtx).1 }, 0)) ∧
      (TunCheckForPause demoPausedCtx).1 =
        (if demoPausedCtx.DeviceRefCount ≤ 0 then NTSTATUS.NDIS_STATUS_SEND_ABORTED
         else if demoPausedCtx.State ≠ TUN_STATE.TUN_STATE_RUNNING then NTSTATUS.STATUS_NDIS_PAUSED
         else NTSTATUS.STATUS_NDIS_LOW_POWER_STATE) ∧
      ctx'.FirstNbl = demoPausedCtx.FirstNbl ∧ ctx'.LastNbl = demoPausedCtx.LastNbl ∧
      ctx'.NextNb = demoPausedCtx.NextNb ∧
      ctx'.NumNbl = demoPausedCtx.NumNbl ∧ ctx'.ReadQueue = demoPausedCtx.ReadQueue ∧
      ctx'.IrpComplete = demoPausedCtx.IrpComplete ∧
      ctx'.ActiveTransactionCount = demoPausedCtx.ActiveTransactionCount :=
  ⟨by decide,
   TunSendNetBufferLists_rejected 0 demoPausedCtx
     [demoNbl [demoPacket 20] 1, demoNbl [demoPacket 40] 2] 0 (by decide)⟩

/-- C18 as stated fails: a read issued to an adapter that is Paused, to one that
is Pausing, to one without an open handle and to one in a low-power state is in
each case queued and left pending (`STATUS_PENDING`, one pending read, nothing
completed), although `TunCheckForPause` rejects sends and writes in that state. -/
theorem TunDispatchRead_not_rejected_counterexample :
    ((TunCheckForPause demoPausedCtx).1 = NTSTATUS.STATUS_NDIS_PAUSED ∧
      (TunDispatchRead 1 demoPausedCtx (demoRead 1 0xF000) NTSTATUS.STATUS_SUCCESS).map
          (fun r => (r.1, r.2.ReadQueue.length, r.2.IrpComplete.length))
        = some (NTSTATUS.STATUS_PENDING, 1, 0)) ∧
    ((TunCheckForPause { demoPausedCtx with State := TUN_STATE.TUN_STATE_PAUSING }).1
        = NTSTATUS.STATUS_NDIS_PAUSED ∧
      (TunDispatchRead 1 { demoPausedCtx with State := TUN_STATE.TUN_STATE_PAUSING }
          (demoRead 1 0xF000) NTSTATUS.STATUS_SUCCESS).map
          (fun r => (r.1, r.2.ReadQueue.length, r.2.IrpComplete.length))
        = some (NTSTATUS.STATUS_PENDING, 1, 0)) ∧
    ((TunCheckForPause { runningCtx [] [] with DeviceRefCount := 0 }).1
        = NTSTATUS.NDIS_STATUS_SEND_ABORTED ∧
      (TunDispatchRead 1 { runningCtx [] [] with DeviceRefCount := 0 }
          (demoRead 1 0xF000) NTSTATUS.STATUS_SUCCESS).map
          (fun r => (r.1, r.2.ReadQueue.length, r.2.IrpComplete.length))
        = some (NTSTATUS.STATUS_PENDING, 1, 0)) ∧
    ((TunCheckForPause { runningCtx [] [] with PowerState := 4 }).1
        = NTSTATUS.STATUS_NDIS_LOW_POWER_STATE ∧
      (TunDispatchRead 1 { runningCtx [] [] with PowerState := 4 }
          (demoRead 1 0xF000) NTSTATUS.STATUS_SUCCESS).map
          (fun r => (r.1, r.2.ReadQueue.length, r.2.IrpComplete.length))
        = some (NTSTATUS.STATUS_PENDING, 1, 0)) := by
  decide

/-! ## `TunQueueProcess` whichever packet copies fail -/

theorem TunQueueRemove_shape :
    ∀ (fuel : Nat) (ctx : TUN_CTX), QueueOk ctx → (undelivered ctx).length < fuel →
      ∃ ret nbl ctx1, TunQueueRemove fuel ctx = some (ret, nbl, ctx1) ∧
        ((ret = [] ∧ nbl = NblPtr.null ∧ ctx1.FirstNbl = []) ∨
         ∃ p more b rest, ret = p :: more ∧ validLength p = true ∧
           (b.FirstNb ≠ [] ∧ b.RefCount = 1) ∧ (∀ x ∈ rest, x.FirstNb ≠ [] ∧ x.RefCount = 1) ∧
           ((p :: more) ++ (rest.map (fun b => b.FirstNb)).flatten).length
             ≤ (undelivered ctx).length ∧
           Removed ctx1 nbl more b rest) := by
  intro fuel
  induction fuel with
  | zero => intro ctx _ h; simp at h
  | succ fuel ih =>
    intro ctx hok hlen
    have hcases : ctx.FirstNbl = [] ∨ ∃ b rest, ctx.FirstNbl = b :: rest := by
      cases ctx.FirstNbl <;> simp
    rcases hcases with hq | ⟨b, rest, hq⟩
    · exact ⟨[], NblPtr.null, ctx, TunQueueRemove_nil fuel ctx hq, Or.inl ⟨rfl, rfl, hq⟩⟩
    · have hb : b.FirstNb ≠ [] ∧ b.RefCount = 1 := hok b (by rw [hq]; exact List.mem_cons_self _ _)
      have hrest : ∀ x ∈ rest, x.FirstNb ≠ [] ∧ x.RefCount = 1 :=
        fun x hx => hok x (by rw [hq]; exact List.mem_cons_of_mem _ hx)
      have hcne : cursorPackets ctx ≠ [] := by
        unfold cursorPackets; rw [hq]; exact cursorOf_ne_nil b rest _ hb.1
      have hcases2 : ∃ p more, cursorPackets ctx = p :: more := by
        cases h : cursorPackets ctx with
        | nil => exact absurd h hcne
        | cons p more => exact ⟨p, more, rfl⟩
      obtain ⟨p, more, hc⟩ := hcases2
      have hc' : cursorOf (b :: rest) ctx.NextNb = p :: more := by
        rw [← hq]; exact hc
      have hund : undelivered ctx = (p :: more) ++ (rest.map (fun b => b.FirstNb)).flatten := by
        unfold undelivered; rw [hq, undeliveredOf_cons, hc']
      by_cases hp : p.DataLength ≤ TUN_EXCH_MAX_IP_PACKET_SIZE
      · have hpv : validLength p = true := by simp [validLength, hp]
        by_cases hm : more = []
        · subst hm
          exact ⟨[p], NblPtr.unlinked b, _, TunQueueRemove_valid_last fuel ctx b rest p hq hc hp,
            Or.inr ⟨p, [], b, rest, rfl, hpv, hb, hrest, by rw [hund],
              Or.inl ⟨rfl, rfl, rfl, rfl⟩⟩⟩
        · exact ⟨p :: more, NblPtr.first, _,
            TunQueueRemove_valid_mid fuel ctx b rest p more hq hc hm hp,
            Or.inr ⟨p, more, b, rest, rfl, hpv, hb, hrest, by rw [hund],
              Or.inr ⟨hm, rfl, rfl, rfl⟩⟩⟩
      · have hp' : p.DataLength > TUN_EXCH_MAX_IP_PACKET_SIZE := by omega
        by_cases hm : more = []
        · subst hm
          rw [TunQueueRemove_oversized_last fuel ctx b rest p hq hc hp']
          rw [TunNBLRefDec_one _ _ _ (by simpa using hb.2)]
          obtain ⟨ret, nbl, ctx1, h1, h2⟩ := ih
            { (TunCompletePause
                { ({ ctx with NextNb := [], FirstNbl := rest } : TUN_CTX) with
                  SendComplete := ctx.SendComplete ++
                    [({ ({ b with Status := NTSTATUS.NDIS_STATUS_INVALID_LENGTH }
                          : NET_BUFFER_LIST) with RefCount := 0 },
                      NDIS_SEND_COMPLETE_FLAGS_DISPATCH_LEVEL)]
                  NumNbl := ctx.NumNbl - 1 } true).2 with
              Statistics := { ctx.Statistics with
                ifOutDiscards := ctx.Statistics.ifOutDiscards + 1 } }
            (by simpa [QueueOk] using hrest)
            (by
              rw [hund] at hlen
              simp [undelivered, undeliveredOf_unset] at hlen ⊢
              omega)
          refine ⟨ret, nbl, ctx1, h1, ?_⟩
          rcases h2 with h2 | ⟨p2, more2, b2, rest2, e1, e2, e3, e4, e5, e6⟩
          · exact Or.inl h2
          · refine Or.inr ⟨p2, more2, b2, rest2, e1, e2, e3, e4, ?_, e6⟩
            rw [hund]
            simp [undelivered, undeliveredOf_unset] at e5 ⊢
            omega
        · rw [TunQueueRemove_oversized_mid fuel ctx b rest p more hq hc hm (by rw [hb.2]; simp) hp']
          obtain ⟨ret, nbl, ctx1, h1, h2⟩ := ih
            { ctx with
              NextNb := more
              FirstNbl := { b with Status := NTSTATUS.NDIS_STATUS_INVALID_LENGTH } :: rest
              Statistics := { ctx.Statistics with
                ifOutDiscards := ctx.Statistics.ifOutDiscards + 1 } }
            (by
              intro x hx
              simp only [List.mem_cons] at hx
              rcases hx with hx | hx
              · subst hx; exact hb
              · exact hrest x hx)
            (by
              rw [hund] at hlen
              simp [undelivered, undeliveredOf_set _ _ _ hm] at hlen ⊢
              omega)
          refine ⟨ret, nbl, ctx1, h1, ?_⟩
          rcases h2 with h2 | ⟨p2, more2, b2, rest2, e1, e2, e3, e4, e5, e6⟩
          · exact Or.inl h2
          · refine Or.inr ⟨p2, more2, b2, rest2, e1, e2, e3, e4, ?_, e6⟩
            rw [hund]
            simp [undelivered, undeliveredOf_set _ _ _ hm] at e5 ⊢
            omega

theorem TunWriteIntoIrp_failure (i : IRP) (p : NET_BUFFER) (st : NDIS_STATISTICS_INFO)
    (h : p.Data = none) :
    TunWriteIntoIrp i p st =
      (NTSTATUS.NDIS_STATUS_RESOURCES,
        { i with Buffer := writeULONG i.Buffer i.Information p.DataLength },
        { st with ifOutErrors := st.ifOutErrors + 1 }) := by
  unfold TunWriteIntoIrp
  simp only [h]

theorem TunQueueProcessStep_removed (ctx1 : TUN_CTX) (nbl : NblPtr) (p : NET_BUFFER)
    (more : List NET_BUFFER) (b : NET_BUFFER_LIST) (rest : List NET_BUFFER_LIST)
    (hrc : b.RefCount = 1) (hsh : Removed ctx1 nbl more b rest) (i : IRP) (size : Nat) :
    (TunWontFitIntoIrp i size p = true →
      (TunQueueProcessStep ctx1 i size (p :: more) nbl).2 = none ∧
      (TunQueueProcessStep ctx1 i size (p :: more) nbl).1.FirstNbl = b :: rest ∧
      (TunQueueProcessStep ctx1 i size (p :: more) nbl).1.NextNb = p :: more ∧
      (TunQueueProcessStep ctx1 i size (p :: more) nbl).1.ReadQueue = ctx1.ReadQueue ∧
      (TunQueueProcessStep ctx1 i size (p :: more) nbl).1.IrpComplete
        = ctx1.IrpComplete ++ [{ i with Status := NTSTATUS.STATUS_SUCCESS }] ∧
      (TunQueueProcessStep ctx1 i size (p :: more) nbl).1.SendComplete = ctx1.SendComplete) ∧
    (TunWontFitIntoIrp i size p = false → p.Data.isSome = true →
      (TunQueueProcessStep ctx1 i size (p :: more) nbl).2
        = some ((TunWriteIntoIrp i p ctx1.Statistics).2.1, size) ∧
      (TunQueueProcessStep ctx1 i size (p :: more) nbl).1.FirstNbl
        = (if more = [] then rest else b :: rest) ∧
      (TunQueueProcessStep ctx1 i size (p :: more) nbl).1.NextNb = more ∧
      (TunQueueProcessStep ctx1 i size (p :: more) nbl).1.ReadQueue = ctx1.ReadQueue ∧
      (TunQueueProcessStep ctx1 i size (p :: more) nbl).1.IrpComplete = ctx1.IrpComplete ∧
      (TunQueueProcessStep ctx1 i size (p :: more) nbl).1.SendComplete
        = ctx1.SendComplete ++ (if more = [] then [({ b with RefCount := 0 }, 0)] else [])) ∧
    (TunWontFitIntoIrp i size p = false → p.Data = none →
      (TunQueueProcessStep ctx1 i size (p :: more) nbl).2 = none ∧
      (TunQueueProcessStep ctx1 i size (p :: more) nbl).1.FirstNbl
        = (if more = [] then rest
           else { b with Status := NTSTATUS.NDIS_STATUS_RESOURCES } :: rest) ∧
      (TunQueueProcessStep ctx1 i size (p :: more) nbl).1.NextNb = more ∧
      (TunQueueProcessStep ctx1 i size (p :: more) nbl).1.ReadQueue
        = { i with Buffer := writeULONG i.Buffer i.Information p.DataLength } :: ctx1.ReadQueue ∧
      (TunQueueProcessStep ctx1 i size (p :: more) nbl).1.IrpComplete = ctx1.IrpComplete ∧
      (TunQueueProcessStep ctx1 i size (p :: more) nbl).1.SendComplete
        = ctx1.SendComplete ++
          (if more = [] then
            [({ b with Status := NTSTATUS.NDIS_STATUS_RESOURCES, RefCount := 0 }, 0)]
           else []) ∧
      (TunQueueProcessStep ctx1 i size (p :: more) nbl).1.Statistics.ifOutErrors
        = ctx1.Statistics.ifOutErrors + 1) := by
  refine ⟨fun hw => ?_, fun hw hd => ?_, fun hw hd => ?_⟩
  · rw [TunQueueProcessStep_wontfit _ _ _ _ _ _ hw]
    rcases hsh with ⟨_, rfl, hq, _⟩ | ⟨_, rfl, hq, _⟩
    · rw [putback_unlinked _ _ _ _ hrc]
      simp [hq]
    · rw [putback_first _ b rest _ _ hq hrc]
      simp
  · rw [TunQueueProcessStep_copied _ _ _ _ _ _ hw (TunWriteIntoIrp_success _ _ _ hd)]
    rcases hsh with ⟨hm, rfl, hq, hn⟩ | ⟨hm, rfl, hq, hn⟩
    · rw [refDec_unlinked_one _ _ _ hrc]
      simp [hm, hq, hn]
    · rw [consume_first { ctx1 with Statistics := (TunWriteIntoIrp i p ctx1.Statistics).2.2 }
        b rest 0 hq hrc]
      simp [hm, hn]
  · have hs : NT_SUCCESS (TunWriteIntoIrp i p ctx1.Statistics).1 = false := by
      rw [TunWriteIntoIrp_failure _ _ _ hd]; rfl
    rw [TunQueueProcessStep_copy_failed _ _ _ _ _ _ hw hs, TunWriteIntoIrp_failure _ _ _ hd]
    rcases hsh with ⟨hm, rfl, hq, hn⟩ | ⟨hm, rfl, hq, hn⟩
    · simp only [NblPtr.setStatus]
      rw [refDec_unlinked_one _ _ _ (by exact hrc)]
      simp [hm, hq, hn]
    · simp only [NblPtr.setStatus, hq]
      rw [consume_first _ { b with Status := NTSTATUS.NDIS_STATUS_RESOURCES } rest _ rfl
        (by exact hrc)]
      simp [hm, hn]

theorem Removed_frame (ctx1 : TUN_CTX) (nbl : NblPtr) (more : List NET_BUFFER)
    (b : NET_BUFFER_LIST) (rest : List NET_BUFFER_LIST) (R C : List IRP)
    (h : Removed ctx1 nbl more b rest) :
    Removed { ctx1 with ReadQueue := R, IrpComplete := C } nbl more b rest := h

theorem TunQueueProcessStep_progress (ctx1 : TUN_CTX) (nbl : NblPtr) (p : NET_BUFFER)
    (more : List NET_BUFFER) (b : NET_BUFFER_LIST) (rest : List NET_BUFFER_LIST)
    (hb : b.FirstNb ≠ [] ∧ b.RefCount = 1) (hrest : ∀ x ∈ rest, x.FirstNb ≠ [] ∧ x.RefCount = 1)
    (hsh : Removed ctx1 nbl more b rest) (i : IRP) (size : Nat) :
    QueueOk (TunQueueProcessStep ctx1 i size (p :: more) nbl).1 ∧
    (undelivered (TunQueueProcessStep ctx1 i size (p :: more) nbl).1).length
        + (TunQueueProcessStep ctx1 i size (p :: more) nbl).1.ReadQueue.length
        + (if (TunQueueProcessStep ctx1 i size (p :: more) nbl).2.isSome then 1 else 0)
      ≤ ((p :: more) ++ (rest.map (fun b => b.FirstNb)).flatten).length
        + ctx1.ReadQueue.length := by
  obtain ⟨h1, h2, h3⟩ := TunQueueProcessStep_removed ctx1 nbl p more b rest hb.2 hsh i size
  have hokb : ∀ (b' : NET_BUFFER_LIST), b'.FirstNb ≠ [] ∧ b'.RefCount = 1 →
      ∀ x ∈ (if more = [] then rest else b' :: rest), x.FirstNb ≠ [] ∧ x.RefCount = 1 := by
    intro b' hb' x hx
    by_cases hm : more = []
    · rw [if_pos hm] at hx; exact hrest x hx
    · rw [if_neg hm] at hx
      simp only [List.mem_cons] at hx
      rcases hx with hx | hx
      · subst hx; exact hb'
      · exact hrest x hx
  have hlen : ∀ (b' : NET_BUFFER_LIST),
      (undeliveredOf (if more = [] then rest else b' :: rest) more).length
        = (more ++ (rest.map (fun b => b.FirstNb)).flatten).length := by
    intro b'
    by_cases hm : more = []
    · subst hm; simp [undeliveredOf_unset]
    · simp [hm, undeliveredOf_set _ _ _ hm]
  by_cases hw : TunWontFitIntoIrp i size p = true
  · obtain ⟨e1, e2, e3, e4, _, _⟩ := h1 hw
    refine ⟨?_, ?_⟩
    · intro x hx
      rw [e2] at hx
      simp only [List.mem_cons] at hx
      rcases hx with hx | hx
      · subst hx; exact hb
      · exact hrest x hx
    · unfold undelivered
      rw [e1, e2, e3, e4, undeliveredOf_set _ _ _ (by simp)]
      simp
  · simp only [Bool.not_eq_true] at hw
    cases hd : p.Data with
    | none =>
      obtain ⟨e1, e2, e3, e4, _, _, _⟩ := h3 hw hd
      refine ⟨?_, ?_⟩
      · intro x hx
        rw [e2] at hx
        exact hokb { b with Status := NTSTATUS.NDIS_STATUS_RESOURCES } ⟨hb.1, hb.2⟩ x hx
      · unfold undelivered
        rw [e1, e2, e3, e4, hlen]
        simp
        omega
    | some d =>
      obtain ⟨e1, e2, e3, e4, _, _⟩ := h2 hw (by rw [hd]; rfl)
      refine ⟨?_, ?_⟩
      · intro x hx
        rw [e2] at hx
        exact hokb _ hb x hx
      · unfold undelivered
        rw [e1, e2, e3, e4, hlen]
        simp
        omega

theorem TunQueueProcessLoop_returns :
    ∀ (fuel : Nat) (ctx : TUN_CTX) (irp : Option (IRP × Nat)), QueueOk ctx →
      (undelivered ctx).length + ctx.ReadQueue.length + (if irp.isSome then 1 else 0) < fuel →
      ∃ ctx', TunQueueProcessLoop fuel ctx irp = some ctx' ∧ QueueOk ctx' := by
  intro fuel
  induction fuel with
  | zero => intro ctx irp _ h; omega
  | succ fuel ih =>
    intro ctx irp hok hlt
    obtain ⟨ret, nbl, ctx1, hr, hshape⟩ := TunQueueRemove_shape (fuel + 1) ctx hok (by omega)
    obtain ⟨f1, _, _⟩ := TunQueueRemove_frame _ _ _ _ _ hr
    cases irp with
    | none =>
      rw [TunQueueProcessLoop, hr]
      rcases hshape with ⟨rfl, rfl, hq⟩ | ⟨p, more, b, rest, rfl, _, hb, hrest, hle, hsh⟩
      · refine ⟨ctx1, rfl, ?_⟩
        intro x hx; rw [hq] at hx; simp at hx
      · dsimp only
        simp only [TunRemoveNextIrp, TunRemoveNextIrpLoop_eq]
        cases ha : acceptedReads ctx1.ReadQueue with
        | nil =>
          dsimp only
          simp only [refDec_if]
          refine ⟨_, rfl, ?_⟩
          have hfirst : (NblPtr.refDec
              (TunQueuePrepend
                { ctx1 with
                  ReadQueue := ([] : List IRP).tail
                  IrpComplete := ctx1.IrpComplete ++ rejectedReads ctx1.ReadQueue }
                (p :: more) nbl).1
              (TunQueuePrepend
                { ctx1 with
                  ReadQueue := ([] : List IRP).tail
                  IrpComplete := ctx1.IrpComplete ++ rejectedReads ctx1.ReadQueue }
                (p :: more) nbl).2 0).1.FirstNbl = b :: rest := by
            rcases hsh with ⟨_, rfl, hq, _⟩ | ⟨_, rfl, hq, _⟩
            · rw [putback_unlinked _ _ _ _ hb.2]; simp [hq]
            · rw [putback_first
                { ctx1 with
                  ReadQueue := ([] : List IRP).tail
                  IrpComplete := ctx1.IrpComplete ++ rejectedReads ctx1.ReadQueue }
                b rest (p :: more) 0 hq hb.2]
          intro x hx
          rw [hfirst] at hx
          simp only [List.mem_cons] at hx
          rcases hx with hx | hx
          · subst hx; exact hb
          · exact hrest x hx
        | cons i R =>
          dsimp only
          have hacc := acceptedReads_length_le ctx1.ReadQueue
          rw [ha] at hacc
          obtain ⟨g1, g2⟩ := TunQueueProcessStep_progress
            { ctx1 with
              ReadQueue := (i :: R).tail
              IrpComplete := ctx1.IrpComplete ++ rejectedReads ctx1.ReadQueue }
            nbl p more b rest hb hrest (Removed_frame _ _ _ _ _ _ _ hsh) i (TunGetIrpBuffer i).2
          cases hS : TunQueueProcessStep
            { ctx1 with
              ReadQueue := (i :: R).tail
              IrpComplete := ctx1.IrpComplete ++ rejectedReads ctx1.ReadQueue }
            i (TunGetIrpBuffer i).2 (p :: more) nbl with
          | mk ctx3 irp3 =>
            rw [hS] at g1 g2
            dsimp only at g1 g2 ⊢
            apply ih ctx3 irp3 g1
            simp only [List.tail_cons, List.length_cons] at g2 hacc
            rw [f1] at hacc
            simp only [Option.isSome_none, Bool.false_eq_true, if_false] at hlt
            omega
    | some is =>
      obtain ⟨i, s⟩ := is
      rw [TunQueueProcessLoop, hr]
      dsimp only
      rcases hshape with ⟨rfl, rfl, hq⟩ | ⟨p, more, b, rest, rfl, _, hb, hrest, hle, hsh⟩
      · rw [TunQueueProcessStep_nil]
        apply ih
        · intro x hx
          simp only [refDec_null] at hx
          rw [hq] at hx; simp at hx
        · simp only [refDec_null, Option.isSome_none, Bool.false_eq_true, if_false,
            Option.isSome_some, if_true] at hlt ⊢
          have : undelivered { ctx1 with
              IrpComplete := ctx1.IrpComplete ++ [{ i with Status := NTSTATUS.STATUS_SUCCESS }] }
              = [] := by
            simp [undelivered, hq, undeliveredOf]
          rw [this]
          show 0 + ctx1.ReadQueue.length + 0 < fuel
          rw [f1]
          omega
      · obtain ⟨g1, g2⟩ := TunQueueProcessStep_progress ctx1 nbl p more b rest hb hrest hsh i s
        cases hS : TunQueueProcessStep ctx1 i s (p :: more) nbl with
        | mk ctx3 irp3 =>
          rw [hS] at g1 g2
          dsimp only at g1 g2 ⊢
          apply ih ctx3 irp3 g1
          rw [f1] at g2
          simp only [Option.isSome_some, if_true] at hlt
          omega

/-! ## Invariants of the requests `TunQueueProcess` handles

`Pq` is a property of pending requests, `Pc` of completed ones and `Q fresh i size`
of the request `i` of capacity `size` that `TunQueueProcess` holds, `fresh` telling
whether it has just been dequeued. -/

theorem TunQueueProcessStep_invariant (Pq Pc : IRP → Prop) (Q : Bool → IRP → Nat → Prop)
    (hnil : ∀ i size, Q false i size → Pc { i with Status := NTSTATUS.STATUS_SUCCESS })
    (hwont : ∀ f i size p, Q f i size → p.DataLength ≤ TUN_EXCH_MAX_IP_PACKET_SIZE →
      TunWontFitIntoIrp i size p = true → Pc { i with Status := NTSTATUS.STATUS_SUCCESS })
    (hcopy : ∀ f i size p st, Q f i size → p.DataLength ≤ TUN_EXCH_MAX_IP_PACKET_SIZE →
      TunWontFitIntoIrp i size p = false → NT_SUCCESS (TunWriteIntoIrp i p st).1 = true →
      Q false (TunWriteIntoIrp i p st).2.1 size)
    (hfail : ∀ f i size p st, Q f i size → p.DataLength ≤ TUN_EXCH_MAX_IP_PACKET_SIZE →
      TunWontFitIntoIrp i size p = false → NT_SUCCESS (TunWriteIntoIrp i p st).1 = false →
      Pq (TunWriteIntoIrp i p st).2.1)
    (ctx : TUN_CTX) (irp : IRP) (size : Nat) (nb : List NET_BUFFER) (nbl : NblPtr) (f : Bool)
    (h1 : ∀ i ∈ ctx.ReadQueue, Pq i) (h1' : ∀ i ∈ ctx.IrpComplete, Pc i)
    (h2 : Q f irp size)
    (h3 : ∀ p ∈ nb.head?, p.DataLength ≤ TUN_EXCH_MAX_IP_PACKET_SIZE)
    (hnb : f = true → nb ≠ []) :
    (∀ i ∈ (TunQueueProcessStep ctx irp size nb nbl).1.ReadQueue, Pq i) ∧
    (∀ i ∈ (TunQueueProcessStep ctx irp size nb nbl).1.IrpComplete, Pc i) ∧
    ∀ i s, (TunQueueProcessStep ctx irp size nb nbl).2 = some (i, s) → Q false i s := by
  have hdone : Pc { irp with Status := NTSTATUS.STATUS_SUCCESS } →
      ∀ i ∈ ctx.IrpComplete ++ [{ irp with Status := NTSTATUS.STATUS_SUCCESS }], Pc i := by
    intro hp i hi
    rcases List.mem_append.mp hi with hi | hi
    · exact h1' i hi
    · simp only [List.mem_singleton] at hi; rw [hi]; exact hp
  cases nb with
  | nil =>
    have hf : f = false := by
      cases f
      · rfl
      · exact absurd rfl (hnb rfl)
    subst hf
    rw [TunQueueProcessStep_nil]
    refine ⟨by simpa using h1, by simpa using hdone (hnil _ _ h2), by simp⟩
  | cons pkt more =>
    have hpkt : pkt.DataLength ≤ TUN_EXCH_MAX_IP_PACKET_SIZE := h3 pkt (by simp)
    by_cases hw : TunWontFitIntoIrp irp size pkt = true
    · rw [TunQueueProcessStep_wontfit _ _ _ _ _ _ hw]
      refine ⟨by simpa using h1, by simpa using hdone (hwont _ _ _ _ h2 hpkt hw), by simp⟩
    · simp only [Bool.not_eq_true] at hw
      by_cases hs : NT_SUCCESS (TunWriteIntoIrp irp pkt ctx.Statistics).1 = true
      · rw [TunQueueProcessStep_copied _ _ _ _ _ _ hw hs]
        refine ⟨by simpa using h1, by simpa using h1', ?_⟩
        intro i s h
        simp only [Option.some.injEq, Prod.mk.injEq] at h
        rw [← h.1, ← h.2]
        exact hcopy _ _ _ _ _ h2 hpkt hw hs
      · simp only [Bool.not_eq_true] at hs
        rw [TunQueueProcessStep_copy_failed _ _ _ _ _ _ hw hs]
        refine ⟨?_, by simpa using h1', by simp⟩
        simp only [refDec_ReadQueue, setStatus_ReadQueue]
        intro i hi
        simp only [List.mem_cons] at hi
        rcases hi with hi | hi
        · rw [hi]; exact hfail _ _ _ _ _ h2 hpkt hw hs
        · exact h1 i hi

theorem TunQueueProcessLoop_invariant (Pq Pc : IRP → Prop) (Q : Bool → IRP → Nat → Prop)
    (hrej : ∀ i, Pq i → NT_SUCCESS (TunGetIrpBuffer i).1 = false →
      Pc { i with Status := (TunGetIrpBuffer i).1 })
    (hstart : ∀ i, Pq i → NT_SUCCESS (TunGetIrpBuffer i).1 = true →
      Q true i (TunGetIrpBuffer i).2)
    (hnil : ∀ i size, Q false i size → Pc { i with Status := NTSTATUS.STATUS_SUCCESS })
    (hwont : ∀ f i size p, Q f i size → p.DataLength ≤ TUN_EXCH_MAX_IP_PACKET_SIZE →
      TunWontFitIntoIrp i size p = true → Pc { i with Status := NTSTATUS.STATUS_SUCCESS })
    (hcopy : ∀ f i size p st, Q f i size → p.DataLength ≤ TUN_EXCH_MAX_IP_PACKET_SIZE →
      TunWontFitIntoIrp i size p = false → NT_SUCCESS (TunWriteIntoIrp i p st).1 = true →
      Q false (TunWriteIntoIrp i p st).2.1 size)
    (hfail : ∀ f i size p st, Q f i size → p.DataLength ≤ TUN_EXCH_MAX_IP_PACKET_SIZE →
      TunWontFitIntoIrp i size p = false → NT_SUCCESS (TunWriteIntoIrp i p st).1 = false →
      Pq (TunWriteIntoIrp i p st).2.1) :
    ∀ (fuel : Nat) (ctx : TUN_CTX) (irp : Option (IRP × Nat)) (ctx' : TUN_CTX),
      (∀ i ∈ ctx.ReadQueue, Pq i) → (∀ i ∈ ctx.IrpComplete, Pc i) →
      (∀ i s, irp = some (i, s) → Q false i s) →
      TunQueueProcessLoop fuel ctx irp = some ctx' →
      (∀ i ∈ ctx'.ReadQueue, Pq i) ∧ (∀ i ∈ ctx'.IrpComplete, Pc i) := by
  intro fuel
  induction fuel with
  | zero => intro ctx irp ctx' _ _ _ h; simp [TunQueueProcessLoop] at h
  | succ fuel ih =>
    intro ctx irp ctx' h1 h2 h3 h
    cases irp with
    | none =>
      rw [TunQueueProcessLoop] at h
      cases hr : TunQueueRemove (fuel + 1) ctx with
      | none => rw [hr] at h; simp at h
      | some r =>
        obtain ⟨nb, nbl, ctx1⟩ := r
        obtain ⟨f1, f2, f3⟩ := TunQueueRemove_frame _ _ _ _ _ hr
        rw [hr] at h
        have g1 : ∀ i ∈ ctx1.ReadQueue, Pq i := by rw [f1]; exact h1
        have g2 : ∀ i ∈ ctx1.IrpComplete, Pc i := by rw [f2]; exact h2
        cases nb with
        | nil =>
          simp only [Option.some.injEq] at h
          subst h
          exact ⟨g1, g2⟩
        | cons pkt more =>
          dsimp only at h
          simp only [TunRemoveNextIrp, TunRemoveNextIrpLoop_eq] at h
          have a1 : ∀ i ∈ acceptedReads ctx1.ReadQueue, Pq i :=
            fun i hi => g1 i ((List.dropWhile_sublist _).subset hi)
          have a2 : ∀ i ∈ ctx1.IrpComplete ++ rejectedReads ctx1.ReadQueue, Pc i := by
            intro i hi
            rcases List.mem_append.mp hi with hi | hi
            · exact g2 i hi
            · simp only [rejectedReads, List.mem_map] at hi
              obtain ⟨j, hj, rfl⟩ := hi
              have hj2 := List.mem_takeWhile_imp hj
              exact hrej j (g1 j ((List.takeWhile_sublist _).subset hj)) (by simpa using hj2)
          cases ha : acceptedReads ctx1.ReadQueue with
          | nil =>
            rw [ha] at h
            simp only [refDec_if, Option.some.injEq] at h
            subst h
            refine ⟨?_, by simpa using a2⟩
            simp
          | cons i rest =>
            rw [ha] at h a1
            dsimp only at h
            have hacc : NT_SUCCESS (TunGetIrpBuffer i).1 = true := by
              have hh := List.head_dropWhile_not
                (fun i => !NT_SUCCESS (TunGetIrpBuffer i).1) ctx1.ReadQueue
                (by unfold acceptedReads at ha; rw [ha]; simp)
              unfold acceptedReads at ha
              simp only [ha, List.head_cons] at hh
              simpa using hh
            obtain ⟨s1, s2, s3⟩ := TunQueueProcessStep_invariant Pq Pc Q hnil hwont hcopy hfail
              { ctx1 with
                ReadQueue := (i :: rest).tail
                IrpComplete := ctx1.IrpComplete ++ rejectedReads ctx1.ReadQueue }
              i (TunGetIrpBuffer i).2 (pkt :: more) nbl true
              (fun j hj => a1 j (List.mem_cons_of_mem _ hj)) a2
              (hstart i (a1 i (List.mem_cons_self _ _)) hacc) f3 (by simp)
            exact ih _ _ _ s1 s2 s3 h
    | some is =>
      obtain ⟨i, s⟩ := is
      rw [TunQueueProcessLoop] at h
      cases hr : TunQueueRemove (fuel + 1) ctx with
      | none => rw [hr] at h; simp at h
      | some r =>
        obtain ⟨nb, nbl, ctx1⟩ := r
        obtain ⟨f1, f2, f3⟩ := TunQueueRemove_frame _ _ _ _ _ hr
        rw [hr] at h
        dsimp only at h
        obtain ⟨s1, s2, s3⟩ := TunQueueProcessStep_invariant Pq Pc Q hnil hwont hcopy hfail
          ctx1 i s nb nbl false
          (by rw [f1]; exact h1) (by rw [f2]; exact h2) (h3 i s rfl) f3 (by simp)
        exact ih _ _ _ s1 s2 s3 h

/-! ## Records and capacity -/

theorem TunGetIrpBuffer_write (i : IRP) (p : NET_BUFFER) (st : NDIS_STATISTICS_INFO) :
    TunGetIrpBuffer (TunWriteIntoIrp i p st).2.1 = TunGetIrpBuffer i := by
  unfold TunWriteIntoIrp
  cases p.Data <;> rfl

theorem TunWriteIntoIrp_fits (i : IRP) (size : Nat) (p : NET_BUFFER)
    (hw : TunWontFitIntoIrp i size p = false) :
    i.Information + TunPacketAlign (sizeof_TUN_PACKET + p.DataLength) ≤ size := by
  simp only [TunWontFitIntoIrp, decide_eq_false_iff_not] at hw
  omega

theorem TunWriteIntoIrp_extent (i : IRP) (p : NET_BUFFER) (st : NDIS_STATISTICS_INFO)
    (a : Nat) (h : (TunWriteIntoIrp i p st).2.1.Buffer a ≠ i.Buffer a) :
    i.Information ≤ a ∧ a < i.Information + (sizeof_TUN_PACKET + p.DataLength) := by
  have h16 : sizeof_TUN_PACKET = 16 := rfl
  by_contra hcon
  apply h
  unfold TunWriteIntoIrp
  cases p.Data with
  | none =>
    simp only [writeULONG]
    rw [if_neg (by omega)]
  | some d =>
    simp only [writeULONG, writeBytes]
    rw [if_neg (by omega), if_neg (by omega)]

theorem RecordsInside_status (i : IRP) (s : NTSTATUS) (h : RecordsInside i) :
    RecordsInside { i with Status := s } := h

theorem RecordsInside_copy (i : IRP) (size : Nat) (p : NET_BUFFER) (st : NDIS_STATISTICS_INFO)
    (h : RecordsInside i) (hsz : size = (TunGetIrpBuffer i).2)
    (hp : p.DataLength ≤ TUN_EXCH_MAX_IP_PACKET_SIZE)
    (hw : TunWontFitIntoIrp i size p = false) :
    RecordsInside (TunWriteIntoIrp i p st).2.1 := by
  obtain ⟨h1, h2, h3⟩ := h
  have hfit := TunWriteIntoIrp_fits i size p hw
  unfold RecordsInside
  rw [TunGetIrpBuffer_write]
  unfold TunWriteIntoIrp
  cases p.Data with
  | none => exact ⟨h1, h2, h3⟩
  | some d =>
    dsimp only
    refine ⟨?_, ?_, by omega⟩
    · intro q hq
      rcases List.mem_append.mp hq with hq | hq
      · exact h1 q hq
      · simp only [List.mem_singleton] at hq; rw [hq]; exact hp
    · rw [framedSize_append, h2]
      simp [framedSize]

theorem TunQueueProcessLoop_RecordsInside (fuel : Nat) (ctx : TUN_CTX)
    (irp : Option (IRP × Nat)) (ctx' : TUN_CTX)
    (h1 : ∀ i ∈ ctx.ReadQueue, RecordsInside i) (h2 : ∀ i ∈ ctx.IrpComplete, RecordsInside i)
    (h3 : ∀ i s, irp = some (i, s) → RecordsInside i ∧ s = (TunGetIrpBuffer i).2)
    (h : TunQueueProcessLoop fuel ctx irp = some ctx') :
    (∀ i ∈ ctx'.ReadQueue, RecordsInside i) ∧ (∀ i ∈ ctx'.IrpComplete, RecordsInside i) := by
  refine TunQueueProcessLoop_invariant RecordsInside RecordsInside
    (fun _ i s => RecordsInside i ∧ s = (TunGetIrpBuffer i).2)
    ?_ ?_ ?_ ?_ ?_ ?_ fuel ctx irp ctx' h1 h2 h3 h
  · intro i hi _; exact hi
  · intro i hi _; exact ⟨hi, rfl⟩
  · intro i size hq; exact hq.1
  · intro f i size p hq _ _; exact hq.1
  · intro f i size p st hq hp hw _
    exact ⟨RecordsInside_copy i size p st hq.1 hq.2 hp hw, by rw [TunGetIrpBuffer_write]; exact hq.2⟩
  · intro f i size p st hq hp hw _
    exact RecordsInside_copy i size p st hq.1 hq.2 hp hw

/-- C12: on a queue of non-empty batches with reference count 1, with every
pending and completed request accounting for whole records within its capacity
and the request in progress, if any, doing so too, `TunQueueProcess` returns and
the same holds of every request afterwards, so the accumulated byte count never
exceeds the capacity.  A packet of valid length that passes `TunWontFitIntoIrp`
has its whole record of `TunPacketAlign(sizeof(TUN_PACKET) + length)` bytes
between the accumulated count and the capacity; `TunWriteIntoIrp` writes no byte
outside the header and data of that record and advances the count by the record
size.  A packet that does not fit is put back whole: the request is completed
as it is, the batch is again the head of the queue with reference count 1 and
the cursor is on the packet. -/
theorem TunQueueProcess_records_inside (fuel : Nat) (ctx : TUN_CTX) (irp : Option (IRP × Nat))
    (hok : QueueOk ctx)
    (h1 : ∀ i ∈ ctx.ReadQueue, RecordsInside i) (h2 : ∀ i ∈ ctx.IrpComplete, RecordsInside i)
    (h3 : ∀ i s, irp = some (i, s) → RecordsInside i ∧ s = (TunGetIrpBuffer i).2)
    (hfuel : (undelivered ctx).length + ctx.ReadQueue.length + (if irp.isSome then 1 else 0)
      < fuel) :
    (∃ ctx', TunQueueProcessLoop fuel ctx irp = some ctx' ∧
      (∀ i ∈ ctx'.ReadQueue, RecordsInside i) ∧ (∀ i ∈ ctx'.IrpComplete, RecordsInside i)) ∧
    (∀ (i : IRP) (size : Nat) (p : NET_BUFFER) (st : NDIS_STATISTICS_INFO),
      p.DataLength ≤ TUN_EXCH_MAX_IP_PACKET_SIZE → TunWontFitIntoIrp i size p = false →
      i.Information + TunPacketAlign (sizeof_TUN_PACKET + p.DataLength) ≤ size ∧
      sizeof_TUN_PACKET + p.DataLength ≤ TunPacketAlign (sizeof_TUN_PACKET + p.DataLength) ∧
      (∀ a, (TunWriteIntoIrp i p st).2.1.Buffer a ≠ i.Buffer a →
        i.Information ≤ a ∧ a < i.Information + (sizeof_TUN_PACKET + p.DataLength)) ∧
      (NT_SUCCESS (TunWriteIntoIrp i p st).1 = true →
        (TunWriteIntoIrp i p st).2.1.Information
          = i.Information + TunPacketAlign (sizeof_TUN_PACKET + p.DataLength) ∧
        (TunWriteIntoIrp i p st).2.1.Copied = i.Copied ++ [p])) ∧
    (∀ (ctx1 : TUN_CTX) (nbl : NblPtr) (p : NET_BUFFER) (more : List NET_BUFFER)
      (b : NET_BUFFER_LIST) (rest : List NET_BUFFER_LIST) (i : IRP) (size : Nat),
      b.RefCount = 1 → Removed ctx1 nbl more b rest → TunWontFitIntoIrp i size p = true →
      (TunQueueProcessStep ctx1 i size (p :: more) nbl).2 = none ∧
      (TunQueueProcessStep ctx1 i size (p :: more) nbl).1.FirstNbl = b :: rest ∧
      (TunQueueProcessStep ctx1 i size (p :: more) nbl).1.NextNb = p :: more ∧
      (TunQueueProcessStep ctx1 i size (p :: more) nbl).1.IrpComplete
        = ctx1.IrpComplete ++ [{ i with Status := NTSTATUS.STATUS_SUCCESS }]) := by
  refine ⟨?_, ?_, ?_⟩
  · obtain ⟨ctx', hr, _⟩ := TunQueueProcessLoop_returns fuel ctx irp hok hfuel
    exact ⟨ctx', hr, TunQueueProcessLoop_RecordsInside fuel ctx irp ctx' h1 h2 h3 hr⟩
  · intro i size p st hp hw
    refine ⟨TunWriteIntoIrp_fits i size p hw, (TunPacketAlign_record _ hp).1,
      TunWriteIntoIrp_extent i p st, ?_⟩
    intro hs
    have hc := TunWriteIntoIrp_Copied i p st
    rw [if_pos hs] at hc
    refine ⟨?_, hc⟩
    cases hd : p.Data with
    | none =>
      rw [TunWriteIntoIrp_failure _ _ _ hd] at hs
      exact absurd hs (by simp [NT_SUCCESS])
    | some d =>
      unfold TunWriteIntoIrp
      simp only [hd]
  · intro ctx1 nbl p more b rest i size hrc hsh hw
    obtain ⟨e1, e2, e3, _, e5, _⟩ :=
      (TunQueueProcessStep_removed ctx1 nbl p more b rest hrc hsh i size).1 hw
    exact ⟨e1, e2, e3, e5⟩

/-- Witness for C12: a batch of two packets and one pending read. -/
theorem TunQueueProcess_records_inside_witness :
    QueueOk (runningCtx [demoNbl [demoPacket 20, demoPacket 40] 1] [demoRead 1 0xF000]) ∧
    ∃ ctx', TunQueueProcessLoop 4
        (runningCtx [demoNbl [demoPacket 20, demoPacket 40] 1] [demoRead 1 0xF000]) none
        = some ctx' ∧
      (∀ i ∈ ctx'.ReadQueue, RecordsInside i) ∧ (∀ i ∈ ctx'.IrpComplete, RecordsInside i) :=
  ⟨by decide,
   (TunQueueProcess_records_inside 4
     (runningCtx [demoNbl [demoPacket 20, demoPacket 40] 1] [demoRead 1 0xF000]) none
     (by decide) (by decide) (by decide) (by simp) (by decide)).1⟩

/-! ## Packet copy failure -/

/-- C20: on a queue of non-empty batches with reference count 1 whose next
packet `p` has a valid length and fits the request in progress, when the copy of
`p` fails (`NdisGetDataBuffer` yields `NULL`), `TunQueueProcess` does not complete
the request: it puts it back at the head of the read-request queue with its
byte count and copied packets unchanged, so it is the request `TunRemoveNextIrp`
takes next; the batch owning `p` gets the status `NDIS_STATUS_RESOURCES` (it is
released with it when `p` was its last packet, and stays at the head of the
queue with it otherwise); `ifOutErrors` grows by one; and the loop goes on from
there with no request in progress and returns. -/
theorem TunQueueProcess_copy_failure (fuel : Nat) (ctx : TUN_CTX) (b : NET_BUFFER_LIST)
    (rest : List NET_BUFFER_LIST) (p : NET_BUFFER) (more : List NET_BUFFER) (irp : IRP)
    (size : Nat) (hok : QueueOk ctx) (hq : ctx.FirstNbl = b :: rest)
    (hc : cursorPackets ctx = p :: more)
    (hv : p.DataLength ≤ TUN_EXCH_MAX_IP_PACKET_SIZE) (hd : p.Data = none)
    (hfit : TunWontFitIntoIrp irp size p = false)
    (hfuel : (undelivered ctx).length + ctx.ReadQueue.length < fuel) :
    ∃ ctx2 ctx',
      TunQueueProcessLoop (fuel + 1) ctx (some (irp, size)) = TunQueueProcessLoop fuel ctx2 none ∧
      TunQueueProcessLoop fuel ctx2 none = some ctx' ∧
      ctx2.ReadQueue
        = { irp with Buffer := writeULONG irp.Buffer irp.Information p.DataLength }
            :: ctx.ReadQueue ∧
      ctx2.IrpComplete = ctx.IrpComplete ∧
      ctx2.NextNb = more ∧
      ctx2.FirstNbl
        = (if more = [] then rest
           else { b with Status := NTSTATUS.NDIS_STATUS_RESOURCES } :: rest) ∧
      ctx2.SendComplete
        = ctx.SendComplete ++
          (if more = [] then
            [({ b with Status := NTSTATUS.NDIS_STATUS_RESOURCES, RefCount := 0 }, 0)]
           else []) ∧
      ctx2.Statistics.ifOutErrors = ctx.Statistics.ifOutErrors + 1 ∧
      (NT_SUCCESS (TunGetIrpBuffer irp).1 = true →
        (TunRemoveNextIrp ctx2).1
          = some ({ irp with Buffer := writeULONG irp.Buffer irp.Information p.DataLength },
              (TunGetIrpBuffer irp).2)) := by
  have hb : b.FirstNb ≠ [] ∧ b.RefCount = 1 := hok b (by rw [hq]; exact List.mem_cons_self _ _)
  have hrest : ∀ x ∈ rest, x.FirstNb ≠ [] ∧ x.RefCount = 1 :=
    fun x hx => hok x (by rw [hq]; exact List.mem_cons_of_mem _ hx)
  have hund : undelivered ctx = (p :: more) ++ (rest.map (fun b => b.FirstNb)).flatten := by
    have hc' : cursorOf (b :: rest) ctx.NextNb = p :: more := by rw [← hq]; exact hc
    unfold undelivered; rw [hq, undeliveredOf_cons, hc']
  have hrem : ∃ nbl ctx1, TunQueueRemove (fuel + 1) ctx = some (p :: more, nbl, ctx1) ∧
      Removed ctx1 nbl more b rest ∧ ctx1.ReadQueue = ctx.ReadQueue ∧
      ctx1.IrpComplete = ctx.IrpComplete ∧ ctx1.SendComplete = ctx.SendComplete ∧
      ctx1.Statistics = ctx.Statistics := by
    by_cases hm : more = []
    · subst hm
      exact ⟨_, _, TunQueueRemove_valid_last fuel ctx b rest p hq hc hv,
        Or.inl ⟨rfl, rfl, rfl, rfl⟩, rfl, rfl, rfl, rfl⟩
    · exact ⟨_, _, TunQueueRemove_valid_mid fuel ctx b rest p more hq hc hm hv,
        Or.inr ⟨hm, rfl, rfl, rfl⟩, rfl, rfl, rfl, rfl⟩
  obtain ⟨nbl, ctx1, hr, hsh, f1, f2, f3, f4⟩ := hrem
  obtain ⟨e1, e2, e3, e4, e5, e6, e7⟩ :=
    (TunQueueProcessStep_removed ctx1 nbl p more b rest hb.2 hsh irp size).2.2 hfit hd
  obtain ⟨g1, g2⟩ := TunQueueProcessStep_progress ctx1 nbl p more b rest hb hrest hsh irp size
  have hloop : TunQueueProcessLoop (fuel + 1) ctx (some (irp, size))
      = TunQueueProcessLoop fuel (TunQueueProcessStep ctx1 irp size (p :: more) nbl).1
          (TunQueueProcessStep ctx1 irp size (p :: more) nbl).2 := by
    rw [TunQueueProcessLoop, hr]
  rw [e1] at hloop
  obtain ⟨ctx', hret, _⟩ := TunQueueProcessLoop_returns fuel
    (TunQueueProcessStep ctx1 irp size (p :: more) nbl).1 none g1 (by
      rw [e1] at g2
      rw [f1] at g2
      rw [hund] at hfuel
      simp only [Option.isSome_none, Bool.false_eq_true, if_false] at g2 ⊢
      omega)
  refine ⟨_, ctx', hloop, hret, by rw [e4, f1], by rw [e5, f2], e3, e2, by rw [e6, f3],
    by rw [e7, f4], ?_⟩
  intro hacc
  unfold TunRemoveNextIrp
  rw [e4]
  simp only [TunRemoveNextIrpLoop]
  have hsame : TunGetIrpBuffer
      { irp with Buffer := writeULONG irp.Buffer irp.Information p.DataLength }
      = TunGetIrpBuffer irp := rfl
  rw [hsame]
  simp only [hacc, if_true]

/-- Witness for C20: a batch whose first packet cannot be mapped, the second
can; the request in progress is a read of `0xF000` bytes. -/
theorem TunQueueProcess_copy_failure_witness :
    QueueOk (runningCtx [demoNbl [demoUnmapped 20, demoPacket 40] 1] []) ∧
    ∃ ctx2 ctx',
      TunQueueProcessLoop (4 + 1) (runningCtx [demoNbl [demoUnmapped 20, demoPacket 40] 1] [])
          (some (demoRead 1 0xF000, 0xF000))
        = TunQueueProcessLoop 4 ctx2 none ∧
      TunQueueProcessLoop 4 ctx2 none = some ctx' ∧
      ctx2.ReadQueue
        = { demoRead 1 0xF000 with
            Buffer := writeULONG (demoRead 1 0xF000).Buffer (demoRead 1 0xF000).Information
              (demoUnmapped 20).DataLength }
            :: (runningCtx [demoNbl [demoUnmapped 20, demoPacket 40] 1] []).ReadQueue ∧
      ctx2.IrpComplete = (runningCtx [demoNbl [demoUnmapped 20, demoPacket 40] 1] []).IrpComplete ∧
      ctx2.NextNb = [demoPacket 40] ∧
      ctx2.FirstNbl
        = (if [demoPacket 40] = [] then []
           else { demoNbl [demoUnmapped 20, demoPacket 40] 1 with
                  Status := NTSTATUS.NDIS_STATUS_RESOURCES } :: []) ∧
      ctx2.SendComplete
        = (runningCtx [demoNbl [demoUnmapped 20, demoPacket 40] 1] []).SendComplete ++
          (if [demoPacket 40] = [] then
            [({ demoNbl [demoUnmapped 20, demoPacket 40] 1 with
                Status := NTSTATUS.NDIS_STATUS_RESOURCES, RefCount := 0 }, 0)]
           else []) ∧
      ctx2.Statistics.ifOutErrors
        = (runningCtx [demoNbl [demoUnmapped 20, demoPacket 40] 1] []).Statistics.ifOutErrors + 1 ∧
      (NT_SUCCESS (TunGetIrpBuffer (demoRead 1 0xF000)).1 = true →
        (TunRemoveNextIrp ctx2).1
          = some ({ demoRead 1 0xF000 with
              Buffer := writeULONG (demoRead 1 0xF000).Buffer (demoRead 1 0xF000).Information
                (demoUnmapped 20).DataLength },
              (TunGetIrpBuffer (demoRead 1 0xF000)).2)) :=
  ⟨by decide,
   TunQueueProcess_copy_failure 4 (runningCtx [demoNbl [demoUnmapped 20, demoPacket 40] 1] [])
     (demoNbl [demoUnmapped 20, demoPacket 40] 1) [] (demoUnmapped 20) [demoPacket 40]
     (demoRead 1 0xF000) 0xF000 (by decide) rfl rfl (by decide) rfl (by decide) (by decide)⟩

/-! ## Number of records in one exchange -/

theorem demoManyBuffer_record (b : Nat) (hb : b % 48 = 0) :
    readULONG demoManyBuffer b = 20 ∧ demoManyBuffer (b + sizeof_TUN_PACKET) = 0x45 := by
  have h1 : (b + 1) % 48 = 1 := by omega
  have h2 : (b + 2) % 48 = 2 := by omega
  have h3 : (b + 3) % 48 = 3 := by omega
  have h16 : (b + 16) % 48 = 16 := by omega
  simp [readULONG, demoManyBuffer, sizeof_TUN_PACKET, hb, h1, h2, h3, h16]

theorem recordsFrom_demoManyBuffer :
    ∀ (k fuel b : Nat), k ≤ fuel → b % 48 = 0 →
      recordsFrom demoManyBuffer (b + 48 * k) fuel b = (List.range k).map (fun j => b + 48 * j) := by
  intro k
  induction k with
  | zero =>
    intro fuel b _ _
    cases fuel with
    | zero => rfl
    | succ f => simp [recordsFrom, recordFramed]
  | succ k ih =>
    intro fuel b hk hb
    obtain ⟨f, rfl⟩ : ∃ f, fuel = f + 1 := ⟨fuel - 1, by omega⟩
    have hr := (demoManyBuffer_record b hb).1
    have ha : TunPacketAlign (sizeof_TUN_PACKET + 20) = 48 := by decide
    have hfr : recordFramed demoManyBuffer (b + 48 * (k + 1)) b = true := by
      simp only [recordFramed, hr, ha, Bool.and_eq_true, decide_eq_true_eq]
      refine ⟨⟨by omega, by decide⟩, by omega⟩
    have hnext := ih f (b + 48) (by omega) (by omega)
    have hend : b + 48 * (k + 1) = b + 48 + 48 * k := by ring
    rw [recordsFrom, if_pos hfr, hr, ha, hend, hnext, List.range_succ_eq_map]
    simp only [List.map_cons, List.map_map, Nat.mul_zero, Nat.add_zero, List.cons.injEq, true_and]
    apply List.map_congr_left
    intro j _
    simp only [Function.comp, Nat.succ_eq_add_one]
    omega

theorem recordIsIPv4_demoManyBuffer (b : Nat) (hb : b % 48 = 0) :
    recordIsIPv4 demoManyBuffer b = true := by
  obtain ⟨h1, h2⟩ := demoManyBuffer_record b hb
  simp [recordIsIPv4, h1, h2]

theorem framedSize_ge : ∀ (ps : List NET_BUFFER),
    (∀ p ∈ ps, p.DataLength ≤ TUN_EXCH_MAX_IP_PACKET_SIZE) → ps.length * 16 ≤ framedSize ps := by
  intro ps
  induction ps with
  | nil => intro _; simp [framedSize]
  | cons p ps ih =>
    intro h
    have h1 := (TunPacketAlign_record p.DataLength (h p (List.mem_cons_self _ _))).2.1
    have h2 := ih (fun q hq => h q (List.mem_cons_of_mem _ hq))
    have h16 : sizeof_TUN_PACKET = 16 := rfl
    simp only [framedSize, List.length_cons]
    omega

theorem fillIrp_replicate (size : Nat) (p : NET_BUFFER) (hd : p.Data.isSome = true) :
    ∀ (k : Nat) (i : IRP),
      i.Information + k * TunPacketAlign (sizeof_TUN_PACKET + p.DataLength) ≤ size →
      (fillIrp i size (List.replicate k p)).1.Copied = i.Copied ++ List.replicate k p := by
  intro k
  induction k with
  | zero => intro i _; simp [fillIrp]
  | succ k ih =>
    intro i h
    have hw : TunWontFitIntoIrp i size p = false := by
      simp only [TunWontFitIntoIrp, decide_eq_false_iff_not]
      have : (k + 1) * TunPacketAlign (sizeof_TUN_PACKET + p.DataLength)
          = k * TunPacketAlign (sizeof_TUN_PACKET + p.DataLength)
            + TunPacketAlign (sizeof_TUN_PACKET + p.DataLength) := by ring
      omega
    have hs := TunWriteIntoIrp_success i p zeroStatistics hd
    have hc := TunWriteIntoIrp_Copied i p zeroStatistics
    rw [if_pos hs] at hc
    have hi : (TunWriteIntoIrp i p zeroStatistics).2.1.Information
        = i.Information + TunPacketAlign (sizeof_TUN_PACKET + p.DataLength) := by
      unfold TunWriteIntoIrp
      cases hdd : p.Data with
      | none => rw [hdd] at hd; simp at hd
      | some d => rfl
    rw [List.replicate_succ, fillIrp_fits i size p _ zeroStatistics hw,
      ih _ (by
        rw [hi]
        have : (k + 1) * TunPacketAlign (sizeof_TUN_PACKET + p.DataLength)
            = k * TunPacketAlign (sizeof_TUN_PACKET + p.DataLength)
              + TunPacketAlign (sizeof_TUN_PACKET + p.DataLength) := by ring
        omega), hc]
    simp

theorem TunWriteFromIrp_demoManyBuffer (k fuel : Nat) (hk : 0 < k) (hfuel : 48 * k < fuel)
    (hmax : 48 * k ≤ TUN_EXCH_MAX_BUFFER_SIZE) :
    (TunWriteFromIrp fuel demoEnv (runningCtx [] []) (demoWrite (48 * k) demoManyBuffer)).map
        (fun r => (r.1, r.2.1.Indicated.map (fun e => e.2), r.2.1.Statistics.ifHCInUcastPkts))
      = some (NTSTATUS.STATUS_SUCCESS, [k], k) := by
  have hget : TunGetIrpBuffer (demoWrite (48 * k) demoManyBuffer)
      = (NTSTATUS.STATUS_SUCCESS, 48 * k) := by
    have h16 : TUN_EXCH_MIN_BUFFER_SIZE_WRITE = 16 := rfl
    simp only [TunGetIrpBuffer, demoWrite, lt_self_iff_false, if_false]
    rw [if_neg (by omega), if_neg (by simp), if_neg (by omega)]
  obtain ⟨ctx', Irp', s, heq, l1, l2, _, l4, _⟩ := TunWriteFromIrp_spec fuel demoEnv
    (runningCtx [] []) (demoWrite (48 * k) demoManyBuffer) demoEnv_succeeds
    (by decide) (by rw [hget]; rfl) (by rw [hget]; exact hfuel)
  have hrec := recordsFrom_demoManyBuffer k fuel 0 (by omega) (by decide)
  have hbuf : (demoWrite (48 * k) demoManyBuffer).Buffer = demoManyBuffer := rfl
  rw [hget, hbuf] at l1
  simp only [Nat.zero_add] at hrec
  rw [hrec] at l1
  have hall : ((List.range k).map (fun j => 48 * j)).filter
      (fun off => recordIsIPv4 demoManyBuffer off || recordIsIPv6 demoManyBuffer off)
      = (List.range k).map (fun j => 48 * j) := by
    rw [List.filter_eq_self]
    intro off hoff
    simp only [List.mem_map] at hoff
    obtain ⟨j, _, rfl⟩ := hoff
    rw [recordIsIPv4_demoManyBuffer _ (by omega)]
    rfl
  rw [hall] at l1
  have hlen : s.nbls.length = k := by
    rw [l1]; simp only [List.length_map, List.length_range]
  have hne : s.nbls ≠ [] := by
    intro h; rw [h] at hlen; simp at hlen; omega
  rw [heq]
  simp only [Option.map_some', Option.some.injEq, Prod.mk.injEq, true_and]
  rw [l2, l4, if_neg hne, hlen]
  refine ⟨rfl, ?_⟩
  show 0 + k = k
  omega

theorem TunQueueProcess_replicate (k fuel : Nat) (hk : 0 < k) (hfuel : k + 1 < fuel)
    (hfit : k * 48 ≤ 0xF000) :
    (TunQueueProcess fuel
        (runningCtx [demoNbl (List.replicate k (demoPacket 20)) 1] [demoRead 1 0xF000])).map
        (fun c => c.IrpComplete.map (fun i => (i.Status, i.Copied.length)))
      = some [(NTSTATUS.STATUS_SUCCESS, k)] := by
  have hund : undelivered
      (runningCtx [demoNbl (List.replicate k (demoPacket 20)) 1] [demoRead 1 0xF000])
      = List.replicate k (demoPacket 20) := by
    simp [undelivered, undeliveredOf, cursorOf, runningCtx, demoNbl]
  have hne : List.replicate k (demoPacket 20) ≠ [] := by
    intro h
    have := congrArg List.length h
    simp at this
    omega
  obtain ⟨ctx', hrun, _, hcomp, _, _⟩ := TunQueueProcessLoop_spec fuel
    (runningCtx [demoNbl (List.replicate k (demoPacket 20)) 1] [demoRead 1 0xF000]) none
    (by
      intro b hb
      simp only [runningCtx, List.mem_singleton] at hb
      subst hb
      exact ⟨hne, rfl⟩)
    (by
      rw [hund]
      intro p hp
      rw [List.eq_of_mem_replicate hp]
      decide)
    (by
      rw [hund]
      simp only [List.length_replicate, runningCtx, List.length_singleton, Option.isSome_none,
        Bool.false_eq_true, if_false]
      omega)
  have ha : TunPacketAlign (sizeof_TUN_PACKET + (demoPacket 20).DataLength) = 48 := by decide
  have hcopied := fillIrp_replicate 0xF000 (demoPacket 20) rfl k (demoRead 1 0xF000)
    (by rw [ha]; show 0 + k * 48 ≤ _; omega)
  obtain ⟨_, _, _, hstatus, _⟩ := fillIrp_spec 0xF000 (List.replicate k (demoPacket 20))
    (demoRead 1 0xF000) (by
      intro p hp
      rw [List.eq_of_mem_replicate hp]
      rfl)
  have hsz : (TunGetIrpBuffer (demoRead 1 0xF000)).2 = 0xF000 := by decide
  have hacc : NT_SUCCESS (TunGetIrpBuffer (demoRead 1 0xF000)).1 = true := by decide
  have hdrain : (drainSpecFrom none (List.replicate k (demoPacket 20))
      [demoRead 1 0xF000]).1
      = [(fillIrp (demoRead 1 0xF000) 0xF000 (List.replicate k (demoPacket 20))).1] := by
    simp only [drainSpecFrom, drainSpec, hne, if_false, hacc, if_true, hsz]
  have hrq : (runningCtx [demoNbl (List.replicate k (demoPacket 20)) 1]
      [demoRead 1 0xF000]).ReadQueue = [demoRead 1 0xF000] := rfl
  have hic : (runningCtx [demoNbl (List.replicate k (demoPacket 20)) 1]
      [demoRead 1 0xF000]).IrpComplete = [] := rfl
  rw [hund, hrq, hic, hdrain] at hcomp
  unfold TunQueueProcess
  rw [hrun]
  simp only [Option.map_some', Option.some.injEq]
  rw [hcomp]
  simp only [List.nil_append, List.map_cons, List.map_nil]
  rw [hstatus, hcopied]
  simp [demoRead]

/-- C14 fails on the code: `TUN_EXCH_MAX_PACKETS` (256) is documented at its
definition (wintun.c 27) as the maximum number of exchange packets of a single
read or write, but neither the decoder nor the drain counts records.  A write
of 12336 bytes holding 257 records of 20-byte IPv4 packets is accepted and all
257 packets are indicated in one call; and a read of `0xF000` bytes is
completed holding the 257 packets of 20 bytes that were queued. -/
theorem exchange_over_256_records_counterexample :
    (TunWriteFromIrp 12337 demoEnv (runningCtx [] []) (demoWrite (48 * 257) demoManyBuffer)).map
        (fun r => (r.1, r.2.1.Indicated.map (fun e => e.2), r.2.1.Statistics.ifHCInUcastPkts))
      = some (NTSTATUS.STATUS_SUCCESS, [257], 257) ∧
    (TunQueueProcess 300
        (runningCtx [demoNbl (List.replicate 257 (demoPacket 20)) 1] [demoRead 1 0xF000])).map
        (fun c => c.IrpComplete.map (fun i => (i.Status, i.Copied.length)))
      = some [(NTSTATUS.STATUS_SUCCESS, 257)] :=
  ⟨TunWriteFromIrp_demoManyBuffer 257 12337 (by decide) (by decide) (by decide),
   TunQueueProcess_replicate 257 300 (by decide) (by decide) (by decide)⟩

theorem TunGetIrpBuffer_max (Irp : IRP) (hs : NT_SUCCESS (TunGetIrpBuffer Irp).1 = true) :
    (TunGetIrpBuffer Irp).2 ≤ TUN_EXCH_MAX_BUFFER_SIZE := by
  unfold TunGetIrpBuffer at hs ⊢
  cases hmj : Irp.MajorFunction <;> rw [hmj] at hs <;> dsimp only at hs ⊢ <;>
    first | exact absurd hs Bool.false_ne_true | skip
  all_goals
    cases hm : Irp.MdlAddress with
    | none => rw [hm] at hs; simp [NT_SUCCESS] at hs
    | some size_mdl =>
      rw [hm] at hs
      dsimp only at hs ⊢
      split_ifs at hs ⊢ <;> simp_all [NT_SUCCESS]

/-- The bound the code does enforce on the records of one exchange: the buffer
size divided by 16, the size of the smallest record, hence
`TUN_EXCH_MAX_BUFFER_SIZE / 16 = 983040`; `TUN_EXCH_MAX_PACKETS` enters only the
buffer size limit.  For every accepted write on a running adapter the records
`TunWriteFromIrp` parses (those indicated plus those counted as errors by the
loop) number at most a sixteenth of the buffer size; and on a queue of
non-empty batches with reference count 1, with every request accounting for
whole records within its capacity, `TunQueueProcess` returns and every completed
read holds at most a sixteenth of its capacity in records. -/
theorem exchange_record_bound :
    TUN_EXCH_MAX_BUFFER_SIZE / 16 = 983040 ∧
    (∀ (fuel : Nat) (env : NDIS_ENV) (ctx : TUN_CTX) (Irp : IRP),
      NT_SUCCESS (TunCheckForPause ctx).1 = true → NT_SUCCESS (TunGetIrpBuffer Irp).1 = true →
      (TunGetIrpBuffer Irp).2 < fuel →
      ∃ ctx' Irp' s,
        TunWriteFromIrp fuel env ctx Irp = some (NTSTATUS.STATUS_SUCCESS, ctx', Irp', s) ∧
        s.nbl_count + s.stat_p_err
          = (recordsFrom Irp.Buffer (TunGetIrpBuffer Irp).2 fuel 0).length ∧
        (s.nbl_count + s.stat_p_err) * 16 ≤ (TunGetIrpBuffer Irp).2 ∧
        (TunGetIrpBuffer Irp).2 ≤ TUN_EXCH_MAX_BUFFER_SIZE) ∧
    (∀ (fuel : Nat) (ctx : TUN_CTX), QueueOk ctx →
      (∀ i ∈ ctx.ReadQueue, RecordsInside i) → (∀ i ∈ ctx.IrpComplete, RecordsInside i) →
      (undelivered ctx).length + ctx.ReadQueue.length < fuel →
      ∃ ctx', TunQueueProcess fuel ctx = some ctx' ∧
        ∀ i ∈ ctx'.IrpComplete,
          i.Copied.length * 16 ≤ i.Information ∧ i.Information ≤ (TunGetIrpBuffer i).2 ∧
          (NT_SUCCESS (TunGetIrpBuffer i).1 = true →
            (TunGetIrpBuffer i).2 ≤ TUN_EXCH_MAX_BUFFER_SIZE)) := by
  refine ⟨by decide, ?_, ?_⟩
  · intro fuel env ctx Irp hrun hbuf hfuel
    obtain ⟨s, l0, _, l2⟩ := TunWriteFromIrpLoop_consumed env Irp.Buffer (TunGetIrpBuffer Irp).2
      fuel { b := 0, nbls := [], nbl_count := 0, stat_p_err := 0, Accessed := [] }
      (by simpa using hfuel)
    obtain ⟨ctx', hret⟩ := TunWriteFromIrp_returns fuel env ctx Irp s hrun hbuf l0
    obtain ⟨_, _, _, x4⟩ := recordsFrom_extent Irp.Buffer (TunGetIrpBuffer Irp).2 fuel 0
      (Nat.zero_le _) (by simpa using hfuel) rfl
    simp only [Nat.zero_add, Nat.sub_zero] at l2 x4
    exact ⟨ctx', _, s, hret, l2, by rw [l2]; exact x4, TunGetIrpBuffer_max Irp hbuf⟩
  · intro fuel ctx hok h1 h2 hfuel
    obtain ⟨ctx', hr, _⟩ := TunQueueProcessLoop_returns fuel ctx none hok (by simpa using hfuel)
    obtain ⟨_, hc⟩ := TunQueueProcessLoop_RecordsInside fuel ctx none ctx' h1 h2 (by simp) hr
    refine ⟨ctx', hr, ?_⟩
    intro i hi
    obtain ⟨c1, c2, c3⟩ := hc i hi
    refine ⟨?_, c3, TunGetIrpBuffer_max i⟩
    rw [c2]
    exact framedSize_ge _ c1

/-- The enforced bound at the write of 257 records and at a read draining two packets. -/
theorem exchange_record_bound_witness :
    (∃ ctx' Irp' s,
      TunWriteFromIrp 12337 demoEnv (runningCtx [] []) (demoWrite (48 * 257) demoManyBuffer)
        = some (NTSTATUS.STATUS_SUCCESS, ctx', Irp', s) ∧
      s.nbl_count + s.stat_p_err
        = (recordsFrom (demoWrite (48 * 257) demoManyBuffer).Buffer
            (TunGetIrpBuffer (demoWrite (48 * 257) demoManyBuffer)).2 12337 0).length ∧
      (s.nbl_count + s.stat_p_err) * 16
        ≤ (TunGetIrpBuffer (demoWrite (48 * 257) demoManyBuffer)).2 ∧
      (TunGetIrpBuffer (demoWrite (48 * 257) demoManyBuffer)).2 ≤ TUN_EXCH_MAX_BUFFER_SIZE) ∧
    (∃ ctx', TunQueueProcess 4
        (runningCtx [demoNbl [demoPacket 20, demoPacket 40] 1] [demoRead 1 0xF000]) = some ctx' ∧
      ∀ i ∈ ctx'.IrpComplete,
        i.Copied.length * 16 ≤ i.Information ∧ i.Information ≤ (TunGetIrpBuffer i).2 ∧
        (NT_SUCCESS (TunGetIrpBuffer i).1 = true →
          (TunGetIrpBuffer i).2 ≤ TUN_EXCH_MAX_BUFFER_SIZE)) :=
  ⟨exchange_record_bound.2.1 12337 demoEnv (runningCtx [] [])
      (demoWrite (48 * 257) demoManyBuffer) (by decide) (by decide) (by decide),
   exchange_record_bound.2.2 4
      (runningCtx [demoNbl [demoPacket 20, demoPacket 40] 1] [demoRead 1 0xF000])
      (by decide) (by decide) (by decide) (by decide)⟩

/-! ## Cancellation of the partly drained head batch -/

/-- C16 fails on the code: from an empty queue with one read pending, append a
batch tagged 7 of two packets, the first filling the read; `TunQueueProcess`
completes the read with the first packet and puts the second back, leaving the
cursor on it; `TunCancelSend(7)` then releases the batch (status aborted, count
0) and empties the batch list, but leaves the cursor on the second packet of
the released batch. -/
theorem TunCancelSend_leaves_cursor :
    (TunQueueProcess 10
        (TunQueueAppend (runningCtx [] [demoRead 1 0xF000])
          [demoNbl [demoFullPacket, demoPacket 20] 7] TUN_QUEUE_MAX_NBLS)).map
        (fun c => (c.FirstNbl.map (fun b => (b.CancelId, b.RefCount)), c.NextNb))
      = some ([(7, 1)], [demoPacket 20]) ∧
    (TunQueueProcess 10
        (TunQueueAppend (runningCtx [] [demoRead 1 0xF000])
          [demoNbl [demoFullPacket, demoPacket 20] 7] TUN_QUEUE_MAX_NBLS)).map
        (fun c => (c.IrpComplete.map (fun i => i.Copied), c.SendComplete.length))
      = some ([[demoFullPacket]], 0) ∧
    (TunQueueProcess 10
        (TunQueueAppend (runningCtx [] [demoRead 1 0xF000])
          [demoNbl [demoFullPacket, demoPacket 20] 7] TUN_QUEUE_MAX_NBLS)).map
        (fun c => (TunCancelSend c 7).SendComplete.map
          (fun e => (e.1.CancelId, e.1.Status, e.1.RefCount)))
      = some [(7, NTSTATUS.NDIS_STATUS_SEND_ABORTED, 0)] ∧
    (TunQueueProcess 10
        (TunQueueAppend (runningCtx [] [demoRead 1 0xF000])
          [demoNbl [demoFullPacket, demoPacket 20] 7] TUN_QUEUE_MAX_NBLS)).map
        (fun c => ((TunCancelSend c 7).FirstNbl, (TunCancelSend c 7).NextNb))
      = some ([], [demoPacket 20]) := by
  decide

/-- C19 fails on the code: with the cursor on the second packet of the head
batch, tagged 7, and a batch tagged 8 behind it, `TunCancelSend(7)` releases the
head batch and leaves the batch tagged 8 as the whole list, but the next
`TunQueueRemove` returns the packet the cursor was left on, a packet of the
cancelled batch, and unlinks the surviving batch, whose own packet is never
returned. -/
theorem TunCancelSend_then_remove_cancelled_packet :
    (TunCancelSend demoPartlyDrained 7).SendComplete.map
        (fun e => (e.1.CancelId, e.1.Status, e.1.RefCount))
      = [(7, NTSTATUS.NDIS_STATUS_SEND_ABORTED, 0)] ∧
    (TunCancelSend demoPartlyDrained 7).FirstNbl = [demoNbl [demoPacket 60] 8] ∧
    (TunCancelSend demoPartlyDrained 7).LastNbl = some (demoNbl [demoPacket 60] 8) ∧
    (TunCancelSend demoPartlyDrained 7).NextNb = [demoPacket 40] ∧
    (TunQueueRemove 3 (TunCancelSend demoPartlyDrained 7)).map
        (fun r => (r.1, r.2.1, r.2.2.FirstNbl))
      = some ([demoPacket 40], NblPtr.unlinked (demoNbl [demoPacket 60] 8), []) ∧
    (TunQueueDrain 3 (TunCancelSend demoPartlyDrained 7)).map (fun r => r.1)
      = some [demoPacket 40] := by
  decide

/-! ## The adapter-state test -/

/-- C25: for every adapter state, `TunCheckForPause` returns success exactly
when the handle count is positive, the state is Running and the power state is
below `NdisDeviceStateD1`; otherwise it returns the status of the first failing
test in that order; in every case it adds one to `ActiveTransactionCount` and
changes nothing else. -/
theorem TunCheckForPause_spec (ctx : TUN_CTX) :
    ((TunCheckForPause ctx).1 = NTSTATUS.STATUS_SUCCESS ↔
      (0 < ctx.DeviceRefCount ∧ ctx.State = TUN_STATE.TUN_STATE_RUNNING ∧
        ctx.PowerState < NdisDeviceStateD1)) ∧
    (NT_SUCCESS (TunCheckForPause ctx).1 = true ↔
      (TunCheckForPause ctx).1 = NTSTATUS.STATUS_SUCCESS) ∧
    (ctx.DeviceRefCount ≤ 0 → (TunCheckForPause ctx).1 = NTSTATUS.NDIS_STATUS_SEND_ABORTED) ∧
    (0 < ctx.DeviceRefCount → ctx.State ≠ TUN_STATE.TUN_STATE_RUNNING →
      (TunCheckForPause ctx).1 = NTSTATUS.STATUS_NDIS_PAUSED) ∧
    (0 < ctx.DeviceRefCount → ctx.State = TUN_STATE.TUN_STATE_RUNNING →
      ctx.PowerState ≥ NdisDeviceStateD1 →
      (TunCheckForPause ctx).1 = NTSTATUS.STATUS_NDIS_LOW_POWER_STATE) ∧
    (TunCheckForPause ctx).2
      = { ctx with ActiveTransactionCount := ctx.ActiveTransactionCount + 1 } := by
  unfold TunCheckForPause
  dsimp only
  refine ⟨?_, ?_, ?_, ?_, ?_, rfl⟩
  · split_ifs with h1 h2 h3
    · simp; intro h; omega
    · simp; intro _ h; exact absurd h h2
    · simp; intro _ _; omega
    · simp
      exact ⟨by omega, by simpa using h2, by omega⟩
  · split_ifs <;> simp [NT_SUCCESS]
  · intro h; rw [if_pos h]
  · intro h1 h2; rw [if_neg (by omega), if_pos h2]
  · intro h1 h2 h3; rw [if_neg (by omega), if_neg (by simpa using h2), if_pos h3]

/-! ## Halt and cleanup: completion of pending reads -/

theorem IoCsqRemoveNextIrp_none (F : Nat) :
    ∀ (l : List IRP), IoCsqRemoveNextIrp l F = none → l.filter (peekAccepts F) = [] := by
  intro l
  induction l with
  | nil => intro _; rfl
  | cons i rest ih =>
    intro h
    unfold IoCsqRemoveNextIrp at h
    by_cases h0 : F = 0
    · simp [h0] at h
    · by_cases hf : i.FileObject = F
      · simp [h0, hf] at h
      · simp only [h0, hf, if_false, Option.map_eq_none'] at h
        simp [List.filter_cons, peekAccepts, h0, hf, ih h]

theorem IoCsqRemoveNextIrp_some (F : Nat) :
    ∀ (l : List IRP) (i : IRP) (l' : List IRP), IoCsqRemoveNextIrp l F = some (i, l') →
      l.filter (peekAccepts F) = i :: l'.filter (peekAccepts F) ∧
      l.filter (fun x => !peekAccepts F x) = l'.filter (fun x => !peekAccepts F x) := by
  intro l
  induction l with
  | nil => intro i l' h; simp [IoCsqRemoveNextIrp] at h
  | cons x rest ih =>
    intro i l' h
    unfold IoCsqRemoveNextIrp at h
    by_cases h0 : F = 0
    · simp only [h0, if_true, Option.some.injEq, Prod.mk.injEq] at h
      obtain ⟨rfl, rfl⟩ := h
      simp [List.filter_cons, peekAccepts, h0]
    · by_cases hf : x.FileObject = F
      · simp only [h0, hf, if_false, if_true, Option.some.injEq, Prod.mk.injEq] at h
        obtain ⟨rfl, rfl⟩ := h
        simp [List.filter_cons, peekAccepts, h0, hf]
      · simp only [h0, hf, if_false, Option.map_eq_some', Prod.mk.injEq] at h
        obtain ⟨⟨j, r⟩, hr, rfl, rfl⟩ := h
        obtain ⟨e1, e2⟩ := ih j r hr
        simp [List.filter_cons, peekAccepts, h0, hf] at e1 e2 ⊢
        exact ⟨e1, e2⟩

theorem TunCompletePendingLoop_spec (F : Nat) (st : NTSTATUS) :
    ∀ (fuel : Nat) (ctx : TUN_CTX), (ctx.ReadQueue.filter (peekAccepts F)).length < fuel →
      TunCompletePendingLoop F st fuel ctx
        = some { ctx with
            ReadQueue := ctx.ReadQueue.filter (fun x => !peekAccepts F x)
            IrpComplete := ctx.IrpComplete ++
              (ctx.ReadQueue.filter (peekAccepts F)).map
                (fun i => { i with Information := 0, Status := st }) } := by
  intro fuel
  induction fuel with
  | zero => intro ctx h; omega
  | succ fuel ih =>
    intro ctx hlen
    rw [TunCompletePendingLoop]
    cases hr : IoCsqRemoveNextIrp ctx.ReadQueue F with
    | none =>
      have h1 := IoCsqRemoveNextIrp_none F _ hr
      have h2 : ctx.ReadQueue.filter (fun x => !peekAccepts F x) = ctx.ReadQueue := by
        rw [List.filter_eq_self]
        intro x hx
        have : x ∉ ctx.ReadQueue.filter (peekAccepts F) := by rw [h1]; simp
        simpa [List.mem_filter, hx] using this
      simp [h1, h2]
    | some r =>
      obtain ⟨i, l'⟩ := r
      obtain ⟨e1, e2⟩ := IoCsqRemoveNextIrp_some F _ i l' hr
      dsimp only
      rw [ih (TunCompleteRequest { ctx with ReadQueue := l' } i 0 st) (by
        rw [e1] at hlen
        simpa [TunCompleteRequest] using hlen)]
      simp [TunCompleteRequest, e1, e2]

/-- C21: for every read-request queue content, `TunHaltEx` (given fuel above the
number of pending reads) completes every pending read exactly once, in queue
order, with `STATUS_FILE_FORCED_CLOSED` and a byte count of 0, leaves the
read-request queue empty and ends with the state Halted. -/
theorem TunHaltEx_completes_pending (fuel : Nat) (ctx : TUN_CTX)
    (hfuel : ctx.ReadQueue.length < fuel) :
    TunHaltEx fuel ctx
      = some { ctx with
          State := TUN_STATE.TUN_STATE_HALTED
          PowerState := 0
          ReadQueue := []
          IrpComplete := ctx.IrpComplete ++
            ctx.ReadQueue.map
              (fun i => { i with Information := 0, Status := NTSTATUS.STATUS_FILE_FORCED_CLOSED }) } := by
  have hall : ctx.ReadQueue.filter (peekAccepts 0) = ctx.ReadQueue := by
    rw [List.filter_eq_self]; intro x _; simp [peekAccepts]
  have hnone : ctx.ReadQueue.filter (fun x => !peekAccepts 0 x) = [] := by
    rw [List.filter_eq_nil_iff]; intro x _; simp [peekAccepts]
  unfold TunHaltEx
  dsimp only
  rw [TunCompletePendingLoop_spec 0 _ fuel _ (by
    show (ctx.ReadQueue.filter (peekAccepts 0)).length < fuel
    rw [hall]; exact hfuel)]
  simp only [Option.map_some', hall, hnone]

/-- Witness for C21: two pending reads. -/
theorem TunHaltEx_completes_pending_witness :
    TunHaltEx 3 (runningCtx [] [demoRead 1 0xF000, demoRead 2 0xF000])
      = some { runningCtx [] [demoRead 1 0xF000, demoRead 2 0xF000] with
          State := TUN_STATE.TUN_STATE_HALTED
          PowerState := 0
          ReadQueue := []
          IrpComplete := (runningCtx [] [demoRead 1 0xF000, demoRead 2 0xF000]).IrpComplete ++
            (runningCtx [] [demoRead 1 0xF000, demoRead 2 0xF000]).ReadQueue.map
              (fun i => { i with Information := 0, Status := NTSTATUS.STATUS_FILE_FORCED_CLOSED }) } :=
  TunHaltEx_completes_pending 3 (runningCtx [] [demoRead 1 0xF000, demoRead 2 0xF000])
    (by decide)

/-- C22: for every read-request queue content and every connection `F` (a
non-`NULL` file object), the cleanup of `F` (given fuel above the number of
pending reads of `F`) completes exactly the pending reads whose file object is
`F`, each once, in queue order, with `STATUS_CANCELLED` and a byte count of 0,
then completes the cleanup request itself with success; the reads of the other
connections stay in the queue in their original order. -/
theorem TunDispatchCleanup_completes_owned (fuel : Nat) (ctx : TUN_CTX) (Irp : IRP)
    (hF : Irp.FileObject ≠ 0)
    (hfuel : (ctx.ReadQueue.filter (fun i => decide (i.FileObject = Irp.FileObject))).length
      < fuel) :
    TunDispatchCleanup fuel ctx Irp
      = some (NTSTATUS.STATUS_SUCCESS,
          { ctx with
            ReadQueue := ctx.ReadQueue.filter (fun i => !decide (i.FileObject = Irp.FileObject))
            IrpComplete := ctx.IrpComplete ++
              (ctx.ReadQueue.filter (fun i => decide (i.FileObject = Irp.FileObject))).map
                (fun i => { i with Information := 0, Status := NTSTATUS.STATUS_CANCELLED }) ++
              [{ Irp with Information := 0, Status := NTSTATUS.STATUS_SUCCESS }] }) := by
  have hp : peekAccepts Irp.FileObject = fun i => decide (i.FileObject = Irp.FileObject) := by
    funext i; simp [peekAccepts, hF]
  unfold TunDispatchCleanup
  dsimp only
  rw [TunCompletePendingLoop_spec Irp.FileObject _ fuel ctx (by rw [hp]; exact hfuel)]
  simp only [Option.map_some', hp]

/-- Witness for C22: reads of the connections 1, 2, 1 pending; cleanup of 1. -/
theorem TunDispatchCleanup_completes_owned_witness :
    TunDispatchCleanup 3 (runningCtx [] [demoRead 1 0xF000, demoRead 2 0xF000, demoRead 1 0xF001])
        (demoRead 1 0)
      = some (NTSTATUS.STATUS_SUCCESS,
          { runningCtx [] [demoRead 1 0xF000, demoRead 2 0xF000, demoRead 1 0xF001] with
            ReadQueue :=
              (runningCtx [] [demoRead 1 0xF000, demoRead 2 0xF000, demoRead 1 0xF001]).ReadQueue.filter
                (fun i => !decide (i.FileObject = (demoRead 1 0).FileObject))
            IrpComplete :=
              (runningCtx [] [demoRead 1 0xF000, demoRead 2 0xF000, demoRead 1 0xF001]).IrpComplete ++
              ((runningCtx [] [demoRead 1 0xF000, demoRead 2 0xF000, demoRead 1 0xF001]).ReadQueue.filter
                (fun i => decide (i.FileObject = (demoRead 1 0).FileObject))).map
                (fun i => { i with Information := 0, Status := NTSTATUS.STATUS_CANCELLED }) ++
              [{ demoRead 1 0 with Information := 0, Status := NTSTATUS.STATUS_SUCCESS }] }) :=
  TunDispatchCleanup_completes_owned 3
    (runningCtx [] [demoRead 1 0xF000, demoRead 2 0xF000, demoRead 1 0xF001]) (demoRead 1 0)
    (by decide) (by decide)

/-! ## Undoing a removal -/

theorem TunNBLRefInc_dec (b : NET_BUFFER_LIST) :
    ({ TunNBLRefInc b with RefCount := (TunNBLRefInc b).RefCount - 1 } : NET_BUFFER_LIST) = b := by
  cases b
  simp [TunNBLRefInc]

theorem putback_unlinked_held (ctx : TUN_CTX) (b : NET_BUFFER_LIST) (nb : List NET_BUFFER)
    (f : Nat) (hrc : b.RefCount ≠ 0) :
    (NblPtr.refDec (TunQueuePrepend ctx nb (NblPtr.unlinked b)).1
        (TunQueuePrepend ctx nb (NblPtr.unlinked b)).2 f).1
      = { ctx with NextNb := nb, FirstNbl := b :: ctx.FirstNbl } := by
  have h1 : (TunNBLRefInc b).RefCount ≠ 1 := by simp [TunNBLRefInc, hrc]
  simp only [TunQueuePrepend]
  rw [refDec_first_keep _ (TunNBLRefInc b) ctx.FirstNbl f rfl h1, TunNBLRefInc_dec]

theorem putback_first_held (ctx : TUN_CTX) (b : NET_BUFFER_LIST) (rest : List NET_BUFFER_LIST)
    (nb : List NET_BUFFER) (f : Nat)
    (hq : ctx.FirstNbl = TunNBLRefInc b :: rest) (hrc : b.RefCount ≠ 0) :
    (NblPtr.refDec (TunQueuePrepend ctx nb NblPtr.first).1
        (TunQueuePrepend ctx nb NblPtr.first).2 f).1
      = { ctx with NextNb := nb, FirstNbl := b :: rest } := by
  have h1 : (TunNBLRefInc b).RefCount ≠ 1 := by simp [TunNBLRefInc, hrc]
  simp only [TunQueuePrepend]
  rw [refDec_first_keep { ctx with NextNb := nb } (TunNBLRefInc b) rest f hq h1, TunNBLRefInc_dec]

/-- C24: on a queue whose head batch `b` has a non-zero reference count and
whose next packet `p` has a valid length, `TunQueueRemove` returns `p` with its
batch; `TunQueuePrepend` of that packet and batch followed by one `TunNBLRefDec`
of the batch gives back the state before the removal except that the cursor is
on `p`: batch list, `LastNbl`, `NumNbl`, every reference count and the
completion log are as before, nothing is released; and the next
`TunQueueRemove` returns the same packet and the same batch. -/
theorem TunQueueRemove_Prepend_undo (fuel : Nat) (ctx : TUN_CTX) (b : NET_BUFFER_LIST)
    (rest : List NET_BUFFER_LIST) (p : NET_BUFFER) (more : List NET_BUFFER) (f : Nat)
    (hq : ctx.FirstNbl = b :: rest) (hrc : b.RefCount ≠ 0)
    (hc : cursorPackets ctx = p :: more)
    (hv : p.DataLength ≤ TUN_EXCH_MAX_IP_PACKET_SIZE) :
    ∃ nbl ctx1, TunQueueRemove (fuel + 1) ctx = some (p :: more, nbl, ctx1) ∧
      (NblPtr.refDec (TunQueuePrepend ctx1 (p :: more) nbl).1
          (TunQueuePrepend ctx1 (p :: more) nbl).2 f).1
        = { ctx with NextNb := p :: more } ∧
      (NblPtr.refDec (TunQueuePrepend ctx1 (p :: more) nbl).1
          (TunQueuePrepend ctx1 (p :: more) nbl).2 f).1.FirstNbl = ctx.FirstNbl ∧
      (NblPtr.refDec (TunQueuePrepend ctx1 (p :: more) nbl).1
          (TunQueuePrepend ctx1 (p :: more) nbl).2 f).1.LastNbl = ctx.LastNbl ∧
      (NblPtr.refDec (TunQueuePrepend ctx1 (p :: more) nbl).1
          (TunQueuePrepend ctx1 (p :: more) nbl).2 f).1.NumNbl = ctx.NumNbl ∧
      (NblPtr.refDec (TunQueuePrepend ctx1 (p :: more) nbl).1
          (TunQueuePrepend ctx1 (p :: more) nbl).2 f).1.SendComplete = ctx.SendComplete ∧
      TunQueueRemove (fuel + 1)
          (NblPtr.refDec (TunQueuePrepend ctx1 (p :: more) nbl).1
            (TunQueuePrepend ctx1 (p :: more) nbl).2 f).1
        = some (p :: more, nbl, ctx1) := by
  have hc2 : cursorPackets { ctx with NextNb := p :: more } = p :: more := by
    simp [cursorPackets, cursorOf, hq]
  by_cases hm : more = []
  · subst hm
    have hr := TunQueueRemove_valid_last fuel ctx b rest p hq hc hv
    have hback : (NblPtr.refDec
        (TunQueuePrepend { ctx with NextNb := [], FirstNbl := rest } [p] (NblPtr.unlinked b)).1
        (TunQueuePrepend { ctx with NextNb := [], FirstNbl := rest } [p] (NblPtr.unlinked b)).2
        f).1 = { ctx with NextNb := [p] } := by
      rw [putback_unlinked_held _ _ _ _ hrc]
      simp [hq]
    refine ⟨_, _, hr, hback, ?_, ?_, ?_, ?_, ?_⟩
    · rw [hback]
    · rw [hback]; rfl
    · rw [hback]
    · rw [hback]
    · rw [hback, TunQueueRemove_valid_last fuel { ctx with NextNb := [p] } b rest p hq hc2 hv]
  · have hr := TunQueueRemove_valid_mid fuel ctx b rest p more hq hc hm hv
    have hback : (NblPtr.refDec
        (TunQueuePrepend { ctx with NextNb := more, FirstNbl := TunNBLRefInc b :: rest }
          (p :: more) NblPtr.first).1
        (TunQueuePrepend { ctx with NextNb := more, FirstNbl := TunNBLRefInc b :: rest }
          (p :: more) NblPtr.first).2
        f).1 = { ctx with NextNb := p :: more } := by
      rw [putback_first_held { ctx with NextNb := more, FirstNbl := TunNBLRefInc b :: rest }
        b rest _ _ rfl hrc]
      simp [hq]
    refine ⟨_, _, hr, hback, ?_, ?_, ?_, ?_, ?_⟩
    · rw [hback]
    · rw [hback]; rfl
    · rw [hback]
    · rw [hback]
    · rw [hback,
        TunQueueRemove_valid_mid fuel { ctx with NextNb := p :: more } b rest p more hq hc2 hm hv]

/-- Witness for C24: a batch of two packets followed by another batch. -/
theorem TunQueueRemove_Prepend_undo_witness :
    ∃ nbl ctx1,
      TunQueueRemove (0 + 1)
          (runningCtx [demoNbl [demoPacket 20, demoPacket 40] 1, demoNbl [demoPacket 60] 2] [])
        = some (demoPacket 20 :: [demoPacket 40], nbl, ctx1) ∧
      (NblPtr.refDec (TunQueuePrepend ctx1 (demoPacket 20 :: [demoPacket 40]) nbl).1
          (TunQueuePrepend ctx1 (demoPacket 20 :: [demoPacket 40]) nbl).2 0).1
        = { runningCtx [demoNbl [demoPacket 20, demoPacket 40] 1, demoNbl [demoPacket 60] 2] []
            with NextNb := demoPacket 20 :: [demoPacket 40] } ∧
      (NblPtr.refDec (TunQueuePrepend ctx1 (demoPacket 20 :: [demoPacket 40]) nbl).1
          (TunQueuePrepend ctx1 (demoPacket 20 :: [demoPacket 40]) nbl).2 0).1.FirstNbl
        = (runningCtx [demoNbl [demoPacket 20, demoPacket 40] 1, demoNbl [demoPacket 60] 2]
            []).FirstNbl ∧
      (NblPtr.refDec (TunQueuePrepend ctx1 (demoPacket 20 :: [demoPacket 40]) nbl).1
          (TunQueuePrepend ctx1 (demoPacket 20 :: [demoPacket 40]) nbl).2 0).1.LastNbl
        = (runningCtx [demoNbl [demoPacket 20, demoPacket 40] 1, demoNbl [demoPacket 60] 2]
            []).LastNbl ∧
      (NblPtr.refDec (TunQueuePrepend ctx1 (demoPacket 20 :: [demoPacket 40]) nbl).1
          (TunQueuePrepend ctx1 (demoPacket 20 :: [demoPacket 40]) nbl).2 0).1.NumNbl
        = (runningCtx [demoNbl [demoPacket 20, demoPacket 40] 1, demoNbl [demoPacket 60] 2]
            []).NumNbl ∧
      (NblPtr.refDec (TunQueuePrepend ctx1 (demoPacket 20 :: [demoPacket 40]) nbl).1
          (TunQueuePrepend ctx1 (demoPacket 20 :: [demoPacket 40]) nbl).2 0).1.SendComplete
        = (runningCtx [demoNbl [demoPacket 20, demoPacket 40] 1, demoNbl [demoPacket 60] 2]
            []).SendComplete ∧
      TunQueueRemove (0 + 1)
          (NblPtr.refDec (TunQueuePrepend ctx1 (demoPacket 20 :: [demoPacket 40]) nbl).1
            (TunQueuePrepend ctx1 (demoPacket 20 :: [demoPacket 40]) nbl).2 0).1
        = some (demoPacket 20 :: [demoPacket 40], nbl, ctx1) :=
  TunQueueRemove_Prepend_undo 0
    (runningCtx [demoNbl [demoPacket 20, demoPacket 40] 1, demoNbl [demoPacket 60] 2] [])
    (demoNbl [demoPacket 20, demoPacket 40] 1) [demoNbl [demoPacket 60] 2]
    (demoPacket 20) [demoPacket 40] 0 rfl (by decide) rfl (by decide)

/-- C23 fails on the code: from an empty queue, `TunQueueAppend` of one batch
tagged 7 with two packets, then `TunQueueRemove` (which returns the first packet
and leaves the cursor on the second), then `TunCancelSend(7)`: the batch is
unlinked, the batch list is empty, and the cursor is still on the second packet
of the batch that left the list. -/
theorem TunCancelSend_cursor_without_head :
    (TunQueueRemove 1
        (TunQueueAppend (runningCtx [] []) [demoNbl [demoPacket 20, demoPacket 40] 7]
          TUN_QUEUE_MAX_NBLS)).map (fun r => (r.1, r.2.1))
      = some ([demoPacket 20, demoPacket 40], NblPtr.first) ∧
    (TunQueueRemove 1
        (TunQueueAppend (runningCtx [] []) [demoNbl [demoPacket 20, demoPacket 40] 7]
          TUN_QUEUE_MAX_NBLS)).map
        (fun r => (r.2.2.FirstNbl.map (fun b => (b.CancelId, b.RefCount)), r.2.2.NextNb))
      = some ([(7, 2)], [demoPacket 40]) ∧
    (TunQueueRemove 1
        (TunQueueAppend (runningCtx [] []) [demoNbl [demoPacket 20, demoPacket 40] 7]
          TUN_QUEUE_MAX_NBLS)).map
        (fun r => ((TunCancelSend r.2.2 7).FirstNbl, (TunCancelSend r.2.2 7).NextNb))
      = some ([], [demoPacket 40]) := by
  decide

/-! ## No read is completed empty -/

theorem TunWriteIntoIrp_Information (i : IRP) (p : NET_BUFFER) (st : NDIS_STATISTICS_INFO)
    (hs : NT_SUCCESS (TunWriteIntoIrp i p st).1 = true) :
    (TunWriteIntoIrp i p st).2.1.Information
      = i.Information + TunPacketAlign (sizeof_TUN_PACKET + p.DataLength) := by
  cases hd : p.Data with
  | none =>
    rw [TunWriteIntoIrp_failure _ _ _ hd] at hs
    exact absurd hs (by simp [NT_SUCCESS])
  | some d =>
    unfold TunWriteIntoIrp
    simp only [hd]

theorem TunWriteIntoIrp_MajorFunction (i : IRP) (p : NET_BUFFER) (st : NDIS_STATISTICS_INFO) :
    (TunWriteIntoIrp i p st).2.1.MajorFunction = i.MajorFunction := by
  unfold TunWriteIntoIrp
  cases p.Data <;> rfl

theorem TunWontFitIntoIrp_fresh (i : IRP) (p : NET_BUFFER)
    (hmj : i.MajorFunction = IRP_MJ.IRP_MJ_READ)
    (hacc : NT_SUCCESS (TunGetIrpBuffer i).1 = true) (h0 : i.Information = 0)
    (hp : p.DataLength ≤ TUN_EXCH_MAX_IP_PACKET_SIZE) :
    TunWontFitIntoIrp i (TunGetIrpBuffer i).2 p = false := by
  have h1 := (TunGetIrpBuffer_read_size i hmj hacc).1
  have h2 := (TunPacketAlign_record p.DataLength hp).2.2
  have h3 : TUN_EXCH_MIN_BUFFER_SIZE_READ = TUN_EXCH_MAX_PACKET_SIZE := rfl
  simp only [TunWontFitIntoIrp, decide_eq_false_iff_not, h0]
  omega

theorem RecordsInside_nonempty (i : IRP) (h : RecordsInside i) (hpos : 0 < i.Information) :
    i.Copied ≠ [] := by
  intro hc
  have := h.2.1
  rw [hc] at this
  simp [framedSize] at this
  omega

/-- C28: on a queue of non-empty batches with reference count 1, with every
pending request a read that accounts for whole records within its capacity,
`TunQueueProcess` returns and every request it has completed with
`STATUS_SUCCESS` has a byte count above 0 and holds at least one packet; for a
read of accepted capacity with a byte count of 0, `TunWontFitIntoIrp` is false
for every packet of valid length, so the first packet dequeued for it always
fits. -/
theorem TunQueueProcess_never_completes_empty (fuel : Nat) (ctx : TUN_CTX) (hok : QueueOk ctx)
    (hq : ∀ i ∈ ctx.ReadQueue, i.MajorFunction = IRP_MJ.IRP_MJ_READ ∧ RecordsInside i)
    (hc : ∀ i ∈ ctx.IrpComplete, i.Status = NTSTATUS.STATUS_SUCCESS →
      0 < i.Information ∧ i.Copied ≠ [])
    (hfuel : (undelivered ctx).length + ctx.ReadQueue.length < fuel) :
    (∃ ctx', TunQueueProcess fuel ctx = some ctx' ∧
      ∀ i ∈ ctx'.IrpComplete, i.Status = NTSTATUS.STATUS_SUCCESS →
        0 < i.Information ∧ i.Copied ≠ []) ∧
    (∀ (i : IRP) (p : NET_BUFFER), i.MajorFunction = IRP_MJ.IRP_MJ_READ →
      NT_SUCCESS (TunGetIrpBuffer i).1 = true → i.Information = 0 →
      p.DataLength ≤ TUN_EXCH_MAX_IP_PACKET_SIZE →
      TunWontFitIntoIrp i (TunGetIrpBuffer i).2 p = false) := by
  refine ⟨?_, fun i p h1 h2 h3 h4 => TunWontFitIntoIrp_fresh i p h1 h2 h3 h4⟩
  obtain ⟨ctx', hr, _⟩ := TunQueueProcessLoop_returns fuel ctx none hok (by simpa using hfuel)
  refine ⟨ctx', hr, ?_⟩
  refine (TunQueueProcessLoop_invariant
    (fun i => i.MajorFunction = IRP_MJ.IRP_MJ_READ ∧ RecordsInside i)
    (fun i => i.Status = NTSTATUS.STATUS_SUCCESS → 0 < i.Information ∧ i.Copied ≠ [])
    (fun fresh i size => i.MajorFunction = IRP_MJ.IRP_MJ_READ ∧ RecordsInside i ∧
      size = (TunGetIrpBuffer i).2 ∧ NT_SUCCESS (TunGetIrpBuffer i).1 = true ∧
      (fresh = false → 0 < i.Information))
    ?_ ?_ ?_ ?_ ?_ ?_ fuel ctx none ctx' hq hc (by simp) hr).2
  · intro i _ hrej hst
    have hst' : (TunGetIrpBuffer i).1 = NTSTATUS.STATUS_SUCCESS := hst
    rw [hst'] at hrej
    exact absurd hrej (by simp [NT_SUCCESS])
  · intro i hi hacc
    exact ⟨hi.1, hi.2, rfl, hacc, by simp⟩
  · intro i size hQ _
    exact ⟨hQ.2.2.2.2 rfl, RecordsInside_nonempty i hQ.2.1 (hQ.2.2.2.2 rfl)⟩
  · intro f i size p hQ hp hw _
    obtain ⟨hmj, hri, hsz, hacc, hf⟩ := hQ
    have hpos : 0 < i.Information := by
      by_contra h0
      have h0' : i.Information = 0 := by omega
      have := TunWontFitIntoIrp_fresh i p hmj hacc h0' hp
      rw [← hsz, hw] at this
      exact absurd this (by simp)
    exact ⟨hpos, RecordsInside_nonempty i hri hpos⟩
  · intro f i size p st hQ hp hw hs
    obtain ⟨hmj, hri, hsz, hacc, _⟩ := hQ
    refine ⟨by rw [TunWriteIntoIrp_MajorFunction]; exact hmj,
      RecordsInside_copy i size p st hri hsz hp hw,
      by rw [TunGetIrpBuffer_write]; exact hsz, by rw [TunGetIrpBuffer_write]; exact hacc, ?_⟩
    intro _
    rw [TunWriteIntoIrp_Information i p st hs]
    have := (TunPacketAlign_record p.DataLength hp).2.1
    have h16 : sizeof_TUN_PACKET = 16 := rfl
    omega
  · intro f i size p st hQ hp hw _
    obtain ⟨hmj, hri, hsz, _, _⟩ := hQ
    exact ⟨by rw [TunWriteIntoIrp_MajorFunction]; exact hmj,
      RecordsInside_copy i size p st hri hsz hp hw⟩

/-- Witness for C28: a batch of two packets and two pending reads. -/
theorem TunQueueProcess_never_completes_empty_witness :
    QueueOk (runningCtx [demoNbl [demoPacket 20, demoPacket 40] 1]
      [demoRead 1 0xF000, demoRead 2 0xF000]) ∧
    ∃ ctx', TunQueueProcess 5
        (runningCtx [demoNbl [demoPacket 20, demoPacket 40] 1]
          [demoRead 1 0xF000, demoRead 2 0xF000]) = some ctx' ∧
      ∀ i ∈ ctx'.IrpComplete, i.Status = NTSTATUS.STATUS_SUCCESS →
        0 < i.Information ∧ i.Copied ≠ [] :=
  ⟨by decide,
   (TunQueueProcess_never_completes_empty 5
     (runningCtx [demoNbl [demoPacket 20, demoPacket 40] 1]
       [demoRead 1 0xF000, demoRead 2 0xF000])
     (by decide) (by decide) (by decide) (by decide)).1⟩

/-! ## Passes of `TunQueueProcess` -/

theorem TunQueueProcessLoop_pass (fuel : Nat) (ctx : TUN_CTX) (irp : Option (IRP × Nat)) :
    TunQueueProcessLoop (fuel + 1) ctx irp
      = (TunQueueProcessPass (fuel + 1) ctx irp).bind (TunQueueProcessNext fuel) := by
  cases irp with
  | none =>
    rw [TunQueueProcessLoop, TunQueueProcessPass]
    cases TunQueueRemove (fuel + 1) ctx with
    | none => rfl
    | some r =>
      obtain ⟨nb, nbl, ctx1⟩ := r
      cases nb with
      | nil => rfl
      | cons p more =>
        dsimp only
        cases h : TunRemoveNextIrp ctx1 with
        | mk o c =>
          cases o with
          | none => rfl
          | some is => rfl
  | some is =>
    obtain ⟨i, s⟩ := is
    rw [TunQueueProcessLoop, TunQueueProcessPass]
    cases TunQueueRemove (fuel + 1) ctx with
    | none => rfl
    | some r => rfl
theorem promisedOf_length (q : List NET_BUFFER_LIST) (n : List NET_BUFFER) :
    (promisedOf q n).length = q.length := by
  cases q <;> simp [promisedOf]

theorem TunQueueRemove_count (fuel : Nat) (ctx : TUN_CTX) (hok : QueueOk ctx)
    (hlen : (undelivered ctx).length < fuel) (ret : List NET_BUFFER) (nbl : NblPtr)
    (ctx1 : TUN_CTX) (hr : TunQueueRemove fuel ctx = some (ret, nbl, ctx1)) :
    (ret = [] → ctx1.SendComplete.length = ctx.SendComplete.length + ctx.FirstNbl.length) ∧
    (∀ more b rest, Removed ctx1 nbl more b rest → b.RefCount = 1 →
      ctx1.SendComplete.length + (rest.length + 1)
        = ctx.SendComplete.length + ctx.FirstNbl.length) := by
  obtain ⟨ret', nbl', ctx1', h1, _, _, _, h5, _, h6⟩ := TunQueueRemove_spec fuel ctx hok hlen
  rw [hr] at h1
  simp only [Option.some.injEq, Prod.mk.injEq] at h1
  obtain ⟨rfl, rfl, rfl⟩ := h1
  have h7 := congrArg List.length h6
  simp only [List.length_append, List.length_map, promisedOf_length] at h7
  refine ⟨?_, ?_⟩
  · intro hnil
    obtain ⟨hn, hf⟩ := h5 hnil
    subst hn
    simp only [refDec_null, hf, List.length_nil, Nat.add_zero] at h7
    exact h7
  · intro more b rest hsh hrc
    rcases hsh with ⟨_, rfl, hq, _⟩ | ⟨_, rfl, hq, _⟩
    · rw [refDec_unlinked_one _ _ _ hrc] at h7
      simp [hq] at h7
      omega
    · rw [refDec_first_keep _ (TunNBLRefInc b) rest 0 hq (by simp [TunNBLRefInc, hrc])] at h7
      simp at h7
      omega

theorem TunQueueProcessStep_advance (ctx1 : TUN_CTX) (nbl : NblPtr) (p : NET_BUFFER)
    (more : List NET_BUFFER) (b : NET_BUFFER_LIST) (rest : List NET_BUFFER_LIST)
    (hb : b.FirstNb ≠ [] ∧ b.RefCount = 1)
    (hsh : Removed ctx1 nbl more b rest) (i : IRP) (size : Nat) :
    ((undelivered (TunQueueProcessStep ctx1 i size (p :: more) nbl).1).length
        < ((p :: more) ++ (rest.map (fun b => b.FirstNb)).flatten).length ∨
      ((undelivered (TunQueueProcessStep ctx1 i size (p :: more) nbl).1).length
          = ((p :: more) ++ (rest.map (fun b => b.FirstNb)).flatten).length ∧
        (TunQueueProcessStep ctx1 i size (p :: more) nbl).1.IrpComplete.length
          = ctx1.IrpComplete.length + 1)) ∧
    ctx1.IrpComplete.length
      ≤ (TunQueueProcessStep ctx1 i size (p :: more) nbl).1.IrpComplete.length ∧
    (TunQueueProcessStep ctx1 i size (p :: more) nbl).1.SendComplete.length
        + (TunQueueProcessStep ctx1 i size (p :: more) nbl).1.FirstNbl.length
      = ctx1.SendComplete.length + (rest.length + 1) := by
  obtain ⟨h1, h2, h3⟩ := TunQueueProcessStep_removed ctx1 nbl p more b rest hb.2 hsh i size
  have hlen : ∀ (b' : NET_BUFFER_LIST),
      (undeliveredOf (if more = [] then rest else b' :: rest) more).length
        = (more ++ (rest.map (fun b => b.FirstNb)).flatten).length := by
    intro b'
    by_cases hm : more = []
    · subst hm; simp [undeliveredOf_unset]
    · simp [hm, undeliveredOf_set _ _ _ hm]
  by_cases hw : TunWontFitIntoIrp i size p = true
  · obtain ⟨_, e2, e3, _, e5, e6⟩ := h1 hw
    refine ⟨Or.inr ⟨?_, by rw [e5]; simp⟩, by rw [e5]; simp, by rw [e6, e2]; simp⟩
    unfold undelivered
    rw [e2, e3, undeliveredOf_set _ _ _ (by simp)]
  · simp only [Bool.not_eq_true] at hw
    cases hd : p.Data with
    | none =>
      obtain ⟨_, e2, e3, _, e5, e6, _⟩ := h3 hw hd
      refine ⟨Or.inl ?_, by rw [e5], ?_⟩
      · unfold undelivered
        rw [e2, e3, hlen]
        simp
      · rw [e6, e2]
        by_cases hm : more = [] <;> simp [hm]
        all_goals (try omega)
    | some d =>
      obtain ⟨_, e2, e3, _, e5, e6⟩ := h2 hw (by rw [hd]; rfl)
      refine ⟨Or.inl ?_, by rw [e5], ?_⟩
      · unfold undelivered
        rw [e2, e3, hlen]
        simp
      · rw [e6, e2]
        by_cases hm : more = [] <;> simp [hm]
        all_goals (try omega)
theorem TunQueueProcessPass_spec (fuel : Nat) (ctx : TUN_CTX) (irp : Option (IRP × Nat))
    (hok : QueueOk ctx) (hlen : (undelivered ctx).length < fuel) :
    (∃ ctx', TunQueueProcessPass fuel ctx irp = some (Sum.inl ctx') ∧ irp = none ∧ QueueOk ctx' ∧
      (ctx'.FirstNbl = [] ∨ (acceptedReads ctx.ReadQueue = [] ∧ ctx'.ReadQueue = [])) ∧
      ctx'.SendComplete.length + ctx'.FirstNbl.length
        = ctx.SendComplete.length + ctx.FirstNbl.length) ∨
    (∃ ctx3 irp3, TunQueueProcessPass fuel ctx irp = some (Sum.inr (ctx3, irp3)) ∧ QueueOk ctx3 ∧
      drainMeasure ctx3 irp3 < drainMeasure ctx irp ∧
      ((undelivered ctx3).length < (undelivered ctx).length ∨
        ctx.IrpComplete.length < ctx3.IrpComplete.length) ∧
      (irp = none → ctx.FirstNbl ≠ [] ∧ acceptedReads ctx.ReadQueue ≠ []) ∧
      ctx3.SendComplete.length + ctx3.FirstNbl.length
        = ctx.SendComplete.length + ctx.FirstNbl.length) := by
  obtain ⟨ret, nbl, ctx1, hr, hshape⟩ := TunQueueRemove_shape fuel ctx hok hlen
  obtain ⟨f1, f2, _⟩ := TunQueueRemove_frame _ _ _ _ _ hr
  obtain ⟨c1, c2⟩ := TunQueueRemove_count fuel ctx hok hlen ret nbl ctx1 hr
  have hfne : ret ≠ [] → ctx.FirstNbl ≠ [] := by
    intro hne hq
    obtain ⟨f, rfl⟩ : ∃ f, fuel = f + 1 := ⟨fuel - 1, by omega⟩
    rw [TunQueueRemove_nil f ctx hq] at hr
    simp only [Option.some.injEq, Prod.mk.injEq] at hr
    exact hne hr.1.symm
  cases irp with
  | none =>
    rcases hshape with ⟨rfl, rfl, hq⟩ | ⟨p, more, b, rest, rfl, _, hb, hrest, hle, hsh⟩
    · refine Or.inl ⟨ctx1, ?_, rfl, ?_, Or.inl hq, ?_⟩
      · rw [TunQueueProcessPass, hr]
      · intro x hx; rw [hq] at hx; simp at hx
      · rw [hq, c1 rfl]; simp
    · have hcnt := c2 more b rest hsh hb.2
      cases ha : acceptedReads ctx1.ReadQueue with
      | nil =>
        have hback : (NblPtr.refDec
            (TunQueuePrepend
              { ctx1 with
                ReadQueue := ([] : List IRP).tail
                IrpComplete := ctx1.IrpComplete ++ rejectedReads ctx1.ReadQueue }
              (p :: more) nbl).1
            (TunQueuePrepend
              { ctx1 with
                ReadQueue := ([] : List IRP).tail
                IrpComplete := ctx1.IrpComplete ++ rejectedReads ctx1.ReadQueue }
              (p :: more) nbl).2 0).1
            = { ctx1 with
                ReadQueue := []
                IrpComplete := ctx1.IrpComplete ++ rejectedReads ctx1.ReadQueue
                NextNb := p :: more
                FirstNbl := b :: rest } := by
          rcases hsh with ⟨_, rfl, hq, _⟩ | ⟨_, rfl, hq, _⟩
          · rw [putback_unlinked _ _ _ _ hb.2]; simp [hq]
          · rw [putback_first
              { ctx1 with
                ReadQueue := ([] : List IRP).tail
                IrpComplete := ctx1.IrpComplete ++ rejectedReads ctx1.ReadQueue }
              b rest (p :: more) 0 hq hb.2]
            simp
        refine Or.inl ⟨{ ctx1 with
            ReadQueue := []
            IrpComplete := ctx1.IrpComplete ++ rejectedReads ctx1.ReadQueue
            NextNb := p :: more
            FirstNbl := b :: rest }, ?_, rfl, ?_, Or.inr ⟨by rw [← f1]; exact ha, rfl⟩, ?_⟩
        · rw [TunQueueProcessPass, hr]
          dsimp only
          simp only [TunRemoveNextIrp, TunRemoveNextIrpLoop_eq, ha]
          simp only [refDec_if]
          rw [hback]
        · intro x hx
          simp only [List.mem_cons] at hx
          rcases hx with hx | hx
          · subst hx; exact hb
          · exact hrest x hx
        · simp only [List.length_cons]
          omega
      | cons i R =>
        have hacc := acceptedReads_length_le ctx1.ReadQueue
        rw [ha] at hacc
        obtain ⟨g1, g2⟩ := TunQueueProcessStep_progress
          { ctx1 with
            ReadQueue := (i :: R).tail
            IrpComplete := ctx1.IrpComplete ++ rejectedReads ctx1.ReadQueue }
          nbl p more b rest hb hrest (Removed_frame _ _ _ _ _ _ _ hsh) i (TunGetIrpBuffer i).2
        obtain ⟨a1, a2, a3⟩ := TunQueueProcessStep_advance
          { ctx1 with
            ReadQueue := (i :: R).tail
            IrpComplete := ctx1.IrpComplete ++ rejectedReads ctx1.ReadQueue }
          nbl p more b rest hb (Removed_frame _ _ _ _ _ _ _ hsh) i (TunGetIrpBuffer i).2
        refine Or.inr ⟨(TunQueueProcessStep
            { ctx1 with
              ReadQueue := (i :: R).tail
              IrpComplete := ctx1.IrpComplete ++ rejectedReads ctx1.ReadQueue }
            i (TunGetIrpBuffer i).2 (p :: more) nbl).1,
          (TunQueueProcessStep
            { ctx1 with
              ReadQueue := (i :: R).tail
              IrpComplete := ctx1.IrpComplete ++ rejectedReads ctx1.ReadQueue }
            i (TunGetIrpBuffer i).2 (p :: more) nbl).2,
          ?_, g1, ?_, ?_, fun _ => ⟨hfne (by simp), ?_⟩, ?_⟩
        · rw [TunQueueProcessPass, hr]
          dsimp only
          simp only [TunRemoveNextIrp, TunRemoveNextIrpLoop_eq, ha]
        · unfold drainMeasure
          have hRQ : ({ ctx1 with
              ReadQueue := (i :: R).tail
              IrpComplete := ctx1.IrpComplete ++ rejectedReads ctx1.ReadQueue } : TUN_CTX).ReadQueue.length
              = R.length := rfl
          have hiR : (i :: R).length = R.length + 1 := rfl
          rw [hRQ] at g2
          rw [hiR, f1] at hacc
          simp only [Option.isSome_none, Bool.false_eq_true, if_false]
          omega
        · have hIC : ({ ctx1 with
              ReadQueue := (i :: R).tail
              IrpComplete := ctx1.IrpComplete ++ rejectedReads ctx1.ReadQueue } : TUN_CTX).IrpComplete.length
              = ctx.IrpComplete.length + (rejectedReads ctx1.ReadQueue).length := by
            rw [← f2]; simp
          rw [hIC] at a1 a2
          rcases a1 with a1 | ⟨_, a1⟩
          · left; omega
          · right; omega
        · rw [← f1, ha]; simp
        · rw [a3]; exact hcnt
  | some is =>
    obtain ⟨i, s⟩ := is
    refine Or.inr ?_
    rcases hshape with ⟨rfl, rfl, hq⟩ | ⟨p, more, b, rest, rfl, _, hb, hrest, hle, hsh⟩
    · refine ⟨(NblPtr.refDec
          { ctx1 with
            IrpComplete := ctx1.IrpComplete ++ [{ i with Status := NTSTATUS.STATUS_SUCCESS }] }
          NblPtr.null 0).1, none, ?_, ?_, ?_, Or.inr ?_, by simp, ?_⟩
      · rw [TunQueueProcessPass, hr]
        dsimp only
        rw [TunQueueProcessStep_nil]
      · intro x hx
        simp only [refDec_null] at hx
        rw [hq] at hx; simp at hx
      · unfold drainMeasure
        simp only [refDec_null, Option.isSome_none, Bool.false_eq_true, if_false,
          Option.isSome_some, if_true]
        have : undelivered { ctx1 with
            IrpComplete := ctx1.IrpComplete ++ [{ i with Status := NTSTATUS.STATUS_SUCCESS }] }
            = [] := by
          simp [undelivered, hq, undeliveredOf]
        rw [this]
        show 0 + ctx1.ReadQueue.length + 0 < _
        rw [f1]
        omega
      · simp only [refDec_null, List.length_append, List.length_singleton]
        rw [f2]
        omega
      · simp only [refDec_null]
        rw [hq, c1 rfl]
        simp
    · have hcnt := c2 more b rest hsh hb.2
      obtain ⟨g1, g2⟩ := TunQueueProcessStep_progress ctx1 nbl p more b rest hb hrest hsh i s
      obtain ⟨a1, a2, a3⟩ := TunQueueProcessStep_advance ctx1 nbl p more b rest hb hsh i s
      refine ⟨(TunQueueProcessStep ctx1 i s (p :: more) nbl).1,
        (TunQueueProcessStep ctx1 i s (p :: more) nbl).2, ?_, g1, ?_, ?_, by simp, ?_⟩
      · rw [TunQueueProcessPass, hr]
      · unfold drainMeasure
        rw [f1] at g2
        simp only [Option.isSome_some, if_true]
        omega
      · rcases a1 with a1 | ⟨_, a1⟩
        · left; omega
        · right
          rw [f2] at a1
          omega
      · rw [a3]; exact hcnt
theorem TunQueueProcessLoop_final :
    ∀ (fuel : Nat) (ctx : TUN_CTX) (irp : Option (IRP × Nat)), QueueOk ctx →
      drainMeasure ctx irp < fuel →
      ∃ ctx', TunQueueProcessLoop fuel ctx irp = some ctx' ∧ QueueOk ctx' ∧
        (ctx'.FirstNbl = [] ∨ ctx'.ReadQueue = []) ∧
        ctx'.SendComplete.length + ctx'.FirstNbl.length
          = ctx.SendComplete.length + ctx.FirstNbl.length := by
  intro fuel
  induction fuel with
  | zero => intro ctx irp _ h; omega
  | succ fuel ih =>
    intro ctx irp hok hlt
    have hlen : (undelivered ctx).length < fuel + 1 := by
      unfold drainMeasure at hlt; omega
    rw [TunQueueProcessLoop_pass]
    rcases TunQueueProcessPass_spec (fuel + 1) ctx irp hok hlen with
      ⟨ctx', hp, _, hok', hfin, hcnt⟩ | ⟨ctx3, irp3, hp, hok3, hm, _, _, hcnt⟩
    · rw [hp]
      refine ⟨ctx', rfl, hok', ?_, hcnt⟩
      rcases hfin with h | ⟨_, h⟩
      · exact Or.inl h
      · exact Or.inr h
    · rw [hp]
      obtain ⟨ctx', h1, h2, h3, h4⟩ := ih ctx3 irp3 hok3 (by omega)
      exact ⟨ctx', h1, h2, h3, by rw [h4, hcnt]⟩

/-- C26: on a queue of non-empty batches with reference count 1, whichever packet
copies fail, `TunQueueProcess` returns once it may make as many passes as there
are undelivered packets, pending reads and requests in progress, plus one.
Every pass either returns, which happens only with no request in progress and
leaves the queue empty or finds no pending read that `TunGetIrpBuffer` accepts,
or it goes on after having removed a packet from the queue or completed a read,
with fewer packets, reads and requests in progress left.  A pass with no
request in progress returns at once when the queue is empty, and returns when
no acceptable read is pending. -/
theorem TunQueueProcess_terminates (fuel : Nat) (ctx : TUN_CTX) (irp : Option (IRP × Nat))
    (hok : QueueOk ctx) (hfuel : drainMeasure ctx irp < fuel + 1) :
    (∃ ctx', TunQueueProcessLoop (fuel + 1) ctx irp = some ctx') ∧
    TunQueueProcessLoop (fuel + 1) ctx irp
      = (TunQueueProcessPass (fuel + 1) ctx irp).bind (TunQueueProcessNext fuel) ∧
    ((∃ ctx', TunQueueProcessPass (fuel + 1) ctx irp = some (Sum.inl ctx') ∧ irp = none ∧
        (ctx'.FirstNbl = [] ∨ acceptedReads ctx.ReadQueue = [])) ∨
     (∃ ctx3 irp3, TunQueueProcessPass (fuel + 1) ctx irp = some (Sum.inr (ctx3, irp3)) ∧
        QueueOk ctx3 ∧ drainMeasure ctx3 irp3 < drainMeasure ctx irp ∧
        ((undelivered ctx3).length < (undelivered ctx).length ∨
          ctx.IrpComplete.length < ctx3.IrpComplete.length))) ∧
    (irp = none → ctx.FirstNbl = [] →
      TunQueueProcessPass (fuel + 1) ctx irp = some (Sum.inl ctx)) ∧
    (irp = none → acceptedReads ctx.ReadQueue = [] →
      ∃ ctx', TunQueueProcessPass (fuel + 1) ctx irp = some (Sum.inl ctx')) := by
  have hlen : (undelivered ctx).length < fuel + 1 := by
    unfold drainMeasure at hfuel; omega
  obtain ⟨ctx', hret, _⟩ := TunQueueProcessLoop_final (fuel + 1) ctx irp hok hfuel
  refine ⟨⟨ctx', hret⟩, TunQueueProcessLoop_pass fuel ctx irp, ?_, ?_, ?_⟩
  · rcases TunQueueProcessPass_spec (fuel + 1) ctx irp hok hlen with
      ⟨c, hp, hn, _, hfin, _⟩ | ⟨ctx3, irp3, hp, hok3, hm, hprog, _, _⟩
    · refine Or.inl ⟨c, hp, hn, ?_⟩
      rcases hfin with h | ⟨h, _⟩
      · exact Or.inl h
      · exact Or.inr h
    · exact Or.inr ⟨ctx3, irp3, hp, hok3, hm, hprog⟩
  · intro hn hq
    subst hn
    rw [TunQueueProcessPass, TunQueueRemove_nil fuel ctx hq]
  · intro hn ha
    rcases TunQueueProcessPass_spec (fuel + 1) ctx irp hok hlen with
      ⟨c, hp, _, _, _, _⟩ | ⟨ctx3, irp3, _, _, _, _, hne, _⟩
    · exact ⟨c, hp⟩
    · exact absurd ha (hne hn).2

/-- Witness for C26: two batches, one pending read, no request in progress. -/
theorem TunQueueProcess_terminates_witness :
    QueueOk (runningCtx [demoNbl [demoUnmapped 20, demoPacket 40] 1, demoNbl [demoPacket 60] 2]
      [demoRead 1 0xF000]) ∧
    ∃ ctx', TunQueueProcessLoop (4 + 1)
      (runningCtx [demoNbl [demoUnmapped 20, demoPacket 40] 1, demoNbl [demoPacket 60] 2]
        [demoRead 1 0xF000]) none = some ctx' :=
  ⟨by decide,
   (TunQueueProcess_terminates 4
     (runningCtx [demoNbl [demoUnmapped 20, demoPacket 40] 1, demoNbl [demoPacket 60] 2]
       [demoRead 1 0xF000]) none (by decide) (by decide)).1⟩

/-- C27: on a queue of non-empty batches with reference count 1, whichever packet
copies fail, `TunQueueProcess` returns with the outbound queue empty or the
read-request queue empty: undelivered packets and pending reads never both
remain. -/
theorem TunQueueProcess_final_state (fuel : Nat) (ctx : TUN_CTX) (hok : QueueOk ctx)
    (hfuel : (undelivered ctx).length + ctx.ReadQueue.length < fuel) :
    ∃ ctx', TunQueueProcess fuel ctx = some ctx' ∧
      (ctx'.FirstNbl = [] ∨ ctx'.ReadQueue = []) ∧
      (undelivered ctx' = [] ∨ ctx'.ReadQueue = []) ∧
      ¬ (undelivered ctx' ≠ [] ∧ ctx'.ReadQueue ≠ []) := by
  obtain ⟨ctx', hret, _, hfin, _⟩ := TunQueueProcessLoop_final fuel ctx none hok (by
    unfold drainMeasure; simpa using hfuel)
  have h2 : undelivered ctx' = [] ∨ ctx'.ReadQueue = [] := by
    rcases hfin with h | h
    · left; simp [undelivered, h, undeliveredOf]
    · right; exact h
  refine ⟨ctx', hret, hfin, h2, ?_⟩
  rintro ⟨a, b⟩
  rcases h2 with h | h
  · exact a h
  · exact b h

/-- Witness for C27: two batches and two pending reads. -/
theorem TunQueueProcess_final_state_witness :
    QueueOk (runningCtx [demoNbl [demoUnmapped 20, demoPacket 40] 1, demoNbl [demoPacket 60] 2]
      [demoRead 1 0xF000, demoRead 2 0xF000]) ∧
    ∃ ctx', TunQueueProcess 6
        (runningCtx [demoNbl [demoUnmapped 20, demoPacket 40] 1, demoNbl [demoPacket 60] 2]
          [demoRead 1 0xF000, demoRead 2 0xF000]) = some ctx' ∧
      (ctx'.FirstNbl = [] ∨ ctx'.ReadQueue = []) ∧
      (undelivered ctx' = [] ∨ ctx'.ReadQueue = []) ∧
      ¬ (undelivered ctx' ≠ [] ∧ ctx'.ReadQueue ≠ []) :=
  ⟨by decide,
   TunQueueProcess_final_state 6
     (runningCtx [demoNbl [demoUnmapped 20, demoPacket 40] 1, demoNbl [demoPacket 60] 2]
       [demoRead 1 0xF000, demoRead 2 0xF000]) (by decide) (by decide)⟩

/-! ## Framing and parsing are inverse (C30) -/

theorem framedSize_pos (p : NET_BUFFER) (ps : List NET_BUFFER)
    (hv : p.DataLength ≤ TUN_EXCH_MAX_IP_PACKET_SIZE) :
    sizeof_TUN_PACKET ≤ framedSize (p :: ps) ∧
    framedSize (p :: ps) = TunPacketAlign (sizeof_TUN_PACKET + p.DataLength) + framedSize ps :=
  ⟨by have := (TunPacketAlign_record p.DataLength hv).2.1; simp only [framedSize]; omega, rfl⟩

theorem recvNbl_of_recordAt (buf : Nat → Nat) (off : Nat) (p : NET_BUFFER)
    (hr : recordAt buf off p) :
    (recvNbl buf off).MdlByteCount = p.DataLength ∧ (recvNbl buf off).Data = payload p := by
  obtain ⟨h1, d, hd, hb⟩ := hr
  refine ⟨h1, ?_⟩
  simp only [recvNbl, payload, h1, hd, Option.getD_some]
  apply List.map_congr_left
  intro k hk
  rw [hb k (List.mem_range.mp hk), Nat.mod_mod]

theorem recordIs_of_validHeader (buf : Nat → Nat) (off : Nat) (p : NET_BUFFER)
    (hr : recordAt buf off p) (hh : validHeader p = true) :
    (recordIsIPv4 buf off || recordIsIPv6 buf off) = true := by
  obtain ⟨h1, d, hd, hb⟩ := hr
  simp only [validHeader, hd, Bool.or_eq_true, Bool.and_eq_true, decide_eq_true_eq] at hh
  have h0 : 0 < p.DataLength := by rcases hh with h | h <;> omega
  have hb0 := hb 0 h0
  simp only [Nat.add_zero] at hb0
  simp only [recordIsIPv4, recordIsIPv6, h1, hb0, Nat.mod_mod, Bool.or_eq_true, Bool.and_eq_true,
    decide_eq_true_eq]
  exact hh

theorem TunWriteFromIrpLoop_framed (env : NDIS_ENV) (buf : Nat → Nat) (henv : env.succeeds) :
    ∀ (ps : List NET_BUFFER) (fuel : Nat) (s : WriteLoop),
      framed buf s.b ps → (∀ p ∈ ps, validLength p = true ∧ validHeader p = true) →
      ps.length < fuel →
      ∃ s', TunWriteFromIrpLoop env buf (s.b + framedSize ps) fuel s = some s' ∧
        s'.nbls.map (fun n => (n.MdlByteCount, n.Data))
          = s.nbls.map (fun n => (n.MdlByteCount, n.Data))
            ++ ps.map (fun p => (p.DataLength, payload p)) ∧
        s'.nbl_count = s.nbl_count + ps.length ∧
        s'.stat_p_err = s.stat_p_err ∧
        s'.b = s.b + framedSize ps := by
  intro ps
  induction ps with
  | nil =>
    intro fuel s _ _ hfuel
    obtain ⟨f, rfl⟩ : ∃ f, fuel = f + 1 := ⟨fuel - 1, by omega⟩
    have hr : recordFramed buf (s.b + framedSize []) s.b = false := by
      simp [recordFramed, framedSize]
    obtain ⟨s', e0, e1, e2, e3, e4⟩ := TunWriteFromIrpLoop_stop env buf _ f s hr
    exact ⟨s', e0, by simp [e2], by simp [e3], e4, by simp [e1, framedSize]⟩
  | cons p ps ih =>
    intro fuel s hf hv hfuel
    obtain ⟨f, rfl⟩ : ∃ f, fuel = f + 1 := ⟨fuel - 1, by omega⟩
    obtain ⟨hrec, hrest⟩ := hf
    have hp := hv p (List.mem_cons_self _ _)
    have hlen : p.DataLength ≤ TUN_EXCH_MAX_IP_PACKET_SIZE := by
      simpa [validLength] using hp.1
    have hsz := framedSize_pos p ps hlen
    have h16 : sizeof_TUN_PACKET = 16 := rfl
    have hr : recordFramed buf (s.b + framedSize (p :: ps)) s.b = true := by
      simp only [recordFramed, hrec.1, Bool.and_eq_true, decide_eq_true_eq]
      refine ⟨⟨by omega, hlen⟩, by omega⟩
    obtain ⟨s1, e0, e1, e2, e3, e4⟩ := TunWriteFromIrpLoop_next env buf _ f s henv hr
    have hip := recordIs_of_validHeader buf s.b p hrec hp.2
    rw [hip] at e2 e3 e4
    simp only [if_true] at e2 e3 e4
    rw [hrec.1] at e1
    have hb : s.b + framedSize (p :: ps) = s1.b + framedSize ps := by rw [e1, hsz.2]; omega
    obtain ⟨s', i0, i1, i2, i3, i4⟩ := ih f s1 (by rw [e1]; exact hrest)
      (fun q hq => hv q (List.mem_cons_of_mem _ hq)) (by simp at hfuel; omega)
    obtain ⟨r1, r2⟩ := recvNbl_of_recordAt buf s.b p hrec
    refine ⟨s', by rw [e0, hb]; exact i0, ?_, ?_, ?_, ?_⟩
    · rw [i1, e2]
      simp [r1, r2]
    · rw [i2, e3]; simp; omega
    · rw [i3, e4]; rfl
    · rw [i4, hb]

theorem deliverable_of_valid (p : NET_BUFFER)
    (h : validLength p = true ∧ validHeader p = true) : deliverable p = true := by
  obtain ⟨h1, h2⟩ := h
  cases hd : p.Data with
  | none => simp [validHeader, hd] at h2
  | some d => simp [deliverable, h1, hd]

theorem TunWriteIntoIrpAll_framed :
    ∀ (pkts : List NET_BUFFER) (i : IRP), (∀ p ∈ pkts, deliverable p = true) →
      (∀ q ∈ i.Copied, q.DataLength ≤ TUN_EXCH_MAX_IP_PACKET_SIZE) →
      framed i.Buffer 0 i.Copied → i.Information = framedSize i.Copied →
      framed (TunWriteIntoIrpAll pkts i).Buffer 0 (TunWriteIntoIrpAll pkts i).Copied ∧
      (TunWriteIntoIrpAll pkts i).Information = framedSize (TunWriteIntoIrpAll pkts i).Copied ∧
      (TunWriteIntoIrpAll pkts i).Copied = i.Copied ++ pkts := by
  intro pkts
  induction pkts with
  | nil => intro i _ _ hf hi; exact ⟨hf, hi, by simp [TunWriteIntoIrpAll]⟩
  | cons p ps ih =>
    intro i h hc hf hi
    have hp := h p (List.mem_cons_self _ _)
    obtain ⟨w1, w2, _⟩ := TunWriteIntoIrp_framed i p zeroStatistics hc hp hf hi
    have hcop := TunWriteIntoIrp_Copied i p zeroStatistics
    rw [TunWriteIntoIrp_success i p zeroStatistics (isSome_of_deliverable _ h p
      (List.mem_cons_self _ _))] at hcop
    simp only [if_true] at hcop
    have hc2 : ∀ q ∈ (TunWriteIntoIrp i p zeroStatistics).2.1.Copied,
        q.DataLength ≤ TUN_EXCH_MAX_IP_PACKET_SIZE := by
      intro q hq
      rw [hcop] at hq
      rcases List.mem_append.mp hq with hq | hq
      · exact hc q hq
      · simp at hq; rw [hq]
        simp [deliverable, validLength] at hp; exact hp.1
    obtain ⟨a1, a2, a3⟩ := ih (TunWriteIntoIrp i p zeroStatistics).2.1
      (fun q hq => h q (List.mem_cons_of_mem _ hq)) hc2 w1 w2
    refine ⟨a1, a2, ?_⟩
    show (TunWriteIntoIrpAll ps (TunWriteIntoIrp i p zeroStatistics).2.1).Copied = _
    rw [a3, hcop]; simp

/-- C30 as stated fails: a 20-byte packet with a valid IPv4 header is framed by
`TunWriteIntoIrp` into 48 bytes, and when `NdisAllocateMdl` fails the record loop
of `TunWriteFromIrp` on those 48 bytes yields no packet and counts one error. -/
theorem frame_then_parse_allocation_failure_counterexample :
    validLength (demoPacket 20) = true ∧ validHeader (demoPacket 20) = true ∧
    (TunWriteIntoIrpAll [demoPacket 20] (demoRead 1 0xF000)).Information = 48 ∧
    (TunWriteFromIrpLoop noMdlEnv (TunWriteIntoIrpAll [demoPacket 20] (demoRead 1 0xF000)).Buffer
        (TunWriteIntoIrpAll [demoPacket 20] (demoRead 1 0xF000)).Information 3 writeStart).map
        (fun s => (s.nbls.length, s.stat_p_err, s.b))
      = some (0, 1, 48) := by
  decide

/-- C30 (amended): for every list of packets of length at most
`TUN_EXCH_MAX_IP_PACKET_SIZE` whose data can be mapped and starts with a valid
IPv4 or IPv6 header, framing them with successive `TunWriteIntoIrp` calls into a
request that starts empty (`Information` 0) and then running the record loop of
`TunWriteFromIrp` over the first `Information` bytes of the buffer, with the
NDIS allocations succeeding, returns with exactly the same packets (lengths and
payload bytes) in the same order, no error counted, and `Information` bytes
consumed. -/
theorem frame_then_parse (env : NDIS_ENV) (pkts : List NET_BUFFER) (Irp : IRP) (fuel : Nat)
    (henv : env.succeeds)
    (hinfo : Irp.Information = 0) (hcop : Irp.Copied = [])
    (hvalid : ∀ p ∈ pkts, validLength p = true ∧ validHeader p = true)
    (hfuel : pkts.length < fuel) :
    ∃ s, TunWriteFromIrpLoop env (TunWriteIntoIrpAll pkts Irp).Buffer
        (TunWriteIntoIrpAll pkts Irp).Information fuel writeStart = some s ∧
      s.nbls.map (fun n => (n.MdlByteCount, n.Data)) = pkts.map (fun p => (p.DataLength, payload p)) ∧
      s.nbls.length = pkts.length ∧ s.nbl_count = pkts.length ∧
      s.stat_p_err = 0 ∧ s.b = (TunWriteIntoIrpAll pkts Irp).Information := by
  obtain ⟨f1, f2, f3⟩ := TunWriteIntoIrpAll_framed pkts Irp
    (fun p hp => deliverable_of_valid p (hvalid p hp)) (by rw [hcop]; simp)
    (by rw [hcop]; trivial) (by rw [hcop, hinfo]; rfl)
  rw [hcop, List.nil_append] at f3
  rw [f3] at f1 f2
  obtain ⟨s, e0, e1, e2, e3, e4⟩ := TunWriteFromIrpLoop_framed env
    (TunWriteIntoIrpAll pkts Irp).Buffer henv pkts fuel writeStart f1 hvalid hfuel
  have hb0 : writeStart.b = 0 := rfl
  rw [hb0, Nat.zero_add] at e0 e4
  have hl := congrArg List.length e1
  simp only [List.length_map, List.length_append] at hl
  refine ⟨s, by rw [f2]; exact e0, ?_, ?_, ?_, ?_, ?_⟩
  · simpa [writeStart] using e1
  · simpa [writeStart] using hl
  · simpa [writeStart] using e2
  · simpa [writeStart] using e3
  · rw [f2]; exact e4

/-- Witness for C30: a 20-byte IPv4 packet and a 40-byte one, all NDIS calls
succeeding. -/
theorem frame_then_parse_witness :
    demoEnv.succeeds ∧
    (∀ p ∈ [demoPacket 20, demoPacket 40], validLength p = true ∧ validHeader p = true) ∧
    ∃ s, TunWriteFromIrpLoop demoEnv
        (TunWriteIntoIrpAll [demoPacket 20, demoPacket 40] (demoRead 1 0xF000)).Buffer
        (TunWriteIntoIrpAll [demoPacket 20, demoPacket 40] (demoRead 1 0xF000)).Information
        3 writeStart = some s ∧
      s.nbls.map (fun n => (n.MdlByteCount, n.Data))
        = [demoPacket 20, demoPacket 40].map (fun p => (p.DataLength, payload p)) ∧
      s.nbls.length = [demoPacket 20, demoPacket 40].length ∧
      s.nbl_count = [demoPacket 20, demoPacket 40].length ∧
      s.stat_p_err = 0 ∧
      s.b = (TunWriteIntoIrpAll [demoPacket 20, demoPacket 40] (demoRead 1 0xF000)).Information :=
  ⟨demoEnv_succeeds, by decide,
   frame_then_parse demoEnv [demoPacket 20, demoPacket 40] (demoRead 1 0xF000) 3
     demoEnv_succeeds rfl rfl (by decide) (by decide)⟩

/-! ## The transaction count between `TunRestart` and `TunPause` (C29) -/

theorem Accounted_of_eq (k n m : Int) (c c' : TUN_CTX) (h : Accounted k n m c)
    (h1 : c'.State = c.State) (h2 : c'.ActiveTransactionCount = c.ActiveTransactionCount)
    (h3 : c'.NumNbl = c.NumNbl) (h4 : c'.SendComplete = c.SendComplete) : Accounted k n m c' := by
  unfold Accounted at h ⊢
  rw [h1, h2, h3, h4]; exact h

theorem TunCompletePause_State_running (ctx : TUN_CTX) (a : Bool)
    (h : ctx.State = TUN_STATE.TUN_STATE_RUNNING) :
    (TunCompletePause ctx a).2.State = TUN_STATE.TUN_STATE_RUNNING := by
  unfold TunCompletePause
  dsimp only
  have : ¬ (ctx.ActiveTransactionCount - 1 = 0 ∧ ctx.State = TUN_STATE.TUN_STATE_PAUSING) := by
    rw [h]; simp
  rw [if_neg this]
  exact h

theorem Accounted_TunNBLRefDec (k n m : Int) (ctx : TUN_CTX) (b : NET_BUFFER_LIST) (f : Nat)
    (h : Accounted k n m ctx) : Accounted k n m (TunNBLRefDec ctx b f).2.1 := by
  obtain ⟨h1, h2, h3⟩ := h
  by_cases hb : b.RefCount = 1
  · rw [TunNBLRefDec_one ctx b f hb]
    obtain ⟨h3, h4⟩ := h3
    refine ⟨TunCompletePause_State_running _ _ h1, ?_, ?_, ?_⟩
    · simp only [TunCompletePause_ActiveTransactionCount, TunCompletePause_NumNbl]
      omega
    · simp only [TunCompletePause_SendComplete, TunCompletePause_NumNbl, List.length_append,
        List.length_singleton]
      push_cast
      omega
    · simp only [TunCompletePause_NumNbl]
      omega
  · rw [TunNBLRefDec_ne_one ctx b f hb]
    exact ⟨h1, h2, h3⟩

theorem Accounted_refDec (k n m : Int) (ctx : TUN_CTX) (nbl : NblPtr) (f : Nat)
    (h : Accounted k n m ctx) : Accounted k n m (NblPtr.refDec ctx nbl f).1 := by
  cases nbl with
  | null => exact h
  | first =>
    cases hq : ctx.FirstNbl with
    | nil => simp only [NblPtr.refDec, hq]; exact h
    | cons b rest =>
      have := Accounted_TunNBLRefDec k n m ctx b f h
      simp only [NblPtr.refDec, hq]
      rcases hr : TunNBLRefDec ctx b f with ⟨r, c, b'⟩
      rw [hr] at this
      cases r <;> exact this
  | unlinked b =>
    have := Accounted_TunNBLRefDec k n m ctx b f h
    simp only [NblPtr.refDec]
    rcases hr : TunNBLRefDec ctx b f with ⟨r, c, b'⟩
    rw [hr] at this
    exact this

theorem Accounted_setStatus (k n m : Int) (ctx : TUN_CTX) (nbl : NblPtr) (s : NTSTATUS)
    (h : Accounted k n m ctx) : Accounted k n m (NblPtr.setStatus ctx nbl s).1 := by
  cases nbl with
  | null => exact h
  | first =>
    cases hq : ctx.FirstNbl with
    | nil => simp only [NblPtr.setStatus, hq]; exact h
    | cons b rest => simp only [NblPtr.setStatus, hq]; exact h
  | unlinked b => exact h

theorem Accounted_Prepend (k n m : Int) (ctx : TUN_CTX) (nb : List NET_BUFFER) (nbl : NblPtr)
    (h : Accounted k n m ctx) : Accounted k n m (TunQueuePrepend ctx nb nbl).1 := by
  cases nbl <;> exact h

theorem Accounted_TunQueueRemove (k n m : Int) :
    ∀ (fuel : Nat) (ctx : TUN_CTX) (ret : List NET_BUFFER) (nbl : NblPtr) (ctx1 : TUN_CTX),
      Accounted k n m ctx → TunQueueRemove fuel ctx = some (ret, nbl, ctx1) → Accounted k n m ctx1 := by
  intro fuel
  induction fuel with
  | zero => intro ctx ret nbl ctx1 _ h; simp [TunQueueRemove] at h
  | succ fuel ih =>
    intro ctx ret nbl ctx1 ha h
    rw [TunQueueRemove] at h
    split at h
    · simp only [Option.some.injEq, Prod.mk.injEq] at h
      obtain ⟨_, _, rfl⟩ := h
      exact ha
    · dsimp only at h
      split at h
      · exact absurd h (by simp)
      · rename_i pkt pkt_next hnext
        by_cases hp : pkt.DataLength > TUN_EXCH_MAX_IP_PACKET_SIZE
        · rw [if_pos hp] at h
          refine ih _ _ _ _ ?_ h
          refine Accounted_of_eq k n m _ _ (Accounted_refDec k n m _ _ _
            (Accounted_setStatus k n m _ _ _ ?_)) rfl rfl rfl rfl
          split <;> (split <;> exact ha)
        · rw [if_neg hp] at h
          simp only [Option.some.injEq, Prod.mk.injEq] at h
          obtain ⟨_, _, rfl⟩ := h
          split <;> (split <;> exact ha)
theorem Accounted_TunRemoveNextIrp (k n m : Int) (ctx : TUN_CTX) (h : Accounted k n m ctx) :
    Accounted k n m (TunRemoveNextIrp ctx).2 := by
  rw [TunRemoveNextIrp, TunRemoveNextIrpLoop_eq]
  exact h

theorem Accounted_Step (k n m : Int) (ctx : TUN_CTX) (irp : IRP) (size : Nat)
    (nb : List NET_BUFFER) (nbl : NblPtr) (h : Accounted k n m ctx) :
    Accounted k n m (TunQueueProcessStep ctx irp size nb nbl).1 := by
  cases nb with
  | nil =>
    rw [TunQueueProcessStep_nil]
    exact Accounted_refDec k n m _ _ _ h
  | cons pkt more =>
    by_cases hw : TunWontFitIntoIrp irp size pkt = true
    · rw [TunQueueProcessStep_wontfit _ _ _ _ _ _ hw]
      exact Accounted_of_eq k n m _ _
        (Accounted_refDec k n m _ _ _ (Accounted_Prepend k n m ctx (pkt :: more) nbl h)) rfl rfl rfl rfl
    · simp only [Bool.not_eq_true] at hw
      by_cases hs : NT_SUCCESS (TunWriteIntoIrp irp pkt ctx.Statistics).1 = true
      · rw [TunQueueProcessStep_copied _ _ _ _ _ _ hw hs]
        exact Accounted_refDec k n m _ _ _ h
      · simp only [Bool.not_eq_true] at hs
        rw [TunQueueProcessStep_copy_failed _ _ _ _ _ _ hw hs]
        refine Accounted_refDec k n m _ _ _ ?_
        exact Accounted_of_eq k n m _ _
          (Accounted_setStatus k n m
            { ctx with Statistics := (TunWriteIntoIrp irp pkt ctx.Statistics).2.2 } nbl
            (TunWriteIntoIrp irp pkt ctx.Statistics).1 h) rfl rfl rfl rfl

theorem Accounted_Pass (k n m : Int) (fuel : Nat) (ctx : TUN_CTX) (irp : Option (IRP × Nat))
    (h : Accounted k n m ctx) :
    (∀ c, TunQueueProcessPass fuel ctx irp = some (Sum.inl c) → Accounted k n m c) ∧
    (∀ c i, TunQueueProcessPass fuel ctx irp = some (Sum.inr (c, i)) → Accounted k n m c) := by
  cases hr : TunQueueRemove fuel ctx with
  | none =>
    cases irp with
    | none => simp [TunQueueProcessPass, hr]
    | some v => simp [TunQueueProcessPass, hr]
  | some r =>
    obtain ⟨nb, nbl, ctx1⟩ := r
    have h1 := Accounted_TunQueueRemove k n m fuel ctx nb nbl ctx1 h hr
    cases irp with
    | some v =>
      obtain ⟨i0, s0⟩ := v
      simp only [TunQueueProcessPass, hr]
      refine ⟨fun c hc => by simp at hc, fun c i hc => ?_⟩
      simp only [Option.some.injEq, Sum.inr.injEq] at hc
      have := Accounted_Step k n m ctx1 i0 s0 nb nbl h1
      rw [hc] at this
      exact this
    | none =>
      cases nb with
      | nil =>
        simp only [TunQueueProcessPass, hr]
        refine ⟨fun c hc => ?_, fun c i hc => by simp at hc⟩
        simp only [Option.some.injEq, Sum.inl.injEq] at hc
        rw [← hc]; exact h1
      | cons pkt more =>
        have h2 := Accounted_TunRemoveNextIrp k n m ctx1 h1
        simp only [TunQueueProcessPass, hr]
        rcases hn : TunRemoveNextIrp ctx1 with ⟨oi, ctx2⟩
        rw [hn] at h2
        cases oi with
        | none =>
          dsimp only
          refine ⟨fun c hc => ?_, fun c i hc => by simp at hc⟩
          simp only [refDec_if, Option.some.injEq, Sum.inl.injEq] at hc
          rw [← hc]
          exact Accounted_refDec k n m _ _ _ (Accounted_Prepend k n m ctx2 (pkt :: more) nbl h2)
        | some v =>
          obtain ⟨i0, s0⟩ := v
          dsimp only
          refine ⟨fun c hc => by simp at hc, fun c i hc => ?_⟩
          simp only [Option.some.injEq, Sum.inr.injEq] at hc
          have := Accounted_Step k n m ctx2 i0 s0 (pkt :: more) nbl h2
          rw [hc] at this
          exact this

theorem Accounted_Loop (k n m : Int) :
    ∀ (fuel : Nat) (ctx : TUN_CTX) (irp : Option (IRP × Nat)) (ctx' : TUN_CTX),
      Accounted k n m ctx → TunQueueProcessLoop fuel ctx irp = some ctx' → Accounted k n m ctx' := by
  intro fuel
  induction fuel with
  | zero => intro ctx irp ctx' _ h; simp [TunQueueProcessLoop] at h
  | succ fuel ih =>
    intro ctx irp ctx' ha h
    rw [TunQueueProcessLoop_pass] at h
    obtain ⟨p1, p2⟩ := Accounted_Pass k n m (fuel + 1) ctx irp ha
    cases hp : TunQueueProcessPass (fuel + 1) ctx irp with
    | none => rw [hp] at h; simp at h
    | some r =>
      rw [hp] at h
      cases r with
      | inl c =>
        simp only [Option.some_bind, TunQueueProcessNext, Option.some.injEq] at h
        rw [← h]; exact p1 c hp
      | inr v =>
        obtain ⟨c, i⟩ := v
        simp only [Option.some_bind, TunQueueProcessNext] at h
        exact ih c i ctx' (p2 c i hp) h

/-! ### More fuel never changes a result -/

theorem TunQueueRemove_mono :
    ∀ (fuel k : Nat) (ctx : TUN_CTX) (r : List NET_BUFFER × NblPtr × TUN_CTX),
      TunQueueRemove fuel ctx = some r → TunQueueRemove (fuel + k) ctx = some r := by
  intro fuel
  induction fuel with
  | zero => intro k ctx r h; simp [TunQueueRemove] at h
  | succ fuel ih =>
    intro k ctx r h
    have e : fuel + 1 + k = (fuel + k) + 1 := by omega
    rw [e]
    rw [TunQueueRemove] at h ⊢
    split at h
    · exact h
    · dsimp only at h ⊢
      split at h
      · exact absurd h (by simp)
      · rename_i pkt pkt_next hnext
        by_cases hp : pkt.DataLength > TUN_EXCH_MAX_IP_PACKET_SIZE
        · rw [if_pos hp] at h
          rw [if_pos hp]
          exact ih k _ r h
        · rw [if_neg hp] at h
          rw [if_neg hp]
          exact h

theorem TunQueueProcessPass_mono (fuel k : Nat) (ctx : TUN_CTX) (irp : Option (IRP × Nat))
    (r : Sum TUN_CTX (TUN_CTX × Option (IRP × Nat)))
    (h : TunQueueProcessPass fuel ctx irp = some r) :
    TunQueueProcessPass (fuel + k) ctx irp = some r := by
  cases hr : TunQueueRemove fuel ctx with
  | none =>
    cases irp with
    | none => simp [TunQueueProcessPass, hr] at h
    | some v => simp [TunQueueProcessPass, hr] at h
  | some x =>
    have hm := TunQueueRemove_mono fuel k ctx x hr
    cases irp with
    | none =>
      simp only [TunQueueProcessPass, hr] at h
      simp only [TunQueueProcessPass, hm]
      exact h
    | some v =>
      simp only [TunQueueProcessPass, hr] at h
      simp only [TunQueueProcessPass, hm]
      exact h

theorem TunQueueProcessLoop_mono :
    ∀ (fuel k : Nat) (ctx : TUN_CTX) (irp : Option (IRP × Nat)) (ctx' : TUN_CTX),
      TunQueueProcessLoop fuel ctx irp = some ctx' →
      TunQueueProcessLoop (fuel + k) ctx irp = some ctx' := by
  intro fuel
  induction fuel with
  | zero => intro k ctx irp ctx' h; simp [TunQueueProcessLoop] at h
  | succ fuel ih =>
    intro k ctx irp ctx' h
    have e : fuel + 1 + k = (fuel + k) + 1 := by omega
    rw [e, TunQueueProcessLoop_pass]
    rw [TunQueueProcessLoop_pass] at h
    cases hp : TunQueueProcessPass (fuel + 1) ctx irp with
    | none => rw [hp] at h; simp at h
    | some r =>
      rw [hp] at h
      have hm := TunQueueProcessPass_mono (fuel + 1) k ctx irp r hp
      rw [e] at hm
      rw [hm]
      cases r with
      | inl c => exact h
      | inr v =>
        obtain ⟨c, i⟩ := v
        simp only [Option.some_bind, TunQueueProcessNext] at h ⊢
        exact ih k c i ctx' h

/-- Whatever fuel it ran with, a `TunQueueProcess` that returned leaves a queue
of non-empty batches with reference count 1, has completed exactly the batches
it removed, and leaves the queue or the read-request queue empty. -/
theorem TunQueueProcessLoop_some (fuel : Nat) (ctx : TUN_CTX) (irp : Option (IRP × Nat))
    (ctx' : TUN_CTX) (hok : QueueOk ctx) (h : TunQueueProcessLoop fuel ctx irp = some ctx') :
    QueueOk ctx' ∧ (ctx'.FirstNbl = [] ∨ ctx'.ReadQueue = []) ∧
      ctx'.SendComplete.length + ctx'.FirstNbl.length
        = ctx.SendComplete.length + ctx.FirstNbl.length := by
  obtain ⟨c, h1, h2, h3, h4⟩ := TunQueueProcessLoop_final (fuel + (drainMeasure ctx irp + 1))
    ctx irp hok (by omega)
  rw [TunQueueProcessLoop_mono fuel _ ctx irp ctx' h] at h1
  simp only [Option.some.injEq] at h1
  subst h1
  exact ⟨h2, h3, h4⟩
theorem Counting_of_eq (k : Int) (c c' : TUN_CTX) (h : Counting k c)
    (h1 : c'.State = c.State) (h2 : c'.ActiveTransactionCount = c.ActiveTransactionCount)
    (h3 : c'.NumNbl = c.NumNbl) (h4 : c'.FirstNbl = c.FirstNbl) : Counting k c' := by
  unfold Counting QueueOk at h ⊢
  rw [h1, h2, h3, h4]; exact h

theorem Counting_Loop (k : Int) (fuel : Nat) (ctx : TUN_CTX) (irp : Option (IRP × Nat))
    (ctx' : TUN_CTX) (h : Counting k ctx) (hr : TunQueueProcessLoop fuel ctx irp = some ctx') :
    Counting k ctx' := by
  obtain ⟨h1, h2, h3, h4, h5⟩ := h
  have ha : Accounted k (ctx.NumNbl + (ctx.SendComplete.length : Int)) ctx.NumNbl ctx :=
    ⟨h1, by omega, rfl, le_refl _⟩
  obtain ⟨a1, a2, a3, a4⟩ := Accounted_Loop _ _ _ fuel ctx irp ctx' ha hr
  obtain ⟨b1, _, b3⟩ := TunQueueProcessLoop_some fuel ctx irp ctx' h5 hr
  refine ⟨a1, by omega, ?_, ?_, b1⟩
  · omega
  · omega

theorem Counting_CompletePause (k : Int) (ctx : TUN_CTX) (a : Bool) (h : Counting (k + 1) ctx) :
    Counting k (TunCompletePause ctx a).2 := by
  obtain ⟨h1, h2, h3, h4, h5⟩ := h
  refine ⟨TunCompletePause_State_running _ _ h1, ?_, ?_, ?_, ?_⟩
  · simp only [TunCompletePause_ActiveTransactionCount, TunCompletePause_NumNbl]; omega
  · simp only [TunCompletePause_NumNbl, TunCompletePause_FirstNbl]; exact h3
  · simp only [TunCompletePause_FirstNbl]; exact h4
  · unfold QueueOk; simp only [TunCompletePause_FirstNbl]; exact h5

theorem Counting_CheckForPause (k : Int) (ctx : TUN_CTX) (h : Counting k ctx) :
    Counting (k + 1) (TunCheckForPause ctx).2 := by
  obtain ⟨h1, h2, h3, h4, h5⟩ := h
  exact ⟨h1, by show ctx.ActiveTransactionCount + 1 = k + 1 + ctx.NumNbl; omega, h3, h4, h5⟩

theorem Counting_Evict (k : Int) :
    ∀ (l : List NET_BUFFER_LIST) (ctx : TUN_CTX),
      ctx.State = TUN_STATE.TUN_STATE_RUNNING → ctx.ActiveTransactionCount = k + ctx.NumNbl →
      ctx.NumNbl = (l.length : Int) → l.length < 2 ^ 32 →
      (∀ b ∈ l, b.FirstNb ≠ [] ∧ b.RefCount = 1) →
      Counting k (TunQueueAppendEvict TUN_QUEUE_MAX_NBLS l ctx) := by
  intro l
  induction l with
  | nil =>
    intro ctx h1 h2 h3 _ _
    simp only [TunQueueAppendEvict]
    refine ⟨h1, h2, by simpa using h3, by simp, ?_⟩
    intro b hb
    simp at hb
  | cons b rest ih =>
    intro ctx h1 h2 h3 hlen hok
    have hb := hok b (List.mem_cons_self _ _)
    have hrest : ∀ x ∈ rest, x.FirstNb ≠ [] ∧ x.RefCount = 1 :=
      fun x hx => hok x (List.mem_cons_of_mem _ hx)
    have hu : toUINT ctx.NumNbl = rest.length + 1 := by
      rw [h3]; exact toUINT_natCast _ hlen
    simp only [TunQueueAppendEvict, hu]
    by_cases hgt : rest.length + 1 > TUN_QUEUE_MAX_NBLS
    · rw [if_pos hgt]
      rw [TunNBLRefDec_one _ _ _ (by simpa using hb.2)]
      have hlen' : rest.length < 2 ^ 32 := by simp at hlen; omega
      refine ih _ ?_ ?_ ?_ hlen' hrest
      · exact TunCompletePause_State_running _ _ h1
      · simp only [TunCompletePause_ActiveTransactionCount, TunCompletePause_NumNbl]
        omega
      · simp only [TunCompletePause_NumNbl]
        simp only [List.length_cons] at h3
        push_cast at h3
        omega
    · rw [if_neg hgt]
      refine ⟨h1, h2, h3, ?_, hok⟩
      simp only [List.length_cons]
      omega

theorem Counting_Append (k : Int) :
    ∀ (nbl : List NET_BUFFER_LIST) (ctx : TUN_CTX), Counting k ctx →
      Counting k (TunQueueAppend ctx nbl TUN_QUEUE_MAX_NBLS) := by
  intro nbl
  induction nbl with
  | nil => intro ctx h; simpa [TunQueueAppend] using h
  | cons b rest ih =>
    intro ctx h
    by_cases hb : b.FirstNb = []
    · simp only [TunQueueAppend, hb, if_true]
      exact ih _ (Counting_of_eq k ctx _ h rfl rfl rfl rfl)
    · simp only [TunQueueAppend, hb, if_false, TunNBLRefInit]
      apply ih
      obtain ⟨h1, h2, h3, h4, h5⟩ := h
      have hmax : TUN_QUEUE_MAX_NBLS = 1000 := rfl
      refine Counting_Evict k _ _ ?_ ?_ ?_ ?_ ?_
      · exact h1
      · show ctx.ActiveTransactionCount + 1 = k + (ctx.NumNbl + 1)
        omega
      · show ctx.NumNbl + 1 = ((ctx.FirstNbl ++ [{ b with RefCount := 1 }]).length : Int)
        simp only [List.length_append, List.length_singleton]
        push_cast
        omega
      · simp only [List.length_append, List.length_singleton]
        omega
      · intro x hx
        rcases List.mem_append.mp hx with hx | hx
        · exact h5 x hx
        · simp only [List.mem_singleton] at hx
          subst hx
          exact ⟨hb, rfl⟩

theorem TunQueueClearLoop_running (s : NTSTATUS) :
    ∀ (l : List NET_BUFFER_LIST) (ctx : TUN_CTX), (∀ b ∈ l, b.RefCount = 1) →
      ctx.State = TUN_STATE.TUN_STATE_RUNNING →
      (TunQueueClearLoop s l ctx).State = TUN_STATE.TUN_STATE_RUNNING ∧
      (TunQueueClearLoop s l ctx).ActiveTransactionCount
        = ctx.ActiveTransactionCount - (l.length : Int) := by
  intro l
  induction l with
  | nil => intro ctx _ h; exact ⟨h, by simp [TunQueueClearLoop]⟩
  | cons b rest ih =>
    intro ctx hrc h
    have hb : ({ b with Status := s } : NET_BUFFER_LIST).RefCount = 1 :=
      hrc b (List.mem_cons_self _ _)
    simp only [TunQueueClearLoop]
    rw [TunNBLRefDec_one _ _ _ hb]
    obtain ⟨i1, i2⟩ := ih
      (TunCompletePause { ctx with
        SendComplete := ctx.SendComplete ++
          [({ ({ b with Status := s } : NET_BUFFER_LIST) with RefCount := 0 },
            NDIS_SEND_COMPLETE_FLAGS_DISPATCH_LEVEL)]
        NumNbl := ctx.NumNbl - 1 } true).2
      (fun x hx => hrc x (List.mem_cons_of_mem _ hx))
      (TunCompletePause_State_running _ _ h)
    refine ⟨i1, ?_⟩
    rw [i2]
    simp only [TunCompletePause_ActiveTransactionCount, List.length_cons]
    push_cast
    omega

theorem Counting_Clear (k : Int) (ctx : TUN_CTX) (s : NTSTATUS) (h : Counting k ctx) :
    Counting k (TunQueueClear ctx s) := by
  obtain ⟨h1, h2, h3, h4, h5⟩ := h
  obtain ⟨c1, c2⟩ := TunQueueClearLoop_running s ctx.FirstNbl ctx (fun b hb => (h5 b hb).2) h1
  refine ⟨c1, ?_, rfl, by simp [TunQueueClear], ?_⟩
  · show (TunQueueClearLoop s ctx.FirstNbl ctx).ActiveTransactionCount = k + 0
    rw [c2]; omega
  · intro b hb
    simp [TunQueueClear] at hb

theorem TunCancelSendLoop_running (CancelId : Nat) :
    ∀ (l : List NET_BUFFER_LIST) (ctx : TUN_CTX), (∀ b ∈ l, b.FirstNb ≠ [] ∧ b.RefCount = 1) →
      ctx.State = TUN_STATE.TUN_STATE_RUNNING →
      (TunCancelSendLoop CancelId l ctx).1.State = TUN_STATE.TUN_STATE_RUNNING ∧
      (TunCancelSendLoop CancelId l ctx).1.ActiveTransactionCount
          - (TunCancelSendLoop CancelId l ctx).1.NumNbl
        = ctx.ActiveTransactionCount - ctx.NumNbl ∧
      (TunCancelSendLoop CancelId l ctx).1.NumNbl + (l.length : Int)
        = ctx.NumNbl + ((TunCancelSendLoop CancelId l ctx).2.length : Int) ∧
      (TunCancelSendLoop CancelId l ctx).2.length ≤ l.length ∧
      (∀ b ∈ (TunCancelSendLoop CancelId l ctx).2, b.FirstNb ≠ [] ∧ b.RefCount = 1) := by
  intro l
  induction l with
  | nil =>
    intro ctx _ h
    refine ⟨h, rfl, rfl, le_refl _, ?_⟩
    intro b hb
    simp [TunCancelSendLoop] at hb
  | cons b rest ih =>
    intro ctx hok h
    have hrest : ∀ x ∈ rest, x.FirstNb ≠ [] ∧ x.RefCount = 1 :=
      fun x hx => hok x (List.mem_cons_of_mem _ hx)
    by_cases hc : b.CancelId = CancelId
    · have hb : ({ b with Status := NTSTATUS.NDIS_STATUS_SEND_ABORTED } : NET_BUFFER_LIST).RefCount
          = 1 := (hok b (List.mem_cons_self _ _)).2
      obtain ⟨c1, hc1⟩ : ∃ c1, c1 = (TunNBLRefDec ctx
          { b with Status := NTSTATUS.NDIS_STATUS_SEND_ABORTED }
          NDIS_SEND_COMPLETE_FLAGS_DISPATCH_LEVEL).2.1 := ⟨_, rfl⟩
      have e : TunCancelSendLoop CancelId (b :: rest) ctx = TunCancelSendLoop CancelId rest c1 := by
        rw [TunCancelSendLoop, if_pos hc, hc1]
      have f1 : c1.State = TUN_STATE.TUN_STATE_RUNNING := by
        rw [hc1, TunNBLRefDec_one _ _ _ hb]
        exact TunCompletePause_State_running _ _ h
      have f2 : c1.ActiveTransactionCount = ctx.ActiveTransactionCount - 1 := by
        rw [hc1, TunNBLRefDec_one _ _ _ hb]
        simp only [TunCompletePause_ActiveTransactionCount]
      have f3 : c1.NumNbl = ctx.NumNbl - 1 := by
        rw [hc1, TunNBLRefDec_one _ _ _ hb]
        simp only [TunCompletePause_NumNbl]
      obtain ⟨i1, i2, i3, i4, i5⟩ := ih c1 hrest f1
      rw [e]
      refine ⟨i1, by rw [i2]; omega, ?_, ?_, i5⟩
      · simp only [List.length_cons]; push_cast; omega
      · simp only [List.length_cons]; omega
    · obtain ⟨i1, i2, i3, i4, i5⟩ := ih ctx hrest h
      rw [TunCancelSendLoop, if_neg hc]
      dsimp only
      refine ⟨i1, i2, ?_, ?_, ?_⟩
      · simp only [List.length_cons]; push_cast; omega
      · simp only [List.length_cons]; omega
      · intro x hx
        simp only [List.mem_cons] at hx
        rcases hx with hx | hx
        · subst hx; exact hok _ (List.mem_cons_self _ _)
        · exact i5 x hx

theorem Counting_CancelSend (k : Int) (ctx : TUN_CTX) (CancelId : Nat) (h : Counting k ctx) :
    Counting k (TunCancelSend ctx CancelId) := by
  obtain ⟨h1, h2, h3, h4, h5⟩ := h
  obtain ⟨c1, c2, c3, c4, c5⟩ := TunCancelSendLoop_running CancelId ctx.FirstNbl ctx h5 h1
  unfold TunCancelSend
  refine ⟨c1, ?_, ?_, ?_, c5⟩
  · show (TunCancelSendLoop CancelId ctx.FirstNbl ctx).1.ActiveTransactionCount
      = k + (TunCancelSendLoop CancelId ctx.FirstNbl ctx).1.NumNbl
    omega
  · show (TunCancelSendLoop CancelId ctx.FirstNbl ctx).1.NumNbl
      = ((TunCancelSendLoop CancelId ctx.FirstNbl ctx).2.length : Int)
    omega
  · show (TunCancelSendLoop CancelId ctx.FirstNbl ctx).2.length ≤ TUN_QUEUE_MAX_NBLS
    omega
theorem Counting_Process (k : Int) (fuel : Nat) (ctx ctx' : TUN_CTX) (h : Counting k ctx)
    (hr : TunQueueProcess fuel ctx = some ctx') : Counting k ctx' :=
  Counting_Loop k fuel ctx none ctx' h hr

theorem Counting_Send (fuel : Nat) (ctx ctx' : TUN_CTX) (nbls : List NET_BUFFER_LIST)
    (flags : Nat) (h : Counting 1 ctx)
    (hr : TunSendNetBufferLists fuel ctx nbls flags = some ctx') : Counting 1 ctx' := by
  have hc := Counting_CheckForPause 1 ctx h
  rcases hcp : TunCheckForPause ctx with ⟨status, c1⟩
  rw [hcp] at hc
  simp only [TunSendNetBufferLists, hcp] at hr
  by_cases hs : NT_SUCCESS status = true
  · simp only [hs, Bool.not_true, Bool.false_eq_true, if_false] at hr
    cases hp : TunQueueProcess fuel (TunQueueAppend c1 nbls TUN_QUEUE_MAX_NBLS) with
    | none => rw [hp] at hr; simp at hr
    | some c3 =>
      rw [hp] at hr
      simp only [Option.map_some', Option.some.injEq] at hr
      rw [← hr]
      exact Counting_CompletePause 1 c3 true
        (Counting_Process (1 + 1) fuel _ c3 (Counting_Append (1 + 1) nbls c1 hc) hp)
  · simp only [Bool.not_eq_true] at hs
    simp only [hs, Bool.not_false, if_true, Option.some.injEq] at hr
    rw [← hr]
    exact Counting_CompletePause 1 _ true (Counting_of_eq (1 + 1) c1 _ hc rfl rfl rfl rfl)

theorem Counting_Read (fuel : Nat) (ctx ctx' : TUN_CTX) (Irp : IRP) (lock status : NTSTATUS)
    (h : Counting 1 ctx)
    (hr : TunDispatchRead fuel ctx Irp lock = some (status, ctx')) : Counting 1 ctx' := by
  unfold TunDispatchRead at hr
  dsimp only at hr
  split_ifs at hr with h1 h2
  · simp only [Option.some.injEq, Prod.mk.injEq] at hr
    rw [← hr.2]
    exact Counting_of_eq 1 ctx _ h rfl rfl rfl rfl
  · simp only [Option.some.injEq, Prod.mk.injEq] at hr
    rw [← hr.2]
    exact Counting_of_eq 1 ctx _ h rfl rfl rfl rfl
  · cases hp : TunQueueProcess fuel
        { ctx with ReadQueue := ctx.ReadQueue ++ [{ Irp with Information := 0, Copied := [] }] } with
    | none => rw [hp] at hr; simp at hr
    | some c3 =>
      rw [hp] at hr
      simp only [Option.map_some', Option.some.injEq, Prod.mk.injEq] at hr
      rw [← hr.2]
      refine Counting_Process 1 fuel _ c3 ?_ hp
      exact Counting_of_eq 1 ctx _ h rfl rfl rfl rfl

theorem Counting_WriteFromIrp (k : Int) (fuel : Nat) (env : NDIS_ENV) (ctx : TUN_CTX) (Irp : IRP)
    (r : NTSTATUS × TUN_CTX × IRP × WriteLoop) (h : Counting k ctx)
    (hr : TunWriteFromIrp fuel env ctx Irp = some r) : Counting k r.2.1 := by
  have hc := Counting_CheckForPause k ctx h
  rcases hcp : TunCheckForPause ctx with ⟨status, c1⟩
  rw [hcp] at hc
  simp only [TunWriteFromIrp, hcp] at hr
  by_cases hs : NT_SUCCESS status = true
  · simp only [hs, Bool.not_true, Bool.false_eq_true, if_false] at hr
    rcases hg : TunGetIrpBuffer Irp with ⟨st2, size⟩
    rw [hg] at hr
    dsimp only at hr
    by_cases hs2 : NT_SUCCESS st2 = true
    · simp only [hs2, Bool.not_true, Bool.false_eq_true, if_false] at hr
      cases hl : TunWriteFromIrpLoop env Irp.Buffer size fuel
          { b := 0, nbls := [], nbl_count := 0, stat_p_err := 0, Accessed := [] } with
      | none => rw [hl] at hr; simp at hr
      | some s =>
        rw [hl] at hr
        dsimp only at hr
        simp only [Option.some.injEq] at hr
        rw [← hr]
        dsimp only
        apply Counting_CompletePause k _ true
        by_cases hn : s.nbls = []
        · simp only [hn, ne_eq, not_true_eq_false, if_false]
          exact Counting_of_eq (k + 1) c1 _ hc rfl rfl rfl rfl
        · simp only [hn, ne_eq, not_false_eq_true, if_true]
          exact Counting_of_eq (k + 1) c1 _ hc rfl rfl rfl rfl
    · simp only [Bool.not_eq_true] at hs2
      simp only [hs2, Bool.not_false, if_true, Option.some.injEq] at hr
      rw [← hr]
      exact Counting_CompletePause k c1 true hc
  · simp only [Bool.not_eq_true] at hs
    simp only [hs, Bool.not_false, if_true, Option.some.injEq] at hr
    rw [← hr]
    exact Counting_CompletePause k c1 true hc

theorem Counting_Write (fuel : Nat) (env : NDIS_ENV) (ctx ctx' : TUN_CTX) (Irp : IRP)
    (status : NTSTATUS) (h : Counting 1 ctx)
    (hr : TunDispatchWrite fuel env ctx Irp = some (status, ctx')) : Counting 1 ctx' := by
  unfold TunDispatchWrite at hr
  dsimp only at hr
  cases hw : TunWriteFromIrp fuel env ctx { Irp with Information := 0 } with
  | none => rw [hw] at hr; simp at hr
  | some r =>
    rw [hw] at hr
    simp only [Option.map_some', Option.some.injEq, Prod.mk.injEq] at hr
    rw [← hr.2]
    exact Counting_of_eq 1 r.2.1 _ (Counting_WriteFromIrp 1 fuel env ctx _ r h hw) rfl rfl rfl rfl

theorem Counting_Close (ctx : TUN_CTX) (Irp : IRP) (h : Counting 1 ctx) :
    Counting 1 (TunDispatchClose ctx Irp).2 := by
  unfold TunDispatchClose
  dsimp only
  have h0 : Counting 1 { ctx with DeviceRefCount := ctx.DeviceRefCount - 1 } :=
    Counting_of_eq 1 ctx _ h rfl rfl rfl rfl
  by_cases hd : ctx.DeviceRefCount - 1 ≤ 0
  · simp only [hd, if_true]
    exact Counting_of_eq 1 _ _ (Counting_Clear 1 _ NTSTATUS.NDIS_STATUS_SEND_ABORTED h0)
      rfl rfl rfl rfl
  · simp only [hd, if_false]
    exact Counting_of_eq 1 ctx _ h rfl rfl rfl rfl

theorem Counting_SetPower (ctx : TUN_CTX) (state : Nat) (h : Counting 1 ctx) :
    Counting 1 (TunOidSetPower ctx state).2 := by
  unfold TunOidSetPower
  dsimp only
  have h0 : Counting 1 { ctx with PowerState := state } :=
    Counting_of_eq 1 ctx _ h rfl rfl rfl rfl
  by_cases hd : ctx.PowerState = 1 ∧ state ≥ NdisDeviceStateD1
  · simp only [hd, and_self, if_true]
    exact Counting_Clear 1 _ NTSTATUS.STATUS_NDIS_LOW_POWER_STATE h0
  · simp only [hd, if_false]
    exact h0

theorem Operation_run_Baseline (fuel : Nat) (op : Operation) (ctx ctx' : TUN_CTX)
    (h : Baseline ctx) (hr : op.run fuel ctx = some ctx') : Baseline ctx' := by
  unfold Baseline at h ⊢
  cases op with
  | send nbls flags => exact Counting_Send fuel ctx ctx' nbls flags h hr
  | read Irp lock =>
    simp only [Operation.run] at hr
    cases hp : TunDispatchRead fuel ctx Irp lock with
    | none => rw [hp] at hr; simp at hr
    | some r =>
      rw [hp] at hr
      simp only [Option.map_some', Option.some.injEq] at hr
      rw [← hr]
      exact Counting_Read fuel ctx r.2 Irp lock r.1 h hp
  | write env Irp =>
    simp only [Operation.run] at hr
    cases hp : TunDispatchWrite fuel env ctx Irp with
    | none => rw [hp] at hr; simp at hr
    | some r =>
      rw [hp] at hr
      simp only [Option.map_some', Option.some.injEq] at hr
      rw [← hr]
      exact Counting_Write fuel env ctx r.2 Irp r.1 h hp
  | cancelSend CancelId =>
    simp only [Operation.run, Option.some.injEq] at hr
    rw [← hr]; exact Counting_CancelSend 1 ctx CancelId h
  | close Irp =>
    simp only [Operation.run, Option.some.injEq] at hr
    rw [← hr]; exact Counting_Close ctx Irp h
  | setPower state =>
    simp only [Operation.run, Option.some.injEq] at hr
    rw [← hr]; exact Counting_SetPower ctx state h

theorem TunRestart_Baseline (c0 : TUN_CTX) (hq : c0.FirstNbl = []) (hn : c0.NumNbl = 0) :
    Baseline (TunRestart c0).2 := by
  refine ⟨rfl, ?_, ?_, ?_, ?_⟩
  · show (1 : Int) = 1 + c0.NumNbl
    rw [hn]; rfl
  · show c0.NumNbl = (c0.FirstNbl.length : Int)
    rw [hn, hq]; rfl
  · show c0.FirstNbl.length ≤ TUN_QUEUE_MAX_NBLS
    rw [hq]; simp
  · intro b hb
    have : b ∈ c0.FirstNbl := hb
    rw [hq] at this
    simp at this

/-- `TunPause` leaves the outbound queue empty, the cursor unset and `NumNbl`
zero, whatever the context it starts from: the state `TunRestart` starts from. -/
theorem TunPause_empties_queue (ctx : TUN_CTX) :
    (TunPause ctx).2.FirstNbl = [] ∧ (TunPause ctx).2.NextNb = [] ∧
      (TunPause ctx).2.NumNbl = 0 := by
  simp [TunPause, TunQueueClear]
theorem TunQueueProcess_total (ctx : TUN_CTX) (hok : QueueOk ctx) :
    ∃ ctx', TunQueueProcess (drainMeasure ctx none + 1) ctx = some ctx' := by
  obtain ⟨c, h, _⟩ := TunQueueProcessLoop_final (drainMeasure ctx none + 1) ctx none hok (by omega)
  exact ⟨c, h⟩

theorem TunWriteFromIrp_total (env : NDIS_ENV) (ctx : TUN_CTX) (Irp : IRP) :
    ∃ r, TunWriteFromIrp ((TunGetIrpBuffer Irp).2 + 1) env ctx Irp = some r := by
  rcases hcp : TunCheckForPause ctx with ⟨status, c1⟩
  simp only [TunWriteFromIrp, hcp]
  by_cases hs : NT_SUCCESS status = true
  · simp only [hs, Bool.not_true, Bool.false_eq_true, if_false]
    rcases hg : TunGetIrpBuffer Irp with ⟨st2, size⟩
    dsimp only
    by_cases hs2 : NT_SUCCESS st2 = true
    · simp only [hs2, Bool.not_true, Bool.false_eq_true, if_false]
      obtain ⟨s, hl, _⟩ := TunWriteFromIrpLoop_consumed env Irp.Buffer size (size + 1)
        { b := 0, nbls := [], nbl_count := 0, stat_p_err := 0, Accessed := [] }
        (by simp)
      rw [hl]
      exact ⟨_, rfl⟩
    · simp only [Bool.not_eq_true] at hs2
      simp only [hs2, Bool.not_false, if_true]
      exact ⟨_, rfl⟩
  · simp only [Bool.not_eq_true] at hs
    simp only [hs, Bool.not_false, if_true]
    exact ⟨_, rfl⟩

theorem Operation_returns (op : Operation) (ctx : TUN_CTX) (h : Baseline ctx) :
    ∃ fuel ctx', op.run fuel ctx = some ctx' := by
  cases op with
  | send nbls flags =>
    have hc := Counting_CheckForPause 1 ctx h
    rcases hcp : TunCheckForPause ctx with ⟨status, c1⟩
    rw [hcp] at hc
    by_cases hs : NT_SUCCESS status = true
    · have hok : QueueOk (TunQueueAppend c1 nbls TUN_QUEUE_MAX_NBLS) :=
        (Counting_Append (1 + 1) nbls c1 hc).2.2.2.2
      obtain ⟨c3, hp⟩ := TunQueueProcess_total _ hok
      refine ⟨drainMeasure (TunQueueAppend c1 nbls TUN_QUEUE_MAX_NBLS) none + 1, ?_⟩
      simp only [Operation.run, TunSendNetBufferLists, hcp, hs, Bool.not_true, Bool.false_eq_true,
        if_false, hp, Option.map_some']
      exact ⟨_, rfl⟩
    · simp only [Bool.not_eq_true] at hs
      refine ⟨0, ?_⟩
      simp only [Operation.run, TunSendNetBufferLists, hcp, hs, Bool.not_false, if_true]
      exact ⟨_, rfl⟩
  | read Irp lock =>
    by_cases h1 : ctx.State.toNat < TUN_STATE.TUN_STATE_PAUSED.toNat
    · refine ⟨0, ?_⟩
      simp only [Operation.run, TunDispatchRead, h1, if_true, Option.map_some']
      exact ⟨_, rfl⟩
    · by_cases h2 : NT_SUCCESS lock = true
      · have hok : QueueOk
            { ctx with ReadQueue := ctx.ReadQueue ++ [{ Irp with Information := 0, Copied := [] }] } :=
          h.2.2.2.2
        obtain ⟨c3, hp⟩ := TunQueueProcess_total _ hok
        refine ⟨drainMeasure
          { ctx with ReadQueue := ctx.ReadQueue ++ [{ Irp with Information := 0, Copied := [] }] }
          none + 1, c3, ?_⟩
        simp only [Operation.run, TunDispatchRead, h1, if_false, h2, Bool.not_true,
          Bool.false_eq_true, hp, Option.map_some']
      · simp only [Bool.not_eq_true] at h2
        refine ⟨0, ?_⟩
        simp only [Operation.run, TunDispatchRead, h1, if_false, h2, Bool.not_false, if_true,
          Option.map_some']
        exact ⟨_, rfl⟩
  | write env Irp =>
    obtain ⟨r, hr⟩ := TunWriteFromIrp_total env ctx { Irp with Information := 0 }
    refine ⟨(TunGetIrpBuffer { Irp with Information := 0 }).2 + 1, ?_⟩
    simp only [Operation.run, TunDispatchWrite, hr, Option.map_some']
    exact ⟨_, rfl⟩
  | cancelSend CancelId => exact ⟨0, _, rfl⟩
  | close Irp => exact ⟨0, _, rfl⟩
  | setPower state => exact ⟨0, _, rfl⟩

/-! ## Reads and the adapter state (C18) -/

/-- C18 (amended): a read issued while the adapter state is below Paused is
completed at once with `STATUS_FILE_FORCED_CLOSED` and a byte count of 0 and is
not inserted into the read-request queue; a read whose remove lock cannot be
acquired is completed at once with that status; both whatever the outbound
queue holds.  In every other case, whatever the handle count, the power state,
whether the state is Running and whatever the outbound queue holds, the read
is inserted at the tail of the read-request queue, `TunQueueProcess` runs and
`STATUS_PENDING` is returned: the call returns on every queue of non-empty
batches with reference count 1, and with an empty outbound queue the read
stays pending and nothing is completed. -/
theorem TunDispatchRead_state_check (fuel : Nat) (ctx : TUN_CTX) (Irp : IRP)
    (RemoveLock : NTSTATUS) :
    (ctx.State.toNat < TUN_STATE.TUN_STATE_PAUSED.toNat →
      TunDispatchRead fuel ctx Irp RemoveLock
        = some (NTSTATUS.STATUS_FILE_FORCED_CLOSED,
            { ctx with IrpComplete := ctx.IrpComplete ++
                [{ Irp with
                   Information := 0
                   Copied := []
                   Status := NTSTATUS.STATUS_FILE_FORCED_CLOSED }] })) ∧
    (¬ ctx.State.toNat < TUN_STATE.TUN_STATE_PAUSED.toNat → NT_SUCCESS RemoveLock = false →
      TunDispatchRead fuel ctx Irp RemoveLock
        = some (RemoveLock,
            { ctx with IrpComplete := ctx.IrpComplete ++
                [{ Irp with
                   Information := 0
                   Copied := []
                   Status := RemoveLock }] })) ∧
    (¬ ctx.State.toNat < TUN_STATE.TUN_STATE_PAUSED.toNat → NT_SUCCESS RemoveLock = true →
      TunDispatchRead fuel ctx Irp RemoveLock
        = (TunQueueProcess fuel
            { ctx with ReadQueue := ctx.ReadQueue ++
                [{ Irp with
                   Information := 0
                   Copied := [] }] }).map (fun c => (NTSTATUS.STATUS_PENDING, c)) ∧
      (QueueOk ctx → (undelivered ctx).length + ctx.ReadQueue.length + 1 < fuel →
        ∃ ctx', TunDispatchRead fuel ctx Irp RemoveLock = some (NTSTATUS.STATUS_PENDING, ctx')) ∧
      (ctx.FirstNbl = [] → 0 < fuel →
        TunDispatchRead fuel ctx Irp RemoveLock
          = some (NTSTATUS.STATUS_PENDING,
              { ctx with ReadQueue := ctx.ReadQueue ++
                  [{ Irp with
                     Information := 0
                     Copied := [] }] }))) := by
  refine ⟨fun h => ?_, fun h hl => ?_, fun h hl => ?_⟩
  · unfold TunDispatchRead
    simp only [h, if_true]
  · unfold TunDispatchRead
    simp only [h, if_false, hl, Bool.not_false, if_true]
  · have heq : TunDispatchRead fuel ctx Irp RemoveLock
        = (TunQueueProcess fuel
            { ctx with ReadQueue := ctx.ReadQueue ++
                [{ Irp with Information := 0, Copied := [] }] }).map
            (fun c => (NTSTATUS.STATUS_PENDING, c)) := by
      unfold TunDispatchRead
      simp only [h, if_false, hl, Bool.not_true, Bool.false_eq_true]
    refine ⟨heq, fun hok hfuel => ?_, fun hq hf => ?_⟩
    · obtain ⟨ctx', hr, _⟩ := TunQueueProcessLoop_returns fuel
        { ctx with ReadQueue := ctx.ReadQueue ++ [{ Irp with Information := 0, Copied := [] }] }
        none hok (by
          show (undelivered ctx).length
            + (ctx.ReadQueue ++ [{ Irp with Information := 0, Copied := [] }]).length + 0 < fuel
          simp only [List.length_append, List.length_singleton]
          omega)
      refine ⟨ctx', ?_⟩
      rw [heq]
      unfold TunQueueProcess
      rw [hr]
      rfl
    · obtain ⟨f, rfl⟩ : ∃ f, fuel = f + 1 := ⟨fuel - 1, by omega⟩
      rw [heq, TunQueueProcess_empty_queue f
        { ctx with ReadQueue := ctx.ReadQueue ++ [{ Irp with Information := 0, Copied := [] }] } hq]
      rfl

/-- Witness for C18: a read issued to a halted adapter with a batch queued is
completed at once; a read issued to a running adapter with a batch queued
returns `STATUS_PENDING`; a read issued to the paused adapter stays pending. -/
theorem TunDispatchRead_state_check_witness :
    TunDispatchRead 0
        { runningCtx [demoNbl [demoPacket 20] 1] [] with State := TUN_STATE.TUN_STATE_HALTED }
        (demoRead 1 0xF000) NTSTATUS.STATUS_SUCCESS
      = some (NTSTATUS.STATUS_FILE_FORCED_CLOSED,
          { ({ runningCtx [demoNbl [demoPacket 20] 1] [] with
                State := TUN_STATE.TUN_STATE_HALTED } : TUN_CTX) with
            IrpComplete :=
              ({ runningCtx [demoNbl [demoPacket 20] 1] [] with
                  State := TUN_STATE.TUN_STATE_HALTED } : TUN_CTX).IrpComplete ++
                [{ demoRead 1 0xF000 with
                   Information := 0
                   Copied := []
                   Status := NTSTATUS.STATUS_FILE_FORCED_CLOSED }] }) ∧
    (∃ ctx', TunDispatchRead 4 (runningCtx [demoNbl [demoPacket 20] 1] []) (demoRead 1 0xF000)
        NTSTATUS.STATUS_SUCCESS = some (NTSTATUS.STATUS_PENDING, ctx')) ∧
    TunDispatchRead 1 demoPausedCtx (demoRead 1 0xF000) NTSTATUS.STATUS_SUCCESS
      = some (NTSTATUS.STATUS_PENDING,
          { demoPausedCtx with ReadQueue := demoPausedCtx.ReadQueue ++
              [{ demoRead 1 0xF000 with
                 Information := 0
                 Copied := [] }] }) :=
  ⟨(TunDispatchRead_state_check 0
      { runningCtx [demoNbl [demoPacket 20] 1] [] with State := TUN_STATE.TUN_STATE_HALTED }
      (demoRead 1 0xF000) NTSTATUS.STATUS_SUCCESS).1 (by decide),
   ((TunDispatchRead_state_check 4 (runningCtx [demoNbl [demoPacket 20] 1] [])
      (demoRead 1 0xF000) NTSTATUS.STATUS_SUCCESS).2.2 (by decide) rfl).2.1
      (by decide) (by decide),
   ((TunDispatchRead_state_check 1 demoPausedCtx
      (demoRead 1 0xF000) NTSTATUS.STATUS_SUCCESS).2.2 (by decide) rfl).2.2 rfl (by decide)⟩

/-! ## The delivery order after a cancellation of the head batch (C1) -/

/-- C1 fails on the code: whole operations from an empty queue reach a queue
state (one batch, tagged 8, non-empty, reference count 1, its packet of valid
length and mapped) in which the cursor still points to the 40-byte packet of
the batch tagged 7 that `TunCancelSend` released.  The next read is then
completed holding that 40-byte packet of the cancelled batch; the batch tagged
8 is completed with success and the queue is empty, yet its 60-byte packet has
been written into no read: a queued packet is lost. -/
theorem TunQueueProcess_loses_packet_after_cancel :
    demoCancelledHead.map
        (fun c => (c.FirstNbl, c.NextNb, c.ReadQueue.length))
      = some ([{ demoNbl [demoPacket 60] 8 with RefCount := 1 }], [demoPacket 40], 0) ∧
    demoCancelledHead.map (fun c => decide (QueueOk c)) = some true ∧
    (demoCancelledHead.bind
        (fun c => TunDispatchRead 5 c (demoRead 2 0xF000) NTSTATUS.STATUS_SUCCESS)).map
        (fun r => r.2.IrpComplete.map (fun i => (i.FileObject, i.Status, i.Copied)))
      = some [(1, NTSTATUS.STATUS_SUCCESS, [demoFullPacket]),
              (2, NTSTATUS.STATUS_SUCCESS, [demoPacket 40])] ∧
    (demoCancelledHead.bind
        (fun c => TunDispatchRead 5 c (demoRead 2 0xF000) NTSTATUS.STATUS_SUCCESS)).map
        (fun r => (r.2.SendComplete.map (fun e => (e.1.CancelId, e.1.Status, e.1.FirstNb)),
          r.2.FirstNbl, r.2.NextNb, r.2.ReadQueue.length))
      = some ([(7, NTSTATUS.NDIS_STATUS_SEND_ABORTED, [demoFullPacket, demoPacket 40]),
               (8, NTSTATUS.STATUS_SUCCESS, [demoPacket 60])], [], [], 0) := by
  decide

/-! ## The cursor stays in the head batch -/

theorem TunNBLRefDec_FirstNb (ctx : TUN_CTX) (b : NET_BUFFER_LIST) (f : Nat) :
    (TunNBLRefDec ctx b f).2.2.FirstNb = b.FirstNb := by
  unfold TunNBLRefDec; dsimp only; split_ifs <;> rfl

theorem refDec_cursor (ctx : TUN_CTX) (nbl : NblPtr) (f : Nat) :
    headNb (NblPtr.refDec ctx nbl f).1.FirstNbl = headNb ctx.FirstNbl ∧
    (NblPtr.refDec ctx nbl f).1.NextNb = ctx.NextNb := by
  cases nbl with
  | null => exact ⟨rfl, rfl⟩
  | first =>
    cases hq : ctx.FirstNbl with
    | nil => simp [NblPtr.refDec, hq]
    | cons b rest =>
      have h1 := TunNBLRefDec_NextNb ctx b f
      have h2 := TunNBLRefDec_FirstNb ctx b f
      simp only [NblPtr.refDec, hq]
      rcases hr : TunNBLRefDec ctx b f with ⟨r, c, b'⟩
      rw [hr] at h1 h2
      cases r
      · exact ⟨h2, h1⟩
      · exact ⟨h2, h1⟩
  | unlinked b =>
    have h1 := TunNBLRefDec_NextNb ctx b f
    have h3 := TunNBLRefDec_FirstNbl ctx b f
    simp only [NblPtr.refDec]
    rcases hr : TunNBLRefDec ctx b f with ⟨r, c, b'⟩
    rw [hr] at h1 h3
    exact ⟨by show headNb c.FirstNbl = _; rw [h3], h1⟩

theorem setStatus_cursor (ctx : TUN_CTX) (nbl : NblPtr) (s : NTSTATUS) :
    headNb (NblPtr.setStatus ctx nbl s).1.FirstNbl = headNb ctx.FirstNbl ∧
    (NblPtr.setStatus ctx nbl s).1.NextNb = ctx.NextNb := by
  cases nbl with
  | null => exact ⟨rfl, rfl⟩
  | first =>
    cases hq : ctx.FirstNbl with
    | nil => simp [NblPtr.setStatus, hq]
    | cons b rest => simp [NblPtr.setStatus, hq, headNb]
  | unlinked b => exact ⟨rfl, rfl⟩

/-- What the pointer `nbl` that `TunQueueRemove` or `TunQueuePrepend` hands out
says about the packet pointer `ret`: it lies in the head batch, or in the batch
just unlinked. -/
theorem CursorInHead_of_eq (c c' : TUN_CTX) (h : CursorInHead c)
    (h1 : headNb c'.FirstNbl = headNb c.FirstNbl) (h2 : c'.NextNb = c.NextNb) :
    CursorInHead c' := by
  unfold CursorInHead at h ⊢
  rw [h1, h2]; exact h

theorem CursorInHead_refDec (ctx : TUN_CTX) (nbl : NblPtr) (f : Nat) (h : CursorInHead ctx) :
    CursorInHead (NblPtr.refDec ctx nbl f).1 :=
  CursorInHead_of_eq ctx _ h (refDec_cursor ctx nbl f).1 (refDec_cursor ctx nbl f).2

theorem CursorInHead_setStatus (ctx : TUN_CTX) (nbl : NblPtr) (s : NTSTATUS)
    (h : CursorInHead ctx) : CursorInHead (NblPtr.setStatus ctx nbl s).1 :=
  CursorInHead_of_eq ctx _ h (setStatus_cursor ctx nbl s).1 (setStatus_cursor ctx nbl s).2

theorem TunQueueRemove_cursor :
    ∀ (fuel : Nat) (ctx : TUN_CTX) (ret : List NET_BUFFER) (nbl : NblPtr) (ctx1 : TUN_CTX),
      CursorInHead ctx → TunQueueRemove fuel ctx = some (ret, nbl, ctx1) →
      (nbl = NblPtr.null → ret = [] ∧ CursorInHead ctx1) ∧
      (nbl = NblPtr.first →
        ctx1.NextNb = ret.tail ∧ List.IsSuffix ret (headNb ctx1.FirstNbl)) ∧
      (∀ b, nbl = NblPtr.unlinked b → ctx1.NextNb = [] ∧ List.IsSuffix ret b.FirstNb) := by
  intro fuel
  induction fuel with
  | zero => intro ctx ret nbl ctx1 _ h; simp [TunQueueRemove] at h
  | succ fuel ih =>
    intro ctx ret nbl ctx1 hc h
    rw [TunQueueRemove] at h
    split at h
    · simp only [Option.some.injEq, Prod.mk.injEq] at h
      obtain ⟨rfl, rfl, rfl⟩ := h
      refine ⟨fun _ => ⟨rfl, hc⟩, fun h => ?_, fun b h => ?_⟩
      · exact NblPtr.noConfusion h
      · exact NblPtr.noConfusion h
    · rename_i top nbl_next hq
      dsimp only at h
      split at h
      · exact absurd h (by simp)
      · rename_i pkt pkt_next hnext
        have hsuf : List.IsSuffix (pkt :: pkt_next) top.FirstNb := by
          unfold CursorInHead at hc
          rw [hq] at hc
          by_cases hn : ctx.NextNb = []
          · simp only [hn, if_true] at hnext
            rw [hnext]
          · simp only [hn, if_false] at hnext
            rw [← hnext]
            exact hc
        by_cases hp : pkt.DataLength > TUN_EXCH_MAX_IP_PACKET_SIZE
        · rw [if_pos hp] at h
          refine ih _ _ _ _ ?_ h
          refine CursorInHead_of_eq _ _ (CursorInHead_refDec _ _ _
            (CursorInHead_setStatus _ _ _ ?_)) rfl rfl
          split
          · rename_i hm
            unfold CursorInHead
            dsimp only
            rw [hm]
            exact List.nil_suffix
          · unfold CursorInHead
            dsimp only [headNb, TunNBLRefInc]
            exact (List.suffix_cons pkt pkt_next).trans hsuf
        · rw [if_neg hp] at h
          simp only [Option.some.injEq, Prod.mk.injEq] at h
          obtain ⟨rfl, rfl, rfl⟩ := h
          split
          · rename_i hm
            refine ⟨fun h => ?_, fun h => ?_, fun b hb => ?_⟩
            · exact NblPtr.noConfusion h
            · exact NblPtr.noConfusion h
            · simp only [NblPtr.unlinked.injEq] at hb
              subst hb
              exact ⟨hm, hsuf⟩
          · refine ⟨fun h => ?_, fun _ => ⟨rfl, hsuf⟩, fun b h => ?_⟩
            · exact NblPtr.noConfusion h
            · exact NblPtr.noConfusion h
theorem TunQueueRemove_cursor_kept (fuel : Nat) (ctx : TUN_CTX) (ret : List NET_BUFFER)
    (nbl : NblPtr) (ctx1 : TUN_CTX) (hc : CursorInHead ctx)
    (h : TunQueueRemove fuel ctx = some (ret, nbl, ctx1)) :
    CursorInHead ctx1 ∧
    ∀ c : TUN_CTX, headNb c.FirstNbl = headNb ctx1.FirstNbl →
      CursorInHead (TunQueuePrepend c ret nbl).1 := by
  obtain ⟨h1, h2, h3⟩ := TunQueueRemove_cursor fuel ctx ret nbl ctx1 hc h
  cases nbl with
  | null =>
    obtain ⟨hr, hc1⟩ := h1 rfl
    refine ⟨hc1, fun c _ => ?_⟩
    subst hr
    exact List.nil_suffix
  | first =>
    obtain ⟨hn, hs⟩ := h2 rfl
    refine ⟨?_, fun c hh => ?_⟩
    · unfold CursorInHead
      rw [hn]
      exact (List.tail_suffix ret).trans hs
    · show List.IsSuffix ret (headNb c.FirstNbl)
      rw [hh]; exact hs
  | unlinked b =>
    obtain ⟨hn, hs⟩ := h3 b rfl
    refine ⟨?_, fun c _ => ?_⟩
    · unfold CursorInHead
      rw [hn]
      exact List.nil_suffix
    · show List.IsSuffix ret (TunNBLRefInc b).FirstNb
      exact hs

theorem CursorInHead_Step (c : TUN_CTX) (irp : IRP) (size : Nat) (ret : List NET_BUFFER)
    (nbl : NblPtr) (h1 : CursorInHead c) (h2 : CursorInHead (TunQueuePrepend c ret nbl).1) :
    CursorInHead (TunQueueProcessStep c irp size ret nbl).1 := by
  cases ret with
  | nil =>
    rw [TunQueueProcessStep_nil]
    exact CursorInHead_refDec _ _ _ (CursorInHead_of_eq c _ h1 rfl rfl)
  | cons pkt more =>
    by_cases hw : TunWontFitIntoIrp irp size pkt = true
    · rw [TunQueueProcessStep_wontfit _ _ _ _ _ _ hw]
      exact CursorInHead_of_eq _ _ (CursorInHead_refDec _ _ _ h2) rfl rfl
    · simp only [Bool.not_eq_true] at hw
      by_cases hs : NT_SUCCESS (TunWriteIntoIrp irp pkt c.Statistics).1 = true
      · rw [TunQueueProcessStep_copied _ _ _ _ _ _ hw hs]
        exact CursorInHead_refDec _ _ _ (CursorInHead_of_eq c _ h1 rfl rfl)
      · simp only [Bool.not_eq_true] at hs
        rw [TunQueueProcessStep_copy_failed _ _ _ _ _ _ hw hs]
        refine CursorInHead_refDec _ _ _ ?_
        exact CursorInHead_of_eq _ _
          (CursorInHead_setStatus
            { c with Statistics := (TunWriteIntoIrp irp pkt c.Statistics).2.2 } nbl
            (TunWriteIntoIrp irp pkt c.Statistics).1 (CursorInHead_of_eq c _ h1 rfl rfl))
          rfl rfl

theorem CursorInHead_Pass (fuel : Nat) (ctx : TUN_CTX) (irp : Option (IRP × Nat))
    (h : CursorInHead ctx) :
    (∀ c, TunQueueProcessPass fuel ctx irp = some (Sum.inl c) → CursorInHead c) ∧
    (∀ c i, TunQueueProcessPass fuel ctx irp = some (Sum.inr (c, i)) → CursorInHead c) := by
  cases hr : TunQueueRemove fuel ctx with
  | none =>
    cases irp with
    | none => simp [TunQueueProcessPass, hr]
    | some v => simp [TunQueueProcessPass, hr]
  | some r =>
    obtain ⟨nb, nbl, ctx1⟩ := r
    obtain ⟨k1, k2⟩ := TunQueueRemove_cursor_kept fuel ctx nb nbl ctx1 h hr
    cases irp with
    | some v =>
      obtain ⟨i0, s0⟩ := v
      simp only [TunQueueProcessPass, hr]
      refine ⟨fun c hc => by simp at hc, fun c i hc => ?_⟩
      simp only [Option.some.injEq, Sum.inr.injEq] at hc
      have := CursorInHead_Step ctx1 i0 s0 nb nbl k1 (k2 ctx1 rfl)
      rw [hc] at this
      exact this
    | none =>
      cases nb with
      | nil =>
        simp only [TunQueueProcessPass, hr]
        refine ⟨fun c hc => ?_, fun c i hc => by simp at hc⟩
        simp only [Option.some.injEq, Sum.inl.injEq] at hc
        rw [← hc]; exact k1
      | cons pkt more =>
        have e2 : (TunRemoveNextIrp ctx1).2.FirstNbl = ctx1.FirstNbl ∧
            (TunRemoveNextIrp ctx1).2.NextNb = ctx1.NextNb := by
          rw [TunRemoveNextIrp, TunRemoveNextIrpLoop_eq]
          exact ⟨rfl, rfl⟩
        simp only [TunQueueProcessPass, hr]
        rcases hn : TunRemoveNextIrp ctx1 with ⟨oi, ctx2⟩
        rw [hn] at e2
        have hh : headNb ctx2.FirstNbl = headNb ctx1.FirstNbl := by
          show headNb ctx2.FirstNbl = _
          rw [e2.1]
        have k1' : CursorInHead ctx2 := CursorInHead_of_eq ctx1 ctx2 k1 hh e2.2
        cases oi with
        | none =>
          dsimp only
          refine ⟨fun c hc => ?_, fun c i hc => by simp at hc⟩
          simp only [refDec_if, Option.some.injEq, Sum.inl.injEq] at hc
          rw [← hc]
          exact CursorInHead_refDec _ _ _ (k2 ctx2 hh)
        | some v =>
          obtain ⟨i0, s0⟩ := v
          dsimp only
          refine ⟨fun c hc => by simp at hc, fun c i hc => ?_⟩
          simp only [Option.some.injEq, Sum.inr.injEq] at hc
          have := CursorInHead_Step ctx2 i0 s0 (pkt :: more) nbl k1' (k2 ctx2 hh)
          rw [hc] at this
          exact this

theorem CursorInHead_Loop :
    ∀ (fuel : Nat) (ctx : TUN_CTX) (irp : Option (IRP × Nat)) (ctx' : TUN_CTX),
      CursorInHead ctx → TunQueueProcessLoop fuel ctx irp = some ctx' → CursorInHead ctx' := by
  intro fuel
  induction fuel with
  | zero => intro ctx irp ctx' _ h; simp [TunQueueProcessLoop] at h
  | succ fuel ih =>
    intro ctx irp ctx' ha h
    rw [TunQueueProcessLoop_pass] at h
    obtain ⟨p1, p2⟩ := CursorInHead_Pass (fuel + 1) ctx irp ha
    cases hp : TunQueueProcessPass (fuel + 1) ctx irp with
    | none => rw [hp] at h; simp at h
    | some r =>
      rw [hp] at h
      cases r with
      | inl c =>
        simp only [Option.some_bind, TunQueueProcessNext, Option.some.injEq] at h
        rw [← h]; exact p1 c hp
      | inr v =>
        obtain ⟨c, i⟩ := v
        simp only [Option.some_bind, TunQueueProcessNext] at h
        exact ih c i ctx' (p2 c i hp) h

theorem CursorInHead_Evict (max_nbls : Nat) :
    ∀ (l : List NET_BUFFER_LIST) (ctx : TUN_CTX), List.IsSuffix ctx.NextNb (headNb l) →
      CursorInHead (TunQueueAppendEvict max_nbls l ctx) := by
  intro l
  induction l with
  | nil => intro ctx h; exact h
  | cons b rest ih =>
    intro ctx h
    simp only [TunQueueAppendEvict]
    split_ifs
    · exact ih _ List.nil_suffix
    · exact h

theorem CursorInHead_Append (max_nbls : Nat) :
    ∀ (nbl : List NET_BUFFER_LIST) (ctx : TUN_CTX), CursorInHead ctx →
      CursorInHead (TunQueueAppend ctx nbl max_nbls) := by
  intro nbl
  induction nbl with
  | nil => intro ctx h; simpa [TunQueueAppend] using h
  | cons b rest ih =>
    intro ctx h
    by_cases hb : b.FirstNb = []
    · simp only [TunQueueAppend, hb, if_true]
      exact ih _ (CursorInHead_of_eq ctx _ h rfl rfl)
    · simp only [TunQueueAppend, hb, if_false, TunNBLRefInit]
      apply ih
      apply CursorInHead_Evict
      show List.IsSuffix ctx.NextNb (headNb (ctx.FirstNbl ++ [{ b with RefCount := 1 }]))
      unfold CursorInHead at h
      cases hq : ctx.FirstNbl with
      | nil =>
        rw [hq] at h
        have : ctx.NextNb = [] := List.suffix_nil.mp h
        rw [this]; exact List.nil_suffix
      | cons t ts =>
        rw [hq] at h
        exact h

theorem CursorInHead_Clear (ctx : TUN_CTX) (s : NTSTATUS) : CursorInHead (TunQueueClear ctx s) :=
  List.nil_suffix

theorem TunWriteFromIrp_queue (fuel : Nat) (env : NDIS_ENV) (ctx : TUN_CTX) (Irp : IRP)
    (r : NTSTATUS × TUN_CTX × IRP × WriteLoop)
    (hr : TunWriteFromIrp fuel env ctx Irp = some r) :
    r.2.1.FirstNbl = ctx.FirstNbl ∧ r.2.1.NextNb = ctx.NextNb := by
  rcases hcp : TunCheckForPause ctx with ⟨status, c1⟩
  have hc : c1.FirstNbl = ctx.FirstNbl ∧ c1.NextNb = ctx.NextNb := by
    have : c1 = (TunCheckForPause ctx).2 := by rw [hcp]
    rw [this]; exact ⟨rfl, rfl⟩
  simp only [TunWriteFromIrp, hcp] at hr
  by_cases hs : NT_SUCCESS status = true
  · simp only [hs, Bool.not_true, Bool.false_eq_true, if_false] at hr
    rcases hg : TunGetIrpBuffer Irp with ⟨st2, size⟩
    rw [hg] at hr
    dsimp only at hr
    by_cases hs2 : NT_SUCCESS st2 = true
    · simp only [hs2, Bool.not_true, Bool.false_eq_true, if_false] at hr
      cases hl : TunWriteFromIrpLoop env Irp.Buffer size fuel
          { b := 0, nbls := [], nbl_count := 0, stat_p_err := 0, Accessed := [] } with
      | none => rw [hl] at hr; simp at hr
      | some s =>
        rw [hl] at hr
        dsimp only at hr
        simp only [Option.some.injEq] at hr
        rw [← hr]
        dsimp only
        simp only [TunCompletePause_FirstNbl, TunCompletePause_NextNb]
        by_cases hn : s.nbls = []
        · simp only [hn, ne_eq, not_true_eq_false, if_false]
          exact hc
        · simp only [hn, ne_eq, not_false_eq_true, if_true]
          exact hc
    · simp only [Bool.not_eq_true] at hs2
      simp only [hs2, Bool.not_false, if_true, Option.some.injEq] at hr
      rw [← hr]
      simp only [TunCompletePause_FirstNbl, TunCompletePause_NextNb]
      exact hc
  · simp only [Bool.not_eq_true] at hs
    simp only [hs, Bool.not_false, if_true, Option.some.injEq] at hr
    rw [← hr]
    simp only [TunCompletePause_FirstNbl, TunCompletePause_NextNb]
    exact hc

/-- Every operation other than `TunCancelSend` leaves the cursor in the head
batch when it found it there. -/
theorem Operation_run_cursor (fuel : Nat) (op : Operation) (ctx ctx' : TUN_CTX)
    (hc : CursorInHead ctx) (hop : op.isCancelSend = false)
    (hr : op.run fuel ctx = some ctx') : CursorInHead ctx' := by
  cases op with
  | send nbls flags =>
    simp only [Operation.run, TunSendNetBufferLists] at hr
    rcases hcp : TunCheckForPause ctx with ⟨status, c1⟩
    have h1 : CursorInHead c1 := by
      have : c1 = (TunCheckForPause ctx).2 := by rw [hcp]
      rw [this]; exact hc
    rw [hcp] at hr
    dsimp only at hr
    by_cases hs : NT_SUCCESS status = true
    · simp only [hs, Bool.not_true, Bool.false_eq_true, if_false] at hr
      cases hp : TunQueueProcess fuel (TunQueueAppend c1 nbls TUN_QUEUE_MAX_NBLS) with
      | none => rw [hp] at hr; simp at hr
      | some c3 =>
        rw [hp] at hr
        simp only [Option.map_some', Option.some.injEq] at hr
        rw [← hr]
        have h3 := CursorInHead_Loop fuel _ none c3 (CursorInHead_Append _ nbls c1 h1) hp
        exact CursorInHead_of_eq c3 _ h3 (by rw [TunCompletePause_FirstNbl])
          (TunCompletePause_NextNb _ _)
    · simp only [Bool.not_eq_true] at hs
      simp only [hs, Bool.not_false, if_true, Option.some.injEq] at hr
      rw [← hr]
      exact CursorInHead_of_eq c1 _ h1 (by rw [TunCompletePause_FirstNbl])
        (TunCompletePause_NextNb _ _)
  | read Irp lock =>
    simp only [Operation.run] at hr
    cases hp : TunDispatchRead fuel ctx Irp lock with
    | none => rw [hp] at hr; simp at hr
    | some r =>
      rw [hp] at hr
      simp only [Option.map_some', Option.some.injEq] at hr
      rw [← hr]
      unfold TunDispatchRead at hp
      dsimp only at hp
      split_ifs at hp with h1 h2
      · simp only [Option.some.injEq] at hp
        rw [← hp]; exact CursorInHead_of_eq ctx _ hc rfl rfl
      · simp only [Option.some.injEq] at hp
        rw [← hp]; exact CursorInHead_of_eq ctx _ hc rfl rfl
      · cases hq : TunQueueProcess fuel
            { ctx with ReadQueue := ctx.ReadQueue ++ [{ Irp with Information := 0, Copied := [] }] } with
        | none => rw [hq] at hp; simp at hp
        | some c3 =>
          rw [hq] at hp
          simp only [Option.map_some', Option.some.injEq] at hp
          rw [← hp]
          refine CursorInHead_Loop fuel _ none c3 ?_ hq
          exact CursorInHead_of_eq ctx _ hc rfl rfl
  | write env Irp =>
    simp only [Operation.run, TunDispatchWrite] at hr
    cases hw : TunWriteFromIrp fuel env ctx { Irp with Information := 0 } with
    | none => rw [hw] at hr; simp at hr
    | some r =>
      rw [hw] at hr
      simp only [Option.map_some', Option.some.injEq] at hr
      rw [← hr]
      obtain ⟨e1, e2⟩ := TunWriteFromIrp_queue fuel env ctx _ r hw
      exact CursorInHead_of_eq ctx _ hc (by show headNb r.2.1.FirstNbl = _; rw [e1]) e2
  | cancelSend CancelId => simp [Operation.isCancelSend] at hop
  | close Irp =>
    simp only [Operation.run, Option.some.injEq] at hr
    rw [← hr]
    unfold TunDispatchClose
    dsimp only
    split_ifs
    · exact List.nil_suffix
    · exact CursorInHead_of_eq ctx _ hc rfl rfl
  | setPower state =>
    simp only [Operation.run, Option.some.injEq] at hr
    rw [← hr]
    unfold TunOidSetPower
    dsimp only
    split_ifs
    · exact List.nil_suffix
    · exact CursorInHead_of_eq ctx _ hc rfl rfl
theorem TunCancelSendLoop_NextNb (CancelId : Nat) :
    ∀ (l : List NET_BUFFER_LIST) (ctx : TUN_CTX),
      (TunCancelSendLoop CancelId l ctx).1.NextNb = ctx.NextNb := by
  intro l
  induction l with
  | nil => intro ctx; rfl
  | cons b rest ih =>
    intro ctx
    by_cases hc : b.CancelId = CancelId
    · rw [TunCancelSendLoop, if_pos hc]
      dsimp only
      rw [ih, TunNBLRefDec_NextNb]
    · rw [TunCancelSendLoop, if_neg hc]
      exact ih ctx

/-- `TunCancelSend` leaves the cursor in the head batch when the cursor is `NULL`
or the head batch is not one it cancels. -/
theorem TunCancelSend_keeps_cursor (ctx : TUN_CTX) (CancelId : Nat) (hc : CursorInHead ctx)
    (h : ctx.NextNb = [] ∨ ∃ b rest, ctx.FirstNbl = b :: rest ∧ b.CancelId ≠ CancelId) :
    CursorInHead (TunCancelSend ctx CancelId) := by
  have hn : (TunCancelSend ctx CancelId).NextNb = ctx.NextNb := by
    unfold TunCancelSend
    exact TunCancelSendLoop_NextNb CancelId ctx.FirstNbl ctx
  unfold CursorInHead
  rw [hn]
  rcases h with h | ⟨b, rest, hq, hne⟩
  · rw [h]; exact List.nil_suffix
  · unfold CursorInHead at hc
    rw [hq] at hc
    have hf : (TunCancelSend ctx CancelId).FirstNbl
        = b :: (TunCancelSendLoop CancelId rest ctx).2 := by
      unfold TunCancelSend
      rw [hq, TunCancelSendLoop, if_neg hne]
    rw [hf]
    exact hc

theorem releasesCursor_of_not_cancel (op : Operation) (ctx : TUN_CTX)
    (h : op.isCancelSend = false) : op.releasesCursor ctx = false := by
  cases op <;> first | rfl | simp [Operation.isCancelSend] at h

/-- One operation of a run keeps the baseline accounting, and keeps the cursor in
the head batch unless the history variable says it dangles. -/
theorem runOperations_step_inv (fuel : Nat) (op : Operation) (d : Bool) (ctx ctx' : TUN_CTX)
    (hb : Baseline ctx) (hcur : d = false → CursorInHead ctx)
    (hr : op.run fuel ctx = some ctx') :
    Baseline ctx' ∧
    (((d || op.releasesCursor ctx) && decide (ctx'.NextNb ≠ [])) = false → CursorInHead ctx') := by
  refine ⟨Operation_run_Baseline fuel op ctx ctx' hb hr, fun hd => ?_⟩
  by_cases hn : ctx'.NextNb = []
  · unfold CursorInHead
    rw [hn]; exact List.nil_suffix
  · have hdr : (d || op.releasesCursor ctx) = false := by
      simpa [hn] using hd
    have hd0 : d = false := by
      cases d
      · rfl
      · simp at hdr
    have hrel : op.releasesCursor ctx = false := by
      rw [hd0] at hdr; simpa using hdr
    have hc := hcur hd0
    cases op with
    | cancelSend CancelId =>
      simp only [Operation.run, Option.some.injEq] at hr
      rw [← hr]
      apply TunCancelSend_keeps_cursor ctx CancelId hc
      cases hnb : ctx.NextNb with
      | nil => exact Or.inl rfl
      | cons p ps =>
        cases hq : ctx.FirstNbl with
        | nil =>
          unfold CursorInHead at hc
          rw [hq, hnb] at hc
          exact absurd (List.suffix_nil.mp hc) (by simp)
        | cons b rest =>
          refine Or.inr ⟨b, rest, rfl, ?_⟩
          simpa [Operation.releasesCursor, hnb, hq] using hrel
    | send nbls flags =>
      exact Operation_run_cursor fuel (Operation.send nbls flags) ctx ctx' hc rfl hr
    | read Irp lock =>
      exact Operation_run_cursor fuel (Operation.read Irp lock) ctx ctx' hc rfl hr
    | write env Irp =>
      exact Operation_run_cursor fuel (Operation.write env Irp) ctx ctx' hc rfl hr
    | close Irp =>
      exact Operation_run_cursor fuel (Operation.close Irp) ctx ctx' hc rfl hr
    | setPower state =>
      exact Operation_run_cursor fuel (Operation.setPower state) ctx ctx' hc rfl hr

theorem runOperations_cons (fuel : Nat) (op : Operation) (ops : List (Nat × Operation))
    (d : Bool) (ctx ctx' : TUN_CTX) (hg : (d && op.readsCursor) = false)
    (hr : op.run fuel ctx = some ctx') :
    runOperations ((fuel, op) :: ops) (d, ctx)
      = runOperations ops ((d || op.releasesCursor ctx) && decide (ctx'.NextNb ≠ []), ctx') := by
  simp only [runOperations, hg, Bool.false_eq_true, if_false, hr]

theorem runOperations_cons_some (fuel : Nat) (op : Operation) (ops : List (Nat × Operation))
    (d : Bool) (ctx : TUN_CTX) (s : Bool × TUN_CTX)
    (h : runOperations ((fuel, op) :: ops) (d, ctx) = some s) :
    (d && op.readsCursor) = false ∧
    ∃ ctx', op.run fuel ctx = some ctx' ∧
      runOperations ops ((d || op.releasesCursor ctx) && decide (ctx'.NextNb ≠ []), ctx')
        = some s := by
  by_cases hg : (d && op.readsCursor) = true
  · simp [runOperations, hg] at h
  · simp only [Bool.not_eq_true] at hg
    refine ⟨hg, ?_⟩
    cases hr : op.run fuel ctx with
    | none => simp [runOperations, hg, hr] at h
    | some ctx' =>
      rw [runOperations_cons fuel op ops d ctx ctx' hg hr] at h
      exact ⟨ctx', rfl, h⟩

theorem runOperations_inv :
    ∀ (ops : List (Nat × Operation)) (d : Bool) (ctx : TUN_CTX) (s : Bool × TUN_CTX),
      Baseline ctx → (d = false → CursorInHead ctx) →
      runOperations ops (d, ctx) = some s →
      Baseline s.2 ∧ (s.1 = false → CursorInHead s.2) := by
  intro ops
  induction ops with
  | nil =>
    intro d ctx s hb hc hr
    simp only [runOperations, Option.some.injEq] at hr
    rw [← hr]; exact ⟨hb, hc⟩
  | cons o rest ih =>
    intro d ctx s hb hc hr
    obtain ⟨fuel, op⟩ := o
    obtain ⟨_, ctx', h1, h2⟩ := runOperations_cons_some fuel op rest d ctx s hr
    obtain ⟨i1, i2⟩ := runOperations_step_inv fuel op d ctx ctx' hb hc h1
    exact ih _ ctx' s i1 i2 h2

theorem runOperations_returns :
    ∀ (ops : List Operation) (ctx : TUN_CTX), Baseline ctx → CursorInHead ctx →
      (∀ op ∈ ops, op.isCancelSend = false) →
      ∃ (fuels : List Nat) (ctx' : TUN_CTX), fuels.length = ops.length ∧
        runOperations (fuels.zip ops) (false, ctx) = some (false, ctx') := by
  intro ops
  induction ops with
  | nil => intro ctx _ _ _; exact ⟨[], ctx, rfl, rfl⟩
  | cons op rest ih =>
    intro ctx h hc hno
    obtain ⟨fuel, c1, h1⟩ := Operation_returns op ctx h
    have hop := hno op (List.mem_cons_self _ _)
    obtain ⟨fuels, c2, h2, h3⟩ := ih c1 (Operation_run_Baseline fuel op ctx c1 h h1)
      (Operation_run_cursor fuel op ctx c1 hc hop h1)
      (fun o ho => hno o (List.mem_cons_of_mem _ ho))
    refine ⟨fuel :: fuels, c2, by simp [h2], ?_⟩
    show runOperations ((fuel, op) :: fuels.zip rest) (false, ctx) = some (false, c2)
    rw [runOperations_cons fuel op _ false ctx c1 rfl h1, releasesCursor_of_not_cancel op ctx hop]
    exact h3

/-- A run the program text does not determine: after the sends of two batches
with equal packets, tagged 7 and 8, the cursor is on the first packet of the
batch tagged 7; `TunCancelSend(7)` releases that batch and leaves the cursor,
which now dangles although the packets it carries equal those of the new head
batch; the next read has no result. -/
theorem runOperations_dangling_cursor :
    (runOperations
        [(5, Operation.send [demoNbl [demoPacket 20, demoPacket 40] 7] 0),
         (5, Operation.send [demoNbl [demoPacket 20, demoPacket 40] 8] 0),
         (0, Operation.cancelSend 7)] (false, (TunRestart demoPausedCtx).2)).map
        (fun s => (s.1, s.2.FirstNbl.map (fun b => b.CancelId), s.2.NextNb,
          decide (CursorInHead s.2)))
      = some (true, [8], [demoPacket 20, demoPacket 40], true) ∧
    (runOperations
        [(5, Operation.send [demoNbl [demoPacket 20, demoPacket 40] 7] 0),
         (5, Operation.send [demoNbl [demoPacket 20, demoPacket 40] 8] 0),
         (0, Operation.cancelSend 7),
         (6, Operation.read (demoRead 1 0xF000) NTSTATUS.STATUS_SUCCESS)]
        (false, (TunRestart demoPausedCtx).2)).isSome
      = false := by
  decide

end Wintun
